import Mathlib

/-!
# HiPACE++ `MultiBuffer`: payload codec and two-phase transfer protocol

A shallow embedding of `src/utils/MultiBuffer.cpp`.

Modelling conventions
* `std::size_t` and `int` quantities (particle counts, byte offsets, buffer sizes, tags) are
  natural numbers: they count particles and bytes of one slice's transport buffer, which the
  arena allocator has to provide; the one bound the source checks itself
  (`metadata[0] < std::numeric_limits<int>::max()`) is kept as an explicit abort.
* Raw memory (`char*`, the storage behind a particle attribute array) is a function from byte
  offsets to bytes.  A particle attribute array is modelled by its object representation, the
  thing `memcpy` moves: element `i` of a real array is the `sizeof(amrex::Real)` bytes from
  offset `i * sizeof(amrex::Real)`.
* `AMREX_ALWAYS_ASSERT` failing aborts the run: operations return `Option`, `none` = abort.
* The message-passing library is an external collaborator.  Every call into it is recorded in
  the field `trace` of the state, and what it reports back (whether a request tested complete,
  what a completed receive delivered) is supplied by a `Transport` value per poll.
* Constants and types declared in headers that are not part of the sources at hand
  (`MultiBuffer.H`, `BeamParticleContainer.H`) are fields of `Config`.
-/

namespace Hipace

/-! ## Data model -/

abbrev Byte := UInt8

/-- Raw memory seen through a base pointer: the byte at each offset. -/
abbrev Mem := Nat → Byte

/-- Values of `enum struct memory_location`. -/
inductive memory_location
  | nowhere
  | pinned
  | device
  deriving DecidableEq, Repr

/-- Values of `enum struct comm_progress`. -/
inductive comm_progress
  | ready_to_define
  | ready_to_send
  | send_started
  | sent
  | receive_started
  | received
  | in_use
  | sim_completed
  deriving DecidableEq, Repr

/-- One particle tile (`getBeamSlice(beam_slice)`): the live particle count and the
struct-of-arrays storage, `real_data rcomp` being `GetRealData(rcomp).dataPtr()` and
`int_data icomp` being `GetIntData(icomp).dataPtr()`, both as raw bytes. -/
structure BeamTile where
  num_particles : Nat
  real_data : Nat → Mem
  int_data : Nat → Mem

/-- A beam species: one tile per beam slice index (`WhichBeamSlice`). -/
abbrev BeamParticleContainer := Nat → BeamTile

/-- All species, `getBeam b`. -/
abbrev MultiBeam := Nat → BeamParticleContainer

/-- Compile-time constants and external collaborators of `MultiBuffer.cpp` whose declarations
live in headers outside the sources at hand. `intializeSlice b slice beam_slice` is
`beams.getBeam(b).intializeSlice(slice, beam_slice)`. -/
structure Config where
  buffer_size_roundup : Nat
  sizeof_storage_type : Nat
  sizeof_Real : Nat
  sizeof_int : Nat
  real_nattribs_in_buffer : Nat
  int_nattribs_in_buffer : Nat
  real_nattribs : Nat
  int_nattribs : Nat
  intializeSlice : Nat → Nat → Nat → BeamParticleContainer → BeamParticleContainer

/-- Modelled from the spec: `BeamParticleContainer::getNumParticles` is not under src; it
returns the species' live particle count for the slice. -/
def getNumParticles (beam : BeamParticleContainer) (beam_slice : Nat) : Nat :=
  (beam beam_slice).num_particles

/-- Modelled from the spec: `BeamParticleContainer::resize` is not under src; it sets the
live particle count of the slice (attribute arrays get that length). Entries that were not
live before hold whatever the backing store holds. -/
def resize (beam : BeamParticleContainer) (beam_slice num_particles : Nat) :
    BeamParticleContainer :=
  Function.update beam beam_slice { beam beam_slice with num_particles := num_particles }

/-- The two request handles of a slot: `m_request` and `m_metadata_request`. -/
inductive Request
  | m_request (slice : Nat)
  | m_metadata_request (slice : Nat)
  deriving DecidableEq, Repr

/-- Calls that leave `MultiBuffer`: transport primitives, arena calls and slice synthesis.
`Isend r count dest tag` / `Irecv r count source tag` are the non-blocking send / receive
that store their handle in request `r` (the metadata row travels with `m_metadata_request`,
the bulk-data buffer with `m_request`). -/
inductive Event
  | Isend (r : Request) (count : Nat) (dest : Int) (tag : Nat)
  | Irecv (r : Request) (count : Nat) (source : Int) (tag : Nat)
  | Test (r : Request) (is_complete : Bool)
  | Wait (r : Request)
  | Cancel (r : Request)
  | alloc (slice : Nat) (bytes : Nat) (location : memory_location)
  | free (slice : Nat) (location : memory_location)
  | intializeSlice (b slice beam_slice : Nat)
  deriving DecidableEq, Repr

/-- Struct `DataNode`: one slot of the slice buffer directory. `m_buffer = none` is the null
pointer; `some mem` is owned storage with contents `mem`. -/
structure DataNode where
  m_buffer : Option Mem
  m_buffer_size : Nat
  m_location : memory_location
  m_progress : comm_progress
  m_metadata_progress : comm_progress

/-- The members of class `MultiBuffer`, and the trace of outside calls made so far. -/
structure MultiBuffer where
  m_nslices : Nat
  m_nbeams : Nat
  m_buffer_on_host : Bool
  m_rank_send_to : Int
  m_rank_receive_from : Int
  m_is_head_rank : Bool
  m_tag_buffer_start : Nat
  m_tag_metadata_start : Nat
  m_metadata : Nat → Nat
  m_datanodes : Nat → DataNode
  trace : List Event

/-- What the transport does during one `make_progress` call on a slice: the result of each
`MPI_Test` the call may make, what a completed metadata receive leaves in the metadata row,
what a completed bulk-data receive leaves in the buffer, and the (unspecified) contents of
storage handed out by the arena. -/
structure Transport where
  metadata_send_complete : Bool
  metadata_receive_complete : Bool
  send_complete : Bool
  receive_complete : Bool
  metadata_in : Nat → Nat
  buffer_in : Mem
  fresh : Mem

/-! ## Loops -/

/-- The loop `for (int i = 0; i < n; ++i) body(i)` threading a state. -/
def forLoop {σ : Type} (n : Nat) (body : Nat → σ → σ) (init : σ) : σ :=
  match n with
  | 0 => init
  | k + 1 => body k (forLoop k body init)

/-- The loop `for (int i = n-1; i >= 0; --i) body(i)` threading a state, stopping at an
abort. -/
def downLoop {σ : Type} (n : Nat) (body : Nat → σ → Option σ) (init : σ) : Option σ :=
  match n with
  | 0 => some init
  | k + 1 => (body k init).bind (downLoop k body)

/-- Copy `count` bytes from `src + src_off` to `dst + dst_off` (`std::memcpy`). -/
def memcpy (dst : Mem) (dst_off : Nat) (src : Mem) (src_off : Nat) (count : Nat) : Mem :=
  fun a => if dst_off ≤ a ∧ a < dst_off + count then src (src_off + (a - dst_off)) else dst a

/-- The kernel `amrex::ParallelFor(n, i => data_ptr[i] = 0)` on elements of `size` bytes:
the object representation of `amrex::Real(0.)` and of `int` zero is all-zero bytes. -/
def zero_fill (data : Mem) (n size : Nat) : Mem :=
  fun a => if a < n * size then 0 else data a

/-! ## Metadata and buffer layout -/

/-- Code of `MultiBuffer::get_metadata_size`. -/
def get_metadata_size (s : MultiBuffer) : Nat :=
  1 + s.m_nbeams

/-- Code of `MultiBuffer::get_metadata_location`: the index in `m_metadata` where the row of
`slice` starts. -/
def get_metadata_location (s : MultiBuffer) (slice : Nat) : Nat :=
  slice * get_metadata_size s

/-- The expression `(n + buffer_size_roundup - 1) / buffer_size_roundup * buffer_size_roundup`. -/
def round_up (cfg : Config) (n : Nat) : Nat :=
  (n + cfg.buffer_size_roundup - 1) / cfg.buffer_size_roundup * cfg.buffer_size_roundup

/-- The loop `for (int b = 0; b < ibeam; ++b)` shared by `get_buffer_offset_real` and
`get_buffer_offset_int`: bytes taken by the species before `ibeam`. -/
def species_offset (cfg : Config) (s : MultiBuffer) (slice ibeam : Nat) : Nat :=
  forLoop ibeam (fun b offset =>
    let offset := offset + round_up cfg (s.m_metadata (get_metadata_location s slice + (b + 1)))
      * cfg.real_nattribs_in_buffer * cfg.sizeof_Real
    offset + round_up cfg (s.m_metadata (get_metadata_location s slice + (b + 1)))
      * cfg.int_nattribs_in_buffer * cfg.sizeof_int) 0

/-- Code of `MultiBuffer::get_buffer_offset_real`. -/
def get_buffer_offset_real (cfg : Config) (s : MultiBuffer) (slice ibeam rcomp : Nat) : Nat :=
  species_offset cfg s slice ibeam
    + round_up cfg (s.m_metadata (get_metadata_location s slice + (ibeam + 1)))
      * rcomp * cfg.sizeof_Real

/-- Code of `MultiBuffer::get_buffer_offset_int`. -/
def get_buffer_offset_int (cfg : Config) (s : MultiBuffer) (slice ibeam icomp : Nat) : Nat :=
  species_offset cfg s slice ibeam
    + round_up cfg (s.m_metadata (get_metadata_location s slice + (ibeam + 1)))
      * cfg.real_nattribs_in_buffer * cfg.sizeof_Real
    + round_up cfg (s.m_metadata (get_metadata_location s slice + (ibeam + 1)))
      * icomp * cfg.sizeof_int

/-- The value of `std::numeric_limits<int>::max()`. -/
def int_max : Nat := 2147483647

/-- The value an `int` holds after arithmetic whose exact result is `x`: inside
`[-2^31, 2^31)` it is `x`; signed overflow, which C++ leaves undefined, wraps modulo `2^32`
as on the two's-complement machines the code runs on. -/
def int_wrap (x : Int) : Int :=
  (x + 2147483648) % 4294967296 - 2147483648

/-- Replace the slot of `slice`. -/
def set_node (s : MultiBuffer) (slice : Nat) (node : DataNode) : MultiBuffer :=
  { s with m_datanodes := Function.update s.m_datanodes slice node }

/-- Append one outside call to the trace. -/
def emit (s : MultiBuffer) (e : Event) : MultiBuffer :=
  { s with trace := s.trace ++ [e] }

/-- Code of `MultiBuffer::write_metadata`. The loop carries the metadata vector and the
running `offset`. -/
def write_metadata (cfg : Config) (s : MultiBuffer) (slice : Nat) (beams : MultiBeam)
    (beam_slice : Nat) : Option MultiBuffer :=
  let acc := forLoop s.m_nbeams (fun b (acc : (Nat → Nat) × Nat) =>
    let num_particles := getNumParticles (beams b) beam_slice
    let metadata := Function.update acc.1 (get_metadata_location s slice + (b + 1)) num_particles
    let offset := acc.2 + round_up cfg num_particles * cfg.real_nattribs_in_buffer * cfg.sizeof_Real
    let offset := offset + round_up cfg num_particles * cfg.int_nattribs_in_buffer * cfg.sizeof_int
    (metadata, offset)) (s.m_metadata, 0)
  let metadata := Function.update acc.1 (get_metadata_location s slice + 0)
    ((acc.2 + cfg.sizeof_storage_type - 1) / cfg.sizeof_storage_type)
  let s1 := { s with m_metadata := metadata }
  let s2 := set_node s1 slice
    { s1.m_datanodes slice with m_buffer_size := metadata (get_metadata_location s slice + 0) }
  if metadata (get_metadata_location s slice + 0) < int_max then some s2 else none

/-! ## Payload codec -/

/-- Body of the species loop of `pack_data`: copy the in-buffer real attributes, then the
in-buffer integer attributes, of species `b` into the buffer. -/
def pack_species (cfg : Config) (s : MultiBuffer) (slice : Nat) (beams : MultiBeam)
    (beam_slice : Nat) (b : Nat) (buffer : Mem) : Mem :=
  let num_particles := getNumParticles (beams b) beam_slice
  let soa := beams b beam_slice
  let buffer := forLoop cfg.real_nattribs_in_buffer (fun rcomp buffer =>
    memcpy buffer (get_buffer_offset_real cfg s slice b rcomp) (soa.real_data rcomp) 0
      (num_particles * cfg.sizeof_Real)) buffer
  forLoop cfg.int_nattribs_in_buffer (fun icomp buffer =>
    memcpy buffer (get_buffer_offset_int cfg s slice b icomp) (soa.int_data icomp) 0
      (num_particles * cfg.sizeof_int)) buffer

/-- Code of `MultiBuffer::pack_data`: fill the slot's buffer, then shrink every species to
zero particles. Writing through a null `m_buffer` aborts. -/
def pack_data (cfg : Config) (s : MultiBuffer) (slice : Nat) (beams : MultiBeam)
    (beam_slice : Nat) : Option (MultiBuffer × MultiBeam) :=
  match (s.m_datanodes slice).m_buffer with
  | none => none
  | some buffer =>
    let buffer := forLoop s.m_nbeams (pack_species cfg s slice beams beam_slice) buffer
    let beams := forLoop s.m_nbeams (fun b (beams : MultiBeam) =>
      Function.update beams b (resize (beams b) beam_slice 0)) beams
    some (set_node s slice { s.m_datanodes slice with m_buffer := some buffer }, beams)

/-- Body of the species loop of `unpack_data`, acting on `beams.getBeam(b)`: resize the
species to the received count, copy the in-buffer attributes out of the buffer and zero-fill
the others. -/
def unpack_beam (cfg : Config) (s : MultiBuffer) (slice : Nat) (buffer : Mem)
    (beam_slice : Nat) (b : Nat) (beam : BeamParticleContainer) : BeamParticleContainer :=
  let num_particles := s.m_metadata (get_metadata_location s slice + (b + 1))
  let beam := resize beam beam_slice num_particles
  let soa := beam beam_slice
  let real_data := forLoop cfg.real_nattribs_in_buffer (fun rcomp (real_data : Nat → Mem) =>
    Function.update real_data rcomp
      (memcpy (real_data rcomp) 0 buffer (get_buffer_offset_real cfg s slice b rcomp)
        (num_particles * cfg.sizeof_Real))) soa.real_data
  let real_data := forLoop (cfg.real_nattribs - cfg.real_nattribs_in_buffer)
    (fun k (real_data : Nat → Mem) =>
      Function.update real_data (cfg.real_nattribs_in_buffer + k)
        (zero_fill (real_data (cfg.real_nattribs_in_buffer + k)) num_particles cfg.sizeof_Real))
    real_data
  let int_data := forLoop cfg.int_nattribs_in_buffer (fun icomp (int_data : Nat → Mem) =>
    Function.update int_data icomp
      (memcpy (int_data icomp) 0 buffer (get_buffer_offset_int cfg s slice b icomp)
        (num_particles * cfg.sizeof_int))) soa.int_data
  let int_data := forLoop (cfg.int_nattribs - cfg.int_nattribs_in_buffer)
    (fun k (int_data : Nat → Mem) =>
      Function.update int_data (cfg.int_nattribs_in_buffer + k)
        (zero_fill (int_data (cfg.int_nattribs_in_buffer + k)) num_particles cfg.sizeof_int))
    int_data
  Function.update beam beam_slice
    { num_particles := soa.num_particles, real_data := real_data, int_data := int_data }

/-- Code of `MultiBuffer::unpack_data`. Reading through a null `m_buffer` aborts. -/
def unpack_data (cfg : Config) (s : MultiBuffer) (slice : Nat) (beams : MultiBeam)
    (beam_slice : Nat) : Option MultiBeam :=
  match (s.m_datanodes slice).m_buffer with
  | none => none
  | some buffer =>
    some (forLoop s.m_nbeams (fun b (beams : MultiBeam) =>
      Function.update beams b (unpack_beam cfg s slice buffer beam_slice b (beams b))) beams)

/-! ## Buffer storage -/

/-- Code of `MultiBuffer::allocate_buffer`; `fresh` is what the storage handed out by the
arena happens to contain. -/
def allocate_buffer (cfg : Config) (s : MultiBuffer) (slice : Nat) (fresh : Mem) :
    Option MultiBuffer :=
  if (s.m_datanodes slice).m_location = memory_location.nowhere then
    if s.m_buffer_on_host then
      some (set_node
        (emit s (Event.alloc slice ((s.m_datanodes slice).m_buffer_size * cfg.sizeof_storage_type)
          memory_location.pinned))
        slice { s.m_datanodes slice with
          m_buffer := some fresh, m_location := memory_location.pinned })
    else
      some (set_node
        (emit s (Event.alloc slice ((s.m_datanodes slice).m_buffer_size * cfg.sizeof_storage_type)
          memory_location.device))
        slice { s.m_datanodes slice with
          m_buffer := some fresh, m_location := memory_location.device })
  else none

/-- Code of `MultiBuffer::free_buffer`. -/
def free_buffer (s : MultiBuffer) (slice : Nat) : Option MultiBuffer :=
  if (s.m_datanodes slice).m_location ≠ memory_location.nowhere then
    let s1 :=
      if (s.m_datanodes slice).m_location = memory_location.pinned then
        emit s (Event.free slice memory_location.pinned)
      else
        emit s (Event.free slice memory_location.device)
    some (set_node s1 slice { s1.m_datanodes slice with
      m_location := memory_location.nowhere, m_buffer := none, m_buffer_size := 0 })
  else none

/-! ## Transfer state machine -/

/-- Assign `m_datanodes[slice].m_progress`. -/
def set_progress (s : MultiBuffer) (slice : Nat) (p : comm_progress) : MultiBuffer :=
  set_node s slice { s.m_datanodes slice with m_progress := p }

/-- Assign `m_datanodes[slice].m_metadata_progress`. -/
def set_metadata_progress (s : MultiBuffer) (slice : Nat) (p : comm_progress) : MultiBuffer :=
  set_node s slice { s.m_datanodes slice with m_metadata_progress := p }

/-- A completed metadata receive has filled the `get_metadata_size()` entries of the row. -/
def deliver_metadata (s : MultiBuffer) (slice : Nat) (row : Nat → Nat) : MultiBuffer :=
  { s with m_metadata := fun k =>
      if get_metadata_location s slice ≤ k ∧
          k < get_metadata_location s slice + get_metadata_size s then
        row (k - get_metadata_location s slice)
      else s.m_metadata k }

/-- A completed bulk-data receive has filled the `m_buffer_size` storage words of the
buffer. -/
def deliver_buffer (cfg : Config) (s : MultiBuffer) (slice : Nat) (data : Mem) : MultiBuffer :=
  set_node s slice { s.m_datanodes slice with
    m_buffer := (s.m_datanodes slice).m_buffer.map (fun buffer =>
      memcpy buffer 0 data 0 ((s.m_datanodes slice).m_buffer_size * cfg.sizeof_storage_type)) }

/-- Lines 94-104 of `make_progress`: issue the metadata send. -/
def start_metadata_send (s : MultiBuffer) (slice : Nat) : MultiBuffer :=
  if (s.m_datanodes slice).m_metadata_progress = comm_progress.ready_to_send then
    set_metadata_progress
      (emit s (Event.Isend (Request.m_metadata_request slice) (get_metadata_size s)
        s.m_rank_send_to (s.m_tag_metadata_start + slice)))
      slice comm_progress.send_started
  else s

/-- Lines 106-120 of `make_progress`: issue the bulk-data send, or skip it for an empty
payload. -/
def start_send (s : MultiBuffer) (slice : Nat) : MultiBuffer :=
  if (s.m_datanodes slice).m_progress = comm_progress.ready_to_send then
    if (s.m_datanodes slice).m_buffer_size = 0 then
      set_progress s slice comm_progress.sent
    else
      set_progress
        (emit s (Event.Isend (Request.m_request slice) (s.m_datanodes slice).m_buffer_size
          s.m_rank_send_to (s.m_tag_buffer_start + slice)))
        slice comm_progress.send_started
  else s

/-- Lines 122-133 of `make_progress`: wait for or test the metadata send. -/
def finish_metadata_send (s : MultiBuffer) (slice : Nat) (is_blocking : Bool) (t : Transport) :
    MultiBuffer :=
  if (s.m_datanodes slice).m_metadata_progress = comm_progress.send_started then
    if is_blocking then
      set_metadata_progress (emit s (Event.Wait (Request.m_metadata_request slice)))
        slice comm_progress.sent
    else
      let s1 := emit s (Event.Test (Request.m_metadata_request slice) t.metadata_send_complete)
      if t.metadata_send_complete then
        set_metadata_progress s1 slice comm_progress.sent
      else s1
  else s

/-- Lines 135-145 of `make_progress`: post the metadata receive. -/
def start_metadata_receive (s : MultiBuffer) (slice : Nat) : MultiBuffer :=
  if (s.m_datanodes slice).m_metadata_progress = comm_progress.sent then
    set_metadata_progress
      (emit s (Event.Irecv (Request.m_metadata_request slice) (get_metadata_size s)
        s.m_rank_receive_from (s.m_tag_metadata_start + slice)))
      slice comm_progress.receive_started
  else s

/-- Lines 147-158 of `make_progress`: wait for or test the metadata receive. -/
def finish_metadata_receive (s : MultiBuffer) (slice : Nat) (is_blocking : Bool)
    (t : Transport) : MultiBuffer :=
  if (s.m_datanodes slice).m_metadata_progress = comm_progress.receive_started then
    if is_blocking then
      set_metadata_progress
        (deliver_metadata (emit s (Event.Wait (Request.m_metadata_request slice))) slice
          t.metadata_in)
        slice comm_progress.received
    else
      let s1 := emit s (Event.Test (Request.m_metadata_request slice) t.metadata_receive_complete)
      if t.metadata_receive_complete then
        set_metadata_progress (deliver_metadata s1 slice t.metadata_in) slice
          comm_progress.received
      else s1
  else s

/-- Lines 160-173 of `make_progress`: wait for or test the bulk-data send, releasing the
buffer once it is complete. -/
def finish_send (s : MultiBuffer) (slice : Nat) (is_blocking : Bool) (t : Transport) :
    Option MultiBuffer :=
  if (s.m_datanodes slice).m_progress = comm_progress.send_started then
    if is_blocking then
      (free_buffer (emit s (Event.Wait (Request.m_request slice))) slice).map
        (fun s1 => set_progress s1 slice comm_progress.sent)
    else
      let s1 := emit s (Event.Test (Request.m_request slice) t.send_complete)
      if t.send_complete then
        (free_buffer s1 slice).map (fun s2 => set_progress s2 slice comm_progress.sent)
      else some s1
  else some s

/-- Lines 175-196 of `make_progress`: once the metadata is there, read the payload size out
of it and post the bulk-data receive, or skip it for an empty payload. -/
def start_receive (cfg : Config) (s : MultiBuffer) (slice : Nat) (t : Transport) :
    Option MultiBuffer :=
  if (s.m_datanodes slice).m_progress = comm_progress.sent ∧
      (s.m_datanodes slice).m_metadata_progress = comm_progress.received then
    if (s.m_datanodes slice).m_location = memory_location.nowhere then
      let s1 := set_node s slice { s.m_datanodes slice with
        m_buffer_size := s.m_metadata (get_metadata_location s slice + 0) }
      if (s1.m_datanodes slice).m_buffer_size = 0 then
        some (set_progress s1 slice comm_progress.received)
      else
        (allocate_buffer cfg s1 slice t.fresh).map (fun s2 =>
          set_progress
            (emit s2 (Event.Irecv (Request.m_request slice) (s2.m_datanodes slice).m_buffer_size
              s2.m_rank_receive_from (s2.m_tag_buffer_start + slice)))
            slice comm_progress.receive_started)
    else none
  else some s

/-- Lines 198-209 of `make_progress`: wait for or test the bulk-data receive. -/
def finish_receive (cfg : Config) (s : MultiBuffer) (slice : Nat) (is_blocking : Bool)
    (t : Transport) : MultiBuffer :=
  if (s.m_datanodes slice).m_progress = comm_progress.receive_started then
    if is_blocking then
      set_progress
        (deliver_buffer cfg (emit s (Event.Wait (Request.m_request slice))) slice t.buffer_in)
        slice comm_progress.received
    else
      let s1 := emit s (Event.Test (Request.m_request slice) t.receive_complete)
      if t.receive_complete then
        set_progress (deliver_buffer cfg s1 slice t.buffer_in) slice comm_progress.received
      else s1
  else s

/-- Lines 211-214 of `make_progress`: a blocking poll must end with both sub-channels
received. -/
def check_blocking (s : MultiBuffer) (slice : Nat) (is_blocking : Bool) : Option MultiBuffer :=
  if is_blocking then
    if (s.m_datanodes slice).m_metadata_progress = comm_progress.received then
      if (s.m_datanodes slice).m_progress = comm_progress.received then some s else none
    else none
  else some s

/-- Code of `MultiBuffer::make_progress`: the blocks of the function body in source order. -/
def make_progress (cfg : Config) (s : MultiBuffer) (slice : Nat) (is_blocking : Bool)
    (t : Transport) : Option MultiBuffer :=
  let s := start_metadata_send s slice
  let s := start_send s slice
  let s := finish_metadata_send s slice is_blocking t
  let s := start_metadata_receive s slice
  let s := finish_metadata_receive s slice is_blocking t
  (finish_send s slice is_blocking t).bind fun s =>
  (start_receive cfg s slice t).bind fun s =>
  check_blocking (finish_receive cfg s slice is_blocking t) slice is_blocking

/-- The loop `for (int i = m_nslices-1; i >= 0; --i) make_progress(i, false)`; `t i` is what
the transport does for slice `i` during the sweep. -/
def progress_all (cfg : Config) (s : MultiBuffer) (t : Nat → Transport) : Option MultiBuffer :=
  downLoop s.m_nslices (fun i s => make_progress cfg s i false (t i)) s

/-! ## Pipeline driver interface -/

/-- Modelled from the spec: the default member initialisers of `DataNode` are declared in
`MultiBuffer.H`, which is not under src. A slot that was never used owns no buffer storage
("owning pointer to buffer storage (or none)"), has size 0 and is idle. -/
def default_node : DataNode :=
  { m_buffer := none, m_buffer_size := 0, m_location := memory_location.nowhere,
    m_progress := comm_progress.ready_to_define,
    m_metadata_progress := comm_progress.ready_to_define }

/-- Code of `MultiBuffer::initialize` on a freshly constructed object: the metadata vector is
value-initialised to zero and every slot is a default `DataNode`. The sum
`rank_id - 1 + n_ranks` of line 55 is `int` arithmetic and leaves the `int` range for ranks of
a ring of more than `2^30` stages; `rank_id + 1` stays in range for every rank below
`n_ranks`. -/
def initialize_multibuffer (cfg : Config) (nslices nbeams : Nat) (rank_id n_ranks : Int)
    (buffer_on_host : Bool) (t : Nat → Transport) : Option MultiBuffer :=
  let s : MultiBuffer :=
    { m_nslices := nslices
      m_nbeams := nbeams
      m_buffer_on_host := buffer_on_host
      m_rank_send_to := Int.tmod (int_wrap (rank_id - 1 + n_ranks)) n_ranks
      m_rank_receive_from := Int.tmod (rank_id + 1) n_ranks
      m_is_head_rank := decide (rank_id + 1 = n_ranks)
      m_tag_buffer_start := 1
      m_tag_metadata_start := 1 + nslices
      m_metadata := fun _ => 0
      m_datanodes := fun _ => default_node
      trace := [] }
  let s :=
    if s.m_is_head_rank then
      forLoop s.m_nslices (fun k s =>
        let i := s.m_nslices - 1 - k
        set_metadata_progress (set_progress s i comm_progress.ready_to_define) i
          comm_progress.ready_to_define) s
    else
      forLoop s.m_nslices (fun k s =>
        let i := s.m_nslices - 1 - k
        set_metadata_progress (set_progress s i comm_progress.sent) i comm_progress.sent) s
  progress_all cfg s t

/-- Code of `MultiBuffer::get_data`; `t` is what the transport does during the blocking
poll. -/
def get_data (cfg : Config) (s : MultiBuffer) (slice : Nat) (beams : MultiBeam)
    (beam_slice : Nat) (t : Transport) : Option (MultiBuffer × MultiBeam) :=
  let r : Option (MultiBuffer × MultiBeam) :=
    if (s.m_datanodes slice).m_progress = comm_progress.ready_to_define then
      some (forLoop s.m_nbeams (fun b (acc : MultiBuffer × MultiBeam) =>
        (emit acc.1 (Event.intializeSlice b slice beam_slice),
          Function.update acc.2 b (cfg.intializeSlice b slice beam_slice (acc.2 b)))) (s, beams))
    else
      (make_progress cfg s slice true t).bind fun s1 =>
        if (s1.m_datanodes slice).m_buffer_size ≠ 0 then
          (unpack_data cfg s1 slice beams beam_slice).bind fun beams1 =>
            (free_buffer s1 slice).map fun s2 => (s2, beams1)
        else some (s1, beams)
  r.map fun p =>
    (set_metadata_progress (set_progress p.1 slice comm_progress.in_use) slice
      comm_progress.in_use, p.2)

/-- Code of `MultiBuffer::put_data`; `fresh` is the content of newly allocated storage and
`t i` is what the transport does for slice `i` during the closing sweep. -/
def put_data (cfg : Config) (s : MultiBuffer) (slice : Nat) (beams : MultiBeam)
    (beam_slice : Nat) (is_last_time_step : Bool) (fresh : Mem) (t : Nat → Transport) :
    Option (MultiBuffer × MultiBeam) :=
  let r : Option (MultiBuffer × MultiBeam) :=
    if is_last_time_step then
      some (set_metadata_progress (set_progress s slice comm_progress.sim_completed) slice
        comm_progress.sim_completed, beams)
    else
      (write_metadata cfg s slice beams beam_slice).bind fun s1 =>
        let packed : Option (MultiBuffer × MultiBeam) :=
          if (s1.m_datanodes slice).m_buffer_size ≠ 0 then
            (allocate_buffer cfg s1 slice fresh).bind fun s2 =>
              pack_data cfg s2 slice beams beam_slice
          else some (s1, beams)
        packed.map fun p =>
          (set_metadata_progress (set_progress p.1 slice comm_progress.ready_to_send) slice
            comm_progress.ready_to_send, p.2)
  r.bind fun p => (progress_all cfg p.1 t).map fun s3 => (s3, p.2)

/-- Code of `MultiBuffer::~MultiBuffer`. -/
def destructor (s : MultiBuffer) : MultiBuffer :=
  forLoop s.m_nslices (fun k s =>
    let i := s.m_nslices - 1 - k
    if (s.m_datanodes i).m_metadata_progress = comm_progress.send_started then
      emit s (Event.Cancel (Request.m_request i))
    else s) s

/-- States the object can be in between calls of its interface: after `initialize`, and after
any further `put_data`, `get_data` or `make_progress` on a slice of the run that did not
abort, whatever the transport did. -/
inductive Reachable (cfg : Config) : MultiBuffer → Prop
  | init (nslices nbeams : Nat) (rank_id n_ranks : Int) (buffer_on_host : Bool)
      (t : Nat → Transport) (s : MultiBuffer) :
      initialize_multibuffer cfg nslices nbeams rank_id n_ranks buffer_on_host t = some s →
      Reachable cfg s
  | put (s : MultiBuffer) (slice : Nat) (beams : MultiBeam) (beam_slice : Nat)
      (is_last_time_step : Bool) (fresh : Mem) (t : Nat → Transport)
      (s1 : MultiBuffer) (beams1 : MultiBeam) :
      Reachable cfg s → slice < s.m_nslices →
      put_data cfg s slice beams beam_slice is_last_time_step fresh t = some (s1, beams1) →
      Reachable cfg s1
  | get (s : MultiBuffer) (slice : Nat) (beams : MultiBeam) (beam_slice : Nat) (t : Transport)
      (s1 : MultiBuffer) (beams1 : MultiBeam) :
      Reachable cfg s → slice < s.m_nslices →
      get_data cfg s slice beams beam_slice t = some (s1, beams1) →
      Reachable cfg s1
  | progress (s : MultiBuffer) (slice : Nat) (is_blocking : Bool) (t : Transport)
      (s1 : MultiBuffer) :
      Reachable cfg s → slice < s.m_nslices →
      make_progress cfg s slice is_blocking t = some s1 →
      Reachable cfg s1

/-- The outside calls made between state `s` and a later state `s1`. -/
def new_events (s s1 : MultiBuffer) : List Event :=
  s1.trace.drop s.trace.length

/-- The spec's padded byte count of a slice: the sum over the species of the rounded-up
particle count times the per-particle record size. -/
def payload_bytes (cfg : Config) (beams : MultiBeam) (beam_slice nbeams : Nat) : Nat :=
  ∑ b in Finset.range nbeams,
    round_up cfg (getNumParticles (beams b) beam_slice)
      * (cfg.real_nattribs_in_buffer * cfg.sizeof_Real
        + cfg.int_nattribs_in_buffer * cfg.sizeof_int)

/-- Bytes of element `i` of an attribute array whose elements take `size` bytes. -/
def element (data : Mem) (size i : Nat) : List Byte :=
  (List.range size).map (fun k => data (i * size + k))

end Hipace

namespace Hipace

/-! ## Example values -/

/-- A build in which reals, integers and storage words all take 4 bytes, with the attribute
counts and rounding granularity of the two-species example. -/
def example_cfg : Config :=
  { buffer_size_roundup := 8, sizeof_storage_type := 4, sizeof_Real := 4, sizeof_int := 4,
    real_nattribs_in_buffer := 2, int_nattribs_in_buffer := 1, real_nattribs := 3,
    int_nattribs := 2, intializeSlice := fun _ _ _ beam => beam }

/-- The same example in a double-precision build: 8-byte reals and storage words, 4-byte
integers. -/
def example_cfg_double : Config :=
  { example_cfg with sizeof_storage_type := 8, sizeof_Real := 8 }

/-- A slot without storage. -/
def empty_node (p q : comm_progress) : DataNode :=
  { m_buffer := none, m_buffer_size := 0, m_location := memory_location.nowhere,
    m_progress := p, m_metadata_progress := q }

/-- A two-species, two-slice object on the last rank of three, all slots idle. -/
def example_state : MultiBuffer :=
  { m_nslices := 2, m_nbeams := 2, m_buffer_on_host := true, m_rank_send_to := 1,
    m_rank_receive_from := 0, m_is_head_rank := true, m_tag_buffer_start := 1,
    m_tag_metadata_start := 3, m_metadata := fun _ => 0,
    m_datanodes := fun _ =>
      empty_node comm_progress.ready_to_define comm_progress.ready_to_define,
    trace := [] }

/-- Species 0 holds 3 particles and species 1 none; every attribute byte is 7. -/
def example_beams : MultiBeam :=
  fun b _ =>
    { num_particles := if b = 0 then 3 else 0, real_data := fun _ _ => 7,
      int_data := fun _ _ => 7 }

/-- The example state after `write_metadata` on slice 1 in the 4-byte build. -/
def example_written : MultiBuffer :=
  (write_metadata example_cfg example_state 1 example_beams 0).getD example_state

/-- A receiving slot: slice 1 holds storage (every byte 5) and the row `[24, 3, 0]`. -/
def example_received : MultiBuffer :=
  { example_state with
    m_metadata := fun k => if k = 3 then 24 else if k = 4 then 3 else 0
    m_datanodes := fun j =>
      if j = 1 then
        { m_buffer := some (fun _ => 5), m_buffer_size := 24,
          m_location := memory_location.pinned, m_progress := comm_progress.received,
          m_metadata_progress := comm_progress.received }
      else empty_node comm_progress.ready_to_define comm_progress.ready_to_define }

/-- The slice an outside call is made for. -/
def event_slice (e : Event) : Nat :=
  match e with
  | Event.Isend (Request.m_request slice) _ _ _ => slice
  | Event.Isend (Request.m_metadata_request slice) _ _ _ => slice
  | Event.Irecv (Request.m_request slice) _ _ _ => slice
  | Event.Irecv (Request.m_metadata_request slice) _ _ _ => slice
  | Event.Test (Request.m_request slice) _ => slice
  | Event.Test (Request.m_metadata_request slice) _ => slice
  | Event.Wait (Request.m_request slice) => slice
  | Event.Wait (Request.m_metadata_request slice) => slice
  | Event.Cancel (Request.m_request slice) => slice
  | Event.Cancel (Request.m_metadata_request slice) => slice
  | Event.alloc slice _ _ => slice
  | Event.free slice _ => slice
  | Event.intializeSlice _ slice _ => slice

/-- The run-wide members set by `initialize` are the same in two states. -/
structure SameConfig (s s1 : MultiBuffer) : Prop where
  nslices : s1.m_nslices = s.m_nslices
  nbeams : s1.m_nbeams = s.m_nbeams
  buffer_on_host : s1.m_buffer_on_host = s.m_buffer_on_host
  rank_send_to : s1.m_rank_send_to = s.m_rank_send_to
  rank_receive_from : s1.m_rank_receive_from = s.m_rank_receive_from
  is_head_rank : s1.m_is_head_rank = s.m_is_head_rank
  tag_buffer_start : s1.m_tag_buffer_start = s.m_tag_buffer_start
  tag_metadata_start : s1.m_tag_metadata_start = s.m_tag_metadata_start

/-- State `s1` differs from `s` only in the slot and the metadata row of slice `i`, and by
outside calls made for slice `i`. -/
structure Frame (i : Nat) (s s1 : MultiBuffer) : Prop where
  config : SameConfig s s1
  nodes : ∀ j, j ≠ i → s1.m_datanodes j = s.m_datanodes j
  metadata : ∀ k, ¬ (get_metadata_location s i ≤ k ∧
    k < get_metadata_location s i + get_metadata_size s) → s1.m_metadata k = s.m_metadata k
  trace : ∃ evs, s1.trace = s.trace ++ evs ∧ ∀ e, e ∈ evs → event_slice e = i

/-- State `s1` has the slot and the metadata row of slice `j` as they are in `s`, and no
outside call was made for slice `j` in between. -/
structure Untouched (j : Nat) (s s1 : MultiBuffer) : Prop where
  config : SameConfig s s1
  node : s1.m_datanodes j = s.m_datanodes j
  row : ∀ k, k < get_metadata_size s →
    s1.m_metadata (get_metadata_location s j + k) = s.m_metadata (get_metadata_location s j + k)
  trace : ∃ evs, s1.trace = s.trace ++ evs ∧ ∀ e, e ∈ evs → event_slice e ≠ j

/-- Two states show the same slot and metadata row for slice `i` and the same run-wide
members. -/
structure SlotAgree (i : Nat) (s s1 : MultiBuffer) : Prop where
  config : SameConfig s s1
  node : s1.m_datanodes i = s.m_datanodes i
  row : ∀ k, k < get_metadata_size s →
    s1.m_metadata (get_metadata_location s i + k) = s.m_metadata (get_metadata_location s i + k)

/-- Two optional states both abort, or both are states that agree on slot `i`. -/
def OptionAgree (i : Nat) (o o1 : Option MultiBuffer) : Prop :=
  (o = none ∧ o1 = none) ∨ ∃ a b, o = some a ∧ o1 = some b ∧ SlotAgree i a b

/-- The ordering invariant of one slot: a posted bulk-data receive implies received
metadata. -/
def NodeOrdered (node : DataNode) : Prop :=
  node.m_progress = comm_progress.receive_started →
    node.m_metadata_progress = comm_progress.received

/-- The outside calls a poll of slice `i` may make, with their arguments: sends go to
`m_rank_send_to` and receives come from `m_rank_receive_from` under the tag of the slice and
sub-channel, tests only occur in a non-blocking poll and waits only in a blocking one, storage
comes from the configured arena, and nothing is cancelled or synthesized. -/
def poll_event (s : MultiBuffer) (i : Nat) (is_blocking : Bool) (e : Event) : Prop :=
  match e with
  | Event.Isend r count dest tag =>
    dest = s.m_rank_send_to ∧
      ((r = Request.m_metadata_request i ∧ count = get_metadata_size s ∧
          tag = s.m_tag_metadata_start + i) ∨
        (r = Request.m_request i ∧ count ≠ 0 ∧ tag = s.m_tag_buffer_start + i))
  | Event.Irecv r count source tag =>
    source = s.m_rank_receive_from ∧
      ((r = Request.m_metadata_request i ∧ count = get_metadata_size s ∧
          tag = s.m_tag_metadata_start + i) ∨
        (r = Request.m_request i ∧ count ≠ 0 ∧ tag = s.m_tag_buffer_start + i))
  | Event.Test r _ =>
    is_blocking = false ∧ (r = Request.m_metadata_request i ∨ r = Request.m_request i)
  | Event.Wait r =>
    is_blocking = true ∧ (r = Request.m_metadata_request i ∨ r = Request.m_request i)
  | Event.Cancel _ => False
  | Event.alloc slice _ location =>
    slice = i ∧
      location = (if s.m_buffer_on_host then memory_location.pinned
        else memory_location.device)
  | Event.free slice location => slice = i ∧ location ≠ memory_location.nowhere
  | Event.intializeSlice _ _ _ => False

/-- A slot with the data sub-channel sent, the metadata received and no storage, in front of
the row `[24, 3, 0]`. -/
def example_consumer : MultiBuffer :=
  { example_received with
    m_datanodes := fun j =>
      if j = 1 then empty_node comm_progress.sent comm_progress.received
      else empty_node comm_progress.ready_to_define comm_progress.ready_to_define }

/-- A species set without particles. -/
def empty_beams : MultiBeam :=
  fun _ _ => { num_particles := 0, real_data := fun _ _ => 7, int_data := fun _ _ => 7 }

/-- A transport on which the metadata send and the metadata receive complete at once and the
received row announces 24 storage words. -/
def eager_transport : Transport :=
  { metadata_send_complete := true, metadata_receive_complete := true,
    send_complete := false, receive_complete := false,
    metadata_in := fun k => if k = 0 then 24 else if k = 1 then 3 else 0,
    buffer_in := fun _ => 0, fresh := fun _ => 0 }

/-- A transport on which nothing completes. -/
def idle_transport : Transport :=
  { metadata_send_complete := false, metadata_receive_complete := false,
    send_complete := false, receive_complete := false, metadata_in := fun _ => 0,
    buffer_in := fun _ => 0, fresh := fun _ => 0 }

/-- The storage invariant of one slot between polls: the slot has a location exactly when it
has a buffer, it holds storage exactly when a bulk-data transfer is under way or a non-empty
payload waits to be sent or to be unpacked, and a posted bulk-data receive has a non-zero
size. -/
def NodeStorage (node : DataNode) : Prop :=
  (node.m_location = memory_location.nowhere ↔ node.m_buffer = none) ∧
  (node.m_location ≠ memory_location.nowhere ↔
    (node.m_progress = comm_progress.send_started ∨
      node.m_progress = comm_progress.receive_started ∨
      ((node.m_progress = comm_progress.received ∨
          node.m_progress = comm_progress.ready_to_send) ∧ node.m_buffer_size ≠ 0))) ∧
  (node.m_progress = comm_progress.receive_started → node.m_buffer_size ≠ 0)

/-- The storage invariant of a slot between calls: the storage invariant between polls, and
neither sub-channel is left ready to send. -/
def NodeSettled (node : DataNode) : Prop :=
  NodeStorage node ∧ node.m_progress ≠ comm_progress.ready_to_send ∧
    node.m_metadata_progress ≠ comm_progress.ready_to_send

/-- What holds of a slot after any sequence of calls: the slot has a location exactly when
it has a buffer, a slot never defined has no storage, a received empty payload has no
storage, and a posted bulk-data receive has a non-zero size. -/
def NodeSound (node : DataNode) : Prop :=
  (node.m_location = memory_location.nowhere ↔ node.m_buffer = none) ∧
  (node.m_progress = comm_progress.ready_to_define →
    node.m_location = memory_location.nowhere) ∧
  (node.m_progress = comm_progress.received → node.m_buffer_size = 0 →
    node.m_location = memory_location.nowhere) ∧
  (node.m_progress = comm_progress.receive_started → node.m_buffer_size ≠ 0)

/-- The changes the blocks of `make_progress` can make to one slot: the four advances of
the metadata state; the skipped or issued bulk-data send; the completed send with its
`free_buffer`; the skipped bulk-data receive of an empty payload or the posted one with its
`allocate_buffer`; the completed receive, which fills the buffer. -/
inductive NodeStep : DataNode → DataNode → Prop
  | metadata_send (node : DataNode) :
      node.m_metadata_progress = comm_progress.ready_to_send →
      NodeStep node { node with m_metadata_progress := comm_progress.send_started }
  | metadata_sent (node : DataNode) :
      node.m_metadata_progress = comm_progress.send_started →
      NodeStep node { node with m_metadata_progress := comm_progress.sent }
  | metadata_receive (node : DataNode) :
      node.m_metadata_progress = comm_progress.sent →
      NodeStep node { node with m_metadata_progress := comm_progress.receive_started }
  | metadata_received (node : DataNode) :
      node.m_metadata_progress = comm_progress.receive_started →
      NodeStep node { node with m_metadata_progress := comm_progress.received }
  | skip_send (node : DataNode) :
      node.m_progress = comm_progress.ready_to_send → node.m_buffer_size = 0 →
      NodeStep node { node with m_progress := comm_progress.sent }
  | start_send (node : DataNode) :
      node.m_progress = comm_progress.ready_to_send → node.m_buffer_size ≠ 0 →
      NodeStep node { node with m_progress := comm_progress.send_started }
  | finish_send (node : DataNode) :
      node.m_progress = comm_progress.send_started →
      node.m_location ≠ memory_location.nowhere →
      NodeStep node { node with
        m_location := memory_location.nowhere, m_buffer := none, m_buffer_size := 0,
        m_progress := comm_progress.sent }
  | skip_receive (node : DataNode) :
      node.m_progress = comm_progress.sent →
      node.m_metadata_progress = comm_progress.received →
      node.m_location = memory_location.nowhere →
      NodeStep node { node with m_buffer_size := 0, m_progress := comm_progress.received }
  | start_receive (node : DataNode) (size : Nat) (fresh : Mem) (location : memory_location) :
      node.m_progress = comm_progress.sent →
      node.m_metadata_progress = comm_progress.received →
      node.m_location = memory_location.nowhere →
      size ≠ 0 → location ≠ memory_location.nowhere →
      NodeStep node { node with
        m_buffer_size := size, m_buffer := some fresh, m_location := location,
        m_progress := comm_progress.receive_started }
  | finish_receive (node : DataNode) (fill : Mem → Mem) :
      node.m_progress = comm_progress.receive_started →
      NodeStep node { node with
        m_buffer := node.m_buffer.map fill, m_progress := comm_progress.received }

/-- Whether an outside call is the metadata send of the slice. -/
def is_metadata_send (slice : Nat) (e : Event) : Bool :=
  match e with
  | Event.Isend (Request.m_metadata_request j) _ _ _ => decide (j = slice)
  | _ => false

/-- Whether an outside call is the bulk-data send of the slice. -/
def is_data_send (slice : Nat) (e : Event) : Bool :=
  match e with
  | Event.Isend (Request.m_request j) _ _ _ => decide (j = slice)
  | _ => false

/-- Whether an outside call is the metadata receive of the slice. -/
def is_metadata_receive (slice : Nat) (e : Event) : Bool :=
  match e with
  | Event.Irecv (Request.m_metadata_request j) _ _ _ => decide (j = slice)
  | _ => false

/-- States the object can be in between calls when `put_data` is only called on a slot that
holds no storage, as it is after `get_data` on that slot. -/
inductive OrderlyReachable (cfg : Config) : MultiBuffer → Prop
  | init (nslices nbeams : Nat) (rank_id n_ranks : Int) (buffer_on_host : Bool)
      (t : Nat → Transport) (s : MultiBuffer) :
      initialize_multibuffer cfg nslices nbeams rank_id n_ranks buffer_on_host t = some s →
      OrderlyReachable cfg s
  | put (s : MultiBuffer) (slice : Nat) (beams : MultiBeam) (beam_slice : Nat)
      (is_last_time_step : Bool) (fresh : Mem) (t : Nat → Transport)
      (s1 : MultiBuffer) (beams1 : MultiBeam) :
      OrderlyReachable cfg s → slice < s.m_nslices →
      (s.m_datanodes slice).m_location = memory_location.nowhere →
      put_data cfg s slice beams beam_slice is_last_time_step fresh t = some (s1, beams1) →
      OrderlyReachable cfg s1
  | get (s : MultiBuffer) (slice : Nat) (beams : MultiBeam) (beam_slice : Nat) (t : Transport)
      (s1 : MultiBuffer) (beams1 : MultiBeam) :
      OrderlyReachable cfg s → slice < s.m_nslices →
      get_data cfg s slice beams beam_slice t = some (s1, beams1) →
      OrderlyReachable cfg s1
  | progress (s : MultiBuffer) (slice : Nat) (is_blocking : Bool) (t : Transport)
      (s1 : MultiBuffer) :
      OrderlyReachable cfg s → slice < s.m_nslices →
      make_progress cfg s slice is_blocking t = some s1 →
      OrderlyReachable cfg s1

/-- The rest of a run seen from slice `slice`: any further polls, `get_data` and `put_data`
calls that return, on any slice, except a non-final `put_data` on `slice` itself. -/
inductive LaterRun (cfg : Config) (slice : Nat) : MultiBuffer → MultiBuffer → Prop
  | here (s : MultiBuffer) : LaterRun cfg slice s s
  | put (s s1 : MultiBuffer) (i : Nat) (beams : MultiBeam) (beam_slice : Nat)
      (is_last_time_step : Bool) (fresh : Mem) (t : Nat → Transport)
      (s2 : MultiBuffer) (beams2 : MultiBeam) :
      LaterRun cfg slice s s1 → (i = slice → is_last_time_step = true) →
      put_data cfg s1 i beams beam_slice is_last_time_step fresh t = some (s2, beams2) →
      LaterRun cfg slice s s2
  | get (s s1 : MultiBuffer) (i : Nat) (beams : MultiBeam) (beam_slice : Nat) (t : Transport)
      (s2 : MultiBuffer) (beams2 : MultiBeam) :
      LaterRun cfg slice s s1 →
      get_data cfg s1 i beams beam_slice t = some (s2, beams2) →
      LaterRun cfg slice s s2
  | progress (s s1 : MultiBuffer) (i : Nat) (is_blocking : Bool) (t : Transport)
      (s2 : MultiBuffer) :
      LaterRun cfg slice s s1 →
      make_progress cfg s1 i is_blocking t = some s2 →
      LaterRun cfg slice s s2

/-! ## Particle positions in a cell -/

/-- The slot holds no storage or storage of the arena selected by `buffer_on_host`. -/
def NodeDomain (buffer_on_host : Bool) (node : DataNode) : Prop :=
  node.m_location = memory_location.nowhere ∨
    node.m_location = (if buffer_on_host then memory_location.pinned
      else memory_location.device)

/-- What the assertions of `free_buffer` and `allocate_buffer` inside a poll ask of a slot: a
bulk-data send under way has its buffer, a slot whose send is over has none, and a slot ready
to send has a buffer exactly for a non-empty payload. -/
def NodeGuarded (node : DataNode) : Prop :=
  (node.m_progress = comm_progress.send_started →
    node.m_location ≠ memory_location.nowhere) ∧
  (node.m_progress = comm_progress.sent → node.m_location = memory_location.nowhere) ∧
  (node.m_progress = comm_progress.ready_to_send →
    (node.m_buffer_size ≠ 0 ↔ node.m_location ≠ memory_location.nowhere))

/-- What a poll that returns leaves of a slot: neither sub-channel is ready to send, the
metadata sub-channel is not waiting for its receive to be posted, and the bulk-data receive
is not waiting to be posted behind metadata that has arrived. -/
def NodeQuiet (node : DataNode) : Prop :=
  node.m_progress ≠ comm_progress.ready_to_send ∧
  node.m_metadata_progress ≠ comm_progress.ready_to_send ∧
  node.m_metadata_progress ≠ comm_progress.sent ∧
  ¬ (node.m_progress = comm_progress.sent ∧
    node.m_metadata_progress = comm_progress.received)

/-- The tests a non-blocking poll makes on a slot on which it has nothing to post, when no
request completes: one for each sub-channel with a send or receive under way. -/
def pending_tests (node : DataNode) (slice : Nat) : List Event :=
  (if node.m_metadata_progress = comm_progress.send_started ∨
      node.m_metadata_progress = comm_progress.receive_started then
    [Event.Test (Request.m_metadata_request slice) false] else []) ++
  (if node.m_progress = comm_progress.send_started ∨
      node.m_progress = comm_progress.receive_started then
    [Event.Test (Request.m_request slice) false] else [])

/-- What one outside call does to the number of sends and receives outstanding on the
request `r`: a send or receive stored in `r` adds one; a wait, a test that reports
completion, or a cancel takes one away. -/
def outstanding_step (r : Request) (n : Nat) (e : Event) : Nat :=
  match e with
  | Event.Isend r1 _ _ _ => if r1 = r then n + 1 else n
  | Event.Irecv r1 _ _ _ => if r1 = r then n + 1 else n
  | Event.Test r1 is_complete => if r1 = r ∧ is_complete = true then n - 1 else n
  | Event.Wait r1 => if r1 = r then n - 1 else n
  | Event.Cancel r1 => if r1 = r then n - 1 else n
  | Event.alloc _ _ _ => n
  | Event.free _ _ => n
  | Event.intializeSlice _ _ _ => n

/-- The number of sends and receives outstanding on request `r` after the calls of a
trace. -/
def outstanding (r : Request) (trace : List Event) : Nat :=
  trace.foldl (outstanding_step r) 0

/-- The number of transfers a sub-channel in state `p` has under way. -/
def under_way (p : comm_progress) : Nat :=
  if p = comm_progress.send_started ∨ p = comm_progress.receive_started then 1 else 0

/-- The trace and the states of slot `i` agree on what is outstanding: each of the two
requests of the slot has a send or receive outstanding exactly when its sub-channel is in
`send_started` or `receive_started`. -/
def Linked (s : MultiBuffer) (i : Nat) : Prop :=
  outstanding (Request.m_metadata_request i) s.trace
      = under_way (s.m_datanodes i).m_metadata_progress ∧
    outstanding (Request.m_request i) s.trace = under_way (s.m_datanodes i).m_progress

/-- States the object can be in between calls when `put_data` is only called on a slot
that has no send and no receive under way, as it is after `get_data` on that slot. -/
inductive PacedReachable (cfg : Config) : MultiBuffer → Prop
  | init (nslices nbeams : Nat) (rank_id n_ranks : Int) (buffer_on_host : Bool)
      (t : Nat → Transport) (s : MultiBuffer) :
      initialize_multibuffer cfg nslices nbeams rank_id n_ranks buffer_on_host t = some s →
      PacedReachable cfg s
  | put (s : MultiBuffer) (slice : Nat) (beams : MultiBeam) (beam_slice : Nat)
      (is_last_time_step : Bool) (fresh : Mem) (t : Nat → Transport)
      (s1 : MultiBuffer) (beams1 : MultiBeam) :
      PacedReachable cfg s → slice < s.m_nslices →
      under_way (s.m_datanodes slice).m_progress = 0 →
      under_way (s.m_datanodes slice).m_metadata_progress = 0 →
      put_data cfg s slice beams beam_slice is_last_time_step fresh t = some (s1, beams1) →
      PacedReachable cfg s1
  | get (s : MultiBuffer) (slice : Nat) (beams : MultiBeam) (beam_slice : Nat) (t : Transport)
      (s1 : MultiBuffer) (beams1 : MultiBeam) :
      PacedReachable cfg s → slice < s.m_nslices →
      get_data cfg s slice beams beam_slice t = some (s1, beams1) →
      PacedReachable cfg s1
  | progress (s : MultiBuffer) (slice : Nat) (is_blocking : Bool) (t : Transport)
      (s1 : MultiBuffer) :
      PacedReachable cfg s → slice < s.m_nslices →
      make_progress cfg s slice is_blocking t = some s1 →
      PacedReachable cfg s1

/-- A slot whose data sub-channel was never defined has a metadata sub-channel that was
never defined. -/
def NodePaired (node : DataNode) : Prop :=
  node.m_progress = comm_progress.ready_to_define →
    node.m_metadata_progress = comm_progress.ready_to_define

end Hipace
namespace Hipace

/-! ## Loop lemmas -/

theorem forLoop_succ {σ : Type} (n : Nat) (body : Nat → σ → σ) (init : σ) :
    forLoop (n + 1) body init = body n (forLoop n body init) := rfl

theorem species_offset_succ (cfg : Config) (s : MultiBuffer) (slice b : Nat) :
    species_offset cfg s slice (b + 1) =
      species_offset cfg s slice b
        + round_up cfg (s.m_metadata (get_metadata_location s slice + (b + 1)))
          * cfg.real_nattribs_in_buffer * cfg.sizeof_Real
        + round_up cfg (s.m_metadata (get_metadata_location s slice + (b + 1)))
          * cfg.int_nattribs_in_buffer * cfg.sizeof_int := rfl

/-- The loop of `write_metadata` after `k` species: entries `1..k` of the row hold the
particle counts, everything else is untouched, and `offset` is the byte count so far. -/
theorem write_metadata_loop (cfg : Config) (s : MultiBuffer) (slice : Nat) (beams : MultiBeam)
    (beam_slice k : Nat) :
    forLoop k (fun b (acc : (Nat → Nat) × Nat) =>
      let num_particles := getNumParticles (beams b) beam_slice
      let metadata :=
        Function.update acc.1 (get_metadata_location s slice + (b + 1)) num_particles
      let offset :=
        acc.2 + round_up cfg num_particles * cfg.real_nattribs_in_buffer * cfg.sizeof_Real
      let offset :=
        offset + round_up cfg num_particles * cfg.int_nattribs_in_buffer * cfg.sizeof_int
      (metadata, offset)) (s.m_metadata, 0)
    = (fun j => if get_metadata_location s slice + 1 ≤ j ∧
          j < get_metadata_location s slice + 1 + k
        then getNumParticles (beams (j - (get_metadata_location s slice + 1))) beam_slice
        else s.m_metadata j,
       payload_bytes cfg beams beam_slice k) := by
  induction k with
  | zero =>
    simp only [forLoop, payload_bytes, Finset.range_zero, Finset.sum_empty, Prod.mk.injEq,
      and_true]
    funext j
    have : ¬ (get_metadata_location s slice + 1 ≤ j ∧ j < get_metadata_location s slice + 1 + 0) := by
      omega
    simp [this]
  | succ k ih =>
    rw [forLoop_succ, ih]
    simp only [payload_bytes, Finset.sum_range_succ, Prod.mk.injEq]
    refine ⟨?_, by ring⟩
    funext j
    by_cases hj : j = get_metadata_location s slice + (k + 1)
    · subst hj
      have h1 : get_metadata_location s slice + 1 ≤ get_metadata_location s slice + (k + 1) ∧
          get_metadata_location s slice + (k + 1) < get_metadata_location s slice + 1 + (k + 1) := by
        omega
      have h2 : get_metadata_location s slice + (k + 1) - (get_metadata_location s slice + 1) = k := by
        omega
      simp [h1, h2]
    · rw [Function.update_noteq hj]
      by_cases h3 : get_metadata_location s slice + 1 ≤ j ∧ j < get_metadata_location s slice + 1 + k
      · have h4 : get_metadata_location s slice + 1 ≤ j ∧
            j < get_metadata_location s slice + 1 + (k + 1) := by omega
        simp [h3, h4]
      · have h4 : ¬ (get_metadata_location s slice + 1 ≤ j ∧
            j < get_metadata_location s slice + 1 + (k + 1)) := by omega
        simp [h3, h4]

/-- Rows of different slices do not overlap in the flat metadata vector. -/
theorem metadata_rows_disjoint (s : MultiBuffer) (slice slice1 k j : Nat) (h : slice1 ≠ slice)
    (hk : k < get_metadata_size s) (hj : j < get_metadata_size s) :
    get_metadata_location s slice1 + k ≠ get_metadata_location s slice + j := by
  unfold get_metadata_location
  rcases Nat.lt_or_gt_of_ne h with h1 | h1
  · have := Nat.mul_le_mul_right (get_metadata_size s) (Nat.succ_le_of_lt h1)
    rw [Nat.succ_mul] at this
    omega
  · have := Nat.mul_le_mul_right (get_metadata_size s) (Nat.succ_le_of_lt h1)
    rw [Nat.succ_mul] at this
    omega

/-- Bounds on the word count `(B + w - 1) / w` in natural numbers. -/
theorem words_bounds (B w : Nat) (hw : 0 < w) :
    B ≤ (B + w - 1) / w * w ∧ ((B + w - 1) / w - 1) * w < B ∨
      (B + w - 1) / w = 0 ∧ B = 0 := by
  have h1 : B + w - 1 < (B + w - 1) / w * w + w := Nat.lt_div_mul_add hw
  have h2 : (B + w - 1) / w * w ≤ B + w - 1 := Nat.div_mul_le_self _ _
  have h5 : ((B + w - 1) / w - 1) * w = (B + w - 1) / w * w - w := by
    rw [Nat.sub_mul, Nat.one_mul]
  rw [h5]
  rcases Nat.eq_zero_or_pos ((B + w - 1) / w) with h0 | h0
  · right
    rw [h0] at h1
    omega
  · left
    have h6 : w ≤ (B + w - 1) / w * w := Nat.le_mul_of_pos_left _ h0
    omega

/-- The word count `(B + w - 1) / w` is the ceiling of `B / w`. -/
theorem words_eq_ceil (B w : Nat) (hw : 0 < w) : (B + w - 1) / w = ⌈(B : ℚ) / (w : ℚ)⌉₊ := by
  have hwq : (0 : ℚ) < (w : ℚ) := by exact_mod_cast hw
  rcases words_bounds B w hw with ⟨h1, h2⟩ | ⟨h1, h2⟩
  · apply le_antisymm
    · have h3 : (B + w - 1) / w - 1 < ⌈(B : ℚ) / (w : ℚ)⌉₊ := by
        rw [Nat.lt_ceil, lt_div_iff₀ hwq]
        exact_mod_cast h2
      omega
    · rw [Nat.ceil_le, div_le_iff₀ hwq]
      exact_mod_cast h1
  · rw [h1, h2]
    simp

/-! ## Metadata and layout -/

/-- What `write_metadata` leaves behind, and when it returns. -/
theorem write_metadata_facts (cfg : Config) (s : MultiBuffer) (slice : Nat) (beams : MultiBeam)
    (beam_slice : Nat) :
    ((payload_bytes cfg beams beam_slice s.m_nbeams + cfg.sizeof_storage_type - 1)
        / cfg.sizeof_storage_type < int_max →
      ∃ s1, write_metadata cfg s slice beams beam_slice = some s1 ∧
        (∀ b, b < s.m_nbeams →
          s1.m_metadata (get_metadata_location s slice + (b + 1))
            = getNumParticles (beams b) beam_slice) ∧
        s1.m_metadata (get_metadata_location s slice + 0)
          = (payload_bytes cfg beams beam_slice s.m_nbeams + cfg.sizeof_storage_type - 1)
              / cfg.sizeof_storage_type ∧
        (0 < cfg.sizeof_storage_type →
          s1.m_metadata (get_metadata_location s slice + 0)
            = ⌈(payload_bytes cfg beams beam_slice s.m_nbeams : ℚ)
                / (cfg.sizeof_storage_type : ℚ)⌉₊) ∧
        (s1.m_datanodes slice).m_buffer_size
          = s1.m_metadata (get_metadata_location s slice + 0) ∧
        (∀ slice1 k, slice1 ≠ slice → k < get_metadata_size s →
          s1.m_metadata (get_metadata_location s slice1 + k)
            = s.m_metadata (get_metadata_location s slice1 + k))) ∧
    (¬ (payload_bytes cfg beams beam_slice s.m_nbeams + cfg.sizeof_storage_type - 1)
        / cfg.sizeof_storage_type < int_max →
      write_metadata cfg s slice beams beam_slice = none) := by
  have hloop := write_metadata_loop cfg s slice beams beam_slice s.m_nbeams
  constructor
  · intro hlt
    unfold write_metadata
    simp only [hloop, Function.update_same]
    rw [if_pos hlt]
    refine ⟨_, rfl, ?_⟩
    · simp only [set_node, Function.update_same]
      refine ⟨?_, ?_, ?_, ?_, ?_⟩
      · intro b hb
        rw [Function.update_noteq (by omega)]
        have h1 : get_metadata_location s slice + 1 ≤ get_metadata_location s slice + (b + 1) ∧
            get_metadata_location s slice + (b + 1)
              < get_metadata_location s slice + 1 + s.m_nbeams := by omega
        have h2 : get_metadata_location s slice + (b + 1) - (get_metadata_location s slice + 1)
            = b := by omega
        simp only [h1, h2, and_self, if_true]
      · trivial
      · intro hw
        exact words_eq_ceil _ _ hw
      · trivial
      · intro slice1 k hne hk
        have hd := metadata_rows_disjoint s slice slice1 k
        rw [Function.update_noteq (hd 0 hne hk (by unfold get_metadata_size; omega))]
        have h3 : ¬ (get_metadata_location s slice + 1 ≤ get_metadata_location s slice1 + k ∧
            get_metadata_location s slice1 + k
              < get_metadata_location s slice + 1 + s.m_nbeams) := by
          intro h4
          exact hd (get_metadata_location s slice1 + k - get_metadata_location s slice) hne hk
            (by unfold get_metadata_size; omega) (by omega)
        simp only [h3, if_false]
  · intro hge
    unfold write_metadata
    simp only [hloop, Function.update_same]
    rw [if_neg hge]

/-- C3: `write_metadata` returns exactly when the word count is below the largest `int`, and
then the row of `slice` holds the live particle count of species `b` in element `b + 1` and
the ceiling of the padded byte count over the storage word size in element 0, the slot's
`m_buffer_size` equals element 0, and the rows of all other slices are unchanged. -/
theorem write_metadata_row (cfg : Config) (s : MultiBuffer) (slice : Nat) (beams : MultiBeam)
    (beam_slice : Nat) :
    ((payload_bytes cfg beams beam_slice s.m_nbeams + cfg.sizeof_storage_type - 1)
        / cfg.sizeof_storage_type < int_max →
      ∃ s1, write_metadata cfg s slice beams beam_slice = some s1 ∧
        (∀ b, b < s.m_nbeams →
          s1.m_metadata (get_metadata_location s slice + (b + 1))
            = getNumParticles (beams b) beam_slice) ∧
        s1.m_metadata (get_metadata_location s slice + 0)
          = (payload_bytes cfg beams beam_slice s.m_nbeams + cfg.sizeof_storage_type - 1)
              / cfg.sizeof_storage_type ∧
        (0 < cfg.sizeof_storage_type →
          s1.m_metadata (get_metadata_location s slice + 0)
            = ⌈(payload_bytes cfg beams beam_slice s.m_nbeams : ℚ)
                / (cfg.sizeof_storage_type : ℚ)⌉₊) ∧
        (s1.m_datanodes slice).m_buffer_size
          = s1.m_metadata (get_metadata_location s slice + 0) ∧
        (∀ slice1 k, slice1 ≠ slice → k < get_metadata_size s →
          s1.m_metadata (get_metadata_location s slice1 + k)
            = s.m_metadata (get_metadata_location s slice1 + k))) ∧
    (¬ (payload_bytes cfg beams beam_slice s.m_nbeams + cfg.sizeof_storage_type - 1)
        / cfg.sizeof_storage_type < int_max →
      write_metadata cfg s slice beams beam_slice = none) :=
  write_metadata_facts cfg s slice beams beam_slice

/-- C5: the padded attribute slots tile the buffer: the first real slot of the first species
starts at 0, consecutive real slots and consecutive integer slots of a species are one padded
slot apart, the integer slots start where the real slots end, and the next species starts
where the integer slots end. -/
theorem buffer_layout_contiguous (cfg : Config) (s : MultiBuffer) (slice b r i : Nat) :
    get_buffer_offset_real cfg s slice 0 0 = 0 ∧
    get_buffer_offset_real cfg s slice b (r + 1)
      = get_buffer_offset_real cfg s slice b r
        + round_up cfg (s.m_metadata (get_metadata_location s slice + (b + 1)))
          * cfg.sizeof_Real ∧
    get_buffer_offset_int cfg s slice b 0
      = get_buffer_offset_real cfg s slice b cfg.real_nattribs_in_buffer ∧
    get_buffer_offset_int cfg s slice b (i + 1)
      = get_buffer_offset_int cfg s slice b i
        + round_up cfg (s.m_metadata (get_metadata_location s slice + (b + 1)))
          * cfg.sizeof_int ∧
    get_buffer_offset_real cfg s slice (b + 1) 0
      = get_buffer_offset_int cfg s slice b cfg.int_nattribs_in_buffer := by
  refine ⟨?_, ?_, ?_, ?_, ?_⟩
  · simp [get_buffer_offset_real, species_offset, forLoop]
  · simp only [get_buffer_offset_real]
    ring
  · simp only [get_buffer_offset_int, get_buffer_offset_real]
    ring
  · simp only [get_buffer_offset_int]
    ring
  · simp only [get_buffer_offset_int, get_buffer_offset_real, species_offset_succ]
    ring

/-- C4 (as amended): in the two-species example (granularity 8, 2 real and 1 integer in-buffer
attribute, 3 and 0 particles) `write_metadata` writes the row `[w, 3, 0]` with
`w = ceil((16 * sizeof(Real) + 8 * sizeof(int)) / sizeof(storage_type))` whenever that is
below the largest `int`; when reals, integers and storage words have one common size this is
the row `[24, 3, 0]`. -/
theorem spec_example_row (cfg : Config) (s : MultiBuffer) (slice : Nat) (beams : MultiBeam)
    (beam_slice : Nat) (hR : cfg.buffer_size_roundup = 8)
    (hr : cfg.real_nattribs_in_buffer = 2) (hi : cfg.int_nattribs_in_buffer = 1)
    (hn : s.m_nbeams = 2) (hA : getNumParticles (beams 0) beam_slice = 3)
    (hB : getNumParticles (beams 1) beam_slice = 0) :
    ((16 * cfg.sizeof_Real + 8 * cfg.sizeof_int + cfg.sizeof_storage_type - 1)
        / cfg.sizeof_storage_type < int_max →
      ∃ s1, write_metadata cfg s slice beams beam_slice = some s1 ∧
        [s1.m_metadata (get_metadata_location s slice + 0),
          s1.m_metadata (get_metadata_location s slice + 1),
          s1.m_metadata (get_metadata_location s slice + 2)]
          = [(16 * cfg.sizeof_Real + 8 * cfg.sizeof_int + cfg.sizeof_storage_type - 1)
              / cfg.sizeof_storage_type, 3, 0] ∧
        (s1.m_datanodes slice).m_buffer_size
          = (16 * cfg.sizeof_Real + 8 * cfg.sizeof_int + cfg.sizeof_storage_type - 1)
              / cfg.sizeof_storage_type) ∧
    (cfg.sizeof_Real = cfg.sizeof_storage_type → cfg.sizeof_int = cfg.sizeof_storage_type →
      0 < cfg.sizeof_storage_type →
      ∃ s1, write_metadata cfg s slice beams beam_slice = some s1 ∧
        [s1.m_metadata (get_metadata_location s slice + 0),
          s1.m_metadata (get_metadata_location s slice + 1),
          s1.m_metadata (get_metadata_location s slice + 2)] = [24, 3, 0] ∧
        (s1.m_datanodes slice).m_buffer_size = 24) := by
  have hB8 : payload_bytes cfg beams beam_slice s.m_nbeams
      = 16 * cfg.sizeof_Real + 8 * cfg.sizeof_int := by
    have h3 : round_up cfg 3 = 8 := by simp [round_up, hR]
    have h0 : round_up cfg 0 = 0 := by simp [round_up, hR]
    simp only [payload_bytes, hn, Finset.sum_range_succ, Finset.sum_range_zero, hA, hB, h3, h0,
      hr, hi]
    ring
  have key : (16 * cfg.sizeof_Real + 8 * cfg.sizeof_int + cfg.sizeof_storage_type - 1)
        / cfg.sizeof_storage_type < int_max →
      ∃ s1, write_metadata cfg s slice beams beam_slice = some s1 ∧
        [s1.m_metadata (get_metadata_location s slice + 0),
          s1.m_metadata (get_metadata_location s slice + 1),
          s1.m_metadata (get_metadata_location s slice + 2)]
          = [(16 * cfg.sizeof_Real + 8 * cfg.sizeof_int + cfg.sizeof_storage_type - 1)
              / cfg.sizeof_storage_type, 3, 0] ∧
        (s1.m_datanodes slice).m_buffer_size
          = (16 * cfg.sizeof_Real + 8 * cfg.sizeof_int + cfg.sizeof_storage_type - 1)
              / cfg.sizeof_storage_type := by
    intro hlt
    have hf := (write_metadata_facts cfg s slice beams beam_slice).1
    rw [hB8] at hf
    obtain ⟨s1, h1, h2, h3, -, h5, -⟩ := hf hlt
    refine ⟨s1, h1, ?_, ?_⟩
    · have e1 := h2 0 (by omega)
      have e2 := h2 1 (by omega)
      simp only [hA, hB, zero_add] at e1 e2
      rw [h3, e1, e2]
    · rw [h5, h3]
  refine ⟨key, ?_⟩
  intro e1 e2 hw
  have h24 : (16 * cfg.sizeof_Real + 8 * cfg.sizeof_int + cfg.sizeof_storage_type - 1)
      / cfg.sizeof_storage_type = 24 := by
    rw [e1, e2]
    apply Nat.div_eq_of_lt_le
    · omega
    · omega
  rw [h24] at key
  exact key (by decide)

/-- Witness of `spec_example_row`: the 4-byte build of the example. -/
theorem spec_example_row_witness :
    ∃ s1, write_metadata example_cfg example_state 1 example_beams 0 = some s1 ∧
      [s1.m_metadata (get_metadata_location example_state 1 + 0),
        s1.m_metadata (get_metadata_location example_state 1 + 1),
        s1.m_metadata (get_metadata_location example_state 1 + 2)] = [24, 3, 0] ∧
      (s1.m_datanodes 1).m_buffer_size = 24 :=
  (spec_example_row example_cfg example_state 1 example_beams 0 rfl rfl rfl rfl rfl rfl).2
    rfl rfl (by decide)

/-- C4 counterexample: in the double-precision build of the example (8-byte reals and storage
words, 4-byte integers; granularity 8, 2 real and 1 integer in-buffer attribute, 3 and 0
particles) `write_metadata` computes 20 storage words and the row `[20, 3, 0]`, not
`[24, 3, 0]`. -/
theorem spec_example_double_precision :
    (example_cfg_double.buffer_size_roundup = 8 ∧
      example_cfg_double.real_nattribs_in_buffer = 2 ∧
      example_cfg_double.int_nattribs_in_buffer = 1 ∧
      example_state.m_nbeams = 2 ∧
      getNumParticles (example_beams 0) 0 = 3 ∧ getNumParticles (example_beams 1) 0 = 0) ∧
    (write_metadata example_cfg_double example_state 1 example_beams 0).map
        (fun s1 => ([s1.m_metadata (get_metadata_location example_state 1 + 0),
          s1.m_metadata (get_metadata_location example_state 1 + 1),
          s1.m_metadata (get_metadata_location example_state 1 + 2)],
          (s1.m_datanodes 1).m_buffer_size))
      = some ([20, 3, 0], 20) := by
  decide

end Hipace

namespace Hipace

/-! ## Codec lemmas -/

/-- A loop that rewrites entry `k` of an indexed family in iteration `k`. -/
theorem forLoop_update_apply {α : Type} (n : Nat) (g : Nat → α → α) (init : Nat → α)
    (c : Nat) :
    forLoop n (fun k (f : Nat → α) => Function.update f k (g k (f k))) init c
      = if c < n then g c (init c) else init c := by
  induction n with
  | zero => simp [forLoop]
  | succ n ih =>
    rw [forLoop_succ]
    by_cases hc : c = n
    · subst hc
      simp only [Function.update_same, ih, lt_irrefl, if_false]
      simp
    · rw [Function.update_noteq hc, ih]
      by_cases h1 : c < n
      · have h2 : c < n + 1 := by omega
        simp [h1, h2]
      · have h2 : ¬ c < n + 1 := by omega
        simp [h1, h2]

/-- A loop that rewrites entry `lo + k` of an indexed family in iteration `k`. -/
theorem forLoop_update_shift_apply {α : Type} (n lo : Nat) (g : Nat → α → α)
    (init : Nat → α) (c : Nat) :
    forLoop n (fun k (f : Nat → α) => Function.update f (lo + k) (g (lo + k) (f (lo + k))))
        init c
      = if lo ≤ c ∧ c < lo + n then g c (init c) else init c := by
  induction n with
  | zero =>
    have h1 : ¬ (lo ≤ c ∧ c < lo + 0) := by omega
    rw [if_neg h1]
    rfl
  | succ n ih =>
    rw [forLoop_succ]
    by_cases hc : c = lo + n
    · subst hc
      have h1 : ¬ (lo ≤ lo + n ∧ lo + n < lo + n) := by omega
      have h2 : lo ≤ lo + n ∧ lo + n < lo + (n + 1) := by omega
      rw [Function.update_same, ih, if_neg h1, if_pos h2]
    · rw [Function.update_noteq hc, ih]
      by_cases h1 : lo ≤ c ∧ c < lo + n
      · have h2 : lo ≤ c ∧ c < lo + (n + 1) := by omega
        rw [if_pos h1, if_pos h2]
      · have h2 : ¬ (lo ≤ c ∧ c < lo + (n + 1)) := by omega
        rw [if_neg h1, if_neg h2]

/-- The tile that `unpack_beam` leaves at `beam_slice`. -/
theorem unpack_beam_tile (cfg : Config) (s : MultiBuffer) (slice : Nat) (buffer : Mem)
    (beam_slice b : Nat) (beam : BeamParticleContainer) :
    (unpack_beam cfg s slice buffer beam_slice b beam beam_slice).num_particles
        = s.m_metadata (get_metadata_location s slice + (b + 1)) ∧
    (∀ rcomp, rcomp < cfg.real_nattribs_in_buffer →
      (unpack_beam cfg s slice buffer beam_slice b beam beam_slice).real_data rcomp
        = memcpy ((beam beam_slice).real_data rcomp) 0 buffer
            (get_buffer_offset_real cfg s slice b rcomp)
            (s.m_metadata (get_metadata_location s slice + (b + 1)) * cfg.sizeof_Real)) ∧
    (∀ rcomp, cfg.real_nattribs_in_buffer ≤ rcomp → rcomp < cfg.real_nattribs →
      (unpack_beam cfg s slice buffer beam_slice b beam beam_slice).real_data rcomp
        = zero_fill ((beam beam_slice).real_data rcomp)
            (s.m_metadata (get_metadata_location s slice + (b + 1))) cfg.sizeof_Real) ∧
    (∀ icomp, icomp < cfg.int_nattribs_in_buffer →
      (unpack_beam cfg s slice buffer beam_slice b beam beam_slice).int_data icomp
        = memcpy ((beam beam_slice).int_data icomp) 0 buffer
            (get_buffer_offset_int cfg s slice b icomp)
            (s.m_metadata (get_metadata_location s slice + (b + 1)) * cfg.sizeof_int)) ∧
    (∀ icomp, cfg.int_nattribs_in_buffer ≤ icomp → icomp < cfg.int_nattribs →
      (unpack_beam cfg s slice buffer beam_slice b beam beam_slice).int_data icomp
        = zero_fill ((beam beam_slice).int_data icomp)
            (s.m_metadata (get_metadata_location s slice + (b + 1))) cfg.sizeof_int) := by
  refine ⟨?_, ?_, ?_, ?_, ?_⟩
  · simp [unpack_beam, resize]
  · intro rcomp h
    have h1 : ¬ (cfg.real_nattribs_in_buffer ≤ rcomp ∧
        rcomp < cfg.real_nattribs_in_buffer
          + (cfg.real_nattribs - cfg.real_nattribs_in_buffer)) := by omega
    simp only [unpack_beam, resize, Function.update_same]
    rw [forLoop_update_shift_apply _ _
      (fun _ m => zero_fill m (s.m_metadata (get_metadata_location s slice + (b + 1)))
        cfg.sizeof_Real), if_neg h1,
      forLoop_update_apply _
        (fun rcomp m => memcpy m 0 buffer (get_buffer_offset_real cfg s slice b rcomp)
          (s.m_metadata (get_metadata_location s slice + (b + 1)) * cfg.sizeof_Real)), if_pos h]
  · intro rcomp h h2
    have h1 : cfg.real_nattribs_in_buffer ≤ rcomp ∧
        rcomp < cfg.real_nattribs_in_buffer
          + (cfg.real_nattribs - cfg.real_nattribs_in_buffer) := by omega
    have h3 : ¬ rcomp < cfg.real_nattribs_in_buffer := by omega
    simp only [unpack_beam, resize, Function.update_same]
    rw [forLoop_update_shift_apply _ _
      (fun _ m => zero_fill m (s.m_metadata (get_metadata_location s slice + (b + 1)))
        cfg.sizeof_Real), if_pos h1,
      forLoop_update_apply _
        (fun rcomp m => memcpy m 0 buffer (get_buffer_offset_real cfg s slice b rcomp)
          (s.m_metadata (get_metadata_location s slice + (b + 1)) * cfg.sizeof_Real)), if_neg h3]
  · intro icomp h
    have h1 : ¬ (cfg.int_nattribs_in_buffer ≤ icomp ∧
        icomp < cfg.int_nattribs_in_buffer
          + (cfg.int_nattribs - cfg.int_nattribs_in_buffer)) := by omega
    simp only [unpack_beam, resize, Function.update_same]
    rw [forLoop_update_shift_apply _ _
      (fun _ m => zero_fill m (s.m_metadata (get_metadata_location s slice + (b + 1)))
        cfg.sizeof_int), if_neg h1,
      forLoop_update_apply _
        (fun icomp m => memcpy m 0 buffer (get_buffer_offset_int cfg s slice b icomp)
          (s.m_metadata (get_metadata_location s slice + (b + 1)) * cfg.sizeof_int)), if_pos h]
  · intro icomp h h2
    have h1 : cfg.int_nattribs_in_buffer ≤ icomp ∧
        icomp < cfg.int_nattribs_in_buffer
          + (cfg.int_nattribs - cfg.int_nattribs_in_buffer) := by omega
    have h3 : ¬ icomp < cfg.int_nattribs_in_buffer := by omega
    simp only [unpack_beam, resize, Function.update_same]
    rw [forLoop_update_shift_apply _ _
      (fun _ m => zero_fill m (s.m_metadata (get_metadata_location s slice + (b + 1)))
        cfg.sizeof_int), if_pos h1,
      forLoop_update_apply _
        (fun icomp m => memcpy m 0 buffer (get_buffer_offset_int cfg s slice b icomp)
          (s.m_metadata (get_metadata_location s slice + (b + 1)) * cfg.sizeof_int)), if_neg h3]

/-- What `unpack_data` returns when the slot has storage. -/
theorem unpack_data_some (cfg : Config) (s : MultiBuffer) (slice : Nat) (beams : MultiBeam)
    (beam_slice : Nat) (buffer : Mem) (hbuf : (s.m_datanodes slice).m_buffer = some buffer) :
    ∃ beams1, unpack_data cfg s slice beams beam_slice = some beams1 ∧
      ∀ b, b < s.m_nbeams →
        beams1 b = unpack_beam cfg s slice buffer beam_slice b (beams b) := by
  unfold unpack_data
  rw [hbuf]
  refine ⟨_, rfl, ?_⟩
  intro b hb
  rw [forLoop_update_apply _ (fun b beam => unpack_beam cfg s slice buffer beam_slice b beam),
    if_pos hb]

/-- An element all of whose bytes are zero. -/
theorem element_zero_fill (data : Mem) (n size i : Nat) (hi : i < n) :
    element (zero_fill data n size) size i = List.replicate size 0 := by
  rw [List.eq_replicate_iff]
  refine ⟨by simp [element], ?_⟩
  intro x hx
  simp only [element, List.mem_map, List.mem_range] at hx
  obtain ⟨k, hk, rfl⟩ := hx
  have h1 : i * size + k < n * size := by
    have := Nat.mul_le_mul_right size (Nat.succ_le_of_lt hi)
    rw [Nat.succ_mul] at this
    omega
  simp [zero_fill, h1]

/-- C2: when `unpack_data` runs on a slot with storage, it returns, and for every species
every real attribute from `real_nattribs_in_buffer` up to `real_nattribs` and every integer
attribute from `int_nattribs_in_buffer` up to `int_nattribs` is zero on all entries below the
received particle count `metadata[b+1]`, whatever the arrays held before. -/
theorem unpack_zero_fills (cfg : Config) (s : MultiBuffer) (slice : Nat) (beams : MultiBeam)
    (beam_slice : Nat) (buffer : Mem) (hbuf : (s.m_datanodes slice).m_buffer = some buffer) :
    ∃ beams1, unpack_data cfg s slice beams beam_slice = some beams1 ∧
      ∀ b, b < s.m_nbeams →
        (∀ rcomp i, cfg.real_nattribs_in_buffer ≤ rcomp → rcomp < cfg.real_nattribs →
          i < s.m_metadata (get_metadata_location s slice + (b + 1)) →
          element ((beams1 b beam_slice).real_data rcomp) cfg.sizeof_Real i
            = List.replicate cfg.sizeof_Real 0) ∧
        (∀ icomp i, cfg.int_nattribs_in_buffer ≤ icomp → icomp < cfg.int_nattribs →
          i < s.m_metadata (get_metadata_location s slice + (b + 1)) →
          element ((beams1 b beam_slice).int_data icomp) cfg.sizeof_int i
            = List.replicate cfg.sizeof_int 0) := by
  obtain ⟨beams1, h1, h2⟩ := unpack_data_some cfg s slice beams beam_slice buffer hbuf
  refine ⟨beams1, h1, ?_⟩
  intro b hb
  obtain ⟨-, -, hr, -, hi⟩ := unpack_beam_tile cfg s slice buffer beam_slice b (beams b)
  rw [h2 b hb]
  constructor
  · intro rcomp i h3 h4 h5
    rw [hr rcomp h3 h4]
    exact element_zero_fill _ _ _ _ h5
  · intro icomp i h3 h4 h5
    rw [hi icomp h3 h4]
    exact element_zero_fill _ _ _ _ h5

end Hipace

namespace Hipace

/-! ## Layout arithmetic -/

theorem le_round_up (cfg : Config) (n : Nat) (hR : 0 < cfg.buffer_size_roundup) :
    n ≤ round_up cfg n := by
  unfold round_up
  have h1 := @Nat.lt_div_mul_add (n + cfg.buffer_size_roundup - 1) cfg.buffer_size_roundup hR
  generalize (n + cfg.buffer_size_roundup - 1) / cfg.buffer_size_roundup
    * cfg.buffer_size_roundup = m at h1 ⊢
  omega

/-- A region of `n * size` bytes in slot `c` of consecutive slots of `ru * size` bytes ends
before slot `c1` starts, for `c < c1`. -/
theorem slot_end_le (ru n size c c1 : Nat) (hn : n ≤ ru) (hc : c < c1) :
    ru * c * size + n * size ≤ ru * c1 * size := by
  have h1 : ru * c * size + ru * size = ru * (c + 1) * size := by ring
  have h2 : ru * (c + 1) * size ≤ ru * c1 * size :=
    Nat.mul_le_mul_right _ (Nat.mul_le_mul_left _ hc)
  have h3 : n * size ≤ ru * size := Nat.mul_le_mul_right _ hn
  omega

theorem species_offset_mono (cfg : Config) (s : MultiBuffer) (slice : Nat) {b b1 : Nat}
    (h : b ≤ b1) : species_offset cfg s slice b ≤ species_offset cfg s slice b1 := by
  induction b1 with
  | zero =>
    have : b = 0 := by omega
    rw [this]
  | succ k ih =>
    rcases Nat.eq_or_lt_of_le h with h1 | h1
    · rw [h1]
    · have := ih (by omega)
      rw [species_offset_succ]
      omega

/-- Region of real attribute `r` of species `b` ends before the next real slot. -/
theorem real_region_le_real (cfg : Config) (s : MultiBuffer) (slice b r r1 : Nat)
    (hR : 0 < cfg.buffer_size_roundup) (h : r < r1) :
    get_buffer_offset_real cfg s slice b r
        + s.m_metadata (get_metadata_location s slice + (b + 1)) * cfg.sizeof_Real
      ≤ get_buffer_offset_real cfg s slice b r1 := by
  unfold get_buffer_offset_real
  have := slot_end_le _ _ cfg.sizeof_Real r r1
    (le_round_up cfg (s.m_metadata (get_metadata_location s slice + (b + 1))) hR) h
  omega

/-- Region of a real attribute of species `b` ends before the integer slots start. -/
theorem real_region_le_int (cfg : Config) (s : MultiBuffer) (slice b r : Nat)
    (hR : 0 < cfg.buffer_size_roundup) (h : r < cfg.real_nattribs_in_buffer) :
    get_buffer_offset_real cfg s slice b r
        + s.m_metadata (get_metadata_location s slice + (b + 1)) * cfg.sizeof_Real
      ≤ get_buffer_offset_int cfg s slice b 0 := by
  have h1 := real_region_le_real cfg s slice b r cfg.real_nattribs_in_buffer hR h
  have h2 : get_buffer_offset_int cfg s slice b 0
      = get_buffer_offset_real cfg s slice b cfg.real_nattribs_in_buffer := by
    simp only [get_buffer_offset_int, get_buffer_offset_real]
    ring
  omega

/-- Region of integer attribute `i` of species `b` ends before the next integer slot. -/
theorem int_region_le_int (cfg : Config) (s : MultiBuffer) (slice b i i1 : Nat)
    (hR : 0 < cfg.buffer_size_roundup) (h : i < i1) :
    get_buffer_offset_int cfg s slice b i
        + s.m_metadata (get_metadata_location s slice + (b + 1)) * cfg.sizeof_int
      ≤ get_buffer_offset_int cfg s slice b i1 := by
  unfold get_buffer_offset_int
  have := slot_end_le _ _ cfg.sizeof_int i i1
    (le_round_up cfg (s.m_metadata (get_metadata_location s slice + (b + 1))) hR) h
  omega

/-- Region of an integer attribute of species `b` ends before the next species starts. -/
theorem int_region_le_species (cfg : Config) (s : MultiBuffer) (slice b i : Nat)
    (hR : 0 < cfg.buffer_size_roundup) (h : i < cfg.int_nattribs_in_buffer) :
    get_buffer_offset_int cfg s slice b i
        + s.m_metadata (get_metadata_location s slice + (b + 1)) * cfg.sizeof_int
      ≤ species_offset cfg s slice (b + 1) := by
  have h1 := int_region_le_int cfg s slice b i cfg.int_nattribs_in_buffer hR h
  have h2 : get_buffer_offset_int cfg s slice b cfg.int_nattribs_in_buffer
      = species_offset cfg s slice (b + 1) := by
    simp only [get_buffer_offset_int, species_offset_succ]
  omega

theorem species_le_real (cfg : Config) (s : MultiBuffer) (slice b r : Nat) :
    species_offset cfg s slice b ≤ get_buffer_offset_real cfg s slice b r := by
  unfold get_buffer_offset_real
  omega

theorem species_le_int (cfg : Config) (s : MultiBuffer) (slice b i : Nat) :
    species_offset cfg s slice b ≤ get_buffer_offset_int cfg s slice b i := by
  unfold get_buffer_offset_int
  omega

/-- Offsets depend on the state only through the particle counts of the row. -/
theorem species_offset_congr (cfg : Config) (s r : MultiBuffer) (slice slice_r k : Nat)
    (h : ∀ b, b < k → r.m_metadata (get_metadata_location r slice_r + (b + 1))
      = s.m_metadata (get_metadata_location s slice + (b + 1))) :
    species_offset cfg r slice_r k = species_offset cfg s slice k := by
  induction k with
  | zero => rfl
  | succ k ih =>
    rw [species_offset_succ, species_offset_succ, ih (fun b hb => h b (by omega)),
      h k (by omega)]

/-- The bytes of all species together are the spec's padded byte count. -/
theorem species_offset_eq_payload (cfg : Config) (s : MultiBuffer) (slice : Nat)
    (beams : MultiBeam) (beam_slice k : Nat)
    (h : ∀ b, b < k → s.m_metadata (get_metadata_location s slice + (b + 1))
      = getNumParticles (beams b) beam_slice) :
    species_offset cfg s slice k = payload_bytes cfg beams beam_slice k := by
  induction k with
  | zero => simp [species_offset, forLoop, payload_bytes]
  | succ k ih =>
    rw [species_offset_succ, ih (fun b hb => h b (by omega)), h k (by omega)]
    simp only [payload_bytes, Finset.sum_range_succ]
    ring

/-! ## Sequential copies into a buffer -/

/-- Copies into regions that start at increasing offsets `off 0, off 1, ...`, each region
ending before the next one starts: bytes before the first region are untouched, and each
region ends up holding its source. -/
theorem forLoop_memcpy (off : Nat → Nat) (len : Nat) (src : Nat → Mem)
    (hmono : ∀ r r1, r < r1 → off r + len ≤ off r1) (j : Nat) (buffer : Mem) :
    (∀ x, (∀ r, r < j → x < off r) →
      forLoop j (fun r buffer => memcpy buffer (off r) (src r) 0 len) buffer x = buffer x) ∧
    (∀ r a, r < j → a < len →
      forLoop j (fun r buffer => memcpy buffer (off r) (src r) 0 len) buffer (off r + a)
        = src r a) := by
  induction j with
  | zero =>
    exact ⟨fun x _ => rfl, fun r a hr _ => absurd hr (Nat.not_lt_zero r)⟩
  | succ j ih =>
    obtain ⟨ih1, ih2⟩ := ih
    constructor
    · intro x hx
      rw [forLoop_succ]
      have h1 := hx j (by omega)
      have h2 : ¬ (off j ≤ x ∧ x < off j + len) := by omega
      simp only [memcpy, h2, if_false]
      exact ih1 x (fun r hr => hx r (by omega))
    · intro r a hr ha
      rw [forLoop_succ]
      rcases Nat.eq_or_lt_of_le (Nat.le_of_lt_succ hr) with h1 | h1
      · subst h1
        have h2 : off r ≤ off r + a ∧ off r + a < off r + len := by omega
        simp only [memcpy, h2, and_self, if_true]
        congr 1
        omega
      · have h3 := hmono r j h1
        have h2 : ¬ (off j ≤ off r + a ∧ off r + a < off j + len) := by omega
        simp only [memcpy, h2, if_false]
        exact ih2 r a h1 ha

end Hipace

namespace Hipace

/-- Region of a real attribute of species `b` ends before the next species starts. -/
theorem real_region_le_species (cfg : Config) (s : MultiBuffer) (slice b r : Nat)
    (hR : 0 < cfg.buffer_size_roundup) (h : r < cfg.real_nattribs_in_buffer) :
    get_buffer_offset_real cfg s slice b r
        + s.m_metadata (get_metadata_location s slice + (b + 1)) * cfg.sizeof_Real
      ≤ species_offset cfg s slice (b + 1) := by
  have h1 := real_region_le_real cfg s slice b r cfg.real_nattribs_in_buffer hR h
  rw [species_offset_succ]
  unfold get_buffer_offset_real at h1 ⊢
  omega

/-- What the species body of `pack_data` does to the buffer. -/
theorem pack_species_facts (cfg : Config) (s : MultiBuffer) (slice : Nat) (beams : MultiBeam)
    (beam_slice b : Nat) (buffer : Mem) (hR : 0 < cfg.buffer_size_roundup)
    (hrow : s.m_metadata (get_metadata_location s slice + (b + 1))
      = getNumParticles (beams b) beam_slice) :
    (∀ x, x < species_offset cfg s slice b →
      pack_species cfg s slice beams beam_slice b buffer x = buffer x) ∧
    (∀ r a, r < cfg.real_nattribs_in_buffer →
      a < getNumParticles (beams b) beam_slice * cfg.sizeof_Real →
      pack_species cfg s slice beams beam_slice b buffer
          (get_buffer_offset_real cfg s slice b r + a)
        = (beams b beam_slice).real_data r a) ∧
    (∀ i a, i < cfg.int_nattribs_in_buffer →
      a < getNumParticles (beams b) beam_slice * cfg.sizeof_int →
      pack_species cfg s slice beams beam_slice b buffer
          (get_buffer_offset_int cfg s slice b i + a)
        = (beams b beam_slice).int_data i a) := by
  have hreal := forLoop_memcpy (fun r => get_buffer_offset_real cfg s slice b r)
    (getNumParticles (beams b) beam_slice * cfg.sizeof_Real) (beams b beam_slice).real_data
    (fun r r1 h => by
      have := real_region_le_real cfg s slice b r r1 hR h
      rw [hrow] at this
      exact this)
    cfg.real_nattribs_in_buffer buffer
  have hint := forLoop_memcpy (fun i => get_buffer_offset_int cfg s slice b i)
    (getNumParticles (beams b) beam_slice * cfg.sizeof_int) (beams b beam_slice).int_data
    (fun i i1 h => by
      have := int_region_le_int cfg s slice b i i1 hR h
      rw [hrow] at this
      exact this)
    cfg.int_nattribs_in_buffer
    (forLoop cfg.real_nattribs_in_buffer (fun rcomp buffer =>
      memcpy buffer (get_buffer_offset_real cfg s slice b rcomp)
        ((beams b beam_slice).real_data rcomp) 0
        (getNumParticles (beams b) beam_slice * cfg.sizeof_Real)) buffer)
  refine ⟨?_, ?_, ?_⟩
  · intro x hx
    simp only [pack_species]
    rw [hint.1 x (fun i _ => lt_of_lt_of_le hx (species_le_int cfg s slice b i)),
      hreal.1 x (fun r _ => lt_of_lt_of_le hx (species_le_real cfg s slice b r))]
  · intro r a hr ha
    simp only [pack_species]
    have h1 := real_region_le_int cfg s slice b r hR hr
    rw [hrow] at h1
    rw [hint.1 _ (fun i _ => by
      have h2 : get_buffer_offset_int cfg s slice b 0 ≤ get_buffer_offset_int cfg s slice b i := by
        unfold get_buffer_offset_int
        omega
      omega)]
    exact hreal.2 r a hr ha
  · intro i a hi ha
    simp only [pack_species]
    exact hint.2 i a hi ha

/-- What the species loop of `pack_data` leaves in the buffer. -/
theorem pack_loop_facts (cfg : Config) (s : MultiBuffer) (slice : Nat) (beams : MultiBeam)
    (beam_slice : Nat) (buffer : Mem) (hR : 0 < cfg.buffer_size_roundup) (k : Nat)
    (hrow : ∀ b, b < k → s.m_metadata (get_metadata_location s slice + (b + 1))
      = getNumParticles (beams b) beam_slice) :
    ∀ b, b < k →
      (∀ r a, r < cfg.real_nattribs_in_buffer →
        a < getNumParticles (beams b) beam_slice * cfg.sizeof_Real →
        forLoop k (pack_species cfg s slice beams beam_slice) buffer
            (get_buffer_offset_real cfg s slice b r + a)
          = (beams b beam_slice).real_data r a) ∧
      (∀ i a, i < cfg.int_nattribs_in_buffer →
        a < getNumParticles (beams b) beam_slice * cfg.sizeof_int →
        forLoop k (pack_species cfg s slice beams beam_slice) buffer
            (get_buffer_offset_int cfg s slice b i + a)
          = (beams b beam_slice).int_data i a) := by
  induction k with
  | zero => exact fun b hb => absurd hb (Nat.not_lt_zero b)
  | succ k ih =>
    intro b hb
    obtain ⟨p1, p2, p3⟩ := pack_species_facts cfg s slice beams beam_slice k
      (forLoop k (pack_species cfg s slice beams beam_slice) buffer) hR (hrow k (by omega))
    rw [forLoop_succ]
    rcases Nat.eq_or_lt_of_le (Nat.le_of_lt_succ hb) with h1 | h1
    · subst h1
      exact ⟨p2, p3⟩
    · obtain ⟨q1, q2⟩ := ih (fun b hb => hrow b (by omega)) b h1
      have hm : species_offset cfg s slice (b + 1) ≤ species_offset cfg s slice k :=
        species_offset_mono cfg s slice h1
      constructor
      · intro r a hr ha
        have h2 := real_region_le_species cfg s slice b r hR hr
        rw [hrow b hb] at h2
        rw [p1 _ (by omega)]
        exact q1 r a hr ha
      · intro i a hi ha
        have h2 := int_region_le_species cfg s slice b i hR hi
        rw [hrow b hb] at h2
        rw [p1 _ (by omega)]
        exact q2 i a hi ha

/-- Except for the row of `slice` and the slot's `m_buffer_size`, `write_metadata` changes
nothing. -/
theorem write_metadata_frame (cfg : Config) (s : MultiBuffer) (slice : Nat) (beams : MultiBeam)
    (beam_slice : Nat) (s1 : MultiBuffer)
    (h : write_metadata cfg s slice beams beam_slice = some s1) :
    s1.m_nslices = s.m_nslices ∧ s1.m_nbeams = s.m_nbeams ∧
    s1.m_buffer_on_host = s.m_buffer_on_host ∧ s1.m_rank_send_to = s.m_rank_send_to ∧
    s1.m_rank_receive_from = s.m_rank_receive_from ∧ s1.m_is_head_rank = s.m_is_head_rank ∧
    s1.m_tag_buffer_start = s.m_tag_buffer_start ∧
    s1.m_tag_metadata_start = s.m_tag_metadata_start ∧ s1.trace = s.trace ∧
    (∀ j, j ≠ slice → s1.m_datanodes j = s.m_datanodes j) ∧
    (s1.m_datanodes slice).m_buffer = (s.m_datanodes slice).m_buffer ∧
    (s1.m_datanodes slice).m_location = (s.m_datanodes slice).m_location ∧
    (s1.m_datanodes slice).m_progress = (s.m_datanodes slice).m_progress ∧
    (s1.m_datanodes slice).m_metadata_progress = (s.m_datanodes slice).m_metadata_progress := by
  unfold write_metadata at h
  simp only [] at h
  split at h
  · injection h with h
    subst h
    refine ⟨rfl, rfl, rfl, rfl, rfl, rfl, rfl, rfl, rfl, ?_, ?_, ?_, ?_, ?_⟩
    · intro j hj
      simp [set_node, Function.update_noteq hj]
    all_goals simp [set_node]
  · exact absurd h (by simp)

end Hipace

namespace Hipace

/-- The row start of a slice depends on the state only through the species count. -/
theorem get_metadata_location_congr (s r : MultiBuffer) (slice : Nat)
    (h : r.m_nbeams = s.m_nbeams) :
    get_metadata_location r slice = get_metadata_location s slice := by
  simp [get_metadata_location, get_metadata_size, h]

/-- When `allocate_buffer` succeeds and what it changes. -/
theorem allocate_buffer_some (cfg : Config) (s : MultiBuffer) (slice : Nat) (fresh : Mem)
    (hloc : (s.m_datanodes slice).m_location = memory_location.nowhere) :
    ∃ s2, allocate_buffer cfg s slice fresh = some s2 ∧
      s2.m_metadata = s.m_metadata ∧ s2.m_nbeams = s.m_nbeams ∧
      s2.m_nslices = s.m_nslices ∧
      (s2.m_datanodes slice).m_buffer = some fresh ∧
      (s2.m_datanodes slice).m_buffer_size = (s.m_datanodes slice).m_buffer_size ∧
      (s2.m_datanodes slice).m_progress = (s.m_datanodes slice).m_progress ∧
      (s2.m_datanodes slice).m_metadata_progress = (s.m_datanodes slice).m_metadata_progress ∧
      (s2.m_datanodes slice).m_location
        = (if s.m_buffer_on_host then memory_location.pinned else memory_location.device) ∧
      (∀ j, j ≠ slice → s2.m_datanodes j = s.m_datanodes j) ∧
      s2.trace = s.trace ++ [Event.alloc slice
        ((s.m_datanodes slice).m_buffer_size * cfg.sizeof_storage_type)
        (if s.m_buffer_on_host then memory_location.pinned else memory_location.device)] := by
  unfold allocate_buffer
  rw [if_pos hloc]
  cases hb : s.m_buffer_on_host
  · refine ⟨_, rfl, rfl, rfl, rfl, ?_, ?_, ?_, ?_, ?_, ?_, ?_⟩
    · simp [set_node]
    · simp [set_node, emit]
    · simp [set_node, emit]
    · simp [set_node, emit]
    · simp [set_node]
    · intro j hj
      simp [set_node, emit, Function.update_noteq hj]
    · simp [set_node, emit]
  · refine ⟨_, rfl, rfl, rfl, rfl, ?_, ?_, ?_, ?_, ?_, ?_, ?_⟩
    · simp [set_node]
    · simp [set_node, emit]
    · simp [set_node, emit]
    · simp [set_node, emit]
    · simp [set_node]
    · intro j hj
      simp [set_node, emit, Function.update_noteq hj]
    · simp [set_node, emit]

/-- When `pack_data` returns and what it leaves in the buffer. -/
theorem pack_data_some (cfg : Config) (s : MultiBuffer) (slice : Nat) (beams : MultiBeam)
    (beam_slice : Nat) (buffer : Mem) (hbuf : (s.m_datanodes slice).m_buffer = some buffer) :
    ∃ s3 beams3, pack_data cfg s slice beams beam_slice = some (s3, beams3) ∧
      s3.m_metadata = s.m_metadata ∧ s3.m_nbeams = s.m_nbeams ∧
      (s3.m_datanodes slice).m_buffer
        = some (forLoop s.m_nbeams (pack_species cfg s slice beams beam_slice) buffer) := by
  unfold pack_data
  rw [hbuf]
  refine ⟨_, _, rfl, rfl, rfl, ?_⟩
  simp [set_node]

/-- Two arrays agree on element `i` when they agree on its bytes. -/
theorem element_congr (data1 data2 : Mem) (size i : Nat)
    (h : ∀ k, k < size → data1 (i * size + k) = data2 (i * size + k)) :
    element data1 size i = element data2 size i := by
  unfold element
  apply List.map_congr_left
  intro k hk
  exact h k (List.mem_range.mp hk)

/-- Byte `k` of element `i` lies among the first `n` elements. -/
theorem element_byte_lt (n size i k : Nat) (hi : i < n) (hk : k < size) :
    i * size + k < n * size := by
  have := Nat.mul_le_mul_right size (Nat.succ_le_of_lt hi)
  rw [Nat.succ_mul] at this
  omega

/-- C1: round trip of the payload codec. After `write_metadata` on a slot without storage,
`allocate_buffer` and `pack_data` succeed; and whenever `unpack_data` then runs on a slot
whose metadata row equals the written one and whose buffer holds the packed `metadata[0]`
storage words, it returns, every species `b` has exactly its `n_b` particles again, and every
in-buffer real and integer attribute equals, element by element, the array that was packed. -/
theorem pack_unpack_round_trip (cfg : Config) (s : MultiBuffer) (slice : Nat) (beams : MultiBeam)
    (beam_slice : Nat) (fresh : Mem) (s1 : MultiBuffer)
    (hR : 0 < cfg.buffer_size_roundup) (hw : 0 < cfg.sizeof_storage_type)
    (hmeta : write_metadata cfg s slice beams beam_slice = some s1)
    (hloc : (s.m_datanodes slice).m_location = memory_location.nowhere) :
    ∃ s2 s3 beams3 buffer,
      allocate_buffer cfg s1 slice fresh = some s2 ∧
      pack_data cfg s2 slice beams beam_slice = some (s3, beams3) ∧
      (s3.m_datanodes slice).m_buffer = some buffer ∧
      ∀ (r : MultiBuffer) (slice_r : Nat) (beams_r : MultiBeam) (beam_slice_r : Nat)
        (buffer_r : Mem),
        r.m_nbeams = s.m_nbeams →
        (∀ k, k < get_metadata_size s →
          r.m_metadata (get_metadata_location r slice_r + k)
            = s3.m_metadata (get_metadata_location s slice + k)) →
        (r.m_datanodes slice_r).m_buffer = some buffer_r →
        (∀ a, a < s3.m_metadata (get_metadata_location s slice + 0) * cfg.sizeof_storage_type →
          buffer_r a = buffer a) →
        ∃ beams_out, unpack_data cfg r slice_r beams_r beam_slice_r = some beams_out ∧
          ∀ b, b < s.m_nbeams →
            getNumParticles (beams_out b) beam_slice_r
              = getNumParticles (beams b) beam_slice ∧
            (∀ rcomp i, rcomp < cfg.real_nattribs_in_buffer →
              i < getNumParticles (beams b) beam_slice →
              element ((beams_out b beam_slice_r).real_data rcomp) cfg.sizeof_Real i
                = element ((beams b beam_slice).real_data rcomp) cfg.sizeof_Real i) ∧
            (∀ icomp i, icomp < cfg.int_nattribs_in_buffer →
              i < getNumParticles (beams b) beam_slice →
              element ((beams_out b beam_slice_r).int_data icomp) cfg.sizeof_int i
                = element ((beams b beam_slice).int_data icomp) cfg.sizeof_int i) := by
  -- the metadata row written by the sender
  have hlt : (payload_bytes cfg beams beam_slice s.m_nbeams + cfg.sizeof_storage_type - 1)
      / cfg.sizeof_storage_type < int_max := by
    by_contra hge
    rw [(write_metadata_facts cfg s slice beams beam_slice).2 hge] at hmeta
    exact absurd hmeta (by simp)
  obtain ⟨s1', e1, hcount, hsize, -, -, -⟩ :=
    (write_metadata_facts cfg s slice beams beam_slice).1 hlt
  rw [hmeta] at e1
  injection e1 with e1
  subst e1
  obtain ⟨-, hnb1, -, -, -, -, -, -, -, -, -, hloc1, -, -⟩ :=
    write_metadata_frame cfg s slice beams beam_slice s1 hmeta
  -- allocation and packing succeed
  obtain ⟨s2, ha, hm2, hnb2, -, hbuf2, -⟩ :=
    allocate_buffer_some cfg s1 slice fresh (hloc1.trans hloc)
  obtain ⟨s3, beams3, hp, hm3, hnb3, hbuf3⟩ :=
    pack_data_some cfg s2 slice beams beam_slice fresh hbuf2
  refine ⟨s2, s3, beams3, _, ha, hp, hbuf3, ?_⟩
  intro r slice_r beams_r beam_slice_r buffer_r hnbr hrowr hbufr hagree
  have hl2 : get_metadata_location s2 slice = get_metadata_location s slice :=
    get_metadata_location_congr s s2 slice (hnb2.trans hnb1)
  have hrow2 : ∀ b, b < s.m_nbeams →
      s2.m_metadata (get_metadata_location s2 slice + (b + 1))
        = getNumParticles (beams b) beam_slice := by
    intro b hb
    rw [hm2, hl2]
    exact hcount b hb
  have hrowr2 : ∀ b, b < s.m_nbeams →
      r.m_metadata (get_metadata_location r slice_r + (b + 1))
        = s2.m_metadata (get_metadata_location s2 slice + (b + 1)) := by
    intro b hb
    rw [hrowr (b + 1) (by unfold get_metadata_size; omega), hm3, hl2]
  have hpack := pack_loop_facts cfg s2 slice beams beam_slice fresh hR s.m_nbeams hrow2
  rw [← hnb1, ← hnb2] at hpack
  -- every region lies inside the transported words
  have htotal : species_offset cfg s2 slice s.m_nbeams
      ≤ s3.m_metadata (get_metadata_location s slice + 0) * cfg.sizeof_storage_type := by
    rw [species_offset_eq_payload cfg s2 slice beams beam_slice s.m_nbeams hrow2, hm3, hm2,
      hsize]
    rcases words_bounds (payload_bytes cfg beams beam_slice s.m_nbeams)
      cfg.sizeof_storage_type hw with h | h
    · exact h.1
    · rw [h.2]
      exact Nat.zero_le _
  obtain ⟨beams_out, hu, hout⟩ :=
    unpack_data_some cfg r slice_r beams_r beam_slice_r buffer_r hbufr
  refine ⟨beams_out, hu, ?_⟩
  intro b hb
  obtain ⟨t1, t2, -, t4, -⟩ :=
    unpack_beam_tile cfg r slice_r buffer_r beam_slice_r b (beams_r b)
  have hso : species_offset cfg r slice_r b = species_offset cfg s2 slice b :=
    species_offset_congr cfg s2 r slice slice_r b (fun c hc => hrowr2 c (by omega))
  have hnr : r.m_metadata (get_metadata_location r slice_r + (b + 1))
      = getNumParticles (beams b) beam_slice := (hrowr2 b hb).trans (hrow2 b hb)
  have hsp : species_offset cfg s2 slice (b + 1) ≤ species_offset cfg s2 slice s.m_nbeams :=
    species_offset_mono cfg s2 slice hb
  rw [hout b (by omega)]
  refine ⟨?_, ?_, ?_⟩
  · unfold getNumParticles
    rw [t1, hnr]
    rfl
  · intro rcomp i hrc hi
    rw [t2 rcomp hrc]
    apply element_congr
    intro k hk
    have hlt1 := element_byte_lt _ cfg.sizeof_Real i k hi hk
    have hoff : get_buffer_offset_real cfg r slice_r b rcomp
        = get_buffer_offset_real cfg s2 slice b rcomp := by
      unfold get_buffer_offset_real
      rw [hso, hrowr2 b hb]
    have hin := real_region_le_species cfg s2 slice b rcomp hR hrc
    rw [hrow2 b hb] at hin
    have hrange : 0 ≤ i * cfg.sizeof_Real + k ∧
        i * cfg.sizeof_Real + k
          < 0 + r.m_metadata (get_metadata_location r slice_r + (b + 1)) * cfg.sizeof_Real := by
      rw [hnr]
      omega
    simp only [memcpy, hrange, and_self, if_true, Nat.sub_zero]
    rw [hoff, hagree _ (by omega)]
    exact (hpack b (by omega)).1 rcomp _ hrc hlt1
  · intro icomp i hic hi
    rw [t4 icomp hic]
    apply element_congr
    intro k hk
    have hlt1 := element_byte_lt _ cfg.sizeof_int i k hi hk
    have hoff : get_buffer_offset_int cfg r slice_r b icomp
        = get_buffer_offset_int cfg s2 slice b icomp := by
      unfold get_buffer_offset_int
      rw [hso, hrowr2 b hb]
    have hin := int_region_le_species cfg s2 slice b icomp hR hic
    rw [hrow2 b hb] at hin
    have hrange : 0 ≤ i * cfg.sizeof_int + k ∧
        i * cfg.sizeof_int + k
          < 0 + r.m_metadata (get_metadata_location r slice_r + (b + 1)) * cfg.sizeof_int := by
      rw [hnr]
      omega
    simp only [memcpy, hrange, and_self, if_true, Nat.sub_zero]
    rw [hoff, hagree _ (by omega)]
    exact (hpack b (by omega)).2 icomp _ hic hlt1

end Hipace

namespace Hipace

/-- Witness of `pack_unpack_round_trip`: the 4-byte build of the two-species example. -/
theorem pack_unpack_round_trip_witness :
    ∃ s2 s3 beams3 buffer,
      allocate_buffer example_cfg example_written 1 (fun _ => 0) = some s2 ∧
      pack_data example_cfg s2 1 example_beams 0 = some (s3, beams3) ∧
      (s3.m_datanodes 1).m_buffer = some buffer ∧
      ∀ (r : MultiBuffer) (slice_r : Nat) (beams_r : MultiBeam) (beam_slice_r : Nat)
        (buffer_r : Mem),
        r.m_nbeams = example_state.m_nbeams →
        (∀ k, k < get_metadata_size example_state →
          r.m_metadata (get_metadata_location r slice_r + k)
            = s3.m_metadata (get_metadata_location example_state 1 + k)) →
        (r.m_datanodes slice_r).m_buffer = some buffer_r →
        (∀ a, a < s3.m_metadata (get_metadata_location example_state 1 + 0)
            * example_cfg.sizeof_storage_type → buffer_r a = buffer a) →
        ∃ beams_out, unpack_data example_cfg r slice_r beams_r beam_slice_r = some beams_out ∧
          ∀ b, b < example_state.m_nbeams →
            getNumParticles (beams_out b) beam_slice_r
              = getNumParticles (example_beams b) 0 ∧
            (∀ rcomp i, rcomp < example_cfg.real_nattribs_in_buffer →
              i < getNumParticles (example_beams b) 0 →
              element ((beams_out b beam_slice_r).real_data rcomp) example_cfg.sizeof_Real i
                = element ((example_beams b 0).real_data rcomp) example_cfg.sizeof_Real i) ∧
            (∀ icomp i, icomp < example_cfg.int_nattribs_in_buffer →
              i < getNumParticles (example_beams b) 0 →
              element ((beams_out b beam_slice_r).int_data icomp) example_cfg.sizeof_int i
                = element ((example_beams b 0).int_data icomp) example_cfg.sizeof_int i) :=
  pack_unpack_round_trip example_cfg example_state 1 example_beams 0 (fun _ => 0)
    example_written (by decide) (by decide) rfl rfl

/-- Witness of `unpack_zero_fills`: a received slot of the two-species example. -/
theorem unpack_zero_fills_witness :
    ∃ beams1, unpack_data example_cfg example_received 1 example_beams 0 = some beams1 ∧
      ∀ b, b < example_received.m_nbeams →
        (∀ rcomp i, example_cfg.real_nattribs_in_buffer ≤ rcomp →
          rcomp < example_cfg.real_nattribs →
          i < example_received.m_metadata (get_metadata_location example_received 1 + (b + 1)) →
          element ((beams1 b 0).real_data rcomp) example_cfg.sizeof_Real i
            = List.replicate example_cfg.sizeof_Real 0) ∧
        (∀ icomp i, example_cfg.int_nattribs_in_buffer ≤ icomp →
          icomp < example_cfg.int_nattribs →
          i < example_received.m_metadata (get_metadata_location example_received 1 + (b + 1)) →
          element ((beams1 b 0).int_data icomp) example_cfg.sizeof_int i
            = List.replicate example_cfg.sizeof_int 0) :=
  unpack_zero_fills example_cfg example_received 1 example_beams 0 (fun _ => 5) rfl

end Hipace
namespace Hipace

/-! ## Frame lemmas for the transfer state machine -/

theorem SameConfig.config_refl (s : MultiBuffer) : SameConfig s s :=
  ⟨rfl, rfl, rfl, rfl, rfl, rfl, rfl, rfl⟩

theorem SameConfig.config_trans {s s1 s2 : MultiBuffer} (h : SameConfig s s1) (h1 : SameConfig s1 s2) :
    SameConfig s s2 :=
  ⟨h1.nslices.trans h.nslices, h1.nbeams.trans h.nbeams,
    h1.buffer_on_host.trans h.buffer_on_host, h1.rank_send_to.trans h.rank_send_to,
    h1.rank_receive_from.trans h.rank_receive_from, h1.is_head_rank.trans h.is_head_rank,
    h1.tag_buffer_start.trans h.tag_buffer_start,
    h1.tag_metadata_start.trans h.tag_metadata_start⟩

theorem SameConfig.config_symm {s s1 : MultiBuffer} (h : SameConfig s s1) : SameConfig s1 s :=
  ⟨h.nslices.symm, h.nbeams.symm, h.buffer_on_host.symm, h.rank_send_to.symm,
    h.rank_receive_from.symm, h.is_head_rank.symm, h.tag_buffer_start.symm,
    h.tag_metadata_start.symm⟩

theorem SameConfig.location {s s1 : MultiBuffer} (h : SameConfig s s1) (slice : Nat) :
    get_metadata_location s1 slice = get_metadata_location s slice :=
  get_metadata_location_congr s s1 slice h.nbeams

theorem SameConfig.size {s s1 : MultiBuffer} (h : SameConfig s s1) :
    get_metadata_size s1 = get_metadata_size s := by
  simp [get_metadata_size, h.nbeams]

theorem Frame.frame_refl (i : Nat) (s : MultiBuffer) : Frame i s s :=
  ⟨SameConfig.config_refl s, fun _ _ => rfl, fun _ _ => rfl, ⟨[], by simp, by simp⟩⟩

theorem Frame.frame_trans {i : Nat} {s s1 s2 : MultiBuffer} (h : Frame i s s1) (h1 : Frame i s1 s2) :
    Frame i s s2 := by
  refine ⟨h.config.config_trans h1.config, fun j hj => (h1.nodes j hj).trans (h.nodes j hj), ?_, ?_⟩
  · intro k hk
    rw [h1.metadata k (by rw [h.config.location, h.config.size]; exact hk)]
    exact h.metadata k hk
  · obtain ⟨evs, e1, e2⟩ := h.trace
    obtain ⟨evs1, e3, e4⟩ := h1.trace
    refine ⟨evs ++ evs1, by rw [e3, e1, List.append_assoc], ?_⟩
    intro e he
    rcases List.mem_append.mp he with h5 | h5
    · exact e2 e h5
    · exact e4 e h5

theorem Frame.frame_emit (i : Nat) (s : MultiBuffer) (e : Event) (he : event_slice e = i) :
    Frame i s (emit s e) :=
  ⟨⟨rfl, rfl, rfl, rfl, rfl, rfl, rfl, rfl⟩, fun _ _ => rfl, fun _ _ => rfl,
    ⟨[e], rfl, by simpa using he⟩⟩

theorem Frame.frame_set_node (i : Nat) (s : MultiBuffer) (node : DataNode) :
    Frame i s (set_node s i node) :=
  ⟨⟨rfl, rfl, rfl, rfl, rfl, rfl, rfl, rfl⟩,
    fun j hj => by simp [Hipace.set_node, Function.update_noteq hj], fun _ _ => rfl,
    ⟨[], by simp [Hipace.set_node], by simp⟩⟩

theorem Frame.frame_set_progress (i : Nat) (s : MultiBuffer) (p : comm_progress) :
    Frame i s (set_progress s i p) :=
  Frame.frame_set_node i s _

theorem Frame.frame_set_metadata_progress (i : Nat) (s : MultiBuffer) (p : comm_progress) :
    Frame i s (set_metadata_progress s i p) :=
  Frame.frame_set_node i s _

theorem Frame.frame_deliver_metadata (i : Nat) (s : MultiBuffer) (row : Nat → Nat) :
    Frame i s (deliver_metadata s i row) :=
  ⟨⟨rfl, rfl, rfl, rfl, rfl, rfl, rfl, rfl⟩, fun _ _ => rfl,
    fun k hk => by simp only [Hipace.deliver_metadata, if_neg hk],
    ⟨[], by simp [Hipace.deliver_metadata], by simp⟩⟩

theorem Frame.frame_deliver_buffer (cfg : Config) (i : Nat) (s : MultiBuffer) (data : Mem) :
    Frame i s (deliver_buffer cfg s i data) :=
  Frame.frame_set_node i s _

theorem Frame.frame_free_buffer (i : Nat) (s s1 : MultiBuffer) (h : free_buffer s i = some s1) :
    Frame i s s1 := by
  unfold Hipace.free_buffer at h
  split at h
  · injection h with h
    subst h
    split
    · exact (Frame.frame_emit i s _ (by rfl)).frame_trans (Frame.frame_set_node i _ _)
    · exact (Frame.frame_emit i s _ (by rfl)).frame_trans (Frame.frame_set_node i _ _)
  · exact absurd h (by simp)

theorem Frame.frame_allocate_buffer (cfg : Config) (i : Nat) (s s1 : MultiBuffer) (fresh : Mem)
    (h : allocate_buffer cfg s i fresh = some s1) : Frame i s s1 := by
  unfold Hipace.allocate_buffer at h
  split at h
  · split at h
    · injection h with h
      subst h
      exact (Frame.frame_emit i s _ (by rfl)).frame_trans (Frame.frame_set_node i _ _)
    · injection h with h
      subst h
      exact (Frame.frame_emit i s _ (by rfl)).frame_trans (Frame.frame_set_node i _ _)
  · exact absurd h (by simp)

theorem Frame.frame_start_metadata_send (i : Nat) (s : MultiBuffer) :
    Frame i s (start_metadata_send s i) := by
  unfold Hipace.start_metadata_send
  split
  · exact (Frame.frame_emit i s _ (by rfl)).frame_trans (Frame.frame_set_metadata_progress i _ _)
  · exact Frame.frame_refl i s

theorem Frame.frame_start_send (i : Nat) (s : MultiBuffer) : Frame i s (start_send s i) := by
  unfold Hipace.start_send
  split
  · split
    · exact Frame.frame_set_progress i _ _
    · exact (Frame.frame_emit i s _ (by rfl)).frame_trans (Frame.frame_set_progress i _ _)
  · exact Frame.frame_refl i s

theorem Frame.frame_finish_metadata_send (i : Nat) (s : MultiBuffer) (is_blocking : Bool)
    (t : Transport) : Frame i s (finish_metadata_send s i is_blocking t) := by
  unfold Hipace.finish_metadata_send
  split
  · split
    · exact (Frame.frame_emit i s _ (by rfl)).frame_trans (Frame.frame_set_metadata_progress i _ _)
    · simp only []
      split
      · exact (Frame.frame_emit i s _ (by rfl)).frame_trans (Frame.frame_set_metadata_progress i _ _)
      · exact Frame.frame_emit i s _ (by rfl)
  · exact Frame.frame_refl i s

theorem Frame.frame_start_metadata_receive (i : Nat) (s : MultiBuffer) :
    Frame i s (start_metadata_receive s i) := by
  unfold Hipace.start_metadata_receive
  split
  · exact (Frame.frame_emit i s _ (by rfl)).frame_trans (Frame.frame_set_metadata_progress i _ _)
  · exact Frame.frame_refl i s

theorem Frame.frame_finish_metadata_receive (i : Nat) (s : MultiBuffer) (is_blocking : Bool)
    (t : Transport) : Frame i s (finish_metadata_receive s i is_blocking t) := by
  unfold Hipace.finish_metadata_receive
  split
  · split
    · exact ((Frame.frame_emit i s _ (by rfl)).frame_trans (Frame.frame_deliver_metadata i _ _)).frame_trans
        (Frame.frame_set_metadata_progress i _ _)
    · simp only []
      split
      · exact ((Frame.frame_emit i s _ (by rfl)).frame_trans (Frame.frame_deliver_metadata i _ _)).frame_trans
          (Frame.frame_set_metadata_progress i _ _)
      · exact Frame.frame_emit i s _ (by rfl)
  · exact Frame.frame_refl i s

theorem Frame.frame_finish_send (i : Nat) (s s1 : MultiBuffer) (is_blocking : Bool) (t : Transport)
    (h : finish_send s i is_blocking t = some s1) : Frame i s s1 := by
  unfold Hipace.finish_send at h
  split at h
  · split at h
    · obtain ⟨s2, h2, rfl⟩ := Option.map_eq_some'.mp h
      exact ((Frame.frame_emit i s _ (by rfl)).frame_trans (Frame.frame_free_buffer i _ _ h2)).frame_trans
        (Frame.frame_set_progress i _ _)
    · simp only [] at h
      split at h
      · obtain ⟨s2, h2, rfl⟩ := Option.map_eq_some'.mp h
        exact ((Frame.frame_emit i s _ (by rfl)).frame_trans (Frame.frame_free_buffer i _ _ h2)).frame_trans
          (Frame.frame_set_progress i _ _)
      · injection h with h
        subst h
        exact Frame.frame_emit i s _ (by rfl)
  · injection h with h
    subst h
    exact Frame.frame_refl i s

theorem Frame.frame_start_receive (cfg : Config) (i : Nat) (s s1 : MultiBuffer) (t : Transport)
    (h : start_receive cfg s i t = some s1) : Frame i s s1 := by
  unfold Hipace.start_receive at h
  split at h
  · split at h
    · simp only [] at h
      split at h
      · injection h with h
        subst h
        exact (Frame.frame_set_node i s _).frame_trans (Frame.frame_set_progress i _ _)
      · obtain ⟨s2, h2, rfl⟩ := Option.map_eq_some'.mp h
        exact (((Frame.frame_set_node i s _).frame_trans (Frame.frame_allocate_buffer cfg i _ _ _ h2)).frame_trans
          (Frame.frame_emit i _ _ (by rfl))).frame_trans (Frame.frame_set_progress i _ _)
    · exact absurd h (by simp)
  · injection h with h
    subst h
    exact Frame.frame_refl i s

theorem Frame.frame_finish_receive (cfg : Config) (i : Nat) (s : MultiBuffer) (is_blocking : Bool)
    (t : Transport) : Frame i s (finish_receive cfg s i is_blocking t) := by
  unfold Hipace.finish_receive
  split
  · split
    · exact ((Frame.frame_emit i s _ (by rfl)).frame_trans (Frame.frame_deliver_buffer cfg i _ _)).frame_trans
        (Frame.frame_set_progress i _ _)
    · simp only []
      split
      · exact ((Frame.frame_emit i s _ (by rfl)).frame_trans (Frame.frame_deliver_buffer cfg i _ _)).frame_trans
          (Frame.frame_set_progress i _ _)
      · exact Frame.frame_emit i s _ (by rfl)
  · exact Frame.frame_refl i s

theorem check_blocking_eq (s s1 : MultiBuffer) (i : Nat) (is_blocking : Bool)
    (h : check_blocking s i is_blocking = some s1) : s1 = s := by
  unfold check_blocking at h
  split at h
  · split at h
    · split at h
      · injection h with h
        exact h.symm
      · exact absurd h (by simp)
    · exact absurd h (by simp)
  · injection h with h
    exact h.symm

/-- The blocks of `make_progress`, one after the other. -/
theorem make_progress_steps (cfg : Config) (s s1 : MultiBuffer) (i : Nat) (is_blocking : Bool)
    (t : Transport) (h : make_progress cfg s i is_blocking t = some s1) :
    ∃ s6 s7,
      finish_send (finish_metadata_receive (start_metadata_receive
        (finish_metadata_send (start_send (start_metadata_send s i) i) i is_blocking t) i)
        i is_blocking t) i is_blocking t = some s6 ∧
      start_receive cfg s6 i t = some s7 ∧
      s1 = finish_receive cfg s7 i is_blocking t ∧
      check_blocking s1 i is_blocking = some s1 := by
  unfold make_progress at h
  simp only [] at h
  obtain ⟨s6, h6, h⟩ := Option.bind_eq_some.mp h
  obtain ⟨s7, h7, h⟩ := Option.bind_eq_some.mp h
  have := check_blocking_eq _ _ _ _ h
  subst this
  exact ⟨s6, s7, h6, h7, rfl, h⟩

/-- A poll of slice `i` touches nothing but slot `i`, row `i` and the trace, where it only
adds calls made for slice `i`. -/
theorem Frame.frame_make_progress (cfg : Config) (s s1 : MultiBuffer) (i : Nat) (is_blocking : Bool)
    (t : Transport) (h : make_progress cfg s i is_blocking t = some s1) : Frame i s s1 := by
  obtain ⟨s6, s7, h6, h7, rfl, -⟩ := make_progress_steps cfg s s1 i is_blocking t h
  exact (((((((Frame.frame_start_metadata_send i s).frame_trans (Frame.frame_start_send i _)).frame_trans
    (Frame.frame_finish_metadata_send i _ is_blocking t)).frame_trans
    (Frame.frame_start_metadata_receive i _)).frame_trans
    (Frame.frame_finish_metadata_receive i _ is_blocking t)).frame_trans
    (Frame.frame_finish_send i _ _ is_blocking t h6)).frame_trans
    (Frame.frame_start_receive cfg i _ _ t h7)).frame_trans (Frame.frame_finish_receive cfg i _ is_blocking t)

end Hipace
namespace Hipace

/-! ## Independence of slices -/

theorem Untouched.untouched_refl (j : Nat) (s : MultiBuffer) : Untouched j s s :=
  ⟨SameConfig.config_refl s, rfl, fun _ _ => rfl, ⟨[], by simp, by simp⟩⟩

theorem Untouched.untouched_trans {j : Nat} {s s1 s2 : MultiBuffer} (h : Untouched j s s1)
    (h1 : Untouched j s1 s2) : Untouched j s s2 := by
  refine ⟨h.config.config_trans h1.config, h1.node.trans h.node, ?_, ?_⟩
  · intro k hk
    have := h1.row k (by rw [h.config.size]; exact hk)
    rw [h.config.location] at this
    rw [this]
    exact h.row k hk
  · obtain ⟨evs, e1, e2⟩ := h.trace
    obtain ⟨evs1, e3, e4⟩ := h1.trace
    refine ⟨evs ++ evs1, by rw [e3, e1, List.append_assoc], ?_⟩
    intro e he
    rcases List.mem_append.mp he with h5 | h5
    · exact e2 e h5
    · exact e4 e h5

/-- What happens for slice `i` leaves every other slice untouched. -/
theorem Frame.untouched {i j : Nat} {s s1 : MultiBuffer} (h : Frame i s s1) (hij : i ≠ j) :
    Untouched j s s1 := by
  refine ⟨h.config, h.nodes j (Ne.symm hij), ?_, ?_⟩
  · intro k hk
    apply h.metadata
    intro hin
    exact metadata_rows_disjoint s i j k
      (get_metadata_location s j + k - get_metadata_location s i) (Ne.symm hij) hk
      (by omega) (by omega)
  · obtain ⟨evs, e1, e2⟩ := h.trace
    exact ⟨evs, e1, fun e he => by rw [e2 e he]; exact hij⟩

/-- A sweep over the slices below `n` leaves the slices from `n` on untouched. -/
theorem downLoop_untouched (cfg : Config) (t : Nat → Transport) (n : Nat) (s s1 : MultiBuffer)
    (j : Nat) (hj : n ≤ j)
    (h : downLoop n (fun i s => make_progress cfg s i false (t i)) s = some s1) :
    Untouched j s s1 := by
  induction n generalizing s with
  | zero =>
    simp only [downLoop] at h
    injection h with h
    subst h
    exact Untouched.untouched_refl j s
  | succ n ih =>
    simp only [downLoop] at h
    obtain ⟨s2, h2, h3⟩ := Option.bind_eq_some.mp h
    exact ((Frame.frame_make_progress cfg s s2 n false (t n) h2).untouched (by omega)).untouched_trans
      (ih s2 (by omega) h3)

/-- Inside a sweep, slice `j` is polled once, in a state in which it is as before the sweep,
and is as that poll left it when the sweep ends. -/
theorem downLoop_split (cfg : Config) (t : Nat → Transport) (n : Nat) (s s1 : MultiBuffer)
    (j : Nat) (hj : j < n)
    (h : downLoop n (fun i s => make_progress cfg s i false (t i)) s = some s1) :
    ∃ s_mid s_after, Untouched j s s_mid ∧
      make_progress cfg s_mid j false (t j) = some s_after ∧ Untouched j s_after s1 := by
  induction n generalizing s with
  | zero => exact absurd hj (Nat.not_lt_zero j)
  | succ n ih =>
    simp only [downLoop] at h
    obtain ⟨s2, h2, h3⟩ := Option.bind_eq_some.mp h
    rcases Nat.eq_or_lt_of_le (Nat.le_of_lt_succ hj) with h4 | h4
    · subst h4
      exact ⟨s, s2, Untouched.untouched_refl j s, h2, downLoop_untouched cfg t j s2 s1 j (le_refl j) h3⟩
    · obtain ⟨s_mid, s_after, u1, hm, u2⟩ := ih s2 h4 h3
      exact ⟨s_mid, s_after,
        ((Frame.frame_make_progress cfg s s2 n false (t n) h2).untouched (by omega)).untouched_trans u1, hm, u2⟩

/-- The sweep of `put_data` and `initialize`, seen from slice `j`. -/
theorem progress_all_split (cfg : Config) (t : Nat → Transport) (s s1 : MultiBuffer) (j : Nat)
    (hj : j < s.m_nslices) (h : progress_all cfg s t = some s1) :
    ∃ s_mid s_after, Untouched j s s_mid ∧
      make_progress cfg s_mid j false (t j) = some s_after ∧ Untouched j s_after s1 :=
  downLoop_split cfg t s.m_nslices s s1 j hj h

end Hipace
namespace Hipace

/-! ## A poll of a slice only looks at that slice -/

theorem SlotAgree.agree_refl (i : Nat) (s : MultiBuffer) : SlotAgree i s s :=
  ⟨SameConfig.config_refl s, rfl, fun _ _ => rfl⟩

theorem SlotAgree.agree_symm {i : Nat} {s s1 : MultiBuffer} (h : SlotAgree i s s1) :
    SlotAgree i s1 s := by
  refine ⟨h.config.config_symm, h.node.symm, ?_⟩
  intro k hk
  rw [h.config.location]
  exact (h.row k (by rw [← h.config.size]; exact hk)).symm

theorem SlotAgree.agree_trans {i : Nat} {s s1 s2 : MultiBuffer} (h : SlotAgree i s s1)
    (h1 : SlotAgree i s1 s2) : SlotAgree i s s2 := by
  refine ⟨h.config.config_trans h1.config, h1.node.trans h.node, ?_⟩
  intro k hk
  have := h1.row k (by rw [h.config.size]; exact hk)
  rw [h.config.location] at this
  rw [this]
  exact h.row k hk

theorem Untouched.agree {j : Nat} {s s1 : MultiBuffer} (h : Untouched j s s1) :
    SlotAgree j s s1 :=
  ⟨h.config, h.node, h.row⟩

theorem SameConfig.config_emit {s s1 : MultiBuffer} (h : SameConfig s s1) (e e1 : Event) :
    SameConfig (emit s e) (emit s1 e1) :=
  ⟨h.nslices, h.nbeams, h.buffer_on_host, h.rank_send_to, h.rank_receive_from,
    h.is_head_rank, h.tag_buffer_start, h.tag_metadata_start⟩

theorem SameConfig.config_set_node {s s1 : MultiBuffer} (h : SameConfig s s1) (i : Nat)
    (n n1 : DataNode) : SameConfig (set_node s i n) (set_node s1 i n1) :=
  ⟨h.nslices, h.nbeams, h.buffer_on_host, h.rank_send_to, h.rank_receive_from,
    h.is_head_rank, h.tag_buffer_start, h.tag_metadata_start⟩

theorem SlotAgree.agree_emit {i : Nat} {s s1 : MultiBuffer} (h : SlotAgree i s s1) (e e1 : Event) :
    SlotAgree i (emit s e) (emit s1 e1) :=
  ⟨h.config.config_emit e e1, h.node, h.row⟩

theorem SlotAgree.agree_set_node {i : Nat} {s s1 : MultiBuffer} (h : SlotAgree i s s1)
    (n : DataNode) : SlotAgree i (set_node s i n) (set_node s1 i n) :=
  ⟨h.config.config_set_node i n n, by simp [Hipace.set_node], h.row⟩

theorem SlotAgree.agree_set_progress {i : Nat} {s s1 : MultiBuffer} (h : SlotAgree i s s1)
    (p : comm_progress) : SlotAgree i (set_progress s i p) (set_progress s1 i p) := by
  unfold Hipace.set_progress
  rw [h.node]
  exact h.agree_set_node _

theorem SlotAgree.agree_set_metadata_progress {i : Nat} {s s1 : MultiBuffer} (h : SlotAgree i s s1)
    (p : comm_progress) :
    SlotAgree i (set_metadata_progress s i p) (set_metadata_progress s1 i p) := by
  unfold Hipace.set_metadata_progress
  rw [h.node]
  exact h.agree_set_node _

theorem SlotAgree.agree_deliver_metadata {i : Nat} {s s1 : MultiBuffer} (h : SlotAgree i s s1)
    (row : Nat → Nat) : SlotAgree i (deliver_metadata s i row) (deliver_metadata s1 i row) := by
  refine ⟨⟨h.config.nslices, h.config.nbeams, h.config.buffer_on_host, h.config.rank_send_to,
    h.config.rank_receive_from, h.config.is_head_rank, h.config.tag_buffer_start,
    h.config.tag_metadata_start⟩, h.node, ?_⟩
  intro k hk
  have hl : get_metadata_location (Hipace.deliver_metadata s i row) i
      = get_metadata_location s i := rfl
  have hs : get_metadata_size (Hipace.deliver_metadata s i row) = get_metadata_size s := rfl
  rw [hl]
  rw [hs] at hk
  have h1 : get_metadata_location s i ≤ get_metadata_location s i + k ∧
      get_metadata_location s i + k < get_metadata_location s i + get_metadata_size s := by
    omega
  simp only [Hipace.deliver_metadata, h.config.location, h.config.size, h1, and_self, if_true]

theorem SlotAgree.agree_deliver_buffer {i : Nat} {s s1 : MultiBuffer} (h : SlotAgree i s s1)
    (cfg : Config) (data : Mem) :
    SlotAgree i (deliver_buffer cfg s i data) (deliver_buffer cfg s1 i data) := by
  unfold Hipace.deliver_buffer
  rw [h.node]
  exact h.agree_set_node _

theorem OptionAgree.some {i : Nat} {a b : MultiBuffer} (h : SlotAgree i a b) :
    OptionAgree i (some a) (some b) :=
  Or.inr ⟨a, b, rfl, rfl, h⟩

theorem OptionAgree.map {i : Nat} {o o1 : Option MultiBuffer} (h : OptionAgree i o o1)
    (f f1 : MultiBuffer → MultiBuffer)
    (hf : ∀ a b, SlotAgree i a b → SlotAgree i (f a) (f1 b)) :
    OptionAgree i (o.map f) (o1.map f1) := by
  rcases h with ⟨rfl, rfl⟩ | ⟨a, b, rfl, rfl, hab⟩
  · exact Or.inl ⟨rfl, rfl⟩
  · exact OptionAgree.some (hf a b hab)

theorem OptionAgree.bind {i : Nat} {o o1 : Option MultiBuffer} (h : OptionAgree i o o1)
    (f f1 : MultiBuffer → Option MultiBuffer)
    (hf : ∀ a b, SlotAgree i a b → OptionAgree i (f a) (f1 b)) :
    OptionAgree i (o.bind f) (o1.bind f1) := by
  rcases h with ⟨rfl, rfl⟩ | ⟨a, b, rfl, rfl, hab⟩
  · exact Or.inl ⟨rfl, rfl⟩
  · exact hf a b hab

theorem SlotAgree.agree_free_buffer {i : Nat} {s s1 : MultiBuffer} (h : SlotAgree i s s1) :
    OptionAgree i (free_buffer s i) (free_buffer s1 i) := by
  unfold Hipace.free_buffer
  rw [h.node]
  split
  · apply OptionAgree.some
    simp only []
    split
    · exact ⟨(h.config.config_emit _ _).config_set_node i _ _, by simp [Hipace.set_node, Hipace.emit, h.node],
        h.row⟩
    · exact ⟨(h.config.config_emit _ _).config_set_node i _ _, by simp [Hipace.set_node, Hipace.emit, h.node],
        h.row⟩
  · exact Or.inl ⟨rfl, rfl⟩

theorem SlotAgree.agree_allocate_buffer {i : Nat} {s s1 : MultiBuffer} (h : SlotAgree i s s1)
    (cfg : Config) (fresh : Mem) :
    OptionAgree i (allocate_buffer cfg s i fresh) (allocate_buffer cfg s1 i fresh) := by
  unfold Hipace.allocate_buffer
  rw [h.node, h.config.buffer_on_host]
  split
  · split
    · exact OptionAgree.some ((h.agree_emit _ _).agree_set_node _)
    · exact OptionAgree.some ((h.agree_emit _ _).agree_set_node _)
  · exact Or.inl ⟨rfl, rfl⟩

theorem SlotAgree.agree_start_metadata_send {i : Nat} {s s1 : MultiBuffer} (h : SlotAgree i s s1) :
    SlotAgree i (start_metadata_send s i) (start_metadata_send s1 i) := by
  unfold Hipace.start_metadata_send
  rw [h.node]
  split
  · exact (h.agree_emit _ _).agree_set_metadata_progress _
  · exact h

theorem SlotAgree.agree_start_send {i : Nat} {s s1 : MultiBuffer} (h : SlotAgree i s s1) :
    SlotAgree i (start_send s i) (start_send s1 i) := by
  unfold Hipace.start_send
  rw [h.node]
  split
  · split
    · exact h.agree_set_progress _
    · exact (h.agree_emit _ _).agree_set_progress _
  · exact h

theorem SlotAgree.agree_finish_metadata_send {i : Nat} {s s1 : MultiBuffer} (h : SlotAgree i s s1)
    (is_blocking : Bool) (t : Transport) :
    SlotAgree i (finish_metadata_send s i is_blocking t)
      (finish_metadata_send s1 i is_blocking t) := by
  unfold Hipace.finish_metadata_send
  rw [h.node]
  split
  · split
    · exact (h.agree_emit _ _).agree_set_metadata_progress _
    · simp only []
      split
      · exact (h.agree_emit _ _).agree_set_metadata_progress _
      · exact h.agree_emit _ _
  · exact h

theorem SlotAgree.agree_start_metadata_receive {i : Nat} {s s1 : MultiBuffer}
    (h : SlotAgree i s s1) :
    SlotAgree i (start_metadata_receive s i) (start_metadata_receive s1 i) := by
  unfold Hipace.start_metadata_receive
  rw [h.node]
  split
  · exact (h.agree_emit _ _).agree_set_metadata_progress _
  · exact h

theorem SlotAgree.agree_finish_metadata_receive {i : Nat} {s s1 : MultiBuffer}
    (h : SlotAgree i s s1) (is_blocking : Bool) (t : Transport) :
    SlotAgree i (finish_metadata_receive s i is_blocking t)
      (finish_metadata_receive s1 i is_blocking t) := by
  unfold Hipace.finish_metadata_receive
  rw [h.node]
  split
  · split
    · exact ((h.agree_emit _ _).agree_deliver_metadata _).agree_set_metadata_progress _
    · simp only []
      split
      · exact ((h.agree_emit _ _).agree_deliver_metadata _).agree_set_metadata_progress _
      · exact h.agree_emit _ _
  · exact h

theorem SlotAgree.agree_finish_send {i : Nat} {s s1 : MultiBuffer} (h : SlotAgree i s s1)
    (is_blocking : Bool) (t : Transport) :
    OptionAgree i (finish_send s i is_blocking t) (finish_send s1 i is_blocking t) := by
  unfold Hipace.finish_send
  rw [h.node]
  split
  · split
    · exact (h.agree_emit _ _).agree_free_buffer.map _ _ (fun a b hab => hab.agree_set_progress _)
    · simp only []
      split
      · exact (h.agree_emit _ _).agree_free_buffer.map _ _ (fun a b hab => hab.agree_set_progress _)
      · exact OptionAgree.some (h.agree_emit _ _)
  · exact OptionAgree.some h

theorem SlotAgree.agree_start_receive {i : Nat} {s s1 : MultiBuffer} (h : SlotAgree i s s1)
    (cfg : Config) (t : Transport) :
    OptionAgree i (start_receive cfg s i t) (start_receive cfg s1 i t) := by
  have h0 := h.row 0 (by unfold get_metadata_size; omega)
  unfold Hipace.start_receive
  rw [h.node, h.config.location, h0]
  split
  · split
    · simp only []
      have hn : SlotAgree i
          (Hipace.set_node s i { s.m_datanodes i with
            m_buffer_size := s.m_metadata (get_metadata_location s i + 0) })
          (Hipace.set_node s1 i { s.m_datanodes i with
            m_buffer_size := s.m_metadata (get_metadata_location s i + 0) }) := h.agree_set_node _
      rw [hn.node]
      split
      · exact OptionAgree.some (hn.agree_set_progress _)
      · exact (hn.agree_allocate_buffer cfg t.fresh).map _ _
          (fun a b hab => (hab.agree_emit _ _).agree_set_progress _)
    · exact Or.inl ⟨rfl, rfl⟩
  · exact OptionAgree.some h

theorem SlotAgree.agree_finish_receive {i : Nat} {s s1 : MultiBuffer} (h : SlotAgree i s s1)
    (cfg : Config) (is_blocking : Bool) (t : Transport) :
    SlotAgree i (finish_receive cfg s i is_blocking t)
      (finish_receive cfg s1 i is_blocking t) := by
  unfold Hipace.finish_receive
  rw [h.node]
  split
  · split
    · exact ((h.agree_emit _ _).agree_deliver_buffer cfg _).agree_set_progress _
    · simp only []
      split
      · exact ((h.agree_emit _ _).agree_deliver_buffer cfg _).agree_set_progress _
      · exact h.agree_emit _ _
  · exact h

theorem SlotAgree.check_blocking {i : Nat} {s s1 : MultiBuffer} (h : SlotAgree i s s1)
    (is_blocking : Bool) :
    OptionAgree i (check_blocking s i is_blocking) (check_blocking s1 i is_blocking) := by
  unfold Hipace.check_blocking
  rw [h.node]
  split
  · split
    · split
      · exact OptionAgree.some h
      · exact Or.inl ⟨rfl, rfl⟩
    · exact Or.inl ⟨rfl, rfl⟩
  · exact OptionAgree.some h

/-- Whether a poll of slice `i` aborts, and what it leaves in slot `i` and row `i`, depends
only on slot `i`, row `i` and the run-wide members. -/
theorem SlotAgree.agree_make_progress {i : Nat} {s s1 : MultiBuffer} (h : SlotAgree i s s1)
    (cfg : Config) (is_blocking : Bool) (t : Transport) :
    OptionAgree i (make_progress cfg s i is_blocking t)
      (make_progress cfg s1 i is_blocking t) := by
  unfold Hipace.make_progress
  simp only []
  apply OptionAgree.bind
  · exact (((((h.agree_start_metadata_send).agree_start_send).agree_finish_metadata_send is_blocking t
      ).agree_start_metadata_receive).agree_finish_metadata_receive is_blocking t).agree_finish_send is_blocking t
  · intro a b hab
    apply OptionAgree.bind
    · exact hab.agree_start_receive cfg t
    · intro a1 b1 hab1
      exact (hab1.agree_finish_receive cfg is_blocking t).check_blocking is_blocking

end Hipace
namespace Hipace

/-- C9: a poll of slice `i` leaves the slot of every other slice `j` (data state, metadata
state, memory location, buffer size, storage) and its metadata row unchanged; and the slot
and row that slice `j` has after a non-blocking sweep are the same for any two transports
that differ only in what they do for slice `i`. -/
theorem slices_independent (cfg : Config) (i j : Nat) (hij : i ≠ j) :
    (∀ (s s1 : MultiBuffer) (is_blocking : Bool) (t : Transport),
      make_progress cfg s i is_blocking t = some s1 →
        s1.m_datanodes j = s.m_datanodes j ∧
        ∀ k, k < get_metadata_size s →
          s1.m_metadata (get_metadata_location s j + k)
            = s.m_metadata (get_metadata_location s j + k)) ∧
    (∀ (s s1 s2 : MultiBuffer) (t t1 : Nat → Transport),
      (∀ k, k ≠ i → t1 k = t k) →
      progress_all cfg s t = some s1 → progress_all cfg s t1 = some s2 →
        s2.m_datanodes j = s1.m_datanodes j ∧
        ∀ k, k < get_metadata_size s →
          s2.m_metadata (get_metadata_location s j + k)
            = s1.m_metadata (get_metadata_location s j + k)) := by
  constructor
  · intro s s1 is_blocking t h
    have hu := (Frame.frame_make_progress cfg s s1 i is_blocking t h).untouched hij
    exact ⟨hu.node, hu.row⟩
  · intro s s1 s2 t t1 ht h1 h2
    have key : SlotAgree j s1 s2 := by
      by_cases hj : j < s.m_nslices
      · obtain ⟨m1, a1, u1, p1, v1⟩ := progress_all_split cfg t s s1 j hj h1
        obtain ⟨m2, a2, u2, p2, v2⟩ := progress_all_split cfg t1 s s2 j hj h2
        rw [ht j (Ne.symm hij)] at p2
        have hm : SlotAgree j m1 m2 := u1.agree.agree_symm.agree_trans u2.agree
        rcases hm.agree_make_progress cfg false (t j) with ⟨e1, -⟩ | ⟨a, b, e1, e2, hab⟩
        · rw [p1] at e1
          exact absurd e1 (by simp)
        · rw [p1] at e1
          rw [p2] at e2
          injection e1 with e1
          injection e2 with e2
          subst e1
          subst e2
          exact (v1.agree.agree_symm.agree_trans hab).agree_trans v2.agree
      · have u1 := downLoop_untouched cfg t s.m_nslices s s1 j (by omega) h1
        have u2 := downLoop_untouched cfg t1 s.m_nslices s s2 j (by omega) h2
        exact u1.agree.agree_symm.agree_trans u2.agree
    have hc : SameConfig s s1 := by
      by_cases hj : j < s.m_nslices
      · obtain ⟨m1, a1, u1, p1, v1⟩ := progress_all_split cfg t s s1 j hj h1
        exact (u1.config.config_trans (Frame.frame_make_progress cfg m1 a1 j false (t j) p1).config).config_trans
          v1.config
      · exact (downLoop_untouched cfg t s.m_nslices s s1 j (by omega) h1).config
    refine ⟨key.node, ?_⟩
    intro k hk
    have := key.row k (by rw [hc.size]; exact hk)
    rw [hc.location] at this
    exact this

/-- Witness of `slices_independent`: slices 0 and 1. -/
theorem slices_independent_witness :
    (∀ (s s1 : MultiBuffer) (is_blocking : Bool) (t : Transport),
      make_progress example_cfg s 0 is_blocking t = some s1 →
        s1.m_datanodes 1 = s.m_datanodes 1 ∧
        ∀ k, k < get_metadata_size s →
          s1.m_metadata (get_metadata_location s 1 + k)
            = s.m_metadata (get_metadata_location s 1 + k)) ∧
    (∀ (s s1 s2 : MultiBuffer) (t t1 : Nat → Transport),
      (∀ k, k ≠ 0 → t1 k = t k) →
      progress_all example_cfg s t = some s1 → progress_all example_cfg s t1 = some s2 →
        s2.m_datanodes 1 = s1.m_datanodes 1 ∧
        ∀ k, k < get_metadata_size s →
          s2.m_metadata (get_metadata_location s 1 + k)
            = s1.m_metadata (get_metadata_location s 1 + k)) :=
  slices_independent example_cfg 0 1 (by decide)

end Hipace
namespace Hipace

/-! ## Metadata before data -/

theorem ordered_set_node (s : MultiBuffer) (i : Nat) (node : DataNode)
    (h : ∀ j, NodeOrdered (s.m_datanodes j)) (hn : NodeOrdered node) :
    ∀ j, NodeOrdered ((set_node s i node).m_datanodes j) := by
  intro j
  by_cases hj : j = i
  · subst hj
    simpa [set_node] using hn
  · simpa [set_node, Function.update_noteq hj] using h j

theorem ordered_of_frame {i : Nat} {s s1 : MultiBuffer} (hf : Frame i s s1)
    (h : ∀ j, NodeOrdered (s.m_datanodes j)) (hn : NodeOrdered (s1.m_datanodes i)) :
    ∀ j, NodeOrdered (s1.m_datanodes j) := by
  intro j
  by_cases hj : j = i
  · subst hj
    exact hn
  · rw [hf.nodes j hj]
    exact h j

theorem ordered_start_metadata_send (s : MultiBuffer) (i : Nat)
    (h : NodeOrdered (s.m_datanodes i)) :
    NodeOrdered ((start_metadata_send s i).m_datanodes i) := by
  unfold start_metadata_send NodeOrdered at *
  split <;> simp_all [set_metadata_progress, set_node, emit]

theorem ordered_start_send (s : MultiBuffer) (i : Nat) (h : NodeOrdered (s.m_datanodes i)) :
    NodeOrdered ((start_send s i).m_datanodes i) := by
  unfold start_send NodeOrdered at *
  split
  · split <;> simp_all [set_progress, set_node, emit]
  · exact h

theorem ordered_finish_metadata_send (s : MultiBuffer) (i : Nat) (is_blocking : Bool)
    (t : Transport) (h : NodeOrdered (s.m_datanodes i)) :
    NodeOrdered ((finish_metadata_send s i is_blocking t).m_datanodes i) := by
  unfold finish_metadata_send NodeOrdered at *
  split
  · split
    · simp_all [set_metadata_progress, set_node, emit]
    · simp only []
      split <;> simp_all [set_metadata_progress, set_node, emit]
  · exact h

theorem ordered_start_metadata_receive (s : MultiBuffer) (i : Nat)
    (h : NodeOrdered (s.m_datanodes i)) :
    NodeOrdered ((start_metadata_receive s i).m_datanodes i) := by
  unfold start_metadata_receive NodeOrdered at *
  split <;> simp_all [set_metadata_progress, set_node, emit]

theorem ordered_finish_metadata_receive (s : MultiBuffer) (i : Nat) (is_blocking : Bool)
    (t : Transport) (h : NodeOrdered (s.m_datanodes i)) :
    NodeOrdered ((finish_metadata_receive s i is_blocking t).m_datanodes i) := by
  unfold finish_metadata_receive NodeOrdered at *
  split
  · split
    · simp_all [set_metadata_progress, set_node, emit, deliver_metadata]
    · simp only []
      split <;> simp_all [set_metadata_progress, set_node, emit, deliver_metadata]
  · exact h

/-- What `free_buffer` leaves in the slot. -/
theorem free_buffer_node (s s1 : MultiBuffer) (i : Nat) (h : free_buffer s i = some s1) :
    (s.m_datanodes i).m_location ≠ memory_location.nowhere ∧
    s1.m_datanodes i = { s.m_datanodes i with
      m_location := memory_location.nowhere, m_buffer := none, m_buffer_size := 0 } := by
  unfold free_buffer at h
  split at h
  · rename_i hl
    injection h with h
    subst h
    refine ⟨hl, ?_⟩
    split <;> simp [set_node, emit]
  · exact absurd h (by simp)

/-- What `allocate_buffer` leaves in the slot. -/
theorem allocate_buffer_node (cfg : Config) (s s1 : MultiBuffer) (i : Nat) (fresh : Mem)
    (h : allocate_buffer cfg s i fresh = some s1) :
    (s.m_datanodes i).m_location = memory_location.nowhere ∧
    s1.m_datanodes i = { s.m_datanodes i with
      m_buffer := some fresh,
      m_location := if s.m_buffer_on_host then memory_location.pinned
        else memory_location.device } := by
  by_cases hl : (s.m_datanodes i).m_location = memory_location.nowhere
  · obtain ⟨s2, h2, -, -, -, hb, hs, hp, hm, hloc, -, -⟩ :=
      allocate_buffer_some cfg s i fresh hl
    rw [h] at h2
    injection h2 with h2
    subst h2
    refine ⟨hl, ?_⟩
    cases hn : s1.m_datanodes i
    rw [hn] at hb hs hp hm hloc
    simp only at hb hs hp hm hloc
    simp [hb, hs, hp, hm, hloc]
  · unfold allocate_buffer at h
    rw [if_neg hl] at h
    exact absurd h (by simp)

theorem ordered_finish_send (s s1 : MultiBuffer) (i : Nat) (is_blocking : Bool)
    (t : Transport) (hs : finish_send s i is_blocking t = some s1)
    (h : NodeOrdered (s.m_datanodes i)) : NodeOrdered (s1.m_datanodes i) := by
  unfold finish_send at hs
  split at hs
  · split at hs
    · obtain ⟨s2, h2, rfl⟩ := Option.map_eq_some'.mp hs
      simp [NodeOrdered, set_progress, set_node]
    · simp only [] at hs
      split at hs
      · obtain ⟨s2, h2, rfl⟩ := Option.map_eq_some'.mp hs
        simp [NodeOrdered, set_progress, set_node]
      · injection hs with hs
        subst hs
        exact h
  · injection hs with hs
    subst hs
    exact h

theorem ordered_start_receive (cfg : Config) (s s1 : MultiBuffer) (i : Nat) (t : Transport)
    (hs : start_receive cfg s i t = some s1) (h : NodeOrdered (s.m_datanodes i)) :
    NodeOrdered (s1.m_datanodes i) := by
  unfold start_receive at hs
  split at hs
  · rename_i hc
    split at hs
    · simp only [] at hs
      split at hs
      · injection hs with hs
        subst hs
        simp [NodeOrdered, set_progress, set_node]
      · obtain ⟨s2, h2, rfl⟩ := Option.map_eq_some'.mp hs
        have hn := (allocate_buffer_node cfg _ _ i t.fresh h2).2
        simp only [NodeOrdered, set_progress, set_node, emit, Function.update_same, hn]
        intro _
        exact hc.2
    · exact absurd hs (by simp)
  · injection hs with hs
    subst hs
    exact h

theorem ordered_finish_receive (cfg : Config) (s : MultiBuffer) (i : Nat) (is_blocking : Bool)
    (t : Transport) (h : NodeOrdered (s.m_datanodes i)) :
    NodeOrdered ((finish_receive cfg s i is_blocking t).m_datanodes i) := by
  unfold finish_receive NodeOrdered at *
  split
  · split
    · simp_all [set_progress, set_node, emit, deliver_buffer]
    · simp only []
      split <;> simp_all [set_progress, set_node, emit, deliver_buffer]
  · exact h

/-- A poll keeps the ordering invariant. -/
theorem ordered_make_progress (cfg : Config) (s s1 : MultiBuffer) (i : Nat)
    (is_blocking : Bool) (t : Transport)
    (hs : make_progress cfg s i is_blocking t = some s1)
    (h : ∀ j, NodeOrdered (s.m_datanodes j)) : ∀ j, NodeOrdered (s1.m_datanodes j) := by
  apply ordered_of_frame (Frame.frame_make_progress cfg s s1 i is_blocking t hs) h
  obtain ⟨s6, s7, h6, h7, rfl, -⟩ := make_progress_steps cfg s s1 i is_blocking t hs
  apply ordered_finish_receive
  apply ordered_start_receive cfg _ _ i t h7
  apply ordered_finish_send _ _ i is_blocking t h6
  apply ordered_finish_metadata_receive
  apply ordered_start_metadata_receive
  apply ordered_finish_metadata_send
  apply ordered_start_send
  apply ordered_start_metadata_send
  exact h i

/-- A sweep keeps the ordering invariant. -/
theorem ordered_downLoop (cfg : Config) (t : Nat → Transport) (n : Nat) (s s1 : MultiBuffer)
    (hs : downLoop n (fun i s => make_progress cfg s i false (t i)) s = some s1)
    (h : ∀ j, NodeOrdered (s.m_datanodes j)) : ∀ j, NodeOrdered (s1.m_datanodes j) := by
  induction n generalizing s with
  | zero =>
    simp only [downLoop] at hs
    injection hs with hs
    subst hs
    exact h
  | succ n ih =>
    simp only [downLoop] at hs
    obtain ⟨s2, h2, h3⟩ := Option.bind_eq_some.mp hs
    exact ih s2 h3 (ordered_make_progress cfg s s2 n false (t n) h2 h)

end Hipace
namespace Hipace

/-! ## The driver interface keeps the ordering invariant -/

theorem Frame.write_metadata (cfg : Config) (s s1 : MultiBuffer) (slice : Nat)
    (beams : MultiBeam) (beam_slice : Nat)
    (h : write_metadata cfg s slice beams beam_slice = some s1) : Frame slice s s1 := by
  obtain ⟨c1, c2, c3, c4, c5, c6, c7, c8, htr, hn, -⟩ :=
    write_metadata_frame cfg s slice beams beam_slice s1 h
  refine ⟨⟨c1, c2, c3, c4, c5, c6, c7, c8⟩, hn, ?_, ⟨[], by simp [htr], by simp⟩⟩
  intro k hk
  have hloop := write_metadata_loop cfg s slice beams beam_slice s.m_nbeams
  unfold Hipace.write_metadata at h
  simp only [hloop, Function.update_same] at h
  split at h
  · injection h with h
    subst h
    simp only [Hipace.set_node]
    unfold get_metadata_size at hk
    rw [Function.update_noteq (by omega)]
    have h3 : ¬ (get_metadata_location s slice + 1 ≤ k ∧
        k < get_metadata_location s slice + 1 + s.m_nbeams) := by omega
    simp only [h3, if_false]
  · exact absurd h (by simp)

theorem Frame.pack_data (cfg : Config) (s s1 : MultiBuffer) (slice : Nat) (beams beams1 : MultiBeam)
    (beam_slice : Nat) (h : pack_data cfg s slice beams beam_slice = some (s1, beams1)) :
    Frame slice s s1 := by
  unfold Hipace.pack_data at h
  split at h
  · exact absurd h (by simp)
  · injection h with h
    injection h with h1 h2
    subst h1
    exact Frame.frame_set_node slice s _

/-- The synthesis loop of `get_data` only adds calls for the slice to the trace. -/
theorem Frame.synthesize (cfg : Config) (s : MultiBuffer) (slice beam_slice : Nat)
    (beams : MultiBeam) (n : Nat) :
    Frame slice s (forLoop n (fun b (acc : MultiBuffer × MultiBeam) =>
      (Hipace.emit acc.1 (Event.intializeSlice b slice beam_slice),
        Function.update acc.2 b (cfg.intializeSlice b slice beam_slice (acc.2 b))))
      (s, beams)).1 := by
  induction n with
  | zero => exact Frame.frame_refl slice s
  | succ n ih =>
    rw [forLoop_succ]
    exact ih.frame_trans (Frame.frame_emit slice _ _ (by rfl))

/-- What `get_data` does to the object: it only touches the slice, whose two sub-channels
end up in use. -/
theorem get_data_frame (cfg : Config) (s s1 : MultiBuffer) (slice : Nat)
    (beams beams1 : MultiBeam) (beam_slice : Nat) (t : Transport)
    (h : get_data cfg s slice beams beam_slice t = some (s1, beams1)) :
    Frame slice s s1 ∧ (s1.m_datanodes slice).m_progress = comm_progress.in_use ∧
      (s1.m_datanodes slice).m_metadata_progress = comm_progress.in_use := by
  unfold get_data at h
  simp only [] at h
  obtain ⟨p, hp, h⟩ := Option.map_eq_some'.mp h
  injection h with h1 h2
  subst h1
  refine ⟨?_, by simp [set_metadata_progress, set_progress, set_node],
    by simp [set_metadata_progress, set_progress, set_node]⟩
  have hf : Frame slice s p.1 := by
    split at hp
    · injection hp with hp
      subst hp
      exact Frame.synthesize cfg s slice beam_slice beams s.m_nbeams
    · obtain ⟨s2, h2, hp⟩ := Option.bind_eq_some.mp hp
      have f2 := Frame.frame_make_progress cfg s s2 slice true t h2
      split at hp
      · obtain ⟨b1, hb1, hp⟩ := Option.bind_eq_some.mp hp
        obtain ⟨s3, h3, hp⟩ := Option.map_eq_some'.mp hp
        subst hp
        exact f2.frame_trans (Frame.frame_free_buffer slice _ _ h3)
      · injection hp with hp
        subst hp
        exact f2
  exact (hf.frame_trans (Frame.frame_set_progress slice _ _)).frame_trans (Frame.frame_set_metadata_progress slice _ _)

/-- What `put_data` does before its closing sweep: it only touches the slice, whose two
sub-channels are then both completed (final time step) or both ready to send. -/
theorem put_data_steps (cfg : Config) (s s1 : MultiBuffer) (slice : Nat)
    (beams beams1 : MultiBeam) (beam_slice : Nat) (is_last_time_step : Bool) (fresh : Mem)
    (t : Nat → Transport)
    (h : put_data cfg s slice beams beam_slice is_last_time_step fresh t = some (s1, beams1)) :
    ∃ sp, Frame slice s sp ∧
      (sp.m_datanodes slice).m_progress
        = (if is_last_time_step then comm_progress.sim_completed
            else comm_progress.ready_to_send) ∧
      (sp.m_datanodes slice).m_metadata_progress
        = (if is_last_time_step then comm_progress.sim_completed
            else comm_progress.ready_to_send) ∧
      progress_all cfg sp t = some s1 := by
  unfold put_data at h
  simp only [] at h
  obtain ⟨p, hp, h⟩ := Option.bind_eq_some.mp h
  obtain ⟨s3, h3, h⟩ := Option.map_eq_some'.mp h
  injection h with h1 h2
  subst h1
  refine ⟨p.1, ?_, ?_, ?_, h3⟩
  · split at hp
    · injection hp with hp
      subst hp
      exact (Frame.frame_set_progress slice _ _).frame_trans (Frame.frame_set_metadata_progress slice _ _)
    · obtain ⟨sw, hw, hp⟩ := Option.bind_eq_some.mp hp
      obtain ⟨q, hq, hp⟩ := Option.map_eq_some'.mp hp
      subst hp
      have fw := Frame.write_metadata cfg s sw slice beams beam_slice hw
      have fq : Frame slice sw q.1 := by
        split at hq
        · obtain ⟨sa, ha, hq⟩ := Option.bind_eq_some.mp hq
          exact (Frame.frame_allocate_buffer cfg slice _ _ fresh ha).frame_trans
            (Frame.pack_data cfg sa q.1 slice beams q.2 beam_slice hq)
        · injection hq with hq
          subst hq
          exact Frame.frame_refl slice sw
      exact ((fw.frame_trans fq).frame_trans (Frame.frame_set_progress slice _ _)).frame_trans
        (Frame.frame_set_metadata_progress slice _ _)
  · split at hp
    · rename_i hl
      injection hp with hp
      subst hp
      simp [set_metadata_progress, set_progress, set_node, hl]
    · rename_i hl
      obtain ⟨sw, hw, hp⟩ := Option.bind_eq_some.mp hp
      obtain ⟨q, hq, hp⟩ := Option.map_eq_some'.mp hp
      subst hp
      simp [set_metadata_progress, set_progress, set_node, hl]
  · split at hp
    · rename_i hl
      injection hp with hp
      subst hp
      simp [set_metadata_progress, set_progress, set_node, hl]
    · rename_i hl
      obtain ⟨sw, hw, hp⟩ := Option.bind_eq_some.mp hp
      obtain ⟨q, hq, hp⟩ := Option.map_eq_some'.mp hp
      subst hp
      simp [set_metadata_progress, set_progress, set_node, hl]

/-- The two marking loops of `initialize` never put a slot in `receive_started`. -/
theorem initialize_loop_ordered (p : comm_progress) (hp : p ≠ comm_progress.receive_started)
    (n : Nat) (s : MultiBuffer) (h : ∀ j, NodeOrdered (s.m_datanodes j)) :
    ∀ j, NodeOrdered ((forLoop n (fun k (s : MultiBuffer) =>
      set_metadata_progress (set_progress s (s.m_nslices - 1 - k) p) (s.m_nslices - 1 - k) p)
      s).m_datanodes j) := by
  induction n with
  | zero => exact h
  | succ n ih =>
    rw [forLoop_succ]
    apply ordered_set_node _ _ _ _
    · simp [NodeOrdered, set_progress, set_node, hp]
    · apply ordered_set_node _ _ _ ih
      simp [NodeOrdered, hp]

/-- Every state the object can be in keeps the ordering invariant. -/
theorem reachable_ordered (cfg : Config) (s : MultiBuffer) (h : Reachable cfg s) :
    ∀ j, NodeOrdered (s.m_datanodes j) := by
  induction h with
  | init nslices nbeams rank_id n_ranks buffer_on_host t s hs =>
    unfold initialize_multibuffer at hs
    simp only [] at hs
    apply ordered_downLoop cfg t _ _ s hs
    split
    · apply initialize_loop_ordered _ (by decide)
      intro j
      simp [NodeOrdered, default_node]
    · apply initialize_loop_ordered _ (by decide)
      intro j
      simp [NodeOrdered, default_node]
  | put s slice beams beam_slice is_last_time_step fresh t s1 beams1 _ _ hput ih =>
    obtain ⟨sp, hf, hp, -, hsweep⟩ :=
      put_data_steps cfg s s1 slice beams beams1 beam_slice is_last_time_step fresh t hput
    apply ordered_downLoop cfg t _ _ s1 hsweep
    apply ordered_of_frame hf ih
    intro hr
    rw [hp] at hr
    split at hr <;> exact absurd hr (by decide)
  | get s slice beams beam_slice t s1 beams1 _ _ hget ih =>
    obtain ⟨hf, hp, -⟩ := get_data_frame cfg s s1 slice beams beams1 beam_slice t hget
    apply ordered_of_frame hf ih
    intro hr
    rw [hp] at hr
    exact absurd hr (by decide)
  | progress s slice is_blocking t s1 _ _ hmp ih =>
    exact ordered_make_progress cfg s s1 slice is_blocking t hmp ih

end Hipace
namespace Hipace

/-! ## Outside calls made by each block of a poll -/

theorem start_metadata_send_trace (s : MultiBuffer) (i : Nat) :
    (start_metadata_send s i).trace = s.trace ++
      (if (s.m_datanodes i).m_metadata_progress = comm_progress.ready_to_send then
        [Event.Isend (Request.m_metadata_request i) (get_metadata_size s) s.m_rank_send_to
          (s.m_tag_metadata_start + i)]
      else []) := by
  unfold start_metadata_send
  split <;> simp [set_metadata_progress, set_node, emit]

theorem start_send_trace (s : MultiBuffer) (i : Nat) :
    (start_send s i).trace = s.trace ++
      (if (s.m_datanodes i).m_progress = comm_progress.ready_to_send ∧
          (s.m_datanodes i).m_buffer_size ≠ 0 then
        [Event.Isend (Request.m_request i) (s.m_datanodes i).m_buffer_size s.m_rank_send_to
          (s.m_tag_buffer_start + i)]
      else []) := by
  unfold start_send
  split
  · split <;> simp_all [set_progress, set_node, emit]
  · simp_all

theorem finish_metadata_send_trace (s : MultiBuffer) (i : Nat) (is_blocking : Bool)
    (t : Transport) :
    (finish_metadata_send s i is_blocking t).trace = s.trace ++
      (if (s.m_datanodes i).m_metadata_progress = comm_progress.send_started then
        [if is_blocking then Event.Wait (Request.m_metadata_request i)
          else Event.Test (Request.m_metadata_request i) t.metadata_send_complete]
      else []) := by
  unfold finish_metadata_send
  split
  · split
    · simp_all [set_metadata_progress, set_node, emit]
    · simp only []
      split <;> simp_all [set_metadata_progress, set_node, emit]
  · simp_all

theorem start_metadata_receive_trace (s : MultiBuffer) (i : Nat) :
    (start_metadata_receive s i).trace = s.trace ++
      (if (s.m_datanodes i).m_metadata_progress = comm_progress.sent then
        [Event.Irecv (Request.m_metadata_request i) (get_metadata_size s)
          s.m_rank_receive_from (s.m_tag_metadata_start + i)]
      else []) := by
  unfold start_metadata_receive
  split <;> simp [set_metadata_progress, set_node, emit]

theorem finish_metadata_receive_trace (s : MultiBuffer) (i : Nat) (is_blocking : Bool)
    (t : Transport) :
    (finish_metadata_receive s i is_blocking t).trace = s.trace ++
      (if (s.m_datanodes i).m_metadata_progress = comm_progress.receive_started then
        [if is_blocking then Event.Wait (Request.m_metadata_request i)
          else Event.Test (Request.m_metadata_request i) t.metadata_receive_complete]
      else []) := by
  unfold finish_metadata_receive
  split
  · split
    · simp_all [set_metadata_progress, set_node, emit, deliver_metadata]
    · simp only []
      split <;> simp_all [set_metadata_progress, set_node, emit, deliver_metadata]
  · simp_all

/-- Outside calls of `free_buffer`. -/
theorem free_buffer_trace (s s1 : MultiBuffer) (i : Nat) (h : free_buffer s i = some s1) :
    s1.trace = s.trace ++
      [Event.free i (if (s.m_datanodes i).m_location = memory_location.pinned
        then memory_location.pinned else memory_location.device)] := by
  unfold free_buffer at h
  split at h
  · injection h with h
    subst h
    split <;> simp_all [set_node, emit]
  · exact absurd h (by simp)

theorem finish_send_trace (s s1 : MultiBuffer) (i : Nat) (is_blocking : Bool) (t : Transport)
    (h : finish_send s i is_blocking t = some s1) :
    s1.trace = s.trace ++
      (if (s.m_datanodes i).m_progress = comm_progress.send_started then
        (if is_blocking then
          [Event.Wait (Request.m_request i),
            Event.free i (if (s.m_datanodes i).m_location = memory_location.pinned
              then memory_location.pinned else memory_location.device)]
        else if t.send_complete then
          [Event.Test (Request.m_request i) true,
            Event.free i (if (s.m_datanodes i).m_location = memory_location.pinned
              then memory_location.pinned else memory_location.device)]
        else [Event.Test (Request.m_request i) false])
      else []) := by
  unfold finish_send at h
  split at h
  · rename_i hp
    rw [if_pos hp]
    split at h
    · rename_i hb
      obtain ⟨s2, h2, rfl⟩ := Option.map_eq_some'.mp h
      have := free_buffer_trace _ _ i h2
      simp_all [set_progress, set_node, emit]
    · rename_i hb
      simp only [] at h
      split at h
      · rename_i hc
        obtain ⟨s2, h2, rfl⟩ := Option.map_eq_some'.mp h
        have := free_buffer_trace _ _ i h2
        simp_all [set_progress, set_node, emit]
      · injection h with h
        subst h
        simp_all [emit]
  · rename_i hp
    injection h with h
    subst h
    simp [hp]

theorem start_receive_trace (cfg : Config) (s s1 : MultiBuffer) (i : Nat) (t : Transport)
    (h : start_receive cfg s i t = some s1) :
    s1.trace = s.trace ++
      (if (s.m_datanodes i).m_progress = comm_progress.sent ∧
          (s.m_datanodes i).m_metadata_progress = comm_progress.received ∧
          s.m_metadata (get_metadata_location s i + 0) ≠ 0 then
        [Event.alloc i (s.m_metadata (get_metadata_location s i + 0) * cfg.sizeof_storage_type)
            (if s.m_buffer_on_host then memory_location.pinned else memory_location.device),
          Event.Irecv (Request.m_request i) (s.m_metadata (get_metadata_location s i + 0))
            s.m_rank_receive_from (s.m_tag_buffer_start + i)]
      else []) := by
  unfold start_receive at h
  split at h
  · rename_i hc
    split at h
    · simp only [] at h
      split at h
      · rename_i hz
        injection h with h
        subst h
        have hz1 : ¬ ((s.m_datanodes i).m_progress = comm_progress.sent ∧
            (s.m_datanodes i).m_metadata_progress = comm_progress.received ∧
            s.m_metadata (get_metadata_location s i + 0) ≠ 0) := by
          intro h3
          apply h3.2.2
          simpa [set_node] using hz
        rw [if_neg hz1]
        simp [set_progress, set_node]
      · rename_i hz
        obtain ⟨s2, h2, rfl⟩ := Option.map_eq_some'.mp h
        have hz1 : (s.m_datanodes i).m_progress = comm_progress.sent ∧
            (s.m_datanodes i).m_metadata_progress = comm_progress.received ∧
            s.m_metadata (get_metadata_location s i + 0) ≠ 0 := by
          refine ⟨hc.1, hc.2, ?_⟩
          simpa [set_node] using hz
        have hl : ((set_node s i { s.m_datanodes i with
            m_buffer_size := s.m_metadata (get_metadata_location s i + 0) }).m_datanodes i
            ).m_location = memory_location.nowhere := by
          by_contra hl
          unfold allocate_buffer at h2
          rw [if_neg hl] at h2
          exact absurd h2 (by simp)
        obtain ⟨s3, h3, -, -, -, -, hsz, -, -, -, -, htr⟩ :=
          allocate_buffer_some cfg _ i t.fresh hl
        rw [h2] at h3
        injection h3 with h3
        subst h3
        have c := (Frame.frame_allocate_buffer cfg i _ _ t.fresh h2).config
        rw [if_pos hz1]
        have e1 : (set_progress (emit s2 (Event.Irecv (Request.m_request i)
            (s2.m_datanodes i).m_buffer_size s2.m_rank_receive_from
            (s2.m_tag_buffer_start + i))) i comm_progress.receive_started).trace
            = s2.trace ++ [Event.Irecv (Request.m_request i)
              (s2.m_datanodes i).m_buffer_size s2.m_rank_receive_from
              (s2.m_tag_buffer_start + i)] := rfl
        rw [e1, htr, hsz, c.rank_receive_from, c.tag_buffer_start]
        simp [set_node]
    · exact absurd h (by simp)
  · rename_i hc
    injection h with h
    subst h
    have : ¬ ((s.m_datanodes i).m_progress = comm_progress.sent ∧
        (s.m_datanodes i).m_metadata_progress = comm_progress.received ∧
        s.m_metadata (get_metadata_location s i + 0) ≠ 0) := fun h => hc ⟨h.1, h.2.1⟩
    rw [if_neg this, List.append_nil]

theorem finish_receive_trace (cfg : Config) (s : MultiBuffer) (i : Nat) (is_blocking : Bool)
    (t : Transport) :
    (finish_receive cfg s i is_blocking t).trace = s.trace ++
      (if (s.m_datanodes i).m_progress = comm_progress.receive_started then
        [if is_blocking then Event.Wait (Request.m_request i)
          else Event.Test (Request.m_request i) t.receive_complete]
      else []) := by
  unfold finish_receive
  split
  · split
    · simp_all [set_progress, set_node, emit, deliver_buffer]
    · simp only []
      split <;> simp_all [set_progress, set_node, emit, deliver_buffer]
  · simp_all

/-- The calls between two states when the later trace extends the earlier one. -/
theorem new_events_eq (s s1 : MultiBuffer) (evs : List Event) (h : s1.trace = s.trace ++ evs) :
    new_events s s1 = evs := by
  simp [new_events, h]

/-- The metadata state is not changed by the block that posts the bulk-data receive. -/
theorem start_receive_metadata_progress (cfg : Config) (s s1 : MultiBuffer) (i : Nat)
    (t : Transport) (h : start_receive cfg s i t = some s1) :
    (s1.m_datanodes i).m_metadata_progress = (s.m_datanodes i).m_metadata_progress := by
  unfold start_receive at h
  split at h
  · split at h
    · simp only [] at h
      split at h
      · injection h with h
        subst h
        simp [set_progress, set_node]
      · obtain ⟨s2, h2, rfl⟩ := Option.map_eq_some'.mp h
        have hn := (allocate_buffer_node cfg _ _ i t.fresh h2).2
        simp [set_progress, set_node, emit, hn]
    · exact absurd h (by simp)
  · injection h with h
    subst h
    rfl

theorem finish_receive_metadata_progress (cfg : Config) (s : MultiBuffer) (i : Nat)
    (is_blocking : Bool) (t : Transport) :
    ((finish_receive cfg s i is_blocking t).m_datanodes i).m_metadata_progress
      = (s.m_datanodes i).m_metadata_progress := by
  unfold finish_receive
  split
  · split
    · simp [set_progress, set_node, emit, deliver_buffer]
    · simp only []
      split <;> simp [set_progress, set_node, emit, deliver_buffer]
  · rfl

end Hipace
namespace Hipace

/-- The trace after a poll, block by block. -/
theorem make_progress_trace (cfg : Config) (s s1 : MultiBuffer) (i : Nat) (is_blocking : Bool)
    (t : Transport) (h : make_progress cfg s i is_blocking t = some s1) :
    ∃ s5 s6 s7 l6 l7,
      s5 = finish_metadata_receive (start_metadata_receive
        (finish_metadata_send (start_send (start_metadata_send s i) i) i is_blocking t) i)
        i is_blocking t ∧
      finish_send s5 i is_blocking t = some s6 ∧ start_receive cfg s6 i t = some s7 ∧
      s1 = finish_receive cfg s7 i is_blocking t ∧
      s6.trace = s5.trace ++ l6 ∧ s7.trace = s6.trace ++ l7 ∧
      (∀ r count source tag, Event.Irecv (Request.m_request r) count source tag ∉ l6) ∧
      (∀ r count source tag, Event.Irecv (Request.m_request r) count source tag ∈ l7 →
        r = i ∧ (s6.m_datanodes i).m_metadata_progress = comm_progress.received) ∧
      (∀ r count source tag, Event.Irecv (Request.m_request r) count source tag ∈
          new_events s s1 →
        Event.Irecv (Request.m_request r) count source tag ∈ l6 ++ l7) := by
  obtain ⟨s6, s7, h6, h7, rfl, -⟩ := make_progress_steps cfg s s1 i is_blocking t h
  have t6 := finish_send_trace _ _ i is_blocking t h6
  have t7 := start_receive_trace cfg _ _ i t h7
  refine ⟨_, s6, s7, _, _, rfl, h6, h7, rfl, t6, t7, ?_, ?_, ?_⟩
  · intro r count source tag hmem
    split at hmem
    · split at hmem
      · simp at hmem
      · split at hmem <;> simp at hmem
    · simp at hmem
  · intro r count source tag hmem
    split at hmem
    · rename_i hc
      simp only [List.mem_cons, List.mem_singleton, Event.Irecv.injEq, Request.m_request.injEq,
        List.mem_nil_iff, or_false, reduceCtorEq, false_or] at hmem
      exact ⟨hmem.1, hc.2.1⟩
    · simp at hmem
  · intro r count source tag hmem
    have e := finish_receive_trace cfg s7 i is_blocking t
    rw [t7, t6, finish_metadata_receive_trace, start_metadata_receive_trace,
      finish_metadata_send_trace, start_send_trace, start_metadata_send_trace] at e
    simp only [List.append_assoc] at e
    rw [new_events_eq s _ _ e] at hmem
    simp only [List.mem_append] at hmem ⊢
    rcases hmem with hm | hm | hm | hm | hm | hm | hm | hm
    · split at hm <;> simp at hm
    · split at hm <;> simp at hm
    · split at hm
      · split at hm <;> simp at hm
      · simp at hm
    · split at hm <;> simp at hm
    · split at hm
      · split at hm <;> simp at hm
      · simp at hm
    · exact Or.inl hm
    · exact Or.inr hm
    · split at hm
      · split at hm <;> simp at hm
      · simp at hm

/-- C8: in every state reachable from `initialize` by `put_data`, `get_data` and
`make_progress` calls with arbitrary transport outcomes, a slot whose data state is
`receive_started` has metadata state `received`; and whenever a poll posts a bulk-data
receive, it is for the polled slice and that slice's metadata state is `received` (when the
receive is posted and when the poll returns). -/
theorem metadata_before_data (cfg : Config) :
    (∀ s, Reachable cfg s → ∀ slice,
      (s.m_datanodes slice).m_progress = comm_progress.receive_started →
        (s.m_datanodes slice).m_metadata_progress = comm_progress.received) ∧
    (∀ (s s1 : MultiBuffer) (i : Nat) (is_blocking : Bool) (t : Transport)
      (r count : Nat) (source : Int) (tag : Nat),
      make_progress cfg s i is_blocking t = some s1 →
      Event.Irecv (Request.m_request r) count source tag ∈ new_events s s1 →
        r = i ∧ (s1.m_datanodes i).m_metadata_progress = comm_progress.received) := by
  constructor
  · intro s hs slice
    exact reachable_ordered cfg s hs slice
  · intro s s1 i is_blocking t r count source tag h hmem
    obtain ⟨s5, s6, s7, l6, l7, -, h6, h7, rfl, -, -, n6, n7, hall⟩ :=
      make_progress_trace cfg s s1 i is_blocking t h
    rcases List.mem_append.mp (hall r count source tag hmem) with hm | hm
    · exact absurd hm (n6 r count source tag)
    · obtain ⟨e1, e2⟩ := n7 r count source tag hm
      refine ⟨e1, ?_⟩
      rw [finish_receive_metadata_progress, start_receive_metadata_progress cfg s6 s7 i t h7]
      exact e2

end Hipace
namespace Hipace

/-! ## Zero-payload short-circuit, consumer side -/

/-- With the metadata received and the data sub-channel sent, the blocks of a poll before
the one that posts the bulk-data receive do nothing. -/
theorem poll_prefix_idle (s : MultiBuffer) (i : Nat) (is_blocking : Bool) (t : Transport)
    (hp : (s.m_datanodes i).m_progress = comm_progress.sent)
    (hm : (s.m_datanodes i).m_metadata_progress = comm_progress.received) :
    finish_send (finish_metadata_receive (start_metadata_receive
      (finish_metadata_send (start_send (start_metadata_send s i) i) i is_blocking t) i)
      i is_blocking t) i is_blocking t = some s := by
  have e1 : start_metadata_send s i = s := by
    unfold start_metadata_send
    rw [if_neg (by rw [hm]; decide)]
  have e2 : start_send s i = s := by
    unfold start_send
    rw [if_neg (by rw [hp]; decide)]
  have e3 : finish_metadata_send s i is_blocking t = s := by
    unfold finish_metadata_send
    rw [if_neg (by rw [hm]; decide)]
  have e4 : start_metadata_receive s i = s := by
    unfold start_metadata_receive
    rw [if_neg (by rw [hm]; decide)]
  have e5 : finish_metadata_receive s i is_blocking t = s := by
    unfold finish_metadata_receive
    rw [if_neg (by rw [hm]; decide)]
  rw [e1, e2, e3, e4, e5]
  unfold finish_send
  rw [if_neg (by rw [hp]; decide)]

/-- A poll that finds a slot holding no storage with data state `sent` and metadata state
`received`: if the received `metadata[0]` is 0 the data state becomes `received` with
no allocation and no outside call at all; otherwise `m_buffer_size` becomes `metadata[0]`,
the buffer is allocated in the configured arena, exactly one bulk-data receive is posted and
the data state becomes `receive_started` (and the same poll then waits for it or tests it
once). -/
theorem consumer_short_circuit_facts (cfg : Config) (s : MultiBuffer) (slice : Nat)
    (is_blocking : Bool) (t : Transport)
    (hp : (s.m_datanodes slice).m_progress = comm_progress.sent)
    (hm : (s.m_datanodes slice).m_metadata_progress = comm_progress.received)
    (hloc : (s.m_datanodes slice).m_location = memory_location.nowhere) :
    (s.m_metadata (get_metadata_location s slice + 0) = 0 →
      (∃ s1, start_receive cfg s slice t = some s1 ∧
        (s1.m_datanodes slice).m_progress = comm_progress.received ∧
        (s1.m_datanodes slice).m_location = memory_location.nowhere ∧
        (s1.m_datanodes slice).m_buffer = (s.m_datanodes slice).m_buffer ∧
        new_events s s1 = []) ∧
      (∃ s2, make_progress cfg s slice is_blocking t = some s2 ∧
        (s2.m_datanodes slice).m_progress = comm_progress.received ∧
        (s2.m_datanodes slice).m_location = memory_location.nowhere ∧
        new_events s s2 = [])) ∧
    (s.m_metadata (get_metadata_location s slice + 0) ≠ 0 →
      (∃ s1, start_receive cfg s slice t = some s1 ∧
        (s1.m_datanodes slice).m_buffer_size
          = s.m_metadata (get_metadata_location s slice + 0) ∧
        (s1.m_datanodes slice).m_buffer = some t.fresh ∧
        (s1.m_datanodes slice).m_location
          = (if s.m_buffer_on_host then memory_location.pinned else memory_location.device) ∧
        (s1.m_datanodes slice).m_progress = comm_progress.receive_started ∧
        new_events s s1 =
          [Event.alloc slice
              (s.m_metadata (get_metadata_location s slice + 0) * cfg.sizeof_storage_type)
              (if s.m_buffer_on_host then memory_location.pinned
                else memory_location.device),
            Event.Irecv (Request.m_request slice)
              (s.m_metadata (get_metadata_location s slice + 0)) s.m_rank_receive_from
              (s.m_tag_buffer_start + slice)]) ∧
      (∃ s2, make_progress cfg s slice is_blocking t = some s2 ∧
        (s2.m_datanodes slice).m_buffer_size
          = s.m_metadata (get_metadata_location s slice + 0) ∧
        (s2.m_datanodes slice).m_location
          = (if s.m_buffer_on_host then memory_location.pinned else memory_location.device) ∧
        (s2.m_datanodes slice).m_progress
          = (if is_blocking = true ∨ t.receive_complete = true then comm_progress.received
              else comm_progress.receive_started) ∧
        new_events s s2 =
          [Event.alloc slice
              (s.m_metadata (get_metadata_location s slice + 0) * cfg.sizeof_storage_type)
              (if s.m_buffer_on_host then memory_location.pinned
                else memory_location.device),
            Event.Irecv (Request.m_request slice)
              (s.m_metadata (get_metadata_location s slice + 0)) s.m_rank_receive_from
              (s.m_tag_buffer_start + slice),
            if is_blocking then Event.Wait (Request.m_request slice)
              else Event.Test (Request.m_request slice) t.receive_complete])) := by
  have hpre := poll_prefix_idle s slice is_blocking t hp hm
  constructor
  · intro hz
    have h7 : start_receive cfg s slice t = some
        (set_progress (set_node s slice { s.m_datanodes slice with
          m_buffer_size := s.m_metadata (get_metadata_location s slice + 0) }) slice
          comm_progress.received) := by
      unfold start_receive
      rw [if_pos ⟨hp, hm⟩, if_pos hloc]
      simp only [set_node, Function.update_same]
      rw [if_pos hz]
    have t7 := start_receive_trace cfg s _ slice t h7
    rw [if_neg (fun h => h.2.2 hz), List.append_nil] at t7
    refine ⟨⟨_, h7, by simp [set_progress, set_node], by simp [set_progress, set_node, hloc],
      by simp [set_progress, set_node], new_events_eq s _ [] (by rw [t7, List.append_nil])⟩, ?_⟩
    have h8 : finish_receive cfg (set_progress (set_node s slice { s.m_datanodes slice with
          m_buffer_size := s.m_metadata (get_metadata_location s slice + 0) }) slice
          comm_progress.received) slice is_blocking t
        = set_progress (set_node s slice { s.m_datanodes slice with
          m_buffer_size := s.m_metadata (get_metadata_location s slice + 0) }) slice
          comm_progress.received := by
      unfold finish_receive
      rw [if_neg (by simp [set_progress, set_node])]
    have hmp : make_progress cfg s slice is_blocking t = some
        (set_progress (set_node s slice { s.m_datanodes slice with
          m_buffer_size := s.m_metadata (get_metadata_location s slice + 0) }) slice
          comm_progress.received) := by
      unfold make_progress
      simp only [hpre, Option.some_bind, h7, h8]
      unfold check_blocking
      simp [set_progress, set_node, hm]
    exact ⟨_, hmp, by simp [set_progress, set_node], by simp [set_progress, set_node, hloc],
      new_events_eq s _ [] (by rw [t7, List.append_nil])⟩
  · intro hz
    obtain ⟨sa, ha, -, -, -, hab, has, hap, ham, hal, -, hat⟩ := allocate_buffer_some cfg
      (set_node s slice { s.m_datanodes slice with
        m_buffer_size := s.m_metadata (get_metadata_location s slice + 0) }) slice t.fresh
      (by simp [set_node, hloc])
    have ca := (Frame.frame_allocate_buffer cfg slice _ _ t.fresh ha).config
    have h7 : start_receive cfg s slice t = some
        (set_progress (emit sa (Event.Irecv (Request.m_request slice)
          (sa.m_datanodes slice).m_buffer_size sa.m_rank_receive_from
          (sa.m_tag_buffer_start + slice))) slice comm_progress.receive_started) := by
      unfold start_receive
      rw [if_pos ⟨hp, hm⟩, if_pos hloc]
      simp only []
      rw [if_neg (by simpa [set_node] using hz), ha]
      rfl
    have t7 := start_receive_trace cfg s _ slice t h7
    rw [if_pos ⟨hp, hm, hz⟩] at t7
    have hsize : (sa.m_datanodes slice).m_buffer_size
        = s.m_metadata (get_metadata_location s slice + 0) := by
      rw [has]
      simp [set_node]
    have hhost : (sa.m_datanodes slice).m_location
        = (if s.m_buffer_on_host then memory_location.pinned else memory_location.device) := by
      rw [hal]
      rfl
    refine ⟨⟨_, h7, by simpa [set_progress, set_node, emit] using hsize,
      by simpa [set_progress, set_node, emit] using hab,
      by simpa [set_progress, set_node, emit] using hhost,
      by simp [set_progress, set_node], new_events_eq s _ _ t7⟩, ?_⟩
    have t8 := finish_receive_trace cfg (set_progress (emit sa (Event.Irecv
      (Request.m_request slice) (sa.m_datanodes slice).m_buffer_size sa.m_rank_receive_from
      (sa.m_tag_buffer_start + slice))) slice comm_progress.receive_started) slice is_blocking t
    rw [if_pos (by simp [set_progress, set_node]), t7, List.append_assoc] at t8
    have hmp : make_progress cfg s slice is_blocking t = some
        (finish_receive cfg (set_progress (emit sa (Event.Irecv
          (Request.m_request slice) (sa.m_datanodes slice).m_buffer_size
          sa.m_rank_receive_from (sa.m_tag_buffer_start + slice))) slice
          comm_progress.receive_started) slice is_blocking t) := by
      unfold make_progress
      simp only [hpre, Option.some_bind, h7]
      unfold check_blocking finish_receive
      cases is_blocking <;> cases t.receive_complete <;>
        simp [set_progress, set_node, emit, deliver_buffer, ham, hm]
    refine ⟨_, hmp, ?_, ?_, ?_, new_events_eq s _ _ t8⟩
    · unfold finish_receive
      cases is_blocking <;> cases t.receive_complete <;>
        simp [set_progress, set_node, emit, deliver_buffer, hsize]
    · unfold finish_receive
      cases is_blocking <;> cases t.receive_complete <;>
        simp [set_progress, set_node, emit, deliver_buffer, hhost]
    · unfold finish_receive
      cases is_blocking <;> cases t.receive_complete <;>
        simp [set_progress, set_node, emit, deliver_buffer]

end Hipace
namespace Hipace

/-! ## Zero-payload short-circuit, producer side -/

/-- C7: when a poll finds a slot with data state `sent` and metadata state `received`, and
the slot holds no storage (the block asserts it; with storage still held the poll aborts):
if the received `metadata[0]` is 0 the data state becomes `received` with no allocation and
no outside call at all; otherwise `m_buffer_size` becomes `metadata[0]`, the buffer is
allocated in the configured arena, exactly one bulk-data receive is posted and the data state
becomes `receive_started` (and the same poll then waits for it or tests it once). -/
theorem consumer_short_circuit (cfg : Config) (s : MultiBuffer) (slice : Nat)
    (is_blocking : Bool) (t : Transport)
    (hp : (s.m_datanodes slice).m_progress = comm_progress.sent)
    (hm : (s.m_datanodes slice).m_metadata_progress = comm_progress.received) :
    ((s.m_datanodes slice).m_location = memory_location.nowhere →
      (s.m_metadata (get_metadata_location s slice + 0) = 0 →
        (∃ s1, start_receive cfg s slice t = some s1 ∧
          (s1.m_datanodes slice).m_progress = comm_progress.received ∧
          (s1.m_datanodes slice).m_location = memory_location.nowhere ∧
          (s1.m_datanodes slice).m_buffer = (s.m_datanodes slice).m_buffer ∧
          new_events s s1 = []) ∧
        (∃ s2, make_progress cfg s slice is_blocking t = some s2 ∧
          (s2.m_datanodes slice).m_progress = comm_progress.received ∧
          (s2.m_datanodes slice).m_location = memory_location.nowhere ∧
          new_events s s2 = [])) ∧
      (s.m_metadata (get_metadata_location s slice + 0) ≠ 0 →
        (∃ s1, start_receive cfg s slice t = some s1 ∧
          (s1.m_datanodes slice).m_buffer_size
            = s.m_metadata (get_metadata_location s slice + 0) ∧
          (s1.m_datanodes slice).m_buffer = some t.fresh ∧
          (s1.m_datanodes slice).m_location
            = (if s.m_buffer_on_host then memory_location.pinned else memory_location.device) ∧
          (s1.m_datanodes slice).m_progress = comm_progress.receive_started ∧
          new_events s s1 =
            [Event.alloc slice
                (s.m_metadata (get_metadata_location s slice + 0) * cfg.sizeof_storage_type)
                (if s.m_buffer_on_host then memory_location.pinned
                  else memory_location.device),
              Event.Irecv (Request.m_request slice)
                (s.m_metadata (get_metadata_location s slice + 0)) s.m_rank_receive_from
                (s.m_tag_buffer_start + slice)]) ∧
        (∃ s2, make_progress cfg s slice is_blocking t = some s2 ∧
          (s2.m_datanodes slice).m_buffer_size
            = s.m_metadata (get_metadata_location s slice + 0) ∧
          (s2.m_datanodes slice).m_location
            = (if s.m_buffer_on_host then memory_location.pinned else memory_location.device) ∧
          (s2.m_datanodes slice).m_progress
            = (if is_blocking = true ∨ t.receive_complete = true then comm_progress.received
                else comm_progress.receive_started) ∧
          new_events s s2 =
            [Event.alloc slice
                (s.m_metadata (get_metadata_location s slice + 0) * cfg.sizeof_storage_type)
                (if s.m_buffer_on_host then memory_location.pinned
                  else memory_location.device),
              Event.Irecv (Request.m_request slice)
                (s.m_metadata (get_metadata_location s slice + 0)) s.m_rank_receive_from
                (s.m_tag_buffer_start + slice),
              if is_blocking then Event.Wait (Request.m_request slice)
                else Event.Test (Request.m_request slice) t.receive_complete]))) ∧
    ((s.m_datanodes slice).m_location ≠ memory_location.nowhere →
      start_receive cfg s slice t = none ∧
      make_progress cfg s slice is_blocking t = none) := by
  refine ⟨fun hloc => consumer_short_circuit_facts cfg s slice is_blocking t hp hm hloc, ?_⟩
  intro hloc
  have h7 : start_receive cfg s slice t = none := by
    unfold start_receive
    rw [if_pos ⟨hp, hm⟩, if_neg hloc]
  refine ⟨h7, ?_⟩
  unfold make_progress
  simp only [poll_prefix_idle s slice is_blocking t hp hm, Option.some_bind, h7,
    Option.none_bind]

/-- A poll of a slot that is ready to send an empty payload and holds no storage. -/
theorem poll_ready_empty (cfg : Config) (s : MultiBuffer) (i : Nat) (t : Transport)
    (hp : (s.m_datanodes i).m_progress = comm_progress.ready_to_send)
    (hm : (s.m_datanodes i).m_metadata_progress = comm_progress.ready_to_send)
    (hs : (s.m_datanodes i).m_buffer_size = 0)
    (hl : (s.m_datanodes i).m_location = memory_location.nowhere) :
    ∃ s1, make_progress cfg s i false t = some s1 ∧
      Event.Isend (Request.m_metadata_request i) (get_metadata_size s) s.m_rank_send_to
        (s.m_tag_metadata_start + i) ∈ new_events s s1 ∧
      (∀ count dest tag, Event.Isend (Request.m_request i) count dest tag ∉ new_events s s1) ∧
      (¬ (t.metadata_send_complete = true ∧ t.metadata_receive_complete = true ∧
          t.metadata_in 0 ≠ 0) →
        (s1.m_datanodes i).m_location = memory_location.nowhere ∧
        (s1.m_datanodes i).m_buffer = (s.m_datanodes i).m_buffer ∧
        (s1.m_datanodes i).m_buffer_size = 0 ∧
        (∀ bytes location, Event.alloc i bytes location ∉ new_events s s1) ∧
        (∀ count source tag,
          Event.Irecv (Request.m_request i) count source tag ∉ new_events s s1) ∧
        (s1.m_datanodes i).m_progress
          = (if t.metadata_send_complete = true ∧ t.metadata_receive_complete = true
              then comm_progress.received else comm_progress.sent)) ∧
      (t.metadata_send_complete = true ∧ t.metadata_receive_complete = true ∧
          t.metadata_in 0 ≠ 0 →
        (s1.m_datanodes i).m_location
          = (if s.m_buffer_on_host then memory_location.pinned else memory_location.device) ∧
        (s1.m_datanodes i).m_buffer_size = t.metadata_in 0 ∧
        Event.alloc i (t.metadata_in 0 * cfg.sizeof_storage_type)
          (if s.m_buffer_on_host then memory_location.pinned else memory_location.device)
          ∈ new_events s s1 ∧
        Event.Irecv (Request.m_request i) (t.metadata_in 0) s.m_rank_receive_from
          (s.m_tag_buffer_start + i) ∈ new_events s s1 ∧
        (s1.m_datanodes i).m_progress
          = (if t.receive_complete = true then comm_progress.received
              else comm_progress.receive_started)) := by
  cases hsc : t.metadata_send_complete
  · simp [make_progress, start_metadata_send, start_send, finish_metadata_send,
      start_metadata_receive, finish_metadata_receive, finish_send, start_receive,
      finish_receive, check_blocking, set_progress, set_metadata_progress, set_node, emit,
      new_events, hp, hm, hs, hl, hsc]
  · cases hrc : t.metadata_receive_complete
    · simp [make_progress, start_metadata_send, start_send, finish_metadata_send,
        start_metadata_receive, finish_metadata_receive, finish_send, start_receive,
        finish_receive, check_blocking, set_progress, set_metadata_progress, set_node, emit,
        new_events, hp, hm, hs, hl, hsc, hrc]
    · have hrow : i * (1 + s.m_nbeams) < i * (1 + s.m_nbeams) + (1 + s.m_nbeams) := by omega
      have hpos : 0 < 1 + s.m_nbeams := by omega
      by_cases hz : t.metadata_in 0 = 0
      · simp [make_progress, start_metadata_send, start_send, finish_metadata_send,
          start_metadata_receive, finish_metadata_receive, finish_send, start_receive,
          finish_receive, check_blocking, set_progress, set_metadata_progress, set_node, emit,
          deliver_metadata, new_events, hp, hm, hs, hl, hsc, hrc, hz, hrow, hpos, get_metadata_location,
          get_metadata_size]
      · cases hh : s.m_buffer_on_host <;> cases hdc : t.receive_complete <;>
        simp [make_progress, start_metadata_send, start_send, finish_metadata_send,
          start_metadata_receive, finish_metadata_receive, finish_send, start_receive,
          finish_receive, check_blocking, set_progress, set_metadata_progress, set_node, emit,
          deliver_metadata, deliver_buffer, allocate_buffer, new_events, hp, hm, hs, hl, hsc,
          hrc, hz, hrow, hpos, hh, hdc, get_metadata_location, get_metadata_size]

end Hipace
namespace Hipace

theorem round_up_zero (cfg : Config) : round_up cfg 0 = 0 := by
  unfold round_up
  rcases Nat.eq_zero_or_pos cfg.buffer_size_roundup with h | h
  · simp [h]
  · rw [Nat.div_eq_of_lt (by omega)]
    simp

/-- Without particles the padded byte count is zero. -/
theorem payload_bytes_empty (cfg : Config) (beams : MultiBeam) (beam_slice nbeams : Nat)
    (hzero : ∀ b, b < nbeams → getNumParticles (beams b) beam_slice = 0) :
    payload_bytes cfg beams beam_slice nbeams = 0 := by
  unfold payload_bytes
  apply Finset.sum_eq_zero
  intro b hb
  rw [hzero b (Finset.mem_range.mp hb), round_up_zero, Nat.zero_mul]

theorem words_zero (w : Nat) : (0 + w - 1) / w = 0 := by
  rcases Nat.eq_zero_or_pos w with h | h
  · simp [h]
  · exact Nat.div_eq_of_lt (by omega)

/-- A non-final `put_data` without particles: the metadata announce an empty payload,
nothing is allocated or packed, and the slot enters the closing sweep ready to send. -/
theorem put_data_empty_steps (cfg : Config) (s s1 : MultiBuffer) (slice : Nat)
    (beams beams1 : MultiBeam) (beam_slice : Nat) (fresh : Mem) (t : Nat → Transport)
    (hzero : ∀ b, b < s.m_nbeams → getNumParticles (beams b) beam_slice = 0)
    (hput : put_data cfg s slice beams beam_slice false fresh t = some (s1, beams1)) :
    ∃ sw, write_metadata cfg s slice beams beam_slice = some sw ∧
      sw.m_metadata (get_metadata_location s slice + 0) = 0 ∧
      (sw.m_datanodes slice).m_buffer_size = 0 ∧
      beams1 = beams ∧
      progress_all cfg (set_metadata_progress (set_progress sw slice
        comm_progress.ready_to_send) slice comm_progress.ready_to_send) t = some s1 := by
  have hB := payload_bytes_empty cfg beams beam_slice s.m_nbeams hzero
  have hlt : (payload_bytes cfg beams beam_slice s.m_nbeams + cfg.sizeof_storage_type - 1)
      / cfg.sizeof_storage_type < int_max := by
    rw [hB, words_zero]
    decide
  obtain ⟨sw, hw, -, h0, -, hsz, -⟩ :=
    (write_metadata_facts cfg s slice beams beam_slice).1 hlt
  rw [hB, words_zero] at h0
  rw [h0] at hsz
  refine ⟨sw, hw, h0, hsz, ?_⟩
  unfold put_data at hput
  simp only [Bool.false_eq_true, if_false, hw, Option.some_bind, hsz, ne_eq,
    not_true_eq_false, Option.map_some'] at hput
  obtain ⟨s3, h3, h⟩ := Option.map_eq_some'.mp hput
  injection h with h1 h2
  subst h1
  exact ⟨h2.symm, h3⟩

/-- Calls made for a slice during an operation that prepares the slot and then sweeps: they
are the calls of the preparation and of the poll of that slice. -/
theorem mem_new_events_split (s sp s_mid s_after s1 : MultiBuffer) (slice : Nat)
    (prep : List Event) (htr : sp.trace = s.trace ++ prep) (u1 : Untouched slice sp s_mid)
    (f : Frame slice s_mid s_after) (u2 : Untouched slice s_after s1) (e : Event)
    (he : event_slice e = slice) :
    e ∈ new_events s s1 ↔ e ∈ prep ∨ e ∈ new_events s_mid s_after := by
  obtain ⟨pre, e1, n1⟩ := u1.trace
  obtain ⟨evs, e2, -⟩ := f.trace
  obtain ⟨post, e3, n3⟩ := u2.trace
  have e4 : s1.trace = s.trace ++ (prep ++ (pre ++ (evs ++ post))) := by
    rw [e3, e2, e1, htr]
    simp only [List.append_assoc]
  rw [new_events_eq s s1 _ e4, new_events_eq s_mid s_after _ e2]
  simp only [List.mem_append]
  constructor
  · rintro (h | h | h | h)
    · exact Or.inl h
    · exact absurd he (n1 e h)
    · exact Or.inr h
    · exact absurd he (n3 e h)
  · rintro (h | h)
    · exact Or.inl h
    · exact Or.inr (Or.inr (Or.inl h))

/-- C6 (as amended): if every species has zero live particles and the slot holds no buffer,
a non-final `put_data` that returns has computed `metadata[0] = 0` and `m_buffer_size = 0`
and left the particle arrays alone (no `allocate_buffer`, no `pack_data` before the sweep);
the poll of the slice issues the metadata send and never a bulk-data send, the data
sub-channel going from `ready_to_send` to `sent`. Unless the metadata send and the metadata
receive posted right after it both complete within that poll with a non-zero received size,
no buffer is allocated for the slice, no bulk-data receive is posted and `m_location` stays
`nowhere`; when they do, the same poll allocates a buffer and posts the bulk-data
receive. -/
theorem producer_short_circuit (cfg : Config) (s s1 : MultiBuffer) (slice : Nat)
    (beams beams1 : MultiBeam) (beam_slice : Nat) (fresh : Mem) (t : Nat → Transport)
    (hslice : slice < s.m_nslices)
    (hzero : ∀ b, b < s.m_nbeams → getNumParticles (beams b) beam_slice = 0)
    (hloc : (s.m_datanodes slice).m_location = memory_location.nowhere)
    (hput : put_data cfg s slice beams beam_slice false fresh t = some (s1, beams1)) :
    (∃ sw, write_metadata cfg s slice beams beam_slice = some sw ∧
      sw.m_metadata (get_metadata_location s slice + 0) = 0 ∧
      (sw.m_datanodes slice).m_buffer_size = 0) ∧
    beams1 = beams ∧
    Event.Isend (Request.m_metadata_request slice) (get_metadata_size s) s.m_rank_send_to
      (s.m_tag_metadata_start + slice) ∈ new_events s s1 ∧
    (∀ count dest tag,
      Event.Isend (Request.m_request slice) count dest tag ∉ new_events s s1) ∧
    (¬ ((t slice).metadata_send_complete = true ∧ (t slice).metadata_receive_complete = true ∧
        (t slice).metadata_in 0 ≠ 0) →
      (s1.m_datanodes slice).m_location = memory_location.nowhere ∧
      (s1.m_datanodes slice).m_buffer = (s.m_datanodes slice).m_buffer ∧
      (∀ bytes location, Event.alloc slice bytes location ∉ new_events s s1) ∧
      (∀ count source tag,
        Event.Irecv (Request.m_request slice) count source tag ∉ new_events s s1) ∧
      (s1.m_datanodes slice).m_progress
        = (if (t slice).metadata_send_complete = true ∧
              (t slice).metadata_receive_complete = true
            then comm_progress.received else comm_progress.sent)) ∧
    ((t slice).metadata_send_complete = true ∧ (t slice).metadata_receive_complete = true ∧
        (t slice).metadata_in 0 ≠ 0 →
      (s1.m_datanodes slice).m_location
        = (if s.m_buffer_on_host then memory_location.pinned else memory_location.device) ∧
      Event.alloc slice ((t slice).metadata_in 0 * cfg.sizeof_storage_type)
        (if s.m_buffer_on_host then memory_location.pinned else memory_location.device)
        ∈ new_events s s1 ∧
      Event.Irecv (Request.m_request slice) ((t slice).metadata_in 0) s.m_rank_receive_from
        (s.m_tag_buffer_start + slice) ∈ new_events s s1 ∧
      (s1.m_datanodes slice).m_progress
        = (if (t slice).receive_complete = true then comm_progress.received
            else comm_progress.receive_started)) := by
  obtain ⟨sw, hw, h0, hsz, hb, hsweep⟩ :=
    put_data_empty_steps cfg s s1 slice beams beams1 beam_slice fresh t hzero hput
  obtain ⟨c1, c2, c3, c4, c5, c6, c7, c8, htr, -, hbuf, hlw, -, -⟩ :=
    write_metadata_frame cfg s slice beams beam_slice sw hw
  have hc : SameConfig s sw := ⟨c1, c2, c3, c4, c5, c6, c7, c8⟩
  -- the state entering the sweep
  generalize hsp : set_metadata_progress (set_progress sw slice comm_progress.ready_to_send)
    slice comm_progress.ready_to_send = sp at hsweep
  have hcp : SameConfig s sp := by
    rw [← hsp]
    exact ⟨c1, c2, c3, c4, c5, c6, c7, c8⟩
  have hnode : sp.m_datanodes slice = { sw.m_datanodes slice with
      m_progress := comm_progress.ready_to_send,
      m_metadata_progress := comm_progress.ready_to_send } := by
    rw [← hsp]
    simp [set_metadata_progress, set_progress, set_node]
  have htrp : sp.trace = s.trace ++ [] := by
    rw [← hsp, List.append_nil, ← htr]
    rfl
  obtain ⟨s_mid, s_after, u1, hmp, u2⟩ :=
    progress_all_split cfg t sp s1 slice (by rw [hcp.nslices]; exact hslice) hsweep
  have hcm : SameConfig s s_mid := hcp.config_trans u1.config
  have hmid : s_mid.m_datanodes slice = sp.m_datanodes slice := u1.node
  obtain ⟨s2, h2, q1, q2, q3, q4⟩ := poll_ready_empty cfg s_mid slice (t slice)
    (by rw [hmid, hnode]) (by rw [hmid, hnode]) (by rw [hmid, hnode]; exact hsz)
    (by rw [hmid, hnode]; exact hlw.trans hloc)
  rw [hmp] at h2
  injection h2 with h2
  subst h2
  have hf := Frame.frame_make_progress cfg s_mid s_after slice false (t slice) hmp
  have hmem : ∀ e, event_slice e = slice →
      (e ∈ new_events s s1 ↔ e ∈ new_events s_mid s_after) := by
    intro e he
    rw [mem_new_events_split s sp s_mid s_after s1 slice [] htrp u1 hf u2 e he]
    simp
  rw [hcm.size, hcm.rank_send_to, hcm.tag_metadata_start] at q1
  rw [hcm.buffer_on_host, hcm.rank_receive_from, hcm.tag_buffer_start] at q4
  refine ⟨⟨sw, hw, h0, hsz⟩, hb, (hmem _ (by rfl)).mpr q1,
    fun count dest tag => fun h => q2 count dest tag ((hmem _ (by rfl)).mp h), ?_, ?_⟩
  · intro hn
    obtain ⟨r1, r2, -, r4, r5, r6⟩ := q3 hn
    rw [u2.node]
    refine ⟨r1, ?_, fun bytes location h => r4 bytes location ((hmem _ (by rfl)).mp h),
      fun count source tag h => r5 count source tag ((hmem _ (by rfl)).mp h), r6⟩
    rw [r2, hmid, hnode]
    exact hbuf
  · intro hy
    obtain ⟨r1, -, r3, r4, r5⟩ := q4 hy
    rw [u2.node]
    exact ⟨r1, (hmem _ (by rfl)).mpr r3, (hmem _ (by rfl)).mpr r4, r5⟩

end Hipace
namespace Hipace

/-! ## Every outside call of a poll -/

/-- Every outside call of a poll of slice `i` is one of `poll_event`. -/
theorem make_progress_events (cfg : Config) (s s1 : MultiBuffer) (i : Nat) (is_blocking : Bool)
    (t : Transport) (h : make_progress cfg s i is_blocking t = some s1) :
    ∀ e, e ∈ new_events s s1 → poll_event s i is_blocking e := by
  obtain ⟨s6, s7, h6, h7, rfl, -⟩ := make_progress_steps cfg s s1 i is_blocking t h
  have t6 := finish_send_trace _ _ i is_blocking t h6
  have t7 := start_receive_trace cfg _ _ i t h7
  have c1 := (Frame.frame_start_metadata_send i s).config
  have c2 := c1.config_trans (Frame.frame_start_send i _).config
  have c3 := c2.config_trans (Frame.frame_finish_metadata_send i _ is_blocking t).config
  have c4 := c3.config_trans (Frame.frame_start_metadata_receive i _).config
  have c5 := c4.config_trans (Frame.frame_finish_metadata_receive i _ is_blocking t).config
  have c6 := c5.config_trans (Frame.frame_finish_send i _ _ is_blocking t h6).config
  have e := finish_receive_trace cfg s7 i is_blocking t
  rw [t7, t6, finish_metadata_receive_trace, start_metadata_receive_trace,
    finish_metadata_send_trace, start_send_trace, start_metadata_send_trace] at e
  simp only [List.append_assoc] at e
  intro ev hmem
  rw [new_events_eq s _ _ e] at hmem
  simp only [List.mem_append] at hmem
  rcases hmem with hm | hm | hm | hm | hm | hm | hm | hm
  · split at hm
    · simp only [List.mem_singleton] at hm
      subst hm
      simp [poll_event]
    · simp at hm
  · split at hm
    · rename_i hc
      simp only [List.mem_singleton] at hm
      subst hm
      simp [poll_event, c1.rank_send_to, c1.tag_buffer_start, hc.2]
    · simp at hm
  · split at hm
    · simp only [List.mem_singleton] at hm
      subst hm
      cases is_blocking <;> simp [poll_event]
    · simp at hm
  · split at hm
    · simp only [List.mem_singleton] at hm
      subst hm
      simp [poll_event, c3.rank_receive_from, c3.tag_metadata_start, c3.size]
    · simp at hm
  · split at hm
    · simp only [List.mem_singleton] at hm
      subst hm
      cases is_blocking <;> simp [poll_event]
    · simp at hm
  · split at hm
    · split at hm
      · rename_i hb
        simp only [List.mem_cons, List.mem_singleton, List.mem_nil_iff, or_false] at hm
        rcases hm with hm | hm
        · subst hm
          simp [poll_event, hb]
        · subst hm
          simp only [poll_event, true_and]
          split <;> decide
      · rename_i hb
        split at hm
        · simp only [List.mem_cons, List.mem_singleton, List.mem_nil_iff, or_false] at hm
          rcases hm with hm | hm
          · subst hm
            simp [poll_event, hb]
          · subst hm
            simp only [poll_event, true_and]
            split <;> decide
        · simp only [List.mem_singleton] at hm
          subst hm
          simp [poll_event, hb]
    · simp at hm
  · split at hm
    · rename_i hc
      simp only [List.mem_cons, List.mem_singleton, List.mem_nil_iff, or_false] at hm
      rcases hm with hm | hm
      · subst hm
        simp [poll_event, c6.buffer_on_host]
      · subst hm
        have hnz : ¬ s6.m_metadata (get_metadata_location s6 i) = 0 := by
          simpa using hc.2.2
        simp [poll_event, c6.rank_receive_from, c6.tag_buffer_start, hnz]
    · simp at hm
  · split at hm
    · simp only [List.mem_singleton] at hm
      subst hm
      cases is_blocking <;> simp [poll_event]
    · simp at hm

/-- A blocking poll that returns leaves both sub-channels received. -/
theorem make_progress_blocking_received (cfg : Config) (s s1 : MultiBuffer) (i : Nat)
    (t : Transport) (h : make_progress cfg s i true t = some s1) :
    (s1.m_datanodes i).m_progress = comm_progress.received ∧
      (s1.m_datanodes i).m_metadata_progress = comm_progress.received := by
  obtain ⟨s6, s7, -, -, -, hc⟩ := make_progress_steps cfg s s1 i true t h
  unfold check_blocking at hc
  simp only [if_true] at hc
  split at hc
  · rename_i hm
    split at hc
    · rename_i hp
      exact ⟨hp, hm⟩
    · exact absurd hc (by simp)
  · exact absurd hc (by simp)

end Hipace
namespace Hipace

/-! ## Origin bypass -/

/-- A non-blocking poll of a slot whose two sub-channels are idle (`ready_to_define`,
`in_use` or `sim_completed`) changes nothing. -/
theorem poll_idle (cfg : Config) (s : MultiBuffer) (i : Nat) (t : Transport)
    (hp : (s.m_datanodes i).m_progress = comm_progress.ready_to_define ∨
      (s.m_datanodes i).m_progress = comm_progress.in_use ∨
      (s.m_datanodes i).m_progress = comm_progress.sim_completed)
    (hm : (s.m_datanodes i).m_metadata_progress = comm_progress.ready_to_define ∨
      (s.m_datanodes i).m_metadata_progress = comm_progress.in_use ∨
      (s.m_datanodes i).m_metadata_progress = comm_progress.sim_completed) :
    make_progress cfg s i false t = some s := by
  rcases hp with hp | hp | hp <;> rcases hm with hm | hm | hm <;>
    simp [make_progress, start_metadata_send, start_send, finish_metadata_send,
      start_metadata_receive, finish_metadata_receive, finish_send, start_receive,
      finish_receive, check_blocking, hp, hm]

/-- A sweep over slots that are all idle changes nothing. -/
theorem downLoop_idle (cfg : Config) (t : Nat → Transport) (n : Nat) (s : MultiBuffer)
    (h : ∀ i, (s.m_datanodes i).m_progress = comm_progress.ready_to_define ∧
      (s.m_datanodes i).m_metadata_progress = comm_progress.ready_to_define) :
    downLoop n (fun i s => make_progress cfg s i false (t i)) s = some s := by
  induction n with
  | zero => rfl
  | succ n ih =>
    simp only [downLoop]
    rw [poll_idle cfg s n (t n) (Or.inl (h n).1) (Or.inl (h n).2)]
    exact ih

/-- The marking loop of `initialize` on the origin stage leaves the fresh object as it
is. -/
theorem initialize_loop_origin (n : Nat) (s : MultiBuffer)
    (h : ∀ i, (s.m_datanodes i).m_progress = comm_progress.ready_to_define ∧
      (s.m_datanodes i).m_metadata_progress = comm_progress.ready_to_define) :
    (∀ i, ((forLoop n (fun k (s : MultiBuffer) =>
        set_metadata_progress (set_progress s (s.m_nslices - 1 - k)
          comm_progress.ready_to_define) (s.m_nslices - 1 - k) comm_progress.ready_to_define)
        s).m_datanodes i).m_progress = comm_progress.ready_to_define ∧
      ((forLoop n (fun k (s : MultiBuffer) =>
        set_metadata_progress (set_progress s (s.m_nslices - 1 - k)
          comm_progress.ready_to_define) (s.m_nslices - 1 - k) comm_progress.ready_to_define)
        s).m_datanodes i).m_metadata_progress = comm_progress.ready_to_define) ∧
    (forLoop n (fun k (s : MultiBuffer) =>
        set_metadata_progress (set_progress s (s.m_nslices - 1 - k)
          comm_progress.ready_to_define) (s.m_nslices - 1 - k) comm_progress.ready_to_define)
        s).trace = s.trace ∧
    (forLoop n (fun k (s : MultiBuffer) =>
        set_metadata_progress (set_progress s (s.m_nslices - 1 - k)
          comm_progress.ready_to_define) (s.m_nslices - 1 - k) comm_progress.ready_to_define)
        s).m_is_head_rank = s.m_is_head_rank := by
  induction n with
  | zero => exact ⟨h, rfl, rfl⟩
  | succ n ih =>
    rw [forLoop_succ]
    generalize forLoop n (fun k (s : MultiBuffer) =>
      set_metadata_progress (set_progress s (s.m_nslices - 1 - k)
        comm_progress.ready_to_define) (s.m_nslices - 1 - k) comm_progress.ready_to_define)
      s = s1 at ih ⊢
    obtain ⟨ih1, ih2, ih3⟩ := ih
    refine ⟨?_, ?_, ?_⟩
    · intro i
      by_cases hi : i = s1.m_nslices - 1 - n
      · rw [hi]
        simp [set_metadata_progress, set_progress, set_node]
      · simp only [set_metadata_progress, set_progress, set_node, Function.update_noteq hi]
        exact ih1 i
    · rw [← ih2]
      rfl
    · rw [← ih3]
      rfl

/-- The synthesis loop of `get_data`: one `intializeSlice` call per species, in order. -/
theorem synthesize_loop (cfg : Config) (s : MultiBuffer) (slice beam_slice : Nat)
    (beams : MultiBeam) (n : Nat) :
    (forLoop n (fun b (acc : MultiBuffer × MultiBeam) =>
      (emit acc.1 (Event.intializeSlice b slice beam_slice),
        Function.update acc.2 b (cfg.intializeSlice b slice beam_slice (acc.2 b))))
      (s, beams)).1.trace
      = s.trace ++ (List.range n).map (fun b => Event.intializeSlice b slice beam_slice) ∧
    (forLoop n (fun b (acc : MultiBuffer × MultiBeam) =>
      (emit acc.1 (Event.intializeSlice b slice beam_slice),
        Function.update acc.2 b (cfg.intializeSlice b slice beam_slice (acc.2 b))))
      (s, beams)).1.m_datanodes = s.m_datanodes ∧
    ∀ b, (forLoop n (fun b (acc : MultiBuffer × MultiBeam) =>
      (emit acc.1 (Event.intializeSlice b slice beam_slice),
        Function.update acc.2 b (cfg.intializeSlice b slice beam_slice (acc.2 b))))
      (s, beams)).2 b
      = if b < n then cfg.intializeSlice b slice beam_slice (beams b) else beams b := by
  induction n with
  | zero => simp [forLoop]
  | succ n ih =>
    obtain ⟨ih1, ih2, ih3⟩ := ih
    rw [forLoop_succ]
    generalize forLoop n (fun b (acc : MultiBuffer × MultiBeam) =>
      (emit acc.1 (Event.intializeSlice b slice beam_slice),
        Function.update acc.2 b (cfg.intializeSlice b slice beam_slice (acc.2 b))))
      (s, beams) = acc at ih1 ih2 ih3 ⊢
    refine ⟨?_, ih2, ?_⟩
    · show acc.1.trace ++ [Event.intializeSlice n slice beam_slice] = _
      rw [ih1, List.range_succ, List.map_append, List.append_assoc]
      rfl
    · intro b
      show Function.update acc.2 n (cfg.intializeSlice n slice beam_slice (acc.2 n)) b = _
      by_cases hb : b = n
      · subst hb
        rw [Function.update_same, ih3, if_neg (lt_irrefl b), if_pos (Nat.lt_succ_self b)]
      · rw [Function.update_noteq hb, ih3]
        by_cases h1 : b < n
        · rw [if_pos h1, if_pos (by omega)]
        · rw [if_neg h1, if_neg (by omega)]

/-- C10 (as amended): on the origin stage `initialize` makes no outside call and leaves every
slot in data state `ready_to_define`; a `get_data` on a slot whose data state is
`ready_to_define` synthesizes the slice with `intializeSlice` for every species and makes no
other outside call (no receive, no wait) before marking both sub-channels `in_use`; on a slot
in any other data state `get_data` takes the receiving path instead: it runs the blocking
poll and calls `intializeSlice` for no species. -/
theorem origin_bypass (cfg : Config) :
    (∀ (nslices nbeams : Nat) (rank_id n_ranks : Int) (buffer_on_host : Bool)
      (t : Nat → Transport), rank_id + 1 = n_ranks →
      ∃ s0, initialize_multibuffer cfg nslices nbeams rank_id n_ranks buffer_on_host t
          = some s0 ∧
        s0.m_is_head_rank = true ∧ s0.trace = [] ∧
        ∀ slice, (s0.m_datanodes slice).m_progress = comm_progress.ready_to_define) ∧
    (∀ (s : MultiBuffer) (slice : Nat) (beams : MultiBeam) (beam_slice : Nat) (t : Transport),
      (s.m_datanodes slice).m_progress = comm_progress.ready_to_define →
      ∃ s1 beams1, get_data cfg s slice beams beam_slice t = some (s1, beams1) ∧
        new_events s s1
          = (List.range s.m_nbeams).map (fun b => Event.intializeSlice b slice beam_slice) ∧
        (∀ b, b < s.m_nbeams →
          beams1 b = cfg.intializeSlice b slice beam_slice (beams b)) ∧
        (s1.m_datanodes slice).m_progress = comm_progress.in_use ∧
        (s1.m_datanodes slice).m_metadata_progress = comm_progress.in_use) ∧
    (∀ (s s1 : MultiBuffer) (slice : Nat) (beams beams1 : MultiBeam) (beam_slice : Nat)
      (t : Transport),
      (s.m_datanodes slice).m_progress ≠ comm_progress.ready_to_define →
      get_data cfg s slice beams beam_slice t = some (s1, beams1) →
      (∃ s2, make_progress cfg s slice true t = some s2 ∧
        (s2.m_datanodes slice).m_progress = comm_progress.received ∧
        (s2.m_datanodes slice).m_metadata_progress = comm_progress.received) ∧
      ∀ b sl bs, Event.intializeSlice b sl bs ∉ new_events s s1) := by
  refine ⟨?_, ?_, ?_⟩
  · intro nslices nbeams rank_id n_ranks buffer_on_host t hr
    unfold initialize_multibuffer
    simp only [hr, decide_True, if_true]
    have hl := initialize_loop_origin nslices
      { m_nslices := nslices, m_nbeams := nbeams, m_buffer_on_host := buffer_on_host,
        m_rank_send_to := Int.tmod (int_wrap (rank_id - 1 + n_ranks)) n_ranks,
        m_rank_receive_from := Int.tmod (rank_id + 1) n_ranks,
        m_is_head_rank := true, m_tag_buffer_start := 1, m_tag_metadata_start := 1 + nslices,
        m_metadata := fun _ => 0,
        m_datanodes := fun _ => default_node,
        trace := [] } (fun _ => ⟨rfl, rfl⟩)
    rw [hr] at hl
    exact ⟨_, downLoop_idle cfg t _ _ hl.1, hl.2.2, hl.2.1, fun slice => (hl.1 slice).1⟩
  · intro s slice beams beam_slice t hp
    obtain ⟨h1, h2, h3⟩ := synthesize_loop cfg s slice beam_slice beams s.m_nbeams
    unfold get_data
    simp only [hp, if_true, Option.map_some']
    refine ⟨_, _, rfl, ?_, ?_, ?_, ?_⟩
    · apply new_events_eq
      simp only [set_metadata_progress, set_progress, set_node]
      exact h1
    · intro b hb
      simp only [h3 b, if_pos hb]
    · simp [set_metadata_progress, set_progress, set_node]
    · simp [set_metadata_progress, set_progress, set_node]
  · intro s s1 slice beams beams1 beam_slice t hp hget
    unfold get_data at hget
    simp only [hp, if_false] at hget
    obtain ⟨p, hp1, hget⟩ := Option.map_eq_some'.mp hget
    injection hget with e1 e2
    obtain ⟨s2, h2, hp1⟩ := Option.bind_eq_some.mp hp1
    obtain ⟨r1, r2⟩ := make_progress_blocking_received cfg s s2 slice t h2
    refine ⟨⟨s2, h2, r1, r2⟩, ?_⟩
    obtain ⟨evs, ht, -⟩ := (Frame.frame_make_progress cfg s s2 slice true t h2).trace
    have hev := make_progress_events cfg s s2 slice true t h2
    rw [new_events_eq s s2 evs ht] at hev
    intro b sl bs hmem
    have hs1 : s1.trace = p.1.trace := by
      rw [← e1]
      rfl
    split at hp1
    · obtain ⟨b1, hb1, hp1⟩ := Option.bind_eq_some.mp hp1
      obtain ⟨s3, h3, hp1⟩ := Option.map_eq_some'.mp hp1
      have hf := free_buffer_trace s2 s3 slice h3
      rw [← hp1] at hs1
      simp only at hs1
      rw [new_events_eq s s1 (evs ++ [Event.free slice
        (if (s2.m_datanodes slice).m_location = memory_location.pinned
          then memory_location.pinned else memory_location.device)])
        (by rw [hs1, hf, ht, List.append_assoc])] at hmem
      rcases List.mem_append.mp hmem with hm | hm
      · exact hev _ hm
      · simp at hm
    · injection hp1 with hp1
      rw [← hp1] at hs1
      simp only at hs1
      rw [new_events_eq s s1 evs (by rw [hs1, ht])] at hmem
      exact hev _ hmem

set_option maxRecDepth 100000 in
/-- C10 counterexample: on the origin stage (rank 1 of 2) the first `get_data` of slice 0
synthesizes it, but after the `put_data` of that slice the next `get_data` does not: it waits
for the metadata send, posts the metadata receive and the bulk-data receive from
`m_rank_receive_from` and waits for both, and calls `intializeSlice` for no species. -/
theorem origin_second_round_receives :
    ((initialize_multibuffer example_cfg 1 1 1 2 true (fun _ => idle_transport)).bind fun s0 =>
      (get_data example_cfg s0 0 example_beams 0 idle_transport).bind fun p1 =>
      (put_data example_cfg p1.1 0 p1.2 0 false (fun _ => 0) (fun _ => idle_transport)).bind
        fun p2 =>
      (get_data example_cfg p2.1 0 p2.2 0 eager_transport).map fun p3 =>
        (s0.m_is_head_rank, new_events s0 p1.1, new_events p2.1 p3.1))
    = some (true, [Event.intializeSlice 0 0 0],
        [Event.Wait (Request.m_metadata_request 0),
          Event.Irecv (Request.m_metadata_request 0) 2 0 2,
          Event.Wait (Request.m_metadata_request 0),
          Event.Wait (Request.m_request 0),
          Event.free 0 memory_location.pinned,
          Event.alloc 0 96 memory_location.pinned,
          Event.Irecv (Request.m_request 0) 24 0 1,
          Event.Wait (Request.m_request 0),
          Event.free 0 memory_location.pinned]) := by
  decide

set_option maxRecDepth 100000 in
/-- C6 counterexample: a non-final `put_data` of slice 1 without any particle, on a slot
holding no buffer, while the transport completes the metadata send and the metadata receive
at once with a received size of 24 words: the same call allocates a buffer for the slice,
posts the bulk-data receive and returns with `m_location = pinned`. -/
theorem empty_put_data_allocates :
    ((∀ b, b < example_state.m_nbeams → getNumParticles (empty_beams b) 0 = 0) ∧
      (example_state.m_datanodes 1).m_location = memory_location.nowhere) ∧
    (put_data example_cfg example_state 1 empty_beams 0 false (fun _ => 0)
        (fun _ => eager_transport)).map
      (fun p => ((p.1.m_datanodes 1).m_location, (p.1.m_datanodes 1).m_progress,
        new_events example_state p.1))
    = some (memory_location.pinned, comm_progress.receive_started,
        [Event.Isend (Request.m_metadata_request 1) 3 1 4,
          Event.Test (Request.m_metadata_request 1) true,
          Event.Irecv (Request.m_metadata_request 1) 3 0 4,
          Event.Test (Request.m_metadata_request 1) true,
          Event.alloc 1 96 memory_location.pinned,
          Event.Irecv (Request.m_request 1) 24 0 2,
          Event.Test (Request.m_request 1) false]) := by
  decide

/-- The state after `put_data` of slice 1 without particles on an idle transport. -/
theorem example_empty_put :
    ∃ s1, put_data example_cfg example_state 1 empty_beams 0 false (fun _ => 0)
      (fun _ => idle_transport) = some (s1, empty_beams) := by
  have hsome : (put_data example_cfg example_state 1 empty_beams 0 false (fun _ => 0)
      (fun _ => idle_transport)).isSome = true := by decide
  obtain ⟨p, hp⟩ := Option.isSome_iff_exists.mp hsome
  obtain ⟨sw, -, -, -, hb, -⟩ := put_data_empty_steps example_cfg example_state p.1 1
    empty_beams p.2 0 (fun _ => 0) (fun _ => idle_transport) (fun _ _ => rfl) hp
  exact ⟨p.1, by rw [hp, ← hb]⟩

/-- Witness of `producer_short_circuit`: slice 1 of the example without particles, on a
transport on which nothing completes: only the metadata send is issued and the slot keeps
no buffer. -/
theorem producer_short_circuit_witness :
    ∃ s1, put_data example_cfg example_state 1 empty_beams 0 false (fun _ => 0)
        (fun _ => idle_transport) = some (s1, empty_beams) ∧
      Event.Isend (Request.m_metadata_request 1) (get_metadata_size example_state)
        example_state.m_rank_send_to (example_state.m_tag_metadata_start + 1)
        ∈ new_events example_state s1 ∧
      (∀ count dest tag,
        Event.Isend (Request.m_request 1) count dest tag ∉ new_events example_state s1) ∧
      (s1.m_datanodes 1).m_location = memory_location.nowhere ∧
      (s1.m_datanodes 1).m_progress = comm_progress.sent := by
  obtain ⟨s1, h1⟩ := example_empty_put
  have h := producer_short_circuit example_cfg example_state s1 1 empty_beams empty_beams 0
    (fun _ => 0) (fun _ => idle_transport) (by decide) (fun _ _ => rfl) rfl h1
  obtain ⟨-, -, q1, q2, q3, -⟩ := h
  obtain ⟨r1, -, -, -, r5⟩ := q3 (by decide)
  exact ⟨s1, h1, q1, q2, r1, r5⟩

/-- Witness of `consumer_short_circuit`: the example slot with received row `[24, 3, 0]`;
a non-blocking poll allocates, posts the bulk-data receive and tests it once. -/
theorem consumer_short_circuit_witness :
    ∃ s2, make_progress example_cfg example_consumer 1 false idle_transport = some s2 ∧
      (s2.m_datanodes 1).m_buffer_size = 24 ∧
      (s2.m_datanodes 1).m_location = memory_location.pinned ∧
      (s2.m_datanodes 1).m_progress = comm_progress.receive_started ∧
      new_events example_consumer s2 =
        [Event.alloc 1 96 memory_location.pinned,
          Event.Irecv (Request.m_request 1) 24 0 2,
          Event.Test (Request.m_request 1) false] :=
  (((consumer_short_circuit example_cfg example_consumer 1 false idle_transport rfl rfl).1
    rfl).2 (by decide)).2

end Hipace

namespace Hipace

set_option maxRecDepth 100000 in
/-- The ordering invariant is not vacuous: on a receiving stage (rank 0 of 2) whose transport
delivers the metadata at once, `initialize` itself leaves slice 0 with a posted bulk-data
receive and received metadata. -/
theorem reachable_receive_started :
    ∃ s, Reachable example_cfg s ∧
      (s.m_datanodes 0).m_progress = comm_progress.receive_started ∧
      (s.m_datanodes 0).m_metadata_progress = comm_progress.received := by
  have hsome : (initialize_multibuffer example_cfg 1 1 0 2 true
      (fun _ => eager_transport)).isSome = true := by decide
  obtain ⟨s, hs⟩ := Option.isSome_iff_exists.mp hsome
  have hv : (initialize_multibuffer example_cfg 1 1 0 2 true (fun _ => eager_transport)).map
      (fun s => ((s.m_datanodes 0).m_progress, (s.m_datanodes 0).m_metadata_progress))
      = some (comm_progress.receive_started, comm_progress.received) := by decide
  rw [hs] at hv
  simp only [Option.map_some', Option.some.injEq, Prod.mk.injEq] at hv
  exact ⟨s, Reachable.init 1 1 0 2 true (fun _ => eager_transport) s hs, hv.1, hv.2⟩

end Hipace

namespace Hipace

/-! ## Acquire and release of slot storage -/

/-- C20: `allocate_buffer` aborts exactly when the slot already holds storage and
`free_buffer` aborts exactly when it holds none; a successful `free_buffer` leaves
`m_location = nowhere`, `m_buffer = nullptr` and `m_buffer_size = 0`; after a successful
`allocate_buffer` a second one aborts and a `free_buffer` succeeds and restores the no-buffer
state, after which a second `free_buffer` aborts. -/
theorem acquire_release_fatal (cfg : Config) (s : MultiBuffer) (slice : Nat) (fresh : Mem) :
    (allocate_buffer cfg s slice fresh = none ↔
      (s.m_datanodes slice).m_location ≠ memory_location.nowhere) ∧
    (free_buffer s slice = none ↔
      (s.m_datanodes slice).m_location = memory_location.nowhere) ∧
    (∀ s1, free_buffer s slice = some s1 →
      (s1.m_datanodes slice).m_location = memory_location.nowhere ∧
      (s1.m_datanodes slice).m_buffer = none ∧
      (s1.m_datanodes slice).m_buffer_size = 0 ∧
      free_buffer s1 slice = none) ∧
    (∀ s1, allocate_buffer cfg s slice fresh = some s1 →
      (s1.m_datanodes slice).m_location ≠ memory_location.nowhere ∧
      (s1.m_datanodes slice).m_buffer = some fresh ∧
      (∀ fresh1, allocate_buffer cfg s1 slice fresh1 = none) ∧
      ∃ s2, free_buffer s1 slice = some s2 ∧
        (s2.m_datanodes slice).m_location = memory_location.nowhere ∧
        (s2.m_datanodes slice).m_buffer = none ∧
        (s2.m_datanodes slice).m_buffer_size = 0 ∧
        (s2.m_datanodes slice).m_progress = (s.m_datanodes slice).m_progress ∧
        (s2.m_datanodes slice).m_metadata_progress =
          (s.m_datanodes slice).m_metadata_progress ∧
        (∀ j, j ≠ slice → s2.m_datanodes j = s.m_datanodes j) ∧
        s2.m_metadata = s.m_metadata) := by
  have hfree : ∀ s0 : MultiBuffer, (free_buffer s0 slice = none ↔
      (s0.m_datanodes slice).m_location = memory_location.nowhere) := by
    intro s0
    unfold free_buffer
    by_cases h : (s0.m_datanodes slice).m_location = memory_location.nowhere
    · simp [h]
    · simp [h]
  have halloc : ∀ (s0 : MultiBuffer) (f : Mem), (allocate_buffer cfg s0 slice f = none ↔
      (s0.m_datanodes slice).m_location ≠ memory_location.nowhere) := by
    intro s0 f
    unfold allocate_buffer
    by_cases h : (s0.m_datanodes slice).m_location = memory_location.nowhere
    · by_cases hh : s0.m_buffer_on_host <;> simp [h, hh]
    · simp [h]
  refine ⟨halloc s fresh, hfree s, ?_, ?_⟩
  · intro s1 h1
    obtain ⟨-, hn⟩ := free_buffer_node s s1 slice h1
    have hl : (s1.m_datanodes slice).m_location = memory_location.nowhere := by rw [hn]
    exact ⟨hl, by rw [hn], by rw [hn], (hfree s1).mpr hl⟩
  · intro s1 h1
    obtain ⟨hloc, hn⟩ := allocate_buffer_node cfg s s1 slice fresh h1
    have hl : (s1.m_datanodes slice).m_location ≠ memory_location.nowhere := by
      rw [hn]
      by_cases hh : s.m_buffer_on_host <;> simp [hh]
    refine ⟨hl, by rw [hn], fun f => (halloc s1 f).mpr hl, ?_⟩
    cases h2 : free_buffer s1 slice with
    | none => exact absurd ((hfree s1).mp h2) hl
    | some s2 =>
      obtain ⟨-, hn2⟩ := free_buffer_node s1 s2 slice h2
      have f1 := Frame.frame_allocate_buffer cfg slice s s1 fresh h1
      have f2 := Frame.frame_free_buffer slice s1 s2 h2
      refine ⟨s2, rfl, by rw [hn2], by rw [hn2], by rw [hn2], by rw [hn2, hn],
        by rw [hn2, hn], ?_, ?_⟩
      · intro j hj
        rw [f2.nodes j hj, f1.nodes j hj]
      · unfold free_buffer at h2
        unfold allocate_buffer at h1
        rw [if_pos hloc] at h1
        rw [if_pos hl] at h2
        injection h2 with h2
        rw [← h2]
        by_cases hh : s.m_buffer_on_host
        · rw [if_pos hh] at h1
          injection h1 with h1
          rw [← h1]
          simp only [set_node, emit]
          split <;> rfl
        · rw [if_neg hh] at h1
          injection h1 with h1
          rw [← h1]
          simp only [set_node, emit]
          split <;> rfl

/-! ## Polls of idle slots -/

/-- A sweep leaves a slot that is idle or terminal untouched. -/
theorem progress_all_idle_slot (cfg : Config) (t : Nat → Transport) (s s1 : MultiBuffer)
    (j : Nat)
    (hp : (s.m_datanodes j).m_progress = comm_progress.ready_to_define ∨
      (s.m_datanodes j).m_progress = comm_progress.in_use ∨
      (s.m_datanodes j).m_progress = comm_progress.sim_completed)
    (hm : (s.m_datanodes j).m_metadata_progress = comm_progress.ready_to_define ∨
      (s.m_datanodes j).m_metadata_progress = comm_progress.in_use ∨
      (s.m_datanodes j).m_metadata_progress = comm_progress.sim_completed)
    (h : progress_all cfg s t = some s1) : Untouched j s s1 := by
  by_cases hj : j < s.m_nslices
  · obtain ⟨s_mid, s_after, u1, h2, u2⟩ := progress_all_split cfg t s s1 j hj h
    rw [poll_idle cfg s_mid j (t j) (by rw [u1.node]; exact hp) (by rw [u1.node]; exact hm)]
      at h2
    injection h2 with h2
    subst h2
    exact u1.untouched_trans u2
  · exact downLoop_untouched cfg t s.m_nslices s s1 j (Nat.le_of_not_lt hj) h

/-- The final `put_data` is the marking of the slot followed by the sweep. -/
theorem put_data_final_steps (cfg : Config) (s s1 : MultiBuffer) (slice : Nat)
    (beams beams1 : MultiBeam) (beam_slice : Nat) (fresh : Mem) (t : Nat → Transport)
    (h : put_data cfg s slice beams beam_slice true fresh t = some (s1, beams1)) :
    beams1 = beams ∧
    progress_all cfg (set_metadata_progress (set_progress s slice comm_progress.sim_completed)
      slice comm_progress.sim_completed) t = some s1 ∧
    Untouched slice (set_metadata_progress (set_progress s slice comm_progress.sim_completed)
      slice comm_progress.sim_completed) s1 := by
  unfold put_data at h
  simp only [if_true, Option.some_bind] at h
  obtain ⟨s3, h3, h4⟩ := Option.map_eq_some'.mp h
  injection h4 with h4 h5
  subst h4
  refine ⟨h5.symm, h3, ?_⟩
  apply progress_all_idle_slot cfg t _ _ slice _ _ h3
  · simp [set_metadata_progress, set_progress, set_node]
  · simp [set_metadata_progress, set_progress, set_node]

/-- C11: a non-blocking poll of a slot whose data and metadata state are both one of
`ready_to_define`, `in_use`, `sim_completed`, in particular of the slot a final `put_data`
has just returned from, returns without changing the slot, the metadata or the trace of
outside calls: it issues no send, receive, test, wait, allocation or free. -/
theorem idle_poll_noop (cfg : Config) (s : MultiBuffer) (slice : Nat) (t : Transport)
    (h : (((s.m_datanodes slice).m_progress = comm_progress.ready_to_define ∨
          (s.m_datanodes slice).m_progress = comm_progress.in_use ∨
          (s.m_datanodes slice).m_progress = comm_progress.sim_completed) ∧
        ((s.m_datanodes slice).m_metadata_progress = comm_progress.ready_to_define ∨
          (s.m_datanodes slice).m_metadata_progress = comm_progress.in_use ∨
          (s.m_datanodes slice).m_metadata_progress = comm_progress.sim_completed)) ∨
      ∃ s0 beams beams1 beam_slice fresh t0,
        put_data cfg s0 slice beams beam_slice true fresh t0 = some (s, beams1)) :
    ∃ s1, make_progress cfg s slice false t = some s1 ∧
      s1.m_datanodes = s.m_datanodes ∧ s1.m_metadata = s.m_metadata ∧
      s1.trace = s.trace ∧ new_events s s1 = [] := by
  have key : ((s.m_datanodes slice).m_progress = comm_progress.ready_to_define ∨
          (s.m_datanodes slice).m_progress = comm_progress.in_use ∨
          (s.m_datanodes slice).m_progress = comm_progress.sim_completed) ∧
        ((s.m_datanodes slice).m_metadata_progress = comm_progress.ready_to_define ∨
          (s.m_datanodes slice).m_metadata_progress = comm_progress.in_use ∨
          (s.m_datanodes slice).m_metadata_progress = comm_progress.sim_completed) := by
    rcases h with h | ⟨s0, beams, beams1, beam_slice, fresh, t0, h⟩
    · exact h
    · obtain ⟨-, -, u⟩ := put_data_final_steps cfg s0 s slice beams beams1 beam_slice fresh t0 h
      rw [u.node]
      constructor
      · right; right
        simp [set_metadata_progress, set_progress, set_node]
      · right; right
        simp [set_metadata_progress, set_progress, set_node]
  exact ⟨s, poll_idle cfg s slice t key.1 key.2, rfl, rfl, rfl,
    new_events_eq s s [] (by simp)⟩

/-- Witness of `idle_poll_noop`: slot 1 of the example state, never defined, polled while
the transport would complete every metadata transfer. -/
theorem idle_poll_noop_witness :
    ∃ s1, make_progress example_cfg example_state 1 false eager_transport = some s1 ∧
      s1.m_datanodes = example_state.m_datanodes ∧
      s1.m_metadata = example_state.m_metadata ∧
      s1.trace = example_state.trace ∧ new_events example_state s1 = [] :=
  idle_poll_noop example_cfg example_state 1 eager_transport
    (Or.inl ⟨Or.inl rfl, Or.inl rfl⟩)

end Hipace

namespace Hipace

/-! ## The state `initialize` sweeps -/

/-- The marking loop of `initialize` sets both states of the last `n` slices. -/
theorem initialize_loop_mark (p : comm_progress) (n : Nat) (s : MultiBuffer)
    (hn : n ≤ s.m_nslices) :
    forLoop n (fun k (s : MultiBuffer) =>
      set_metadata_progress (set_progress s (s.m_nslices - 1 - k) p) (s.m_nslices - 1 - k) p) s
    = { s with m_datanodes := fun j =>
          if s.m_nslices - n ≤ j ∧ j < s.m_nslices then
            { s.m_datanodes j with m_progress := p, m_metadata_progress := p }
          else s.m_datanodes j } := by
  induction n with
  | zero =>
    simp only [forLoop]
    have : (fun j => if s.m_nslices - 0 ≤ j ∧ j < s.m_nslices then
        ({ s.m_datanodes j with m_progress := p, m_metadata_progress := p } : DataNode)
        else s.m_datanodes j) = s.m_datanodes := by
      funext j
      rw [if_neg (by omega)]
    rw [this]
  | succ n ih =>
    rw [forLoop_succ, ih (by omega)]
    simp only [set_metadata_progress, set_progress, set_node]
    congr 1
    funext j
    have e1 : s.m_nslices - (n + 1) = s.m_nslices - 1 - n := by omega
    rw [e1]
    generalize s.m_nslices - 1 - n = i at *
    have e2 : s.m_nslices - n = i + 1 := by omega
    rw [e2]
    by_cases hj : j = i
    · subst hj
      have c1 : ¬ (j + 1 ≤ j ∧ j < s.m_nslices) := by omega
      have c2 : j ≤ j ∧ j < s.m_nslices := by omega
      simp only [Function.update_same, if_neg c1, if_pos c2]
    · rw [Function.update_noteq hj, Function.update_noteq hj]
      by_cases h1 : i + 1 ≤ j ∧ j < s.m_nslices
      · rw [if_pos h1, if_pos (by omega)]
      · rw [if_neg h1, if_neg (by omega)]

/-- The object `initialize` hands to its closing sweep: the run-wide members, a zeroed
metadata vector, and every slot of the run without storage and with both states
`ready_to_define` on the origin stage and `sent` on every other stage. -/
theorem initialize_steps (cfg : Config) (nslices nbeams : Nat) (rank_id n_ranks : Int)
    (buffer_on_host : Bool) (t : Nat → Transport) :
    initialize_multibuffer cfg nslices nbeams rank_id n_ranks buffer_on_host t =
      progress_all cfg
        { m_nslices := nslices
          m_nbeams := nbeams
          m_buffer_on_host := buffer_on_host
          m_rank_send_to := Int.tmod (int_wrap (rank_id - 1 + n_ranks)) n_ranks
          m_rank_receive_from := Int.tmod (rank_id + 1) n_ranks
          m_is_head_rank := decide (rank_id + 1 = n_ranks)
          m_tag_buffer_start := 1
          m_tag_metadata_start := 1 + nslices
          m_metadata := fun _ => 0
          m_datanodes := fun j =>
            if j < nslices then
              (if rank_id + 1 = n_ranks then
                empty_node comm_progress.ready_to_define comm_progress.ready_to_define
              else empty_node comm_progress.sent comm_progress.sent)
            else default_node
          trace := [] } t := by
  unfold initialize_multibuffer
  simp only []
  by_cases hh : rank_id + 1 = n_ranks
  · simp only [hh, decide_True, if_true]
    have := initialize_loop_mark comm_progress.ready_to_define nslices
      { m_nslices := nslices, m_nbeams := nbeams, m_buffer_on_host := buffer_on_host,
          m_rank_send_to := (int_wrap (rank_id - 1 + n_ranks)).tmod n_ranks,
          m_rank_receive_from := n_ranks.tmod n_ranks,
          m_is_head_rank := true, m_tag_buffer_start := 1, m_tag_metadata_start := 1 + nslices,
          m_metadata := fun x => 0, m_datanodes := fun x => default_node, trace := [] } (le_refl _)
    simp only [] at this
    rw [this]
    simp only [Nat.sub_self, Nat.zero_le, true_and]
    rfl
  · simp only [hh, decide_False, if_false]
    have := initialize_loop_mark comm_progress.sent nslices
      { m_nslices := nslices, m_nbeams := nbeams, m_buffer_on_host := buffer_on_host,
          m_rank_send_to := (int_wrap (rank_id - 1 + n_ranks)).tmod n_ranks,
          m_rank_receive_from := (rank_id + 1).tmod n_ranks,
          m_is_head_rank := false, m_tag_buffer_start := 1, m_tag_metadata_start := 1 + nslices,
          m_metadata := fun x => 0, m_datanodes := fun x => default_node, trace := [] } (le_refl _)
    simp only [] at this
    rw [this]
    simp only [Nat.sub_self, Nat.zero_le, true_and]
    rfl

end Hipace

namespace Hipace

/-! ## Outside calls of a sweep -/

/-- What a poll may call only depends on the run-wide members. -/
theorem poll_event_congr {s s1 : MultiBuffer} (h : SameConfig s s1) (i : Nat)
    (is_blocking : Bool) (e : Event) (he : poll_event s1 i is_blocking e) :
    poll_event s i is_blocking e := by
  cases e <;>
    simp only [poll_event, h.rank_send_to, h.rank_receive_from, h.size, h.tag_buffer_start,
      h.tag_metadata_start, h.buffer_on_host] at he <;>
    exact he

/-- A sweep keeps the run-wide members and only appends to the trace; every call it appends
is a call of a non-blocking poll of one of the slices. -/
theorem downLoop_events (cfg : Config) (t : Nat → Transport) (n : Nat) (s s1 : MultiBuffer)
    (h : downLoop n (fun i s => make_progress cfg s i false (t i)) s = some s1) :
    SameConfig s s1 ∧ ∃ evs, s1.trace = s.trace ++ evs ∧
      ∀ e, e ∈ evs → ∃ i, i < n ∧ poll_event s i false e := by
  induction n generalizing s with
  | zero =>
    simp only [downLoop] at h
    injection h with h
    subst h
    exact ⟨SameConfig.config_refl s, [], by simp, by simp⟩
  | succ n ih =>
    simp only [downLoop] at h
    obtain ⟨s2, h2, h3⟩ := Option.bind_eq_some.mp h
    have f := Frame.frame_make_progress cfg s s2 n false (t n) h2
    obtain ⟨evs, e1, -⟩ := f.trace
    have hev := make_progress_events cfg s s2 n false (t n) h2
    rw [new_events_eq s s2 evs e1] at hev
    obtain ⟨c, rest, e2, hrest⟩ := ih s2 h3
    refine ⟨f.config.config_trans c, evs ++ rest, by rw [e2, e1, List.append_assoc], ?_⟩
    intro e he
    rcases List.mem_append.mp he with he | he
    · exact ⟨n, Nat.lt_succ_self n, hev e he⟩
    · obtain ⟨i, hi, hp⟩ := hrest e he
      exact ⟨i, Nat.lt_succ_of_lt hi, poll_event_congr f.config i false e hp⟩

/-- The sweep of `put_data` and `initialize` keeps the run-wide members, and every call it
makes is a call of a non-blocking poll of a slice of the run. -/
theorem progress_all_events (cfg : Config) (t : Nat → Transport) (s s1 : MultiBuffer)
    (h : progress_all cfg s t = some s1) :
    SameConfig s s1 ∧ ∃ evs, s1.trace = s.trace ++ evs ∧
      ∀ e, e ∈ evs → ∃ i, i < s.m_nslices ∧ poll_event s i false e :=
  downLoop_events cfg t s.m_nslices s s1 h

/-- A poll never cancels or synthesizes, and waits only when it is blocking. -/
theorem poll_event_wait (s : MultiBuffer) (i : Nat) (r : Request) :
    ¬ poll_event s i false (Event.Wait r) := by
  simp [poll_event]

/-- The call `allocate_buffer` makes. -/
theorem allocate_buffer_trace (cfg : Config) (s s1 : MultiBuffer) (i : Nat) (fresh : Mem)
    (h : allocate_buffer cfg s i fresh = some s1) :
    s1.trace = s.trace ++ [Event.alloc i ((s.m_datanodes i).m_buffer_size * cfg.sizeof_storage_type)
      (if s.m_buffer_on_host then memory_location.pinned else memory_location.device)] := by
  unfold allocate_buffer at h
  split at h
  · split at h
    · rename_i hh
      injection h with h
      subst h
      simp [set_node, emit, hh]
    · rename_i hh
      injection h with h
      subst h
      simp [set_node, emit, hh]
  · exact absurd h (by simp)

/-- Apart from the content of the buffer, `pack_data` leaves the object as it is. -/
theorem pack_data_node (cfg : Config) (s s1 : MultiBuffer) (slice : Nat)
    (beams beams1 : MultiBeam) (beam_slice : Nat)
    (h : pack_data cfg s slice beams beam_slice = some (s1, beams1)) :
    s1.trace = s.trace ∧ s1.m_metadata = s.m_metadata ∧
    (∃ buffer, (s.m_datanodes slice).m_buffer = some buffer ∧
      s1.m_datanodes slice = { s.m_datanodes slice with
        m_buffer := some (forLoop s.m_nbeams (pack_species cfg s slice beams beam_slice)
          buffer) }) := by
  unfold pack_data at h
  split at h
  · exact absurd h (by simp)
  · rename_i buffer hb
    injection h with h
    injection h with h1 h2
    subst h1
    exact ⟨rfl, rfl, buffer, hb, by simp [set_node]⟩

/-- The non-final `put_data` is `write_metadata`, then for a non-empty payload
`allocate_buffer` and `pack_data`, then the marking of the slot and the sweep. -/
theorem put_data_nonfinal_steps (cfg : Config) (s s1 : MultiBuffer) (slice : Nat)
    (beams beams1 : MultiBeam) (beam_slice : Nat) (fresh : Mem) (t : Nat → Transport)
    (h : put_data cfg s slice beams beam_slice false fresh t = some (s1, beams1)) :
    ∃ sw sq, write_metadata cfg s slice beams beam_slice = some sw ∧
      ((sw.m_datanodes slice).m_buffer_size ≠ 0 →
        ∃ sa, allocate_buffer cfg sw slice fresh = some sa ∧
          pack_data cfg sa slice beams beam_slice = some (sq, beams1)) ∧
      ((sw.m_datanodes slice).m_buffer_size = 0 → sq = sw ∧ beams1 = beams) ∧
      progress_all cfg (set_metadata_progress (set_progress sq slice
        comm_progress.ready_to_send) slice comm_progress.ready_to_send) t = some s1 := by
  unfold put_data at h
  simp only [Bool.false_eq_true, if_false] at h
  obtain ⟨p, hp, h⟩ := Option.bind_eq_some.mp h
  obtain ⟨s3, h3, h⟩ := Option.map_eq_some'.mp h
  injection h with h1 h2
  subst h1
  obtain ⟨sw, hw, hp⟩ := Option.bind_eq_some.mp hp
  obtain ⟨q, hq, hp⟩ := Option.map_eq_some'.mp hp
  subst hp
  simp only at h2 h3
  refine ⟨sw, q.1, hw, ?_, ?_, h3⟩
  · intro hsize
    rw [if_pos hsize] at hq
    obtain ⟨sa, ha, hq⟩ := Option.bind_eq_some.mp hq
    refine ⟨sa, ha, ?_⟩
    rw [hq, ← h2]
  · intro hsize
    rw [if_neg (by simpa using hsize)] at hq
    injection hq with hq
    rw [← h2, ← hq]
    exact ⟨rfl, rfl⟩

/-- The calls `put_data` makes before its sweep: none on the final time step and for an empty
payload, else the allocation of the payload buffer. -/
theorem put_data_prepare_trace (cfg : Config) (s s1 : MultiBuffer) (slice : Nat)
    (beams beams1 : MultiBeam) (beam_slice : Nat) (is_last_time_step : Bool) (fresh : Mem)
    (t : Nat → Transport)
    (h : put_data cfg s slice beams beam_slice is_last_time_step fresh t = some (s1, beams1)) :
    ∃ sp prep, sp.trace = s.trace ++ prep ∧ SameConfig s sp ∧
      (∀ e, e ∈ prep → ∃ bytes location, e = Event.alloc slice bytes location) ∧
      progress_all cfg sp t = some s1 := by
  cases is_last_time_step with
  | true =>
    obtain ⟨-, h2, -⟩ := put_data_final_steps cfg s s1 slice beams beams1 beam_slice fresh t h
    exact ⟨_, [], by simp [set_metadata_progress, set_progress, set_node],
      ((Frame.frame_set_progress slice s _).frame_trans
        (Frame.frame_set_metadata_progress slice _ _)).config, by simp, h2⟩
  | false =>
    obtain ⟨sw, sq, hw, h1, h2, h3⟩ :=
      put_data_nonfinal_steps cfg s s1 slice beams beams1 beam_slice fresh t h
    obtain ⟨-, -, -, -, -, -, -, -, htr, -⟩ :=
      write_metadata_frame cfg s slice beams beam_slice sw hw
    have fw := Frame.write_metadata cfg s sw slice beams beam_slice hw
    by_cases hsize : (sw.m_datanodes slice).m_buffer_size = 0
    · obtain ⟨e1, -⟩ := h2 hsize
      subst e1
      exact ⟨_, [], by simp [set_metadata_progress, set_progress, set_node, htr],
        ((fw.frame_trans (Frame.frame_set_progress slice _ _)).frame_trans
          (Frame.frame_set_metadata_progress slice _ _)).config, by simp, h3⟩
    · obtain ⟨sa, ha, hq⟩ := h1 hsize
      have e1 := allocate_buffer_trace cfg sw sa slice fresh ha
      obtain ⟨e2, -⟩ := pack_data_node cfg sa sq slice beams beams1 beam_slice hq
      refine ⟨_, [Event.alloc slice
        ((sw.m_datanodes slice).m_buffer_size * cfg.sizeof_storage_type)
        (if sw.m_buffer_on_host then memory_location.pinned else memory_location.device)],
        ?_, ?_, ?_, h3⟩
      · show sq.trace = _
        rw [e2, e1, htr]
      · exact ((((fw.frame_trans (Frame.frame_allocate_buffer cfg slice _ _ fresh ha)).frame_trans
          (Frame.pack_data cfg sa sq slice beams beams1 beam_slice hq)).frame_trans
          (Frame.frame_set_progress slice _ _)).frame_trans
          (Frame.frame_set_metadata_progress slice _ _)).config
      · intro e he
        simp only [List.mem_singleton] at he
        exact ⟨_, _, he⟩

/-- The two branches of `get_data`: synthesis on a slot in data state `ready_to_define`,
else the blocking poll, followed for a non-empty payload by `unpack_data` and
`free_buffer`. -/
theorem get_data_steps (cfg : Config) (s s1 : MultiBuffer) (slice : Nat)
    (beams beams1 : MultiBeam) (beam_slice : Nat) (t : Transport)
    (h : get_data cfg s slice beams beam_slice t = some (s1, beams1)) :
    ((s.m_datanodes slice).m_progress = comm_progress.ready_to_define →
      s1.trace = s.trace
        ++ (List.range s.m_nbeams).map (fun b => Event.intializeSlice b slice beam_slice) ∧
      s1.m_datanodes slice = { s.m_datanodes slice with
        m_progress := comm_progress.in_use, m_metadata_progress := comm_progress.in_use }) ∧
    ((s.m_datanodes slice).m_progress ≠ comm_progress.ready_to_define →
      ∃ s2, make_progress cfg s slice true t = some s2 ∧
        ((s2.m_datanodes slice).m_buffer_size ≠ 0 →
          unpack_data cfg s2 slice beams beam_slice = some beams1 ∧
          ∃ s3, free_buffer s2 slice = some s3 ∧
            s1 = set_metadata_progress (set_progress s3 slice comm_progress.in_use) slice
              comm_progress.in_use) ∧
        ((s2.m_datanodes slice).m_buffer_size = 0 →
          beams1 = beams ∧
          s1 = set_metadata_progress (set_progress s2 slice comm_progress.in_use) slice
            comm_progress.in_use)) := by
  constructor
  · intro hp
    obtain ⟨h1, h2, -⟩ := synthesize_loop cfg s slice beam_slice beams s.m_nbeams
    unfold get_data at h
    simp only [hp, if_true, Option.map_some'] at h
    injection h with h
    injection h with e1 e2
    rw [← e1]
    constructor
    · simp only [set_metadata_progress, set_progress, set_node]
      exact h1
    · simp [set_metadata_progress, set_progress, set_node, h2]
  · intro hp
    unfold get_data at h
    simp only [hp, if_false] at h
    obtain ⟨p, hp1, h⟩ := Option.map_eq_some'.mp h
    injection h with e1 e2
    obtain ⟨s2, h2, hp1⟩ := Option.bind_eq_some.mp hp1
    refine ⟨s2, h2, ?_, ?_⟩
    · intro hsize
      rw [if_pos hsize] at hp1
      obtain ⟨b1, hb1, hp1⟩ := Option.bind_eq_some.mp hp1
      obtain ⟨s3, h3, hp1⟩ := Option.map_eq_some'.mp hp1
      rw [← hp1] at e1 e2
      simp only at e1 e2
      exact ⟨by rw [hb1, e2], s3, h3, e1.symm⟩
    · intro hsize
      rw [if_neg (by simpa using hsize)] at hp1
      injection hp1 with hp1
      rw [← hp1] at e1 e2
      simp only at e1 e2
      exact ⟨e2.symm, e1.symm⟩

/-- C18: a non-blocking `make_progress` never calls the transport's wait primitive;
`initialize` is a sweep of non-blocking polls over a state without outside calls, and
`put_data` is a preparation whose only outside call is an allocation followed by such a
sweep, so that neither ever waits; and `get_data` in its `ready_to_define` branch makes no
wait either: only the other branch of `get_data`, with its blocking poll, can wait. -/
theorem only_get_data_blocks (cfg : Config) :
    (∀ s s1 slice t, make_progress cfg s slice false t = some s1 →
      ∀ r, Event.Wait r ∉ new_events s s1) ∧
    (∀ s s1 t, progress_all cfg s t = some s1 →
      ∀ e, e ∈ new_events s s1 → ∃ i, i < s.m_nslices ∧ poll_event s i false e) ∧
    (∀ nslices nbeams rank_id n_ranks buffer_on_host t s,
      initialize_multibuffer cfg nslices nbeams rank_id n_ranks buffer_on_host t = some s →
      (∃ s0, s0.trace = [] ∧ progress_all cfg s0 t = some s) ∧
      ∀ r, Event.Wait r ∉ s.trace) ∧
    (∀ s s1 slice beams beams1 beam_slice is_last_time_step fresh t,
      put_data cfg s slice beams beam_slice is_last_time_step fresh t = some (s1, beams1) →
      (∃ sp, (∀ e, e ∈ new_events s sp → ∃ bytes location,
          e = Event.alloc slice bytes location) ∧ progress_all cfg sp t = some s1) ∧
      ∀ r, Event.Wait r ∉ new_events s s1) ∧
    (∀ s s1 slice beams beams1 beam_slice t,
      get_data cfg s slice beams beam_slice t = some (s1, beams1) →
      (s.m_datanodes slice).m_progress = comm_progress.ready_to_define →
      ∀ r, Event.Wait r ∉ new_events s s1) := by
  refine ⟨?_, ?_, ?_, ?_, ?_⟩
  · intro s s1 slice t h r hr
    exact poll_event_wait s slice r (make_progress_events cfg s s1 slice false t h _ hr)
  · intro s s1 t h e he
    obtain ⟨-, evs, e1, hev⟩ := progress_all_events cfg t s s1 h
    rw [new_events_eq s s1 evs e1] at he
    exact hev e he
  · intro nslices nbeams rank_id n_ranks buffer_on_host t s h
    rw [initialize_steps] at h
    refine ⟨⟨_, rfl, h⟩, ?_⟩
    intro r hr
    obtain ⟨-, evs, e1, hev⟩ := progress_all_events cfg t _ s h
    rw [e1] at hr
    simp only [List.nil_append] at hr
    obtain ⟨i, -, hp⟩ := hev _ hr
    exact poll_event_wait _ i r hp
  · intro s s1 slice beams beams1 beam_slice is_last_time_step fresh t h
    obtain ⟨sp, prep, e0, c, hprep, h3⟩ :=
      put_data_prepare_trace cfg s s1 slice beams beams1 beam_slice is_last_time_step fresh t h
    refine ⟨⟨sp, ?_, h3⟩, ?_⟩
    · rw [new_events_eq s sp prep e0]
      exact hprep
    · intro r hr
      obtain ⟨-, evs, e1, hev⟩ := progress_all_events cfg t sp s1 h3
      rw [new_events_eq s s1 (prep ++ evs) (by rw [e1, e0, List.append_assoc])] at hr
      rcases List.mem_append.mp hr with hr | hr
      · obtain ⟨b, l, hb⟩ := hprep _ hr
        exact absurd hb (by simp)
      · obtain ⟨i, -, hp⟩ := hev _ hr
        exact poll_event_wait _ i r hp
  · intro s s1 slice beams beams1 beam_slice t h hp r hr
    obtain ⟨e1, -⟩ := (get_data_steps cfg s s1 slice beams beams1 beam_slice t h).1 hp
    rw [new_events_eq s s1 _ e1] at hr
    simp at hr

end Hipace

namespace Hipace

/-! ## What a poll does to the slot -/

theorem step_start_metadata_send (s : MultiBuffer) (i : Nat) :
    Relation.ReflTransGen NodeStep (s.m_datanodes i)
      ((start_metadata_send s i).m_datanodes i) := by
  unfold start_metadata_send
  split
  · rename_i hm
    apply Relation.ReflTransGen.single
    simp only [set_metadata_progress, set_node, emit, Function.update_same]
    exact NodeStep.metadata_send _ hm
  · exact Relation.ReflTransGen.refl

theorem step_start_send (s : MultiBuffer) (i : Nat) :
    Relation.ReflTransGen NodeStep (s.m_datanodes i) ((start_send s i).m_datanodes i) := by
  unfold start_send
  split
  · rename_i hp
    split
    · rename_i hs
      apply Relation.ReflTransGen.single
      simp only [set_progress, set_node, emit, Function.update_same]
      exact NodeStep.skip_send _ hp hs
    · rename_i hs
      apply Relation.ReflTransGen.single
      simp only [set_progress, set_node, emit, Function.update_same]
      exact NodeStep.start_send _ hp hs
  · exact Relation.ReflTransGen.refl

theorem step_finish_metadata_send (s : MultiBuffer) (i : Nat) (is_blocking : Bool)
    (t : Transport) :
    Relation.ReflTransGen NodeStep (s.m_datanodes i)
      ((finish_metadata_send s i is_blocking t).m_datanodes i) := by
  unfold finish_metadata_send
  split
  · rename_i hm
    split
    · apply Relation.ReflTransGen.single
      simp only [set_metadata_progress, set_node, emit, Function.update_same]
      exact NodeStep.metadata_sent _ hm
    · simp only []
      split
      · apply Relation.ReflTransGen.single
        simp only [set_metadata_progress, set_node, emit, Function.update_same]
        exact NodeStep.metadata_sent _ hm
      · exact Relation.ReflTransGen.refl
  · exact Relation.ReflTransGen.refl

theorem step_start_metadata_receive (s : MultiBuffer) (i : Nat) :
    Relation.ReflTransGen NodeStep (s.m_datanodes i)
      ((start_metadata_receive s i).m_datanodes i) := by
  unfold start_metadata_receive
  split
  · rename_i hm
    apply Relation.ReflTransGen.single
    simp only [set_metadata_progress, set_node, emit, Function.update_same]
    exact NodeStep.metadata_receive _ hm
  · exact Relation.ReflTransGen.refl

theorem step_finish_metadata_receive (s : MultiBuffer) (i : Nat) (is_blocking : Bool)
    (t : Transport) :
    Relation.ReflTransGen NodeStep (s.m_datanodes i)
      ((finish_metadata_receive s i is_blocking t).m_datanodes i) := by
  unfold finish_metadata_receive
  split
  · rename_i hm
    split
    · apply Relation.ReflTransGen.single
      simp only [set_metadata_progress, set_node, emit, deliver_metadata, Function.update_same]
      exact NodeStep.metadata_received _ hm
    · simp only []
      split
      · apply Relation.ReflTransGen.single
        simp only [set_metadata_progress, set_node, emit, deliver_metadata,
          Function.update_same]
        exact NodeStep.metadata_received _ hm
      · exact Relation.ReflTransGen.refl
  · exact Relation.ReflTransGen.refl

theorem step_finish_send (s s1 : MultiBuffer) (i : Nat) (is_blocking : Bool)
    (t : Transport) (hs : finish_send s i is_blocking t = some s1) :
    Relation.ReflTransGen NodeStep (s.m_datanodes i) (s1.m_datanodes i) := by
  have key : ∀ (e : Event) (s2 : MultiBuffer),
      (s.m_datanodes i).m_progress = comm_progress.send_started →
      free_buffer (emit s e) i = some s2 →
      Relation.ReflTransGen NodeStep (s.m_datanodes i)
        ((set_progress s2 i comm_progress.sent).m_datanodes i) := by
    intro e s2 hp h2
    obtain ⟨hl, hn⟩ := free_buffer_node _ s2 i h2
    apply Relation.ReflTransGen.single
    simp only [set_progress, set_node, Function.update_same, hn]
    exact NodeStep.finish_send _ hp hl
  unfold finish_send at hs
  split at hs
  · rename_i hp
    split at hs
    · obtain ⟨s2, h2, rfl⟩ := Option.map_eq_some'.mp hs
      exact key _ s2 hp h2
    · simp only [] at hs
      split at hs
      · obtain ⟨s2, h2, rfl⟩ := Option.map_eq_some'.mp hs
        exact key _ s2 hp h2
      · injection hs with hs
        subst hs
        exact Relation.ReflTransGen.refl
  · injection hs with hs
    subst hs
    exact Relation.ReflTransGen.refl

theorem step_start_receive (cfg : Config) (s s1 : MultiBuffer) (i : Nat) (t : Transport)
    (hs : start_receive cfg s i t = some s1) :
    Relation.ReflTransGen NodeStep (s.m_datanodes i) (s1.m_datanodes i) := by
  unfold start_receive at hs
  split at hs
  · rename_i hc
    split at hs
    · rename_i hl
      simp only [] at hs
      split at hs
      · rename_i h0
        injection hs with hs
        subst hs
        apply Relation.ReflTransGen.single
        simp only [set_node, Function.update_same] at h0
        simp only [set_progress, set_node, Function.update_same, Function.update_idem, h0]
        exact NodeStep.skip_receive _ hc.1 hc.2 hl
      · rename_i h0
        obtain ⟨s2, h2, rfl⟩ := Option.map_eq_some'.mp hs
        have hn := (allocate_buffer_node cfg _ _ i t.fresh h2).2
        apply Relation.ReflTransGen.single
        simp only [set_node, Function.update_same] at h0 hn
        simp only [set_progress, set_node, emit, Function.update_same, hn]
        refine NodeStep.start_receive _ _ _ _ hc.1 hc.2 hl h0 ?_
        split <;> simp
    · exact absurd hs (by simp)
  · injection hs with hs
    subst hs
    exact Relation.ReflTransGen.refl

theorem step_finish_receive (cfg : Config) (s : MultiBuffer) (i : Nat) (is_blocking : Bool)
    (t : Transport) :
    Relation.ReflTransGen NodeStep (s.m_datanodes i)
      ((finish_receive cfg s i is_blocking t).m_datanodes i) := by
  unfold finish_receive
  split
  · rename_i hp
    split
    · apply Relation.ReflTransGen.single
      simp only [set_progress, set_node, emit, deliver_buffer, Function.update_same]
      exact NodeStep.finish_receive _ _ hp
    · simp only []
      split
      · apply Relation.ReflTransGen.single
        simp only [set_progress, set_node, emit, deliver_buffer, Function.update_same]
        exact NodeStep.finish_receive _ _ hp
      · exact Relation.ReflTransGen.refl
  · exact Relation.ReflTransGen.refl

/-- A poll changes the slot by a sequence of the steps of `NodeStep`. -/
theorem make_progress_node_steps (cfg : Config) (s s1 : MultiBuffer) (i : Nat)
    (is_blocking : Bool) (t : Transport)
    (hs : make_progress cfg s i is_blocking t = some s1) :
    Relation.ReflTransGen NodeStep (s.m_datanodes i) (s1.m_datanodes i) := by
  obtain ⟨s6, s7, h6, h7, rfl, -⟩ := make_progress_steps cfg s s1 i is_blocking t hs
  exact (((((((step_start_metadata_send s i).trans (step_start_send _ i)).trans
    (step_finish_metadata_send _ i is_blocking t)).trans
    (step_start_metadata_receive _ i)).trans
    (step_finish_metadata_receive _ i is_blocking t)).trans
    (step_finish_send _ _ i is_blocking t h6)).trans
    (step_start_receive cfg _ _ i t h7)).trans
    (step_finish_receive cfg _ i is_blocking t)

/-- Every step of a poll keeps the storage invariant. -/
theorem storage_step (a b : DataNode) (h : NodeStep a b) (ha : NodeStorage a) :
    NodeStorage b := by
  obtain ⟨h1, h2, h3⟩ := ha
  cases h <;> simp_all [NodeStorage]

/-- Every step of a poll keeps what holds of a slot after any sequence of calls. -/
theorem sound_step (a b : DataNode) (h : NodeStep a b) (ha : NodeSound a) :
    NodeSound b := by
  obtain ⟨h1, h2, h3, h4⟩ := ha
  cases h <;> simp_all [NodeSound]

end Hipace

namespace Hipace

/-! ## Polls keep the storage invariant and do not abort under it -/

/-- A property of slots kept by every step is kept by a sequence of steps. -/
theorem steps_invariant (P : DataNode → Prop) (hP : ∀ a b, NodeStep a b → P a → P b)
    (a b : DataNode) (h : Relation.ReflTransGen NodeStep a b) (ha : P a) : P b := by
  induction h with
  | refl => exact ha
  | tail _ hstep ih => exact hP _ _ hstep ih

/-- A property of slots kept by every step is kept by a poll, for every slot. -/
theorem invariant_make_progress (P : DataNode → Prop)
    (hP : ∀ a b, NodeStep a b → P a → P b) (cfg : Config) (s s1 : MultiBuffer) (i : Nat)
    (is_blocking : Bool) (t : Transport)
    (hs : make_progress cfg s i is_blocking t = some s1)
    (h : ∀ j, P (s.m_datanodes j)) : ∀ j, P (s1.m_datanodes j) := by
  intro j
  by_cases hj : j = i
  · subst hj
    exact steps_invariant P hP _ _ (make_progress_node_steps cfg s s1 j is_blocking t hs) (h j)
  · rw [(Frame.frame_make_progress cfg s s1 i is_blocking t hs).nodes j hj]
    exact h j

/-- A property of slots kept by every step is kept by a sweep. -/
theorem invariant_downLoop (P : DataNode → Prop)
    (hP : ∀ a b, NodeStep a b → P a → P b) (cfg : Config) (t : Nat → Transport) (n : Nat)
    (s s1 : MultiBuffer)
    (hs : downLoop n (fun i s => make_progress cfg s i false (t i)) s = some s1)
    (h : ∀ j, P (s.m_datanodes j)) : ∀ j, P (s1.m_datanodes j) := by
  induction n generalizing s with
  | zero =>
    simp only [downLoop] at hs
    injection hs with hs
    subst hs
    exact h
  | succ n ih =>
    simp only [downLoop] at hs
    obtain ⟨s2, h2, h3⟩ := Option.bind_eq_some.mp hs
    exact ih s2 h3 (invariant_make_progress P hP cfg s s2 n false (t n) h2 h)

/-- Under the storage invariant the release of a sent buffer does not abort. -/
theorem finish_send_returns (s : MultiBuffer) (i : Nat) (is_blocking : Bool) (t : Transport)
    (h : NodeStorage (s.m_datanodes i)) : ∃ s1, finish_send s i is_blocking t = some s1 := by
  have key : ∀ e, (s.m_datanodes i).m_progress = comm_progress.send_started →
      ∃ s2, free_buffer (emit s e) i = some s2 := by
    intro e hp
    have hl : ((emit s e).m_datanodes i).m_location ≠ memory_location.nowhere :=
      h.2.1.mpr (Or.inl hp)
    unfold free_buffer
    rw [if_pos hl]
    exact ⟨_, rfl⟩
  unfold finish_send
  split
  · rename_i hp
    split
    · obtain ⟨s2, h2⟩ := key (Event.Wait (Request.m_request i)) hp
      exact ⟨_, by rw [h2]; rfl⟩
    · simp only []
      split
      · obtain ⟨s2, h2⟩ := key (Event.Test (Request.m_request i) t.send_complete) hp
        exact ⟨_, by rw [h2]; rfl⟩
      · exact ⟨_, rfl⟩
  · exact ⟨_, rfl⟩

/-- Under the storage invariant the posting of the bulk-data receive does not abort. -/
theorem start_receive_returns (cfg : Config) (s : MultiBuffer) (i : Nat) (t : Transport)
    (h : NodeStorage (s.m_datanodes i)) : ∃ s1, start_receive cfg s i t = some s1 := by
  unfold start_receive
  split
  · rename_i hc
    have hl : (s.m_datanodes i).m_location = memory_location.nowhere := by
      by_contra hl
      have := h.2.1.mp hl
      simp [hc.1] at this
    rw [if_pos hl]
    simp only []
    split
    · exact ⟨_, rfl⟩
    · have hl2 : ((set_node s i { s.m_datanodes i with
          m_buffer_size := s.m_metadata (get_metadata_location s i + 0) }).m_datanodes
          i).m_location = memory_location.nowhere := by
        simp [set_node, hl]
      obtain ⟨s2, h2, -⟩ := allocate_buffer_some cfg _ i t.fresh hl2
      exact ⟨_, by rw [h2]; rfl⟩
  · exact ⟨_, rfl⟩

/-- Under the storage invariant a non-blocking poll returns. -/
theorem poll_returns (cfg : Config) (s : MultiBuffer) (i : Nat) (t : Transport)
    (h : NodeStorage (s.m_datanodes i)) : ∃ s1, make_progress cfg s i false t = some s1 := by
  have h5 : NodeStorage ((finish_metadata_receive (start_metadata_receive
      (finish_metadata_send (start_send (start_metadata_send s i) i) i false t) i) i false
      t).m_datanodes i) :=
    steps_invariant NodeStorage storage_step _ _
      (((((step_start_metadata_send s i).trans (step_start_send _ i)).trans
        (step_finish_metadata_send _ i false t)).trans
        (step_start_metadata_receive _ i)).trans
        (step_finish_metadata_receive _ i false t)) h
  obtain ⟨s6, h6⟩ := finish_send_returns _ i false t h5
  have hs6 : NodeStorage (s6.m_datanodes i) :=
    steps_invariant NodeStorage storage_step _ _ (step_finish_send _ _ i false t h6) h5
  obtain ⟨s7, h7⟩ := start_receive_returns cfg s6 i t hs6
  refine ⟨finish_receive cfg s7 i false t, ?_⟩
  unfold make_progress
  simp only [h6, Option.some_bind, h7]
  rfl

/-- Under the storage invariant a sweep returns. -/
theorem downLoop_returns (cfg : Config) (t : Nat → Transport) (n : Nat) (s : MultiBuffer)
    (h : ∀ j, NodeStorage (s.m_datanodes j)) :
    ∃ s1, downLoop n (fun i s => make_progress cfg s i false (t i)) s = some s1 := by
  induction n generalizing s with
  | zero => exact ⟨s, rfl⟩
  | succ n ih =>
    obtain ⟨s2, h2⟩ := poll_returns cfg s n (t n) (h n)
    obtain ⟨s1, h1⟩ := ih s2
      (invariant_make_progress NodeStorage storage_step cfg s s2 n false (t n) h2 h)
    exact ⟨s1, by simp only [downLoop, h2, Option.some_bind, h1]⟩

/-- `initialize` returns, whatever the rank, the sizes and the transport. -/
theorem initialize_returns (cfg : Config) (nslices nbeams : Nat) (rank_id n_ranks : Int)
    (buffer_on_host : Bool) (t : Nat → Transport) :
    ∃ s, initialize_multibuffer cfg nslices nbeams rank_id n_ranks buffer_on_host t
      = some s := by
  rw [initialize_steps]
  apply downLoop_returns
  intro j
  simp only []
  split
  · split <;> simp [NodeStorage, empty_node]
  · simp [NodeStorage, default_node]

/-- The run-wide members `initialize` sets. -/
theorem initialize_config (cfg : Config) (nslices nbeams : Nat) (rank_id n_ranks : Int)
    (buffer_on_host : Bool) (t : Nat → Transport) (s : MultiBuffer)
    (h : initialize_multibuffer cfg nslices nbeams rank_id n_ranks buffer_on_host t
      = some s) :
    s.m_nslices = nslices ∧ s.m_nbeams = nbeams ∧ s.m_buffer_on_host = buffer_on_host ∧
    s.m_rank_send_to = Int.tmod (int_wrap (rank_id - 1 + n_ranks)) n_ranks ∧
    s.m_rank_receive_from = Int.tmod (rank_id + 1) n_ranks ∧
    s.m_is_head_rank = decide (rank_id + 1 = n_ranks) ∧
    s.m_tag_buffer_start = 1 ∧ s.m_tag_metadata_start = 1 + nslices := by
  rw [initialize_steps] at h
  obtain ⟨c, -⟩ := progress_all_events cfg t _ s h
  exact ⟨c.nslices, c.nbeams, c.buffer_on_host, c.rank_send_to, c.rank_receive_from,
    c.is_head_rank, c.tag_buffer_start, c.tag_metadata_start⟩

/-- The `int` arithmetic of `initialize` is exact as long as the results stay in range. -/
theorem int_wrap_eq (x : Int) (h1 : -2147483648 ≤ x) (h2 : x < 2147483648) :
    int_wrap x = x := by
  unfold int_wrap
  omega

/-- C14 (as amended): for `1 ≤ n_ranks ≤ 2^30` and a rank `k` with `0 ≤ k < n_ranks`,
`initialize` returns with `m_rank_send_to = (k - 1) mod n_ranks` and
`m_rank_receive_from = (k + 1) mod n_ranks`, both in `[0, n_ranks)`; and the ring is
consistent: `initialize` on the rank `k` sends to configures it to receive from `k`, and
`initialize` on the rank `k` receives from configures it to send to `k`. -/
theorem ring_addressing (cfg : Config) (nslices nbeams : Nat) (k n_ranks : Int)
    (buffer_on_host : Bool) (t : Nat → Transport) (hn : 1 ≤ n_ranks)
    (hb : n_ranks ≤ 2 ^ 30) (h0 : 0 ≤ k) (hk : k < n_ranks) :
    ∃ s, initialize_multibuffer cfg nslices nbeams k n_ranks buffer_on_host t = some s ∧
      s.m_rank_send_to = (k - 1) % n_ranks ∧
      s.m_rank_receive_from = (k + 1) % n_ranks ∧
      (0 ≤ s.m_rank_send_to ∧ s.m_rank_send_to < n_ranks) ∧
      (0 ≤ s.m_rank_receive_from ∧ s.m_rank_receive_from < n_ranks) ∧
      (∃ s1, initialize_multibuffer cfg nslices nbeams s.m_rank_send_to n_ranks
          buffer_on_host t = some s1 ∧ s1.m_rank_receive_from = k) ∧
      (∃ s2, initialize_multibuffer cfg nslices nbeams s.m_rank_receive_from n_ranks
          buffer_on_host t = some s2 ∧ s2.m_rank_send_to = k) := by
  have hpos : (0 : Int) < n_ranks := by omega
  have hne : n_ranks ≠ 0 := by omega
  have hb1 : n_ranks ≤ 1073741824 := by
    have : (2 : Int) ^ 30 = 1073741824 := by norm_num
    omega
  have tm : ∀ x : Int, 0 ≤ x → Int.tmod x n_ranks = x % n_ranks := fun x hx =>
    Int.tmod_eq_emod hx (by omega)
  have wr : ∀ x : Int, 0 ≤ x → x < n_ranks → int_wrap (x - 1 + n_ranks) = x - 1 + n_ranks :=
    fun x hx hxn => int_wrap_eq _ (by omega) (by omega)
  obtain ⟨s, hs⟩ := initialize_returns cfg nslices nbeams k n_ranks buffer_on_host t
  obtain ⟨-, -, -, c4, c5, -⟩ :=
    initialize_config cfg nslices nbeams k n_ranks buffer_on_host t s hs
  have e1 : s.m_rank_send_to = (k - 1) % n_ranks := by
    rw [c4, wr k h0 hk, tm _ (by omega), Int.add_emod_self]
  have e2 : s.m_rank_receive_from = (k + 1) % n_ranks := by
    rw [c5, tm _ (by omega)]
  have r1 : 0 ≤ s.m_rank_send_to ∧ s.m_rank_send_to < n_ranks := by
    rw [e1]
    exact ⟨Int.emod_nonneg _ hne, Int.emod_lt_of_pos _ hpos⟩
  have r2 : 0 ≤ s.m_rank_receive_from ∧ s.m_rank_receive_from < n_ranks := by
    rw [e2]
    exact ⟨Int.emod_nonneg _ hne, Int.emod_lt_of_pos _ hpos⟩
  refine ⟨s, hs, e1, e2, r1, r2, ?_, ?_⟩
  · obtain ⟨s1, hs1⟩ :=
      initialize_returns cfg nslices nbeams s.m_rank_send_to n_ranks buffer_on_host t
    obtain ⟨-, -, -, -, d5, -⟩ :=
      initialize_config cfg nslices nbeams _ n_ranks buffer_on_host t s1 hs1
    refine ⟨s1, hs1, ?_⟩
    rw [d5, tm _ (by omega), e1, Int.emod_add_emod, sub_add_cancel, Int.emod_eq_of_lt h0 hk]
  · obtain ⟨s2, hs2⟩ :=
      initialize_returns cfg nslices nbeams s.m_rank_receive_from n_ranks buffer_on_host t
    obtain ⟨-, -, -, d4, -⟩ :=
      initialize_config cfg nslices nbeams _ n_ranks buffer_on_host t s2 hs2
    refine ⟨s2, hs2, ?_⟩
    rw [d4, wr _ r2.1 r2.2, tm _ (by omega), Int.add_emod_self, e2]
    have e3 : (k + 1) % n_ranks - 1 = (k + 1) % n_ranks + (-1) := by ring
    rw [e3, Int.emod_add_emod]
    have e4 : k + 1 + -1 = k := by ring
    rw [e4, Int.emod_eq_of_lt h0 hk]

/-- Witness of `ring_addressing`: rank 0 of 2 sends to rank 1 and receives from rank 1. -/
theorem ring_addressing_witness :
    ∃ s, initialize_multibuffer example_cfg 2 2 0 2 true (fun _ => idle_transport) = some s ∧
      s.m_rank_send_to = (0 - 1) % 2 ∧
      s.m_rank_receive_from = (0 + 1) % 2 ∧
      (0 ≤ s.m_rank_send_to ∧ s.m_rank_send_to < 2) ∧
      (0 ≤ s.m_rank_receive_from ∧ s.m_rank_receive_from < 2) ∧
      (∃ s1, initialize_multibuffer example_cfg 2 2 s.m_rank_send_to 2 true
          (fun _ => idle_transport) = some s1 ∧ s1.m_rank_receive_from = 0) ∧
      (∃ s2, initialize_multibuffer example_cfg 2 2 s.m_rank_receive_from 2 true
          (fun _ => idle_transport) = some s2 ∧ s2.m_rank_send_to = 0) :=
  ring_addressing example_cfg 2 2 0 2 true (fun _ => idle_transport) (by decide) (by decide)
    (by decide) (by decide)

/-- On the last rank of a ring of `2^30 + 1` stages the sum `rank_id - 1 + n_ranks` is
`2^31`, one more than the largest `int`: it wraps to `-2^31` and `initialize` sets
`m_rank_send_to = -1073741823`, which is no rank, where `(k - 1) mod n_ranks` is
`1073741823`. -/
theorem ring_addressing_overflow :
    (1 : Int) ≤ 1073741825 ∧ (0 : Int) ≤ 1073741824 ∧ (1073741824 : Int) < 1073741825 ∧
    (initialize_multibuffer example_cfg 0 1 1073741824 1073741825 true
      (fun _ => idle_transport)).map (fun s => (s.m_rank_send_to, s.m_rank_receive_from))
      = some (-1073741823, 0) ∧
    ((1073741824 : Int) - 1) % 1073741825 = 1073741823 := by
  refine ⟨by decide, by decide, by decide, ?_, by decide⟩
  decide

end Hipace

namespace Hipace

/-! ## How many sends and receives a poll posts -/

/-- How many metadata sends, bulk-data sends and metadata receives of slice `j` a poll of
slice `i` posts. -/
theorem make_progress_counts (cfg : Config) (s s1 : MultiBuffer) (i : Nat)
    (is_blocking : Bool) (t : Transport)
    (h : make_progress cfg s i is_blocking t = some s1) (j : Nat) :
    (new_events s s1).countP (is_metadata_send j) =
      (if (s.m_datanodes i).m_metadata_progress = comm_progress.ready_to_send ∧ i = j
        then 1 else 0) ∧
    (new_events s s1).countP (is_data_send j) =
      (if (s.m_datanodes i).m_progress = comm_progress.ready_to_send ∧
        (s.m_datanodes i).m_buffer_size ≠ 0 ∧ i = j then 1 else 0) ∧
    (new_events s s1).countP (is_metadata_receive j) =
      (if ((finish_metadata_send (start_send (start_metadata_send s i) i) i is_blocking
        t).m_datanodes i).m_metadata_progress = comm_progress.sent ∧ i = j then 1 else 0) := by
  obtain ⟨s6, s7, h6, h7, rfl, -⟩ := make_progress_steps cfg s s1 i is_blocking t h
  have t6 := finish_send_trace _ _ i is_blocking t h6
  have t7 := start_receive_trace cfg _ _ i t h7
  have e := finish_receive_trace cfg s7 i is_blocking t
  rw [t7, t6, finish_metadata_receive_trace, start_metadata_receive_trace,
    finish_metadata_send_trace, start_send_trace, start_metadata_send_trace] at e
  simp only [List.append_assoc] at e
  rw [new_events_eq s _ _ e]
  have hdata : ((start_metadata_send s i).m_datanodes i).m_progress
      = (s.m_datanodes i).m_progress ∧
      ((start_metadata_send s i).m_datanodes i).m_buffer_size
      = (s.m_datanodes i).m_buffer_size := by
    unfold start_metadata_send
    split <;> simp [set_metadata_progress, set_node, emit]
  simp only [List.countP_append, hdata.1, hdata.2]
  refine ⟨?_, ?_, ?_⟩
  · cases is_blocking <;>
      simp [apply_ite (List.countP (is_metadata_send j)), List.countP_cons, ite_and,
        is_metadata_send]
  · cases is_blocking <;>
      simp [apply_ite (List.countP (is_data_send j)), List.countP_cons, ite_and, is_data_send]
  · cases is_blocking <;>
      simp [apply_ite (List.countP (is_metadata_receive j)), List.countP_cons, ite_and,
        is_metadata_receive]

/-- A list of calls for other slices holds no call of slice `j`. -/
theorem countP_other_slice (q : Event → Bool) (j : Nat)
    (hq : ∀ e, q e = true → event_slice e = j) (l : List Event)
    (hl : ∀ e, e ∈ l → event_slice e ≠ j) : l.countP q = 0 := by
  rw [List.countP_eq_zero]
  intro e he hqe
  exact hl e he (hq e hqe)

theorem is_metadata_send_slice (j : Nat) (e : Event) (h : is_metadata_send j e = true) :
    event_slice e = j := by
  unfold is_metadata_send at h
  split at h
  · simpa [event_slice] using h
  · exact absurd h (by simp)

theorem is_data_send_slice (j : Nat) (e : Event) (h : is_data_send j e = true) :
    event_slice e = j := by
  unfold is_data_send at h
  split at h
  · simpa [event_slice] using h
  · exact absurd h (by simp)

theorem is_metadata_receive_slice (j : Nat) (e : Event)
    (h : is_metadata_receive j e = true) : event_slice e = j := by
  unfold is_metadata_receive at h
  split at h
  · simpa [event_slice] using h
  · exact absurd h (by simp)

/-- The calls of a kind for slice `j` counted over a preparation and the sweep are those of
the preparation and of the one poll of slice `j`. -/
theorem sweep_count (s sp s_mid s_after s1 : MultiBuffer) (j : Nat) (prep : List Event)
    (htr : sp.trace = s.trace ++ prep) (u1 : Untouched j sp s_mid)
    (f : Frame j s_mid s_after) (u2 : Untouched j s_after s1) (q : Event → Bool)
    (hq : ∀ e, q e = true → event_slice e = j) :
    (new_events s s1).countP q = prep.countP q + (new_events s_mid s_after).countP q := by
  obtain ⟨pre, e1, n1⟩ := u1.trace
  obtain ⟨evs, e2, -⟩ := f.trace
  obtain ⟨post, e3, n3⟩ := u2.trace
  have e4 : s1.trace = s.trace ++ (prep ++ (pre ++ (evs ++ post))) := by
    rw [e3, e2, e1, htr]
    simp only [List.append_assoc]
  rw [new_events_eq s s1 _ e4, new_events_eq s_mid s_after evs e2]
  simp only [List.countP_append, countP_other_slice q j hq pre n1,
    countP_other_slice q j hq post n3]
  omega

/-! ## What a poll leaves pending -/

theorem start_send_metadata_progress (s : MultiBuffer) (i : Nat) :
    ((start_send s i).m_datanodes i).m_metadata_progress
      = (s.m_datanodes i).m_metadata_progress := by
  unfold start_send
  split
  · split <;> simp [set_progress, set_node, emit]
  · rfl

theorem finish_send_metadata_progress (s s1 : MultiBuffer) (i : Nat) (is_blocking : Bool)
    (t : Transport) (h : finish_send s i is_blocking t = some s1) :
    (s1.m_datanodes i).m_metadata_progress = (s.m_datanodes i).m_metadata_progress := by
  have key : ∀ (e : Event) (s2 : MultiBuffer), free_buffer (emit s e) i = some s2 →
      ((set_progress s2 i comm_progress.sent).m_datanodes i).m_metadata_progress
        = (s.m_datanodes i).m_metadata_progress := by
    intro e s2 h2
    obtain ⟨-, hn⟩ := free_buffer_node _ s2 i h2
    simp [set_progress, set_node, hn, emit]
  unfold finish_send at h
  split at h
  · split at h
    · obtain ⟨s2, h2, rfl⟩ := Option.map_eq_some'.mp h
      exact key _ s2 h2
    · simp only [] at h
      split at h
      · obtain ⟨s2, h2, rfl⟩ := Option.map_eq_some'.mp h
        exact key _ s2 h2
      · injection h with h
        subst h
        rfl
  · injection h with h
    subst h
    rfl

/-- No step of a poll makes a sub-channel ready to send. -/
theorem not_ready_step (a b : DataNode) (h : NodeStep a b)
    (ha : a.m_progress ≠ comm_progress.ready_to_send ∧
      a.m_metadata_progress ≠ comm_progress.ready_to_send) :
    b.m_progress ≠ comm_progress.ready_to_send ∧
      b.m_metadata_progress ≠ comm_progress.ready_to_send := by
  obtain ⟨h1, h2⟩ := ha
  cases h <;> simp_all

/-- When a poll returns, neither sub-channel of the slot is ready to send and the metadata
sub-channel is not waiting for its receive to be posted. -/
theorem poll_settles (cfg : Config) (s s1 : MultiBuffer) (i : Nat) (is_blocking : Bool)
    (t : Transport) (h : make_progress cfg s i is_blocking t = some s1) :
    (s1.m_datanodes i).m_progress ≠ comm_progress.ready_to_send ∧
    (s1.m_datanodes i).m_metadata_progress ≠ comm_progress.ready_to_send ∧
    (s1.m_datanodes i).m_metadata_progress ≠ comm_progress.sent := by
  obtain ⟨s6, s7, h6, h7, rfl, -⟩ := make_progress_steps cfg s s1 i is_blocking t h
  have a2 : ((start_send (start_metadata_send s i) i).m_datanodes i).m_progress
        ≠ comm_progress.ready_to_send ∧
      ((start_send (start_metadata_send s i) i).m_datanodes i).m_metadata_progress
        ≠ comm_progress.ready_to_send := by
    constructor
    · unfold start_send
      split
      · split <;> simp [set_progress, set_node, emit]
      · assumption
    · rw [start_send_metadata_progress]
      unfold start_metadata_send
      split
      · simp [set_metadata_progress, set_node, emit]
      · assumption
  have a8 := steps_invariant _ not_ready_step _ _
    ((((((step_finish_metadata_send _ i is_blocking t).trans
      (step_start_metadata_receive _ i)).trans
      (step_finish_metadata_receive _ i is_blocking t)).trans
      (step_finish_send _ _ i is_blocking t h6)).trans
      (step_start_receive cfg _ _ i t h7)).trans
      (step_finish_receive cfg _ i is_blocking t)) a2
  refine ⟨a8.1, a8.2, ?_⟩
  rw [finish_receive_metadata_progress, start_receive_metadata_progress cfg _ _ i t h7,
    finish_send_metadata_progress _ _ i is_blocking t h6]
  generalize finish_metadata_send (start_send (start_metadata_send s i) i) i is_blocking t
    = s3
  have a4 : ((start_metadata_receive s3 i).m_datanodes i).m_metadata_progress
      ≠ comm_progress.sent := by
    unfold start_metadata_receive
    split
    · simp [set_metadata_progress, set_node, emit]
    · assumption
  generalize start_metadata_receive s3 i = s4 at a4 ⊢
  unfold finish_metadata_receive
  split
  · split
    · simp [set_metadata_progress, set_node, emit, deliver_metadata]
    · simp only []
      split
      · simp [set_metadata_progress, set_node, emit, deliver_metadata]
      · exact a4
  · exact a4

/-- From a slot whose sub-channels are both `sent`, every step of a poll keeps the metadata
state in `sent`, `receive_started`, `received`, the data state in the same set, and the
data state at `sent` unless the metadata state is `received`. -/
theorem receiving_step (a b : DataNode) (h : NodeStep a b)
    (ha : (a.m_metadata_progress = comm_progress.sent ∨
        a.m_metadata_progress = comm_progress.receive_started ∨
        a.m_metadata_progress = comm_progress.received) ∧
      (a.m_progress = comm_progress.sent ∨ a.m_progress = comm_progress.receive_started ∨
        a.m_progress = comm_progress.received) ∧
      (a.m_progress ≠ comm_progress.sent →
        a.m_metadata_progress = comm_progress.received)) :
    (b.m_metadata_progress = comm_progress.sent ∨
        b.m_metadata_progress = comm_progress.receive_started ∨
        b.m_metadata_progress = comm_progress.received) ∧
      (b.m_progress = comm_progress.sent ∨ b.m_progress = comm_progress.receive_started ∨
        b.m_progress = comm_progress.received) ∧
      (b.m_progress ≠ comm_progress.sent →
        b.m_metadata_progress = comm_progress.received) := by
  obtain ⟨h1, h2, h3⟩ := ha
  cases h <;> simp_all

/-- C15: `initialize` returns. On the origin stage (`rank_id + 1 = n_ranks`) it has made no
outside call, so no send or receive is posted, and every slot has data and metadata state
`ready_to_define` and holds no buffer. On every other stage, for every slice of the run
exactly one metadata receive has been posted, the metadata state is `receive_started` or
`received`, the data state is `sent`, `receive_started` or `received`, and the data state
differs from `sent` only if the metadata state is `received`. -/
theorem state_after_initialize (cfg : Config) (nslices nbeams : Nat) (rank_id n_ranks : Int)
    (buffer_on_host : Bool) (t : Nat → Transport) :
    ∃ s, initialize_multibuffer cfg nslices nbeams rank_id n_ranks buffer_on_host t = some s ∧
      (rank_id + 1 = n_ranks →
        s.trace = [] ∧
        ∀ slice, (s.m_datanodes slice).m_progress = comm_progress.ready_to_define ∧
          (s.m_datanodes slice).m_metadata_progress = comm_progress.ready_to_define ∧
          (s.m_datanodes slice).m_location = memory_location.nowhere ∧
          (s.m_datanodes slice).m_buffer = none) ∧
      (rank_id + 1 ≠ n_ranks →
        ∀ slice, slice < nslices →
          s.trace.countP (is_metadata_receive slice) = 1 ∧
          ((s.m_datanodes slice).m_metadata_progress = comm_progress.receive_started ∨
            (s.m_datanodes slice).m_metadata_progress = comm_progress.received) ∧
          ((s.m_datanodes slice).m_progress = comm_progress.sent ∨
            (s.m_datanodes slice).m_progress = comm_progress.receive_started ∨
            (s.m_datanodes slice).m_progress = comm_progress.received) ∧
          ((s.m_datanodes slice).m_progress ≠ comm_progress.sent →
            (s.m_datanodes slice).m_metadata_progress = comm_progress.received)) := by
  obtain ⟨s, hs⟩ := initialize_returns cfg nslices nbeams rank_id n_ranks buffer_on_host t
  refine ⟨s, hs, ?_, ?_⟩
  · intro hr
    rw [initialize_steps] at hs
    simp only [hr, if_true] at hs
    unfold progress_all at hs
    rw [downLoop_idle cfg t _ _ (by
      intro i
      simp only []
      split <;> exact ⟨rfl, rfl⟩)] at hs
    injection hs with hs
    subst hs
    refine ⟨rfl, ?_⟩
    intro slice
    simp only []
    split <;> exact ⟨rfl, rfl, rfl, rfl⟩
  · intro hr slice hslice
    rw [initialize_steps] at hs
    simp only [hr, if_false] at hs
    obtain ⟨s_mid, s_after, u1, hm, u2⟩ := progress_all_split cfg t _ s slice hslice hs
    have hnode : s_mid.m_datanodes slice
        = empty_node comm_progress.sent comm_progress.sent := by
      rw [u1.node]
      simp only [if_pos hslice]
    have f := Frame.frame_make_progress cfg s_mid s_after slice false (t slice) hm
    have hc := sweep_count _ _ s_mid s_after s slice [] (List.append_nil _).symm u1 f u2
      (is_metadata_receive slice) (is_metadata_receive_slice slice)
    have hcount := (make_progress_counts cfg s_mid s_after slice false (t slice) hm slice).2.2
    have hpre : ((finish_metadata_send (start_send (start_metadata_send s_mid slice) slice)
        slice false (t slice)).m_datanodes slice).m_metadata_progress
        = comm_progress.sent := by
      simp [finish_metadata_send, start_send, start_metadata_send, hnode, empty_node]
    rw [if_pos ⟨hpre, rfl⟩] at hcount
    have hinv := steps_invariant _ receiving_step _ _
      (make_progress_node_steps cfg s_mid s_after slice false (t slice) hm)
      (by rw [hnode]; simp [empty_node])
    obtain ⟨-, -, hsent⟩ := poll_settles cfg s_mid s_after slice false (t slice) hm
    rw [← u2.node] at hinv hsent
    refine ⟨?_, ?_, hinv.2.1, hinv.2.2⟩
    · simp only [new_events, List.length_nil, List.drop_zero, List.countP_nil,
        Nat.zero_add] at hc
      rw [hc]
      exact hcount
    · rcases hinv.1 with h1 | h1 | h1
      · exact absurd h1 hsent
      · exact Or.inl h1
      · exact Or.inr h1

end Hipace

namespace Hipace

/-! ## The final `put_data` -/

/-- A call a poll of slice `i` may make is a call for slice `i`. -/
theorem poll_event_slice (s : MultiBuffer) (i : Nat) (is_blocking : Bool) (e : Event)
    (h : poll_event s i is_blocking e) : event_slice e = i := by
  cases e with
  | Isend r count dest tag =>
    obtain ⟨-, h | h⟩ := h <;> (rw [h.1]; rfl)
  | Irecv r count source tag =>
    obtain ⟨-, h | h⟩ := h <;> (rw [h.1]; rfl)
  | Test r c =>
    obtain ⟨-, h | h⟩ := h <;> (rw [h]; rfl)
  | Wait r =>
    obtain ⟨-, h | h⟩ := h <;> (rw [h]; rfl)
  | Cancel r => exact absurd h (by simp [poll_event])
  | alloc slice bytes location => exact h.1
  | free slice location => exact h.1
  | intializeSlice b slice bs => exact absurd h (by simp [poll_event])

/-- C16 (as amended): a final `put_data` sets the slice's data and metadata state to
`sim_completed`, leaves the species, the other fields of the slot and the metadata row of the
slice as they are, and makes no outside call for the slice (no allocation, free, send,
receive or test); it then runs the closing sweep over all slices, so that every outside call
it makes is a call of a non-blocking poll of another slice of the run. -/
theorem final_put_data_marks (cfg : Config) (s s1 : MultiBuffer) (slice : Nat)
    (beams beams1 : MultiBeam) (beam_slice : Nat) (fresh : Mem) (t : Nat → Transport)
    (h : put_data cfg s slice beams beam_slice true fresh t = some (s1, beams1)) :
    beams1 = beams ∧
    s1.m_datanodes slice = { s.m_datanodes slice with
      m_progress := comm_progress.sim_completed,
      m_metadata_progress := comm_progress.sim_completed } ∧
    (∀ k, k < get_metadata_size s →
      s1.m_metadata (get_metadata_location s slice + k)
        = s.m_metadata (get_metadata_location s slice + k)) ∧
    progress_all cfg (set_metadata_progress (set_progress s slice comm_progress.sim_completed)
      slice comm_progress.sim_completed) t = some s1 ∧
    ∀ e, e ∈ new_events s s1 →
      event_slice e ≠ slice ∧ ∃ i, i < s.m_nslices ∧ i ≠ slice ∧ poll_event s i false e := by
  obtain ⟨hb, hsweep, u⟩ := put_data_final_steps cfg s s1 slice beams beams1 beam_slice fresh t h
  refine ⟨hb, ?_, ?_, hsweep, ?_⟩
  · rw [u.node]
    simp [set_metadata_progress, set_progress, set_node]
  · intro k hk
    exact u.row k hk
  · intro e he
    obtain ⟨evs, e1, hne⟩ := u.trace
    obtain ⟨-, evs1, e2, hev⟩ := progress_all_events cfg t _ s1 hsweep
    have e3 : evs1 = evs := List.append_cancel_left (e2.symm.trans e1)
    subst e3
    have e4 : s1.trace = s.trace ++ evs1 := e1
    rw [new_events_eq s s1 evs1 e4] at he
    obtain ⟨i, hi, hp⟩ := hev e he
    have hsl := poll_event_slice _ i false e hp
    refine ⟨hne e he, i, hi, ?_, hp⟩
    rw [← hsl]
    exact hne e he

set_option maxRecDepth 100000 in
/-- C16 counterexample: on a receiving stage (rank 0 of 2, two slices, one species) after
`initialize`, `get_data` of slice 1 and then the final `put_data` of slice 1, while the
metadata of slice 0 arrives: the closing sweep of that `put_data` polls slice 0, tests its
metadata receive, allocates a buffer for it, posts its bulk-data receive and tests it, and
slot 0 goes from data state `sent` to `receive_started`. -/
theorem final_put_data_polls_others :
    ((initialize_multibuffer example_cfg 2 1 0 2 true (fun _ => idle_transport)).bind fun s0 =>
      (get_data example_cfg s0 1 example_beams 0 eager_transport).bind fun p1 =>
      (put_data example_cfg p1.1 1 p1.2 0 true (fun _ => 0) (fun _ => eager_transport)).map
        fun p2 =>
        (new_events p1.1 p2.1, (p1.1.m_datanodes 0).m_progress,
          (p2.1.m_datanodes 0).m_progress, (p1.1.m_datanodes 0).m_location,
          (p2.1.m_datanodes 0).m_location))
    = some ([Event.Test (Request.m_metadata_request 0) true,
          Event.alloc 0 96 memory_location.pinned,
          Event.Irecv (Request.m_request 0) 24 1 1,
          Event.Test (Request.m_request 0) false],
        comm_progress.sent, comm_progress.receive_started, memory_location.nowhere,
        memory_location.pinned) := by
  decide

set_option maxRecDepth 100000 in
/-- Witness of `final_put_data_marks`: the final `put_data` of slice 1 of the example
state. -/
theorem final_put_data_marks_witness :
    ∃ s1 beams1, put_data example_cfg example_state 1 example_beams 0 true (fun _ => 0)
        (fun _ => idle_transport) = some (s1, beams1) ∧
      beams1 = example_beams ∧
      s1.m_datanodes 1 = { example_state.m_datanodes 1 with
        m_progress := comm_progress.sim_completed,
        m_metadata_progress := comm_progress.sim_completed } ∧
      (∀ e, e ∈ new_events example_state s1 → event_slice e ≠ 1) := by
  have hsome : (put_data example_cfg example_state 1 example_beams 0 true (fun _ => 0)
      (fun _ => idle_transport)).isSome = true := by decide
  obtain ⟨p, hp⟩ := Option.isSome_iff_exists.mp hsome
  have h := final_put_data_marks example_cfg example_state p.1 1 example_beams p.2 0
    (fun _ => 0) (fun _ => idle_transport) hp
  exact ⟨p.1, p.2, hp, h.1, h.2.1, fun e he => (h.2.2.2.2 e he).1⟩

end Hipace

namespace Hipace

/-! ## The non-final `put_data` -/

/-- What the non-final `put_data` has prepared when its sweep starts: the metadata written by
`write_metadata`, for a non-empty payload the allocated and packed buffer, and a trace that
holds at most the allocation. -/
theorem put_data_nonfinal_prepared (cfg : Config) (s s1 : MultiBuffer) (slice : Nat)
    (beams beams1 : MultiBeam) (beam_slice : Nat) (fresh : Mem) (t : Nat → Transport)
    (h : put_data cfg s slice beams beam_slice false fresh t = some (s1, beams1)) :
    ∃ sw sq, write_metadata cfg s slice beams beam_slice = some sw ∧
      ((sw.m_datanodes slice).m_buffer_size ≠ 0 →
        ∃ sa, allocate_buffer cfg sw slice fresh = some sa ∧
          pack_data cfg sa slice beams beam_slice = some (sq, beams1)) ∧
      ((sw.m_datanodes slice).m_buffer_size = 0 → sq = sw ∧ beams1 = beams) ∧
      progress_all cfg (set_metadata_progress (set_progress sq slice
        comm_progress.ready_to_send) slice comm_progress.ready_to_send) t = some s1 ∧
      Frame slice s sq ∧ sq.m_metadata = sw.m_metadata ∧
      (sq.m_datanodes slice).m_buffer_size = (sw.m_datanodes slice).m_buffer_size ∧
      sq.trace = s.trace ++
        (if (sw.m_datanodes slice).m_buffer_size ≠ 0 then
          [Event.alloc slice ((sw.m_datanodes slice).m_buffer_size * cfg.sizeof_storage_type)
            (if s.m_buffer_on_host then memory_location.pinned else memory_location.device)]
        else []) := by
  obtain ⟨sw, sq, hw, h1, h2, h3⟩ :=
    put_data_nonfinal_steps cfg s s1 slice beams beams1 beam_slice fresh t h
  obtain ⟨-, -, c3, -, -, -, -, -, htr, -⟩ :=
    write_metadata_frame cfg s slice beams beam_slice sw hw
  have fw := Frame.write_metadata cfg s sw slice beams beam_slice hw
  refine ⟨sw, sq, hw, h1, h2, h3, ?_⟩
  by_cases hsize : (sw.m_datanodes slice).m_buffer_size = 0
  · obtain ⟨e1, -⟩ := h2 hsize
    subst e1
    refine ⟨fw, rfl, rfl, ?_⟩
    rw [if_neg (by simpa using hsize), htr, List.append_nil]
  · obtain ⟨sa, ha, hq⟩ := h1 hsize
    have e1 := allocate_buffer_trace cfg sw sa slice fresh ha
    obtain ⟨-, hna⟩ := allocate_buffer_node cfg sw sa slice fresh ha
    have hm2 : sa.m_metadata = sw.m_metadata := by
      unfold allocate_buffer at ha
      split at ha
      · split at ha <;> (injection ha with ha; subst ha; rfl)
      · exact absurd ha (by simp)
    obtain ⟨e2, hm, buffer, -, hnq⟩ := pack_data_node cfg sa sq slice beams beams1 beam_slice hq
    refine ⟨(fw.frame_trans (Frame.frame_allocate_buffer cfg slice _ _ fresh ha)).frame_trans
      (Frame.pack_data cfg sa sq slice beams beams1 beam_slice hq), ?_, ?_, ?_⟩
    · rw [hm, hm2]
    · rw [hnq, hna]
    · rw [if_pos hsize, e2, e1, htr, c3]

/-- From a slot whose sub-channels are both ready to send, every step of a poll keeps both
states among `ready_to_send`, `send_started`, `sent`, `receive_started`, `received`. -/
theorem sending_step (a b : DataNode) (h : NodeStep a b)
    (ha : (a.m_metadata_progress = comm_progress.ready_to_send ∨
        a.m_metadata_progress = comm_progress.send_started ∨
        a.m_metadata_progress = comm_progress.sent ∨
        a.m_metadata_progress = comm_progress.receive_started ∨
        a.m_metadata_progress = comm_progress.received) ∧
      (a.m_progress = comm_progress.ready_to_send ∨
        a.m_progress = comm_progress.send_started ∨ a.m_progress = comm_progress.sent ∨
        a.m_progress = comm_progress.receive_started ∨
        a.m_progress = comm_progress.received)) :
    (b.m_metadata_progress = comm_progress.ready_to_send ∨
        b.m_metadata_progress = comm_progress.send_started ∨
        b.m_metadata_progress = comm_progress.sent ∨
        b.m_metadata_progress = comm_progress.receive_started ∨
        b.m_metadata_progress = comm_progress.received) ∧
      (b.m_progress = comm_progress.ready_to_send ∨
        b.m_progress = comm_progress.send_started ∨ b.m_progress = comm_progress.sent ∨
        b.m_progress = comm_progress.receive_started ∨
        b.m_progress = comm_progress.received) := by
  obtain ⟨h1, h2⟩ := ha
  cases h <;> simp_all

/-- A poll of a slot that is ready to send a non-empty payload issues the bulk-data send of
the slot's `m_buffer_size` storage words. -/
theorem poll_data_send_event (cfg : Config) (s s1 : MultiBuffer) (i : Nat)
    (is_blocking : Bool) (t : Transport)
    (h : make_progress cfg s i is_blocking t = some s1)
    (hp : (s.m_datanodes i).m_progress = comm_progress.ready_to_send)
    (hz : (s.m_datanodes i).m_buffer_size ≠ 0) :
    Event.Isend (Request.m_request i) (s.m_datanodes i).m_buffer_size s.m_rank_send_to
      (s.m_tag_buffer_start + i) ∈ new_events s s1 := by
  obtain ⟨s6, s7, h6, h7, rfl, -⟩ := make_progress_steps cfg s s1 i is_blocking t h
  have t6 := finish_send_trace _ _ i is_blocking t h6
  have t7 := start_receive_trace cfg _ _ i t h7
  have e := finish_receive_trace cfg s7 i is_blocking t
  rw [t7, t6, finish_metadata_receive_trace, start_metadata_receive_trace,
    finish_metadata_send_trace, start_send_trace, start_metadata_send_trace] at e
  simp only [List.append_assoc] at e
  rw [new_events_eq s _ _ e]
  have hdata : ((start_metadata_send s i).m_datanodes i).m_progress
      = (s.m_datanodes i).m_progress ∧
      ((start_metadata_send s i).m_datanodes i).m_buffer_size
      = (s.m_datanodes i).m_buffer_size := by
    unfold start_metadata_send
    split <;> simp [set_metadata_progress, set_node, emit]
  have c := (Frame.frame_start_metadata_send i s).config
  have hc : (s.m_datanodes i).m_progress = comm_progress.ready_to_send ∧
      (s.m_datanodes i).m_buffer_size ≠ 0 := ⟨hp, hz⟩
  simp only [hdata.1, hdata.2, c.rank_send_to, c.tag_buffer_start, if_pos hc]
  simp

/-- After `pack_data` has returned the slot holds a buffer. -/
theorem pack_data_buffer (cfg : Config) (s s1 : MultiBuffer) (slice : Nat)
    (beams beams1 : MultiBeam) (beam_slice : Nat)
    (h : pack_data cfg s slice beams beam_slice = some (s1, beams1)) :
    ∃ buffer, (s1.m_datanodes slice).m_buffer = some buffer := by
  unfold pack_data at h
  split at h
  · exact absurd h (by simp)
  · rename_i buffer0 _
    injection h with h
    injection h with h1 h2
    refine ⟨forLoop s.m_nbeams (pack_species cfg s slice beams beam_slice) buffer0, ?_⟩
    rw [← h1]
    simp [set_node]

/-- The buffer `pack_data` leaves in the slot after `write_metadata` and `allocate_buffer`:
every byte of every in-buffer attribute of every particle of every species stands at the
offset the row gives it. -/
theorem packed_buffer_bytes (cfg : Config) (s sw sa sq : MultiBuffer) (slice : Nat)
    (beams beams1 : MultiBeam) (beam_slice : Nat) (fresh : Mem)
    (hR : 0 < cfg.buffer_size_roundup)
    (hw : write_metadata cfg s slice beams beam_slice = some sw)
    (ha : allocate_buffer cfg sw slice fresh = some sa)
    (hq : pack_data cfg sa slice beams beam_slice = some (sq, beams1)) :
    ∃ buffer, (sq.m_datanodes slice).m_buffer = some buffer ∧
      ∀ b, b < s.m_nbeams →
        (∀ r a, r < cfg.real_nattribs_in_buffer →
          a < getNumParticles (beams b) beam_slice * cfg.sizeof_Real →
          buffer (get_buffer_offset_real cfg sw slice b r + a)
            = (beams b beam_slice).real_data r a) ∧
        (∀ i a, i < cfg.int_nattribs_in_buffer →
          a < getNumParticles (beams b) beam_slice * cfg.sizeof_int →
          buffer (get_buffer_offset_int cfg sw slice b i + a)
            = (beams b beam_slice).int_data i a) := by
  have hlt : (payload_bytes cfg beams beam_slice s.m_nbeams + cfg.sizeof_storage_type - 1)
      / cfg.sizeof_storage_type < int_max := by
    by_contra hge
    rw [(write_metadata_facts cfg s slice beams beam_slice).2 hge] at hw
    exact absurd hw (by simp)
  obtain ⟨sw1, e1, hcount, -⟩ := (write_metadata_facts cfg s slice beams beam_slice).1 hlt
  rw [hw] at e1
  injection e1 with e1
  subst e1
  obtain ⟨-, hnb1, -⟩ := write_metadata_frame cfg s slice beams beam_slice sw hw
  have hloc : (sw.m_datanodes slice).m_location = memory_location.nowhere := by
    by_contra hl
    unfold allocate_buffer at ha
    rw [if_neg hl] at ha
    exact absurd ha (by simp)
  obtain ⟨sa1, ha1, hm2, hnb2, -, hbuf2, -⟩ := allocate_buffer_some cfg sw slice fresh hloc
  rw [ha] at ha1
  injection ha1 with ha1
  subst ha1
  obtain ⟨s3, beams3, hp, -, -, hbuf3⟩ := pack_data_some cfg sa slice beams beam_slice fresh hbuf2
  rw [hq] at hp
  injection hp with hp
  injection hp with hp1 hp2
  subst hp1
  have hl2 : get_metadata_location sa slice = get_metadata_location s slice :=
    get_metadata_location_congr s sa slice (hnb2.trans hnb1)
  have hlw : get_metadata_location sw slice = get_metadata_location s slice :=
    get_metadata_location_congr s sw slice hnb1
  have hrow2 : ∀ b, b < s.m_nbeams →
      sa.m_metadata (get_metadata_location sa slice + (b + 1))
        = getNumParticles (beams b) beam_slice := by
    intro b hb
    rw [hm2, hl2]
    exact hcount b hb
  have hpack := pack_loop_facts cfg sa slice beams beam_slice fresh hR s.m_nbeams hrow2
  rw [← hnb1, ← hnb2] at hpack
  refine ⟨_, hbuf3, ?_⟩
  intro b hb
  have hroww : ∀ c, sw.m_metadata (get_metadata_location sw slice + (c + 1))
      = sa.m_metadata (get_metadata_location sa slice + (c + 1)) := by
    intro c
    rw [hm2, hl2, hlw]
  have hso : species_offset cfg sw slice b = species_offset cfg sa slice b :=
    species_offset_congr cfg sa sw slice slice b (fun c _ => hroww c)
  have hreal : ∀ r, get_buffer_offset_real cfg sw slice b r
      = get_buffer_offset_real cfg sa slice b r := by
    intro r
    unfold get_buffer_offset_real
    rw [hso, hroww b]
  have hint : ∀ i, get_buffer_offset_int cfg sw slice b i
      = get_buffer_offset_int cfg sa slice b i := by
    intro i
    unfold get_buffer_offset_int
    rw [hso, hroww b]
  obtain ⟨p1, p2⟩ := hpack b (by rw [hnb2, hnb1]; exact hb)
  refine ⟨?_, ?_⟩
  · intro r a hr hlt1
    rw [hreal r]
    exact p1 r a hr hlt1
  · intro i a hi hlt1
    rw [hint i]
    exact p2 i a hi hlt1

/-- C17: when a non-final `put_data` of a slice of the run returns, the sweep has polled the
slice once, starting in a state `s_mid` in which the metadata row of the slice holds the
values computed by `write_metadata` (the particle count of every species and the payload
size) and both sub-channels are ready to send, and the first thing that poll did was to issue
the metadata send from that row. Over the whole call exactly one metadata send was issued for
the slice, and one bulk-data send if the computed size is non-zero and none otherwise; for a
non-zero size that send carries the computed size as its count, and the buffer sent is the
one `allocate_buffer` and `pack_data` made in this call,
and (for a rounding granularity of at least 1) it holds, at the offsets the row gives, every
byte of every in-buffer attribute of every particle handed in.
At return the metadata state is `send_started`, `receive_started` or `received` and the data
state is `send_started`, `sent`, `receive_started` or `received`. -/
theorem put_data_effect (cfg : Config) (s s1 : MultiBuffer) (slice : Nat)
    (beams beams1 : MultiBeam) (beam_slice : Nat) (fresh : Mem) (t : Nat → Transport)
    (hslice : slice < s.m_nslices)
    (h : put_data cfg s slice beams beam_slice false fresh t = some (s1, beams1)) :
    ∃ sw s_mid s_after,
      write_metadata cfg s slice beams beam_slice = some sw ∧
      (∀ b, b < s.m_nbeams →
        sw.m_metadata (get_metadata_location s slice + (b + 1))
          = getNumParticles (beams b) beam_slice) ∧
      sw.m_metadata (get_metadata_location s slice + 0)
        = (sw.m_datanodes slice).m_buffer_size ∧
      (∀ k, k < get_metadata_size s →
        s_mid.m_metadata (get_metadata_location s slice + k)
          = sw.m_metadata (get_metadata_location s slice + k)) ∧
      (s_mid.m_datanodes slice).m_progress = comm_progress.ready_to_send ∧
      (s_mid.m_datanodes slice).m_metadata_progress = comm_progress.ready_to_send ∧
      (s_mid.m_datanodes slice).m_buffer_size = (sw.m_datanodes slice).m_buffer_size ∧
      make_progress cfg s_mid slice false (t slice) = some s_after ∧
      (start_metadata_send s_mid slice).trace = s_mid.trace ++
        [Event.Isend (Request.m_metadata_request slice) (get_metadata_size s)
          s.m_rank_send_to (s.m_tag_metadata_start + slice)] ∧
      (start_metadata_send s_mid slice).m_metadata = s_mid.m_metadata ∧
      s1.m_datanodes slice = s_after.m_datanodes slice ∧
      (new_events s s1).countP (is_metadata_send slice) = 1 ∧
      (new_events s s1).countP (is_data_send slice)
        = (if (sw.m_datanodes slice).m_buffer_size ≠ 0 then 1 else 0) ∧
      ((sw.m_datanodes slice).m_buffer_size ≠ 0 →
        ∃ sa sq, allocate_buffer cfg sw slice fresh = some sa ∧
          pack_data cfg sa slice beams beam_slice = some (sq, beams1) ∧
          (s_mid.m_datanodes slice).m_buffer = (sq.m_datanodes slice).m_buffer ∧
          Event.alloc slice ((sw.m_datanodes slice).m_buffer_size * cfg.sizeof_storage_type)
            (if s.m_buffer_on_host then memory_location.pinned else memory_location.device)
            ∈ new_events s s1 ∧
          Event.Isend (Request.m_request slice) (sw.m_datanodes slice).m_buffer_size
            s.m_rank_send_to (s.m_tag_buffer_start + slice) ∈ new_events s s1 ∧
          ∃ buffer, (s_mid.m_datanodes slice).m_buffer = some buffer ∧
            (0 < cfg.buffer_size_roundup → ∀ b, b < s.m_nbeams →
              (∀ r a, r < cfg.real_nattribs_in_buffer →
                a < getNumParticles (beams b) beam_slice * cfg.sizeof_Real →
                buffer (get_buffer_offset_real cfg sw slice b r + a)
                  = (beams b beam_slice).real_data r a) ∧
              (∀ i a, i < cfg.int_nattribs_in_buffer →
                a < getNumParticles (beams b) beam_slice * cfg.sizeof_int →
                buffer (get_buffer_offset_int cfg sw slice b i + a)
                  = (beams b beam_slice).int_data i a))) ∧
      ((s1.m_datanodes slice).m_metadata_progress = comm_progress.send_started ∨
        (s1.m_datanodes slice).m_metadata_progress = comm_progress.receive_started ∨
        (s1.m_datanodes slice).m_metadata_progress = comm_progress.received) ∧
      ((s1.m_datanodes slice).m_progress = comm_progress.send_started ∨
        (s1.m_datanodes slice).m_progress = comm_progress.sent ∨
        (s1.m_datanodes slice).m_progress = comm_progress.receive_started ∨
        (s1.m_datanodes slice).m_progress = comm_progress.received) := by
  obtain ⟨sw, sq, hw, h1, h2, h3, fq, hmeta, hsz, htr⟩ :=
    put_data_nonfinal_prepared cfg s s1 slice beams beams1 beam_slice fresh t h
  have fp : Frame slice sq (set_metadata_progress (set_progress sq slice
      comm_progress.ready_to_send) slice comm_progress.ready_to_send) :=
    (Frame.frame_set_progress slice _ _).frame_trans
      (Frame.frame_set_metadata_progress slice _ _)
  have cp := fq.config.config_trans fp.config
  obtain ⟨s_mid, s_after, u1, hm, u2⟩ := progress_all_split cfg t _ s1 slice
    (by rw [cp.nslices]; exact hslice) h3
  have hnode : s_mid.m_datanodes slice = { sq.m_datanodes slice with
      m_progress := comm_progress.ready_to_send,
      m_metadata_progress := comm_progress.ready_to_send } := by
    rw [u1.node]
    simp [set_metadata_progress, set_progress, set_node]
  have cm := cp.config_trans u1.config
  have hrow : ∀ k, k < get_metadata_size s →
      s_mid.m_metadata (get_metadata_location s slice + k)
        = sw.m_metadata (get_metadata_location s slice + k) := by
    intro k hk
    have := u1.row k (by rw [cp.size]; exact hk)
    rw [cp.location] at this
    rw [this, ← hmeta]
    rfl
  have hp : (s_mid.m_datanodes slice).m_progress = comm_progress.ready_to_send := by
    rw [hnode]
  have hmp : (s_mid.m_datanodes slice).m_metadata_progress = comm_progress.ready_to_send := by
    rw [hnode]
  have hsize : (s_mid.m_datanodes slice).m_buffer_size
      = (sw.m_datanodes slice).m_buffer_size := by
    rw [hnode]
    exact hsz
  have f := Frame.frame_make_progress cfg s_mid s_after slice false (t slice) hm
  have hprep : (set_metadata_progress (set_progress sq slice comm_progress.ready_to_send)
      slice comm_progress.ready_to_send).trace = s.trace ++
        (if (sw.m_datanodes slice).m_buffer_size ≠ 0 then
          [Event.alloc slice ((sw.m_datanodes slice).m_buffer_size * cfg.sizeof_storage_type)
            (if s.m_buffer_on_host then memory_location.pinned else memory_location.device)]
        else []) := htr
  obtain ⟨k1, k2, -⟩ := make_progress_counts cfg s_mid s_after slice false (t slice) hm slice
  have c1 : (s_mid.m_datanodes slice).m_metadata_progress = comm_progress.ready_to_send ∧
      slice = slice := ⟨hmp, rfl⟩
  rw [if_pos c1] at k1
  rw [hsize] at k2
  have hfacts : (payload_bytes cfg beams beam_slice s.m_nbeams + cfg.sizeof_storage_type - 1)
      / cfg.sizeof_storage_type < int_max := by
    by_contra hc
    rw [(write_metadata_facts cfg s slice beams beam_slice).2 hc] at hw
    exact absurd hw (by simp)
  obtain ⟨sw1, hw1, r1, -, -, r4, -⟩ :=
    (write_metadata_facts cfg s slice beams beam_slice).1 hfacts
  rw [hw] at hw1
  injection hw1 with hw1
  subst hw1
  have hinv := steps_invariant _ sending_step _ _
    (make_progress_node_steps cfg s_mid s_after slice false (t slice) hm)
    ⟨Or.inl hmp, Or.inl hp⟩
  obtain ⟨n1, n2, n3⟩ := poll_settles cfg s_mid s_after slice false (t slice) hm
  rw [← u2.node] at hinv n1 n2 n3
  refine ⟨sw, s_mid, s_after, hw, r1, r4.symm, hrow, hp, hmp, hsize, hm, ?_, ?_, u2.node,
    ?_, ?_, ?_, ?_, ?_⟩
  · rw [start_metadata_send_trace, if_pos hmp, cm.size, cm.rank_send_to,
      cm.tag_metadata_start]
  · unfold start_metadata_send
    rw [if_pos hmp]
    rfl
  · rw [sweep_count s _ s_mid s_after s1 slice _ hprep u1 f u2 (is_metadata_send slice)
      (is_metadata_send_slice slice), k1]
    split <;> simp [is_metadata_send]
  · rw [sweep_count s _ s_mid s_after s1 slice _ hprep u1 f u2 (is_data_send slice)
      (is_data_send_slice slice), k2]
    by_cases hz : (sw.m_datanodes slice).m_buffer_size = 0
    · simp [hz]
    · simp [hz, hp, is_data_send]
  · intro hz
    obtain ⟨sa, ha, hq⟩ := h1 hz
    refine ⟨sa, sq, ha, hq, by rw [hnode], ?_, ?_, ?_⟩
    · rw [mem_new_events_split s _ s_mid s_after s1 slice _ hprep u1 f u2 _ (by rfl)]
      left
      rw [if_pos hz]
      exact List.mem_singleton.mpr rfl
    · rw [mem_new_events_split s _ s_mid s_after s1 slice _ hprep u1 f u2 _ (by rfl)]
      right
      have := poll_data_send_event cfg s_mid s_after slice false (t slice) hm hp
        (by rw [hsize]; exact hz)
      rw [hsize, cm.rank_send_to, cm.tag_buffer_start] at this
      exact this
    · have hsome := pack_data_buffer cfg sa sq slice beams beams1 beam_slice hq
      obtain ⟨buffer, hbuf⟩ := hsome
      refine ⟨buffer, by rw [hnode]; exact hbuf, ?_⟩
      intro hR
      obtain ⟨buffer1, hbuf1, hbytes⟩ :=
        packed_buffer_bytes cfg s sw sa sq slice beams beams1 beam_slice fresh hR hw ha hq
      rw [hbuf] at hbuf1
      injection hbuf1 with hbuf1
      subst hbuf1
      exact hbytes
  · rcases hinv.1 with q | q | q | q | q
    · exact absurd q n2
    · exact Or.inl q
    · exact absurd q n3
    · exact Or.inr (Or.inl q)
    · exact Or.inr (Or.inr q)
  · rcases hinv.2 with q | q | q | q | q
    · exact absurd q n1
    · exact Or.inl q
    · exact Or.inr (Or.inl q)
    · exact Or.inr (Or.inr (Or.inl q))
    · exact Or.inr (Or.inr (Or.inr q))

set_option maxRecDepth 100000 in
/-- Witness of `put_data_effect`: the non-final `put_data` of slice 1 of the example state
with three particles of species 0, on a transport on which nothing completes. -/
theorem put_data_effect_witness :
    ∃ s1 beams1, put_data example_cfg example_state 1 example_beams 0 false (fun _ => 0)
        (fun _ => idle_transport) = some (s1, beams1) ∧
      (new_events example_state s1).countP (is_metadata_send 1) = 1 ∧
      ((s1.m_datanodes 1).m_metadata_progress = comm_progress.send_started ∨
        (s1.m_datanodes 1).m_metadata_progress = comm_progress.receive_started ∨
        (s1.m_datanodes 1).m_metadata_progress = comm_progress.received) ∧
      ((s1.m_datanodes 1).m_progress = comm_progress.send_started ∨
        (s1.m_datanodes 1).m_progress = comm_progress.sent ∨
        (s1.m_datanodes 1).m_progress = comm_progress.receive_started ∨
        (s1.m_datanodes 1).m_progress = comm_progress.received) := by
  have hsome : (put_data example_cfg example_state 1 example_beams 0 false (fun _ => 0)
      (fun _ => idle_transport)).isSome = true := by decide
  obtain ⟨p, hp⟩ := Option.isSome_iff_exists.mp hsome
  obtain ⟨sw, s_mid, s_after, -, -, -, -, -, -, -, -, -, -, -, q1, -, -, q2, q3⟩ :=
    put_data_effect example_cfg example_state p.1 1 example_beams p.2 0 (fun _ => 0)
      (fun _ => idle_transport) (by decide) hp
  exact ⟨p.1, p.2, hp, q1, q2, q3⟩

end Hipace

namespace Hipace

/-! ## What holds of a slot after any sequence of calls -/

/-- A sweep keeps what holds of every slot. -/
theorem sound_progress_all (cfg : Config) (t : Nat → Transport) (s s1 : MultiBuffer)
    (hs : progress_all cfg s t = some s1) (h : ∀ j, NodeSound (s.m_datanodes j)) :
    ∀ j, NodeSound (s1.m_datanodes j) :=
  invariant_downLoop NodeSound sound_step cfg t s.m_nslices s s1 hs h

/-- A property of the slots reached through a frame of slice `i`. -/
theorem invariant_of_frame (P : DataNode → Prop) {i : Nat} {s s1 : MultiBuffer}
    (hf : Frame i s s1) (h : ∀ j, P (s.m_datanodes j)) (hn : P (s1.m_datanodes i)) :
    ∀ j, P (s1.m_datanodes j) := by
  intro j
  by_cases hj : j = i
  · subst hj
    exact hn
  · rw [hf.nodes j hj]
    exact h j

/-- The slot of the slice when the sweep of a non-final `put_data` starts: both states
ready to send, the computed size, and either the storage the slot had (empty payload) or
newly allocated storage. -/
theorem put_data_prepared_node (cfg : Config) (s s1 : MultiBuffer) (slice : Nat)
    (beams beams1 : MultiBeam) (beam_slice : Nat) (fresh : Mem) (t : Nat → Transport)
    (h : put_data cfg s slice beams beam_slice false fresh t = some (s1, beams1)) :
    ∃ sp, Frame slice s sp ∧ progress_all cfg sp t = some s1 ∧
      (sp.m_datanodes slice).m_progress = comm_progress.ready_to_send ∧
      (sp.m_datanodes slice).m_metadata_progress = comm_progress.ready_to_send ∧
      (((sp.m_datanodes slice).m_buffer_size = 0 ∧
          (sp.m_datanodes slice).m_location = (s.m_datanodes slice).m_location ∧
          (sp.m_datanodes slice).m_buffer = (s.m_datanodes slice).m_buffer) ∨
        ((sp.m_datanodes slice).m_buffer_size ≠ 0 ∧
          (s.m_datanodes slice).m_location = memory_location.nowhere ∧
          (sp.m_datanodes slice).m_location ≠ memory_location.nowhere ∧
          (sp.m_datanodes slice).m_buffer ≠ none)) := by
  obtain ⟨sw, sq, hw, h1, h2, h3, fq, -, hsz, -⟩ :=
    put_data_nonfinal_prepared cfg s s1 slice beams beams1 beam_slice fresh t h
  obtain ⟨-, -, -, -, -, -, -, -, -, -, wb, wl, -, -⟩ :=
    write_metadata_frame cfg s slice beams beam_slice sw hw
  refine ⟨_, fq.frame_trans ((Frame.frame_set_progress slice _ _).frame_trans
    (Frame.frame_set_metadata_progress slice _ _)), h3, ?_, ?_, ?_⟩
  · simp [set_metadata_progress, set_progress, set_node]
  · simp [set_metadata_progress, set_progress, set_node]
  · have hn : (set_metadata_progress (set_progress sq slice comm_progress.ready_to_send)
        slice comm_progress.ready_to_send).m_datanodes slice = { sq.m_datanodes slice with
          m_progress := comm_progress.ready_to_send,
          m_metadata_progress := comm_progress.ready_to_send } := by
      simp [set_metadata_progress, set_progress, set_node]
    rw [hn]
    simp only []
    by_cases hsize : (sw.m_datanodes slice).m_buffer_size = 0
    · obtain ⟨e1, -⟩ := h2 hsize
      subst e1
      exact Or.inl ⟨hsize, wl, wb⟩
    · obtain ⟨sa, ha, hq⟩ := h1 hsize
      obtain ⟨hl, hna⟩ := allocate_buffer_node cfg sw sa slice fresh ha
      obtain ⟨-, -, buffer, -, hnq⟩ := pack_data_node cfg sa sq slice beams beams1 beam_slice hq
      right
      refine ⟨by rw [hsz]; exact hsize, by rw [← wl]; exact hl, ?_, ?_⟩
      · rw [hnq, hna]
        simp only []
        split <;> simp
      · rw [hnq]
        simp

/-- What holds of every slot after any sequence of calls that returned. -/
theorem reachable_sound (cfg : Config) (s : MultiBuffer) (h : Reachable cfg s) :
    ∀ j, NodeSound (s.m_datanodes j) := by
  induction h with
  | init nslices nbeams rank_id n_ranks buffer_on_host t s hs =>
    rw [initialize_steps] at hs
    apply sound_progress_all cfg t _ s hs
    intro j
    simp only []
    split
    · split <;> simp [NodeSound, empty_node]
    · simp [NodeSound, default_node]
  | put s slice beams beam_slice is_last_time_step fresh t s1 beams1 _ _ hput ih =>
    cases is_last_time_step with
    | true =>
      obtain ⟨-, h2, -⟩ := put_data_final_steps cfg s s1 slice beams beams1 beam_slice fresh t
        hput
      apply sound_progress_all cfg t _ s1 h2
      apply invariant_of_frame NodeSound ((Frame.frame_set_progress slice s _).frame_trans
        (Frame.frame_set_metadata_progress slice _ _)) ih
      have := ih slice
      simp only [NodeSound, set_metadata_progress, set_progress, set_node,
        Function.update_same] at this ⊢
      simp [this.1]
    | false =>
      obtain ⟨sp, fp, h3, hp, -, hcase⟩ :=
        put_data_prepared_node cfg s s1 slice beams beams1 beam_slice fresh t hput
      apply sound_progress_all cfg t sp s1 h3
      apply invariant_of_frame NodeSound fp ih
      have := (ih slice).1
      rcases hcase with ⟨-, hl, hb⟩ | ⟨-, -, hl, hb⟩
      · simp [NodeSound, hp, hl, hb, this]
      · simp [NodeSound, hp, hl, hb]
  | get s slice beams beam_slice t s1 beams1 _ _ hget ih =>
    obtain ⟨hf, -, -⟩ := get_data_frame cfg s s1 slice beams beams1 beam_slice t hget
    apply invariant_of_frame NodeSound hf ih
    obtain ⟨g1, g2⟩ := get_data_steps cfg s s1 slice beams beams1 beam_slice t hget
    by_cases hp : (s.m_datanodes slice).m_progress = comm_progress.ready_to_define
    · obtain ⟨-, hn⟩ := g1 hp
      rw [hn]
      have := (ih slice).1
      simp [NodeSound, this]
    · obtain ⟨s2, h2, k1, k2⟩ := g2 hp
      have hs2 := invariant_make_progress NodeSound sound_step cfg s s2 slice true t h2 ih slice
      by_cases hsize : (s2.m_datanodes slice).m_buffer_size = 0
      · obtain ⟨-, e1⟩ := k2 hsize
        rw [e1]
        simp [NodeSound, set_metadata_progress, set_progress, set_node, hs2.1]
      · obtain ⟨-, s3, h3, e1⟩ := k1 hsize
        obtain ⟨-, hn⟩ := free_buffer_node s2 s3 slice h3
        rw [e1]
        simp [NodeSound, set_metadata_progress, set_progress, set_node, hn]
  | progress s slice is_blocking t s1 _ _ hp ih =>
    exact invariant_make_progress NodeSound sound_step cfg s s1 slice is_blocking t hp ih

end Hipace

namespace Hipace

/-! ## A completed slot stays as it is -/

/-- No step of a poll applies to a slot whose sub-channels are both `sim_completed`. -/
theorem terminal_step (node a b : DataNode) (h : NodeStep a b)
    (hn : node.m_progress = comm_progress.sim_completed ∧
      node.m_metadata_progress = comm_progress.sim_completed)
    (ha : a = node) : b = node := by
  subst ha
  obtain ⟨h1, h2⟩ := hn
  cases h <;> simp_all

/-- A poll of any slice, blocking or not, leaves a completed slot as it is. -/
theorem terminal_make_progress (cfg : Config) (s s1 : MultiBuffer) (i j : Nat)
    (is_blocking : Bool) (t : Transport)
    (hp : (s.m_datanodes j).m_progress = comm_progress.sim_completed)
    (hm : (s.m_datanodes j).m_metadata_progress = comm_progress.sim_completed)
    (h : make_progress cfg s i is_blocking t = some s1) :
    s1.m_datanodes j = s.m_datanodes j := by
  by_cases hj : j = i
  · subst hj
    exact steps_invariant (fun n => n = s.m_datanodes j)
      (fun a b hs ha => terminal_step (s.m_datanodes j) a b hs ⟨hp, hm⟩ ha) _ _
      (make_progress_node_steps cfg s s1 j is_blocking t h) rfl
  · exact (Frame.frame_make_progress cfg s s1 i is_blocking t h).nodes j hj

/-- A `put_data` of another slice, or a final `put_data` of the slice itself, leaves a
completed slot as it is. -/
theorem terminal_put_data (cfg : Config) (s s1 : MultiBuffer) (i j : Nat)
    (beams beams1 : MultiBeam) (beam_slice : Nat) (is_last_time_step : Bool) (fresh : Mem)
    (t : Nat → Transport)
    (hp : (s.m_datanodes j).m_progress = comm_progress.sim_completed)
    (hm : (s.m_datanodes j).m_metadata_progress = comm_progress.sim_completed)
    (hi : i = j → is_last_time_step = true)
    (h : put_data cfg s i beams beam_slice is_last_time_step fresh t = some (s1, beams1)) :
    s1.m_datanodes j = s.m_datanodes j := by
  by_cases hj : i = j
  · subst hj
    rw [hi rfl] at h
    obtain ⟨-, -, u⟩ := put_data_final_steps cfg s s1 i beams beams1 beam_slice fresh t h
    rw [u.node]
    simp only [set_metadata_progress, set_progress, set_node, Function.update_same,
      Function.update_idem]
    cases hn : s.m_datanodes i
    rw [hn] at hp hm
    simp only at hp hm
    simp [hp, hm]
  · obtain ⟨sp, fp, -, -, hsweep⟩ :=
      put_data_steps cfg s s1 i beams beams1 beam_slice is_last_time_step fresh t h
    have e := fp.nodes j (Ne.symm hj)
    have u := progress_all_idle_slot cfg t sp s1 j
      (by rw [e]; exact Or.inr (Or.inr hp)) (by rw [e]; exact Or.inr (Or.inr hm)) hsweep
    rw [u.node, e]

/-- A `get_data` that returns was not called on a completed slot, and leaves every completed
slot as it is. -/
theorem terminal_get_data (cfg : Config) (s s1 : MultiBuffer) (i j : Nat)
    (beams beams1 : MultiBeam) (beam_slice : Nat) (t : Transport)
    (hp : (s.m_datanodes j).m_progress = comm_progress.sim_completed)
    (hm : (s.m_datanodes j).m_metadata_progress = comm_progress.sim_completed)
    (h : get_data cfg s i beams beam_slice t = some (s1, beams1)) :
    i ≠ j ∧ s1.m_datanodes j = s.m_datanodes j := by
  have hij : i ≠ j := by
    intro hij
    subst hij
    obtain ⟨-, g2⟩ := get_data_steps cfg s s1 i beams beams1 beam_slice t h
    obtain ⟨s2, h2, -⟩ := g2 (by rw [hp]; decide)
    have e := terminal_make_progress cfg s s2 i i true t hp hm h2
    obtain ⟨r1, -⟩ := make_progress_blocking_received cfg s s2 i t h2
    rw [e, hp] at r1
    exact absurd r1 (by decide)
  exact ⟨hij, (get_data_frame cfg s s1 i beams beams1 beam_slice t h).1.nodes j
    (Ne.symm hij)⟩

/-- C12 (as amended): if the slot holds no buffer when the final `put_data` of the slice is
called (as after `get_data` on it), then once that call has returned the slot holds no buffer
(`m_location = nowhere`, `m_buffer = nullptr`) with both states `sim_completed`, and this
stays so through every later poll, `get_data` and `put_data` that returns, on any slice,
except a non-final `put_data` on the slice itself. -/
theorem termination_leaves_no_buffer (cfg : Config) (s s1 s2 : MultiBuffer) (slice : Nat)
    (beams beams1 : MultiBeam) (beam_slice : Nat) (fresh : Mem) (t : Nat → Transport)
    (hloc : (s.m_datanodes slice).m_location = memory_location.nowhere)
    (hbuf : (s.m_datanodes slice).m_buffer = none)
    (h : put_data cfg s slice beams beam_slice true fresh t = some (s1, beams1))
    (hrun : LaterRun cfg slice s1 s2) :
    (s2.m_datanodes slice).m_location = memory_location.nowhere ∧
    (s2.m_datanodes slice).m_buffer = none ∧
    (s2.m_datanodes slice).m_progress = comm_progress.sim_completed ∧
    (s2.m_datanodes slice).m_metadata_progress = comm_progress.sim_completed := by
  have key : (s2.m_datanodes slice).m_progress = comm_progress.sim_completed ∧
      (s2.m_datanodes slice).m_metadata_progress = comm_progress.sim_completed ∧
      s2.m_datanodes slice = s1.m_datanodes slice := by
    induction hrun with
    | here =>
      obtain ⟨-, -, u⟩ := put_data_final_steps cfg s s1 slice beams beams1 beam_slice fresh t h
      rw [u.node]
      simp [set_metadata_progress, set_progress, set_node]
    | put sa i beams0 beam_slice0 is_last fresh0 t0 sb beams2 _ hi hput ih =>
      obtain ⟨ip, im, ie⟩ := ih
      have e := terminal_put_data cfg sa sb i slice beams0 beams2 beam_slice0 is_last fresh0
        t0 ip im hi hput
      exact ⟨by rw [e]; exact ip, by rw [e]; exact im, by rw [e]; exact ie⟩
    | get sa i beams0 beam_slice0 t0 sb beams2 _ hget ih =>
      obtain ⟨ip, im, ie⟩ := ih
      obtain ⟨-, e⟩ := terminal_get_data cfg sa sb i slice beams0 beams2 beam_slice0 t0 ip im
        hget
      exact ⟨by rw [e]; exact ip, by rw [e]; exact im, by rw [e]; exact ie⟩
    | progress sa i is_blocking t0 sb _ hprog ih =>
      obtain ⟨ip, im, ie⟩ := ih
      have e := terminal_make_progress cfg sa sb i slice is_blocking t0 ip im hprog
      exact ⟨by rw [e]; exact ip, by rw [e]; exact im, by rw [e]; exact ie⟩
  obtain ⟨kp, km, ke⟩ := key
  obtain ⟨-, -, u⟩ := put_data_final_steps cfg s s1 slice beams beams1 beam_slice fresh t h
  refine ⟨?_, ?_, kp, km⟩
  · rw [ke, u.node]
    simpa [set_metadata_progress, set_progress, set_node] using hloc
  · rw [ke, u.node]
    simpa [set_metadata_progress, set_progress, set_node] using hbuf

set_option maxRecDepth 100000 in
/-- C12 counterexample: on a receiving stage (rank 0 of 2) `initialize` has allocated a
buffer for slice 0 and posted its bulk-data receive; a final `put_data` of slice 0 then
returns with the slot `sim_completed` and still holding that buffer. And on the origin stage
(rank 1 of 2), after `get_data` and the final `put_data` of slice 0 have left the slot
without a buffer, a later non-final `put_data` of slice 0 allocates one and the slot holds it
when the call returns. -/
theorem final_put_data_keeps_buffer :
    ((initialize_multibuffer example_cfg 1 1 0 2 true (fun _ => eager_transport)).bind fun s0 =>
      (put_data example_cfg s0 0 example_beams 0 true (fun _ => 0)
        (fun _ => idle_transport)).map fun p =>
        ((s0.m_datanodes 0).m_location, (p.1.m_datanodes 0).m_progress,
          (p.1.m_datanodes 0).m_location, (p.1.m_datanodes 0).m_buffer.isSome))
      = some (memory_location.pinned, comm_progress.sim_completed, memory_location.pinned,
          true) ∧
    ((initialize_multibuffer example_cfg 1 1 1 2 true (fun _ => idle_transport)).bind fun s0 =>
      (get_data example_cfg s0 0 example_beams 0 idle_transport).bind fun p1 =>
      (put_data example_cfg p1.1 0 p1.2 0 true (fun _ => 0) (fun _ => idle_transport)).bind
        fun p2 =>
      (put_data example_cfg p2.1 0 example_beams 0 false (fun _ => 0)
        (fun _ => idle_transport)).map fun p3 =>
        ((p2.1.m_datanodes 0).m_progress, (p2.1.m_datanodes 0).m_location,
          (p3.1.m_datanodes 0).m_progress, (p3.1.m_datanodes 0).m_location,
          (p3.1.m_datanodes 0).m_buffer.isSome))
      = some (comm_progress.sim_completed, memory_location.nowhere,
          comm_progress.send_started, memory_location.pinned, true) := by
  constructor <;> decide

set_option maxRecDepth 100000 in
/-- Witness of `termination_leaves_no_buffer`: the final `put_data` of slice 1 of the example
state, followed by a poll of slice 1. -/
theorem termination_leaves_no_buffer_witness :
    ∃ s1 s2, put_data example_cfg example_state 1 example_beams 0 true (fun _ => 0)
        (fun _ => idle_transport) = some (s1, example_beams) ∧
      make_progress example_cfg s1 1 false eager_transport = some s2 ∧
      (s2.m_datanodes 1).m_location = memory_location.nowhere ∧
      (s2.m_datanodes 1).m_buffer = none ∧
      (s2.m_datanodes 1).m_progress = comm_progress.sim_completed ∧
      (s2.m_datanodes 1).m_metadata_progress = comm_progress.sim_completed := by
  have hsome : (put_data example_cfg example_state 1 example_beams 0 true (fun _ => 0)
      (fun _ => idle_transport)).isSome = true := by decide
  obtain ⟨p, hp⟩ := Option.isSome_iff_exists.mp hsome
  obtain ⟨hb, -, u⟩ := put_data_final_steps example_cfg example_state p.1 1 example_beams p.2
    0 (fun _ => 0) (fun _ => idle_transport) hp
  have hp1 : put_data example_cfg example_state 1 example_beams 0 true (fun _ => 0)
      (fun _ => idle_transport) = some (p.1, example_beams) := by rw [hp, ← hb]
  have hpoll : make_progress example_cfg p.1 1 false eager_transport = some p.1 :=
    poll_idle example_cfg p.1 1 eager_transport
      (by rw [u.node]; exact Or.inr (Or.inr rfl)) (by rw [u.node]; exact Or.inr (Or.inr rfl))
  exact ⟨p.1, p.1, hp1, hpoll,
    termination_leaves_no_buffer example_cfg example_state p.1 p.1 1 example_beams
      example_beams 0 (fun _ => 0) (fun _ => idle_transport) rfl rfl hp1
      (LaterRun.progress p.1 p.1 1 false eager_transport p.1 (LaterRun.here p.1) hpoll)⟩

end Hipace

namespace Hipace

/-! ## The storage invariant between calls -/

/-- A property of slots kept by every step is kept by a poll, slot by slot. -/
theorem invariant_make_progress_slot (P : DataNode → Prop)
    (hP : ∀ a b, NodeStep a b → P a → P b) (cfg : Config) (s s1 : MultiBuffer) (i j : Nat)
    (is_blocking : Bool) (t : Transport)
    (hs : make_progress cfg s i is_blocking t = some s1)
    (h : P (s.m_datanodes j)) : P (s1.m_datanodes j) := by
  by_cases hj : j = i
  · subst hj
    exact steps_invariant P hP _ _ (make_progress_node_steps cfg s s1 j is_blocking t hs) h
  · rw [(Frame.frame_make_progress cfg s s1 i is_blocking t hs).nodes j hj]
    exact h

/-- A property of slots kept by every step is kept by a sweep, slot by slot. -/
theorem invariant_downLoop_slot (P : DataNode → Prop)
    (hP : ∀ a b, NodeStep a b → P a → P b) (cfg : Config) (t : Nat → Transport) (n : Nat)
    (s s1 : MultiBuffer) (j : Nat)
    (hs : downLoop n (fun i s => make_progress cfg s i false (t i)) s = some s1)
    (h : P (s.m_datanodes j)) : P (s1.m_datanodes j) := by
  induction n generalizing s with
  | zero =>
    simp only [downLoop] at hs
    injection hs with hs
    subst hs
    exact h
  | succ n ih =>
    simp only [downLoop] at hs
    obtain ⟨s2, h2, h3⟩ := Option.bind_eq_some.mp hs
    exact ih s2 h3 (invariant_make_progress_slot P hP cfg s s2 n j false (t n) h2 h)

/-- Every step of a poll keeps the storage invariant together with the fact that neither
sub-channel is ready to send. -/
theorem settled_step (a b : DataNode) (h : NodeStep a b) (ha : NodeSettled a) :
    NodeSettled b :=
  ⟨storage_step a b h ha.1, not_ready_step a b h ha.2⟩

/-- After a sweep that polled slice `j`, the storage invariant holds of slot `j` and neither
of its sub-channels is ready to send, if the invariant held before. -/
theorem settled_progress_all (cfg : Config) (t : Nat → Transport) (s s1 : MultiBuffer)
    (j : Nat) (hj : j < s.m_nslices) (hs : progress_all cfg s t = some s1)
    (h : NodeStorage (s.m_datanodes j)) : NodeSettled (s1.m_datanodes j) := by
  refine ⟨invariant_downLoop_slot NodeStorage storage_step cfg t _ s s1 j hs h, ?_⟩
  obtain ⟨s_mid, s_after, -, hm, u2⟩ := progress_all_split cfg t s s1 j hj hs
  obtain ⟨n1, n2, -⟩ := poll_settles cfg s_mid s_after j false (t j) hm
  rw [u2.node]
  exact ⟨n1, n2⟩

/-- Between calls of an orderly run the storage invariant holds of every slot and no
sub-channel is ready to send. -/
theorem orderly_settled (cfg : Config) (s : MultiBuffer) (h : OrderlyReachable cfg s) :
    ∀ j, NodeSettled (s.m_datanodes j) := by
  induction h with
  | init nslices nbeams rank_id n_ranks buffer_on_host t s hs =>
    rw [initialize_steps] at hs
    apply invariant_downLoop NodeSettled settled_step cfg t _ _ s hs
    intro j
    simp only []
    split
    · split <;> simp [NodeSettled, NodeStorage, empty_node]
    · simp [NodeSettled, NodeStorage, default_node]
  | put s slice beams beam_slice is_last_time_step fresh t s1 beams1 _ hslice hloc hput ih =>
    intro j
    cases is_last_time_step with
    | true =>
      obtain ⟨-, h2, -⟩ := put_data_final_steps cfg s s1 slice beams beams1 beam_slice fresh t
        hput
      apply invariant_downLoop NodeSettled settled_step cfg t _ _ s1 h2
      apply invariant_of_frame NodeSettled ((Frame.frame_set_progress slice s _).frame_trans
        (Frame.frame_set_metadata_progress slice _ _)) ih
      have hb := (ih slice).1.1.mp hloc
      simp [NodeSettled, NodeStorage, set_metadata_progress, set_progress, set_node, hloc, hb]
    | false =>
      obtain ⟨sp, fp, h3, hp, hmp, hcase⟩ :=
        put_data_prepared_node cfg s s1 slice beams beams1 beam_slice fresh t hput
      have hb := (ih slice).1.1.mp hloc
      have hst : NodeStorage (sp.m_datanodes slice) := by
        rcases hcase with ⟨hz, hl, hbb⟩ | ⟨hz, -, hl, hbb⟩
        · simp [NodeStorage, hp, hz, hl, hbb, hloc, hb]
        · simp [NodeStorage, hp, hz, hl, hbb]
      by_cases hj : j = slice
      · subst hj
        exact settled_progress_all cfg t sp s1 j (by rw [fp.config.nslices]; exact hslice) h3
          hst
      · apply invariant_downLoop_slot NodeSettled settled_step cfg t _ sp s1 j h3
        rw [fp.nodes j hj]
        exact ih j
  | get s slice beams beam_slice t s1 beams1 _ _ hget ih =>
    obtain ⟨hf, -, -⟩ := get_data_frame cfg s s1 slice beams beams1 beam_slice t hget
    apply invariant_of_frame NodeSettled hf ih
    obtain ⟨g1, g2⟩ := get_data_steps cfg s s1 slice beams beams1 beam_slice t hget
    by_cases hp : (s.m_datanodes slice).m_progress = comm_progress.ready_to_define
    · obtain ⟨-, hn⟩ := g1 hp
      rw [hn]
      obtain ⟨⟨a1, a2, -⟩, -, -⟩ := ih slice
      have hl : (s.m_datanodes slice).m_location = memory_location.nowhere := by
        by_contra hl
        have := a2.mp hl
        simp [hp] at this
      simp [NodeSettled, NodeStorage, hl, a1.mp hl]
    · obtain ⟨s2, h2, k1, k2⟩ := g2 hp
      obtain ⟨⟨a1, a2, -⟩, -, -⟩ :=
        invariant_make_progress NodeSettled settled_step cfg s s2 slice true t h2 ih slice
      obtain ⟨r1, -⟩ := make_progress_blocking_received cfg s s2 slice t h2
      by_cases hsize : (s2.m_datanodes slice).m_buffer_size = 0
      · obtain ⟨-, e1⟩ := k2 hsize
        have hl : (s2.m_datanodes slice).m_location = memory_location.nowhere := by
          by_contra hl
          have := a2.mp hl
          simp [r1, hsize] at this
        rw [e1]
        simp [NodeSettled, NodeStorage, set_metadata_progress, set_progress, set_node, hl,
          a1.mp hl]
      · obtain ⟨-, s3, h3, e1⟩ := k1 hsize
        obtain ⟨-, hn⟩ := free_buffer_node s2 s3 slice h3
        rw [e1]
        simp [NodeSettled, NodeStorage, set_metadata_progress, set_progress, set_node, hn]
  | progress s slice is_blocking t s1 _ _ hp ih =>
    exact invariant_make_progress NodeSettled settled_step cfg s s1 slice is_blocking t hp ih

/-- C13 (as amended): in every state between calls of a run in which `put_data` is only
called on a slot that holds no storage (as after `get_data` on it), whatever the transport
did, a slot holds buffer storage (`m_location != nowhere`, `m_buffer` non-null) exactly when
its data state is `send_started`, or `receive_started`, or `received` with
`m_buffer_size != 0`; and `m_location` and `m_buffer` never disagree. -/
theorem slot_buffer_invariant (cfg : Config) (s : MultiBuffer)
    (h : OrderlyReachable cfg s) (slice : Nat) :
    (((s.m_datanodes slice).m_location ≠ memory_location.nowhere ∧
        (s.m_datanodes slice).m_buffer ≠ none) ↔
      ((s.m_datanodes slice).m_progress = comm_progress.send_started ∨
        (s.m_datanodes slice).m_progress = comm_progress.receive_started ∨
        ((s.m_datanodes slice).m_progress = comm_progress.received ∧
          (s.m_datanodes slice).m_buffer_size ≠ 0))) ∧
    ((s.m_datanodes slice).m_location = memory_location.nowhere ↔
      (s.m_datanodes slice).m_buffer = none) := by
  obtain ⟨⟨a1, a2, -⟩, n1, -⟩ := orderly_settled cfg s h slice
  refine ⟨?_, a1⟩
  constructor
  · intro hl
    rcases a2.mp hl.1 with q | q | ⟨q | q, hz⟩
    · exact Or.inl q
    · exact Or.inr (Or.inl q)
    · exact Or.inr (Or.inr ⟨q, hz⟩)
    · exact absurd q n1
  · intro hq
    have hl : (s.m_datanodes slice).m_location ≠ memory_location.nowhere := by
      apply a2.mpr
      rcases hq with q | q | ⟨q, hz⟩
      · exact Or.inl q
      · exact Or.inr (Or.inl q)
      · exact Or.inr (Or.inr ⟨Or.inl q, hz⟩)
    exact ⟨hl, fun hb => hl (a1.mpr hb)⟩

set_option maxRecDepth 100000 in
/-- C13 counterexample: on a receiving stage (rank 0 of 2) `initialize` has allocated a
buffer for slice 0 and posted its bulk-data receive; a non-final `put_data` of slice 0
without any particle (no `get_data` in between) computes size 0, allocates nothing and
returns with data state `sent` while the slot still holds the buffer. -/
theorem empty_put_data_keeps_buffer :
    ((initialize_multibuffer example_cfg 1 1 0 2 true (fun _ => eager_transport)).bind fun s0 =>
      (put_data example_cfg s0 0 empty_beams 0 false (fun _ => 0)
        (fun _ => idle_transport)).map fun p =>
        ((s0.m_datanodes 0).m_progress, (s0.m_datanodes 0).m_location,
          (p.1.m_datanodes 0).m_progress, (p.1.m_datanodes 0).m_buffer_size,
          (p.1.m_datanodes 0).m_location, (p.1.m_datanodes 0).m_buffer.isSome))
      = some (comm_progress.receive_started, memory_location.pinned, comm_progress.sent, 0,
          memory_location.pinned, true) := by
  decide

set_option maxRecDepth 100000 in
/-- Witness of `slot_buffer_invariant`: on a receiving stage (rank 0 of 2) whose transport
delivers the metadata at once, `initialize` leaves slice 0 with a posted bulk-data receive,
holding its buffer. -/
theorem slot_buffer_invariant_witness :
    ∃ s, initialize_multibuffer example_cfg 1 1 0 2 true (fun _ => eager_transport) = some s ∧
      (s.m_datanodes 0).m_progress = comm_progress.receive_started ∧
      (s.m_datanodes 0).m_location ≠ memory_location.nowhere ∧
      (s.m_datanodes 0).m_buffer ≠ none := by
  have hsome : (initialize_multibuffer example_cfg 1 1 0 2 true
      (fun _ => eager_transport)).isSome = true := by decide
  obtain ⟨s, hs⟩ := Option.isSome_iff_exists.mp hsome
  have hv : (initialize_multibuffer example_cfg 1 1 0 2 true (fun _ => eager_transport)).map
      (fun s => (s.m_datanodes 0).m_progress) = some comm_progress.receive_started := by
    decide
  rw [hs] at hv
  simp only [Option.map_some', Option.some.injEq] at hv
  have hinv := (slot_buffer_invariant example_cfg s
    (OrderlyReachable.init 1 1 0 2 true (fun _ => eager_transport) s hs) 0).1.mpr
    (Or.inr (Or.inl hv))
  exact ⟨s, hs, hv, hinv.1, hinv.2⟩

end Hipace

namespace Hipace

/-! ## Particle positions in a cell -/

end Hipace

namespace Hipace

/-! ## Teardown -/

/-- The loop of the destructor: the slots are left as they are and one cancellation of the
slot's `m_request` is appended for each slice whose metadata state is `send_started`, from
the last slice down. -/
theorem destructor_loop (s : MultiBuffer) (n : Nat) :
    (forLoop n (fun k (s : MultiBuffer) =>
      if (s.m_datanodes (s.m_nslices - 1 - k)).m_metadata_progress
          = comm_progress.send_started then
        emit s (Event.Cancel (Request.m_request (s.m_nslices - 1 - k)))
      else s) s)
    = { s with
        trace := s.trace ++
          ((List.range n).filter (fun k =>
            decide ((s.m_datanodes (s.m_nslices - 1 - k)).m_metadata_progress
              = comm_progress.send_started))).map
            (fun k => Event.Cancel (Request.m_request (s.m_nslices - 1 - k))) } := by
  induction n with
  | zero => simp [forLoop]
  | succ n ih =>
    rw [forLoop_succ, ih]
    simp only []
    by_cases h : (s.m_datanodes (s.m_nslices - 1 - n)).m_metadata_progress
        = comm_progress.send_started
    · simp [h, emit, List.range_succ, List.filter_append]
    · simp [h, List.range_succ, List.filter_append]

/-- C24 (what the code does): the destructor changes nothing but the trace of outside calls;
for exactly the slices of the run whose metadata state is `send_started` it cancels one
request, namely the slot's bulk-data request `m_request`; the request created by the
metadata send, `m_metadata_request`, is never cancelled. -/
theorem destructor_cancels_data_request (s : MultiBuffer) :
    (destructor s).m_datanodes = s.m_datanodes ∧
    (destructor s).m_metadata = s.m_metadata ∧
    new_events s (destructor s) =
      ((List.range s.m_nslices).filter (fun k =>
        decide ((s.m_datanodes (s.m_nslices - 1 - k)).m_metadata_progress
          = comm_progress.send_started))).map
        (fun k => Event.Cancel (Request.m_request (s.m_nslices - 1 - k))) ∧
    (∀ i, Event.Cancel (Request.m_request i) ∈ new_events s (destructor s) ↔
      (i < s.m_nslices ∧
        (s.m_datanodes i).m_metadata_progress = comm_progress.send_started)) ∧
    (∀ i, Event.Cancel (Request.m_metadata_request i) ∉ new_events s (destructor s)) := by
  have hd : destructor s = { s with
      trace := s.trace ++
        ((List.range s.m_nslices).filter (fun k =>
          decide ((s.m_datanodes (s.m_nslices - 1 - k)).m_metadata_progress
            = comm_progress.send_started))).map
          (fun k => Event.Cancel (Request.m_request (s.m_nslices - 1 - k))) } := by
    unfold destructor
    exact destructor_loop s s.m_nslices
  have hev := new_events_eq s (destructor s) _ (by rw [hd])
  refine ⟨by rw [hd], by rw [hd], hev, ?_, ?_⟩
  · intro i
    rw [hev]
    simp only [List.mem_map, List.mem_filter, List.mem_range, decide_eq_true_eq,
      Event.Cancel.injEq, Request.m_request.injEq]
    constructor
    · rintro ⟨k, ⟨hk, hm⟩, rfl⟩
      exact ⟨by omega, hm⟩
    · rintro ⟨hi, hm⟩
      refine ⟨s.m_nslices - 1 - i, ⟨by omega, ?_⟩, by omega⟩
      have e : s.m_nslices - 1 - (s.m_nslices - 1 - i) = i := by omega
      rw [e]
      exact hm
  · intro i
    rw [hev]
    simp

set_option maxRecDepth 100000 in
/-- C24 failing input: after a non-final `put_data` of slice 1 without particles on a
transport on which nothing completes, the metadata send of slice 1 is outstanding and no
bulk-data send was issued; the destructor then cancels `m_request` of slice 1 and leaves the
metadata request alone. -/
theorem destructor_example :
    (put_data example_cfg example_state 1 empty_beams 0 false (fun _ => 0)
        (fun _ => idle_transport)).map
      (fun p => (new_events example_state p.1, (p.1.m_datanodes 1).m_metadata_progress,
        (p.1.m_datanodes 1).m_progress, new_events p.1 (destructor p.1)))
    = some ([Event.Isend (Request.m_metadata_request 1) 3 1 4,
          Event.Test (Request.m_metadata_request 1) false],
        comm_progress.send_started, comm_progress.sent,
        [Event.Cancel (Request.m_request 1)]) := by
  decide

end Hipace

namespace Hipace

/-! ## The size bound -/

/-- C22: `write_metadata` aborts exactly when the computed payload size, the word count it
stores in `metadata[0]`, is at least `2^31 - 1`, the largest `int`. A non-final `put_data`
starts with `write_metadata`: when that aborts, `put_data` aborts without having reached
`allocate_buffer` or `pack_data`; when it returns, the size is below `2^31 - 1`, no outside
call has been made yet, and `allocate_buffer` and `pack_data` are only run (for a non-zero
size) on the state `write_metadata` returned, whose `m_buffer_size` is that size. -/
theorem size_bound_before_allocation (cfg : Config) (s : MultiBuffer) (slice : Nat)
    (beams : MultiBeam) (beam_slice : Nat) (fresh : Mem) (t : Nat → Transport) :
    int_max = 2 ^ 31 - 1 ∧
    (write_metadata cfg s slice beams beam_slice = none ↔
      2 ^ 31 - 1 ≤ (payload_bytes cfg beams beam_slice s.m_nbeams + cfg.sizeof_storage_type - 1)
        / cfg.sizeof_storage_type) ∧
    (write_metadata cfg s slice beams beam_slice = none →
      put_data cfg s slice beams beam_slice false fresh t = none) ∧
    (∀ sw, write_metadata cfg s slice beams beam_slice = some sw →
      sw.m_metadata (get_metadata_location s slice + 0)
        = (payload_bytes cfg beams beam_slice s.m_nbeams + cfg.sizeof_storage_type - 1)
          / cfg.sizeof_storage_type ∧
      (sw.m_datanodes slice).m_buffer_size = sw.m_metadata (get_metadata_location s slice + 0) ∧
      (sw.m_datanodes slice).m_buffer_size < 2 ^ 31 - 1 ∧
      sw.trace = s.trace ∧
      put_data cfg s slice beams beam_slice false fresh t =
        ((if (sw.m_datanodes slice).m_buffer_size ≠ 0 then
            (allocate_buffer cfg sw slice fresh).bind fun s2 =>
              pack_data cfg s2 slice beams beam_slice
          else some (sw, beams)).map fun p =>
          (set_metadata_progress (set_progress p.1 slice comm_progress.ready_to_send) slice
            comm_progress.ready_to_send, p.2)).bind fun p =>
          (progress_all cfg p.1 t).map fun s3 => (s3, p.2)) := by
  have hmax : int_max = 2 ^ 31 - 1 := by decide
  obtain ⟨f1, f2⟩ := write_metadata_facts cfg s slice beams beam_slice
  refine ⟨hmax, ?_, ?_, ?_⟩
  · rw [← hmax]
    constructor
    · intro hn
      by_contra hc
      obtain ⟨s1, h1, -⟩ := f1 (by omega)
      rw [hn] at h1
      exact absurd h1 (by simp)
    · intro hge
      exact f2 (by omega)
  · intro hn
    unfold put_data
    simp [hn]
  · intro sw hw
    have hlt : (payload_bytes cfg beams beam_slice s.m_nbeams + cfg.sizeof_storage_type - 1)
        / cfg.sizeof_storage_type < int_max := by
      by_contra hc
      rw [f2 hc] at hw
      exact absurd hw (by simp)
    obtain ⟨s1, h1, -, r2, -, r4, -⟩ := f1 hlt
    rw [hw] at h1
    injection h1 with h1
    subst h1
    obtain ⟨-, -, -, -, -, -, -, -, htr, -⟩ :=
      write_metadata_frame cfg s slice beams beam_slice sw hw
    refine ⟨r2, r4, ?_, htr, ?_⟩
    · rw [r4, r2, ← hmax]
      exact hlt
    · unfold put_data
      simp only [Bool.false_eq_true, if_false, hw, Option.some_bind]

end Hipace

namespace Hipace

/-! ## Packed regions and the buffer size -/

/-- In a state whose row of `slice` holds the particle counts of `beams` and the word count
`write_metadata` computes from them, the region of every in-buffer attribute of every species
ends inside the `metadata[0]` storage words. -/
theorem regions_inside_words (cfg : Config) (r : MultiBuffer) (slice : Nat) (beams : MultiBeam)
    (beam_slice : Nat) (hR : 0 < cfg.buffer_size_roundup) (hw : 0 < cfg.sizeof_storage_type)
    (hrow : ∀ b, b < r.m_nbeams → r.m_metadata (get_metadata_location r slice + (b + 1))
      = getNumParticles (beams b) beam_slice)
    (hsize : r.m_metadata (get_metadata_location r slice + 0)
      = (payload_bytes cfg beams beam_slice r.m_nbeams + cfg.sizeof_storage_type - 1)
        / cfg.sizeof_storage_type)
    (b : Nat) (hb : b < r.m_nbeams) :
    (∀ rcomp, rcomp < cfg.real_nattribs_in_buffer →
      get_buffer_offset_real cfg r slice b rcomp
          + getNumParticles (beams b) beam_slice * cfg.sizeof_Real
        ≤ r.m_metadata (get_metadata_location r slice + 0) * cfg.sizeof_storage_type) ∧
    (∀ icomp, icomp < cfg.int_nattribs_in_buffer →
      get_buffer_offset_int cfg r slice b icomp
          + getNumParticles (beams b) beam_slice * cfg.sizeof_int
        ≤ r.m_metadata (get_metadata_location r slice + 0) * cfg.sizeof_storage_type) := by
  have hall : species_offset cfg r slice (b + 1)
      ≤ r.m_metadata (get_metadata_location r slice + 0) * cfg.sizeof_storage_type := by
    have h1 := species_offset_mono cfg r slice (show b + 1 ≤ r.m_nbeams from hb)
    have h2 := species_offset_eq_payload cfg r slice beams beam_slice r.m_nbeams hrow
    rw [hsize]
    rcases words_bounds (payload_bytes cfg beams beam_slice r.m_nbeams)
      cfg.sizeof_storage_type hw with h3 | h3
    · omega
    · rw [h3.1]
      omega
  constructor
  · intro rcomp hr
    have := real_region_le_species cfg r slice b rcomp hR hr
    rw [hrow b hb] at this
    omega
  · intro icomp hi
    have := int_region_le_species cfg r slice b icomp hR hi
    rw [hrow b hb] at this
    omega

/-- C27: for a rounding granularity and a storage word size of at least 1, in the state
`write_metadata` returns, for every species `b`, every in-buffer real attribute and every
in-buffer integer attribute, the offset of the attribute plus the `n_b` elements copied there
is at most `metadata[0] * sizeof(storage_type)`, which is the number of bytes
`allocate_buffer` requests for the slot; the same holds in any state whose row of a slice
holds the same counts and word count, as on the receiving side. -/
theorem packed_regions_inside (cfg : Config) (s sw : MultiBuffer) (slice : Nat)
    (beams : MultiBeam) (beam_slice : Nat) (hR : 0 < cfg.buffer_size_roundup)
    (hw : 0 < cfg.sizeof_storage_type)
    (h : write_metadata cfg s slice beams beam_slice = some sw) (b : Nat)
    (hb : b < s.m_nbeams) :
    sw.m_metadata (get_metadata_location sw slice + (b + 1))
      = getNumParticles (beams b) beam_slice ∧
    (sw.m_datanodes slice).m_buffer_size * cfg.sizeof_storage_type
      = sw.m_metadata (get_metadata_location sw slice + 0) * cfg.sizeof_storage_type ∧
    (∀ rcomp, rcomp < cfg.real_nattribs_in_buffer →
      get_buffer_offset_real cfg sw slice b rcomp
          + getNumParticles (beams b) beam_slice * cfg.sizeof_Real
        ≤ sw.m_metadata (get_metadata_location sw slice + 0) * cfg.sizeof_storage_type) ∧
    (∀ icomp, icomp < cfg.int_nattribs_in_buffer →
      get_buffer_offset_int cfg sw slice b icomp
          + getNumParticles (beams b) beam_slice * cfg.sizeof_int
        ≤ sw.m_metadata (get_metadata_location sw slice + 0) * cfg.sizeof_storage_type) ∧
    (∀ (r : MultiBuffer) (slice_r : Nat), r.m_nbeams = s.m_nbeams →
      (∀ k, k < get_metadata_size s →
        r.m_metadata (get_metadata_location r slice_r + k)
          = sw.m_metadata (get_metadata_location sw slice + k)) →
      (∀ rcomp, rcomp < cfg.real_nattribs_in_buffer →
        get_buffer_offset_real cfg r slice_r b rcomp
            + r.m_metadata (get_metadata_location r slice_r + (b + 1)) * cfg.sizeof_Real
          ≤ r.m_metadata (get_metadata_location r slice_r + 0) * cfg.sizeof_storage_type) ∧
      (∀ icomp, icomp < cfg.int_nattribs_in_buffer →
        get_buffer_offset_int cfg r slice_r b icomp
            + r.m_metadata (get_metadata_location r slice_r + (b + 1)) * cfg.sizeof_int
          ≤ r.m_metadata (get_metadata_location r slice_r + 0) * cfg.sizeof_storage_type)) := by
  have hlt : (payload_bytes cfg beams beam_slice s.m_nbeams + cfg.sizeof_storage_type - 1)
      / cfg.sizeof_storage_type < int_max := by
    by_contra hc
    rw [(write_metadata_facts cfg s slice beams beam_slice).2 hc] at h
    exact absurd h (by simp)
  obtain ⟨s1, h1, r1, r2, -, r4, -⟩ := (write_metadata_facts cfg s slice beams beam_slice).1 hlt
  rw [h] at h1
  injection h1 with h1
  subst h1
  obtain ⟨-, c2, -⟩ := write_metadata_frame cfg s slice beams beam_slice sw h
  have hloc : get_metadata_location sw slice = get_metadata_location s slice := by
    simp [get_metadata_location, get_metadata_size, c2]
  have hrow : ∀ b, b < sw.m_nbeams → sw.m_metadata (get_metadata_location sw slice + (b + 1))
      = getNumParticles (beams b) beam_slice := by
    intro b hb
    rw [hloc]
    exact r1 b (by rw [← c2]; exact hb)
  have hsize : sw.m_metadata (get_metadata_location sw slice + 0)
      = (payload_bytes cfg beams beam_slice sw.m_nbeams + cfg.sizeof_storage_type - 1)
        / cfg.sizeof_storage_type := by
    rw [hloc, c2]
    exact r2
  obtain ⟨q1, q2⟩ := regions_inside_words cfg sw slice beams beam_slice hR hw hrow hsize b
    (by rw [c2]; exact hb)
  refine ⟨hrow b (by rw [c2]; exact hb), by rw [r4, hloc], q1, q2, ?_⟩
  intro r slice_r hnb hrr
  have hrow_r : ∀ b, b < r.m_nbeams → r.m_metadata (get_metadata_location r slice_r + (b + 1))
      = getNumParticles (beams b) beam_slice := by
    intro b hb
    rw [hrr (b + 1) (by simp only [get_metadata_size]; omega)]
    exact hrow b (by rw [c2, ← hnb]; exact hb)
  have hsize_r : r.m_metadata (get_metadata_location r slice_r + 0)
      = (payload_bytes cfg beams beam_slice r.m_nbeams + cfg.sizeof_storage_type - 1)
        / cfg.sizeof_storage_type := by
    rw [hrr 0 (by simp only [get_metadata_size]; omega), hsize, c2, hnb]
  obtain ⟨p1, p2⟩ := regions_inside_words cfg r slice_r beams beam_slice hR hw hrow_r hsize_r b
    (by rw [hnb]; exact hb)
  rw [hrow_r b (by rw [hnb]; exact hb)]
  exact ⟨p1, p2⟩

set_option maxRecDepth 100000 in
/-- Witness of `packed_regions_inside`: slice 1 of the example with three particles of
species 0: the second real attribute starts at byte 32 and its 12 bytes end inside the 96
bytes of the 24 storage words. -/
theorem packed_regions_inside_witness :
    ∃ sw, write_metadata example_cfg example_state 1 example_beams 0 = some sw ∧
      get_buffer_offset_real example_cfg sw 1 0 1
          + getNumParticles (example_beams 0) 0 * example_cfg.sizeof_Real
        ≤ sw.m_metadata (get_metadata_location sw 1 + 0) * example_cfg.sizeof_storage_type := by
  have hsome : (write_metadata example_cfg example_state 1 example_beams 0).isSome = true := by
    decide
  obtain ⟨sw, hsw⟩ := Option.isSome_iff_exists.mp hsome
  exact ⟨sw, hsw, (packed_regions_inside example_cfg example_state sw 1 example_beams 0
    (by decide) (by decide) hsw 0 (by decide)).2.2.1 1 (by decide)⟩

end Hipace

namespace Hipace

/-! ## Empty payloads -/

/-- With a rounding granularity of at least 1 and an in-buffer attribute that takes space,
the padded byte count is zero exactly when no species has a particle. -/
theorem payload_bytes_eq_zero (cfg : Config) (beams : MultiBeam) (beam_slice nbeams : Nat)
    (hR : 0 < cfg.buffer_size_roundup)
    (hrec : 0 < cfg.real_nattribs_in_buffer * cfg.sizeof_Real
      + cfg.int_nattribs_in_buffer * cfg.sizeof_int) :
    payload_bytes cfg beams beam_slice nbeams = 0 ↔
      ∀ b, b < nbeams → getNumParticles (beams b) beam_slice = 0 := by
  constructor
  · intro h b hb
    unfold payload_bytes at h
    have h1 := (Finset.sum_eq_zero_iff.mp h) b (Finset.mem_range.mpr hb)
    have h2 := le_round_up cfg (getNumParticles (beams b) beam_slice) hR
    rcases Nat.mul_eq_zero.mp h1 with h3 | h3
    · omega
    · omega
  · exact payload_bytes_empty cfg beams beam_slice nbeams

/-- The word count is zero exactly when the byte count is. -/
theorem words_eq_zero (B w : Nat) (hw : 0 < w) : (B + w - 1) / w = 0 ↔ B = 0 := by
  constructor
  · intro h
    rcases words_bounds B w hw with h1 | h1
    · rw [h] at h1
      omega
    · exact h1.2
  · intro h
    rw [h]
    exact words_zero w

/-- The size `write_metadata` computes is zero exactly when no species has a particle. -/
theorem write_metadata_size_zero (cfg : Config) (s sw : MultiBuffer) (slice : Nat)
    (beams : MultiBeam) (beam_slice : Nat) (hR : 0 < cfg.buffer_size_roundup)
    (hw : 0 < cfg.sizeof_storage_type)
    (hrec : 0 < cfg.real_nattribs_in_buffer * cfg.sizeof_Real
      + cfg.int_nattribs_in_buffer * cfg.sizeof_int)
    (h : write_metadata cfg s slice beams beam_slice = some sw) :
    sw.m_metadata (get_metadata_location s slice + 0) = (sw.m_datanodes slice).m_buffer_size ∧
    ((sw.m_datanodes slice).m_buffer_size = 0 ↔
      ∀ b, b < s.m_nbeams → getNumParticles (beams b) beam_slice = 0) := by
  have hlt : (payload_bytes cfg beams beam_slice s.m_nbeams + cfg.sizeof_storage_type - 1)
      / cfg.sizeof_storage_type < int_max := by
    by_contra hc
    rw [(write_metadata_facts cfg s slice beams beam_slice).2 hc] at h
    exact absurd h (by simp)
  obtain ⟨s1, h1, -, r2, -, r4, -⟩ := (write_metadata_facts cfg s slice beams beam_slice).1 hlt
  rw [h] at h1
  injection h1 with h1
  subst h1
  refine ⟨r4.symm, ?_⟩
  rw [r4, r2, words_eq_zero _ _ hw, payload_bytes_eq_zero cfg beams beam_slice s.m_nbeams hR hrec]

end Hipace

namespace Hipace

/-! ## The producer's arrays after `put_data` -/

/-- The species `pack_data` hands back: every species of the run resized to zero particles
at `beam_slice`. -/
theorem pack_data_beams (cfg : Config) (s s1 : MultiBuffer) (slice : Nat)
    (beams beams1 : MultiBeam) (beam_slice : Nat)
    (h : pack_data cfg s slice beams beam_slice = some (s1, beams1)) (b : Nat) :
    beams1 b = if b < s.m_nbeams then resize (beams b) beam_slice 0 else beams b := by
  unfold pack_data at h
  split at h
  · exact absurd h (by simp)
  · injection h with h
    injection h with h1 h2
    rw [← h2]
    exact forLoop_update_apply s.m_nbeams (fun _ beam => resize beam beam_slice 0) beams b

/-- C25: with a rounding granularity and a storage word size of at least 1 and an in-buffer
attribute that takes space, whenever a non-final `put_data` returns every species of the run
has zero particles at `beam_slice`: for a non-zero payload size `pack_data` has run on the
newly allocated buffer, filled it from the species as they were handed in (the buffer
holds, at the offsets the row gives, every byte of every in-buffer attribute of every
particle handed in) and then resized every species to 0; for payload size 0 the species are
handed back untouched and were all empty already. -/
theorem producer_arrays_emptied (cfg : Config) (s s1 : MultiBuffer) (slice : Nat)
    (beams beams1 : MultiBeam) (beam_slice : Nat) (fresh : Mem) (t : Nat → Transport)
    (hR : 0 < cfg.buffer_size_roundup) (hw : 0 < cfg.sizeof_storage_type)
    (hrec : 0 < cfg.real_nattribs_in_buffer * cfg.sizeof_Real
      + cfg.int_nattribs_in_buffer * cfg.sizeof_int)
    (h : put_data cfg s slice beams beam_slice false fresh t = some (s1, beams1)) :
    (∀ b, b < s.m_nbeams → getNumParticles (beams1 b) beam_slice = 0) ∧
    ∃ sw, write_metadata cfg s slice beams beam_slice = some sw ∧
      ((sw.m_datanodes slice).m_buffer_size = 0 →
        beams1 = beams ∧ ∀ b, b < s.m_nbeams → getNumParticles (beams b) beam_slice = 0) ∧
      ((sw.m_datanodes slice).m_buffer_size ≠ 0 →
        ∃ sa sq, allocate_buffer cfg sw slice fresh = some sa ∧
          pack_data cfg sa slice beams beam_slice = some (sq, beams1) ∧
          (sq.m_datanodes slice).m_buffer
            = some (forLoop s.m_nbeams (pack_species cfg sa slice beams beam_slice) fresh) ∧
          (∀ b, b < s.m_nbeams → beams1 b = resize (beams b) beam_slice 0) ∧
          ∃ buffer, (sq.m_datanodes slice).m_buffer = some buffer ∧
            ∀ b, b < s.m_nbeams →
              (∀ r a, r < cfg.real_nattribs_in_buffer →
                a < getNumParticles (beams b) beam_slice * cfg.sizeof_Real →
                buffer (get_buffer_offset_real cfg sw slice b r + a)
                  = (beams b beam_slice).real_data r a) ∧
              (∀ i a, i < cfg.int_nattribs_in_buffer →
                a < getNumParticles (beams b) beam_slice * cfg.sizeof_int →
                buffer (get_buffer_offset_int cfg sw slice b i + a)
                  = (beams b beam_slice).int_data i a)) := by
  obtain ⟨sw, sq, hsw, h1, h2, -⟩ :=
    put_data_nonfinal_steps cfg s s1 slice beams beams1 beam_slice fresh t h
  obtain ⟨-, hzero⟩ := write_metadata_size_zero cfg s sw slice beams beam_slice hR hw hrec hsw
  obtain ⟨-, c2, -⟩ := write_metadata_frame cfg s slice beams beam_slice sw hsw
  have hpacked : (sw.m_datanodes slice).m_buffer_size ≠ 0 →
      ∃ sa sq, allocate_buffer cfg sw slice fresh = some sa ∧
        pack_data cfg sa slice beams beam_slice = some (sq, beams1) ∧
        (sq.m_datanodes slice).m_buffer
          = some (forLoop s.m_nbeams (pack_species cfg sa slice beams beam_slice) fresh) ∧
        (∀ b, b < s.m_nbeams → beams1 b = resize (beams b) beam_slice 0) ∧
        ∃ buffer, (sq.m_datanodes slice).m_buffer = some buffer ∧
          ∀ b, b < s.m_nbeams →
            (∀ r a, r < cfg.real_nattribs_in_buffer →
              a < getNumParticles (beams b) beam_slice * cfg.sizeof_Real →
              buffer (get_buffer_offset_real cfg sw slice b r + a)
                = (beams b beam_slice).real_data r a) ∧
            (∀ i a, i < cfg.int_nattribs_in_buffer →
              a < getNumParticles (beams b) beam_slice * cfg.sizeof_int →
              buffer (get_buffer_offset_int cfg sw slice b i + a)
                = (beams b beam_slice).int_data i a) := by
    intro hz
    obtain ⟨sa, ha, hq⟩ := h1 hz
    obtain ⟨-, hna⟩ := allocate_buffer_node cfg sw sa slice fresh ha
    have ca := (Frame.frame_allocate_buffer cfg slice sw sa fresh ha).config
    have hnb : sa.m_nbeams = s.m_nbeams := by rw [ca.nbeams, c2]
    obtain ⟨-, -, buffer, hb, hnq⟩ := pack_data_node cfg sa sq slice beams beams1 beam_slice hq
    rw [hna] at hb
    simp only [Option.some.injEq] at hb
    refine ⟨sa, sq, ha, hq, ?_, ?_,
      packed_buffer_bytes cfg s sw sa sq slice beams beams1 beam_slice fresh hR hsw ha hq⟩
    · rw [hnq, ← hb, hnb]
    · intro b hb1
      rw [pack_data_beams cfg sa sq slice beams beams1 beam_slice hq b,
        if_pos (by rw [hnb]; exact hb1)]
  refine ⟨?_, sw, hsw, ?_, hpacked⟩
  · intro b hb
    by_cases hz : (sw.m_datanodes slice).m_buffer_size = 0
    · rw [(h2 hz).2]
      exact hzero.mp hz b hb
    · obtain ⟨sa, sq, -, -, -, hres, -⟩ := hpacked hz
      rw [hres b hb]
      simp [getNumParticles, resize]
  · intro hz
    exact ⟨(h2 hz).2, hzero.mp hz⟩

set_option maxRecDepth 100000 in
/-- Witness of `producer_arrays_emptied`: the non-final `put_data` of slice 1 of the example
with three particles of species 0 hands both species back empty. -/
theorem producer_arrays_emptied_witness :
    ∃ s1 beams1, put_data example_cfg example_state 1 example_beams 0 false (fun _ => 0)
        (fun _ => idle_transport) = some (s1, beams1) ∧
      getNumParticles (example_beams 0) 0 = 3 ∧
      ∀ b, b < example_state.m_nbeams → getNumParticles (beams1 b) 0 = 0 := by
  have hsome : (put_data example_cfg example_state 1 example_beams 0 false (fun _ => 0)
      (fun _ => idle_transport)).isSome = true := by decide
  obtain ⟨p, hp⟩ := Option.isSome_iff_exists.mp hsome
  exact ⟨p.1, p.2, hp, rfl, (producer_arrays_emptied example_cfg example_state p.1 1
    example_beams p.2 0 (fun _ => 0) (fun _ => idle_transport) (by decide) (by decide)
    (by decide) hp).1⟩

end Hipace

namespace Hipace

/-! ## Channel tags -/

end Hipace

namespace Hipace

/-! ## One memory domain per run -/

theorem start_metadata_send_location (s : MultiBuffer) (i : Nat) :
    ((start_metadata_send s i).m_datanodes i).m_location = (s.m_datanodes i).m_location := by
  unfold start_metadata_send
  split
  · simp [set_metadata_progress, set_node, emit]
  · rfl

theorem start_send_location (s : MultiBuffer) (i : Nat) :
    ((start_send s i).m_datanodes i).m_location = (s.m_datanodes i).m_location := by
  unfold start_send
  split
  · split <;> simp [set_progress, set_node, emit]
  · rfl

theorem finish_metadata_send_location (s : MultiBuffer) (i : Nat) (is_blocking : Bool)
    (t : Transport) :
    ((finish_metadata_send s i is_blocking t).m_datanodes i).m_location
      = (s.m_datanodes i).m_location := by
  unfold finish_metadata_send
  split
  · split
    · simp [set_metadata_progress, set_node, emit]
    · simp only []
      split <;> simp [set_metadata_progress, set_node, emit]
  · rfl

theorem start_metadata_receive_location (s : MultiBuffer) (i : Nat) :
    ((start_metadata_receive s i).m_datanodes i).m_location
      = (s.m_datanodes i).m_location := by
  unfold start_metadata_receive
  split
  · simp [set_metadata_progress, set_node, emit]
  · rfl

theorem finish_metadata_receive_location (s : MultiBuffer) (i : Nat) (is_blocking : Bool)
    (t : Transport) :
    ((finish_metadata_receive s i is_blocking t).m_datanodes i).m_location
      = (s.m_datanodes i).m_location := by
  unfold finish_metadata_receive
  split
  · split
    · simp [set_metadata_progress, set_node, emit, deliver_metadata]
    · simp only []
      split <;> simp [set_metadata_progress, set_node, emit, deliver_metadata]
  · rfl

theorem finish_receive_location (cfg : Config) (s : MultiBuffer) (i : Nat)
    (is_blocking : Bool) (t : Transport) :
    ((finish_receive cfg s i is_blocking t).m_datanodes i).m_location
      = (s.m_datanodes i).m_location := by
  unfold finish_receive
  split
  · split
    · simp [set_progress, set_node, emit, deliver_buffer]
    · simp only []
      split <;> simp [set_progress, set_node, emit, deliver_buffer]
  · rfl

/-- The block that completes the bulk-data send leaves the location or resets it. -/
theorem finish_send_location (s s1 : MultiBuffer) (i : Nat) (is_blocking : Bool)
    (t : Transport) (h : finish_send s i is_blocking t = some s1) :
    (s1.m_datanodes i).m_location = (s.m_datanodes i).m_location ∨
      (s1.m_datanodes i).m_location = memory_location.nowhere := by
  have key : ∀ (e : Event) (s2 : MultiBuffer), free_buffer (emit s e) i = some s2 →
      ((set_progress s2 i comm_progress.sent).m_datanodes i).m_location
        = memory_location.nowhere := by
    intro e s2 h2
    obtain ⟨-, hn⟩ := free_buffer_node _ s2 i h2
    simp [set_progress, set_node, hn]
  unfold finish_send at h
  split at h
  · split at h
    · obtain ⟨s2, h2, rfl⟩ := Option.map_eq_some'.mp h
      exact Or.inr (key _ s2 h2)
    · simp only [] at h
      split at h
      · obtain ⟨s2, h2, rfl⟩ := Option.map_eq_some'.mp h
        exact Or.inr (key _ s2 h2)
      · injection h with h
        subst h
        exact Or.inl rfl
  · injection h with h
    subst h
    exact Or.inl rfl

/-- The block that posts the bulk-data receive leaves the location or sets it to the arena
selected by `m_buffer_on_host`. -/
theorem start_receive_location (cfg : Config) (s s1 : MultiBuffer) (i : Nat) (t : Transport)
    (h : start_receive cfg s i t = some s1) :
    (s1.m_datanodes i).m_location = (s.m_datanodes i).m_location ∨
      (s1.m_datanodes i).m_location
        = (if s.m_buffer_on_host then memory_location.pinned else memory_location.device) := by
  unfold start_receive at h
  split at h
  · split at h
    · simp only [] at h
      split at h
      · injection h with h
        subst h
        left
        simp [set_progress, set_node]
      · obtain ⟨s2, h2, rfl⟩ := Option.map_eq_some'.mp h
        have hn := (allocate_buffer_node cfg _ _ i t.fresh h2).2
        right
        simp [set_progress, set_node, emit, hn]
    · exact absurd h (by simp)
  · injection h with h
    subst h
    exact Or.inl rfl

/-- A poll keeps every slot in the configured memory domain. -/
theorem domain_make_progress (cfg : Config) (s s1 : MultiBuffer) (i : Nat)
    (is_blocking : Bool) (t : Transport)
    (hs : make_progress cfg s i is_blocking t = some s1)
    (h : ∀ j, NodeDomain s.m_buffer_on_host (s.m_datanodes j)) :
    ∀ j, NodeDomain s1.m_buffer_on_host (s1.m_datanodes j) := by
  have f := Frame.frame_make_progress cfg s s1 i is_blocking t hs
  rw [f.config.buffer_on_host]
  intro j
  by_cases hj : j = i
  · subst hj
    obtain ⟨s6, s7, h6, h7, rfl, -⟩ := make_progress_steps cfg s s1 j is_blocking t hs
    have c5 : (finish_metadata_receive (start_metadata_receive (finish_metadata_send
        (start_send (start_metadata_send s j) j) j is_blocking t) j) j is_blocking
        t).m_buffer_on_host = s.m_buffer_on_host :=
      (((((Frame.frame_start_metadata_send j s).frame_trans
        (Frame.frame_start_send j _)).frame_trans
        (Frame.frame_finish_metadata_send j _ is_blocking t)).frame_trans
        (Frame.frame_start_metadata_receive j _)).frame_trans
        (Frame.frame_finish_metadata_receive j _ is_blocking t)).config.buffer_on_host
    have c6 := (Frame.frame_finish_send j _ s6 is_blocking t h6).config.buffer_on_host
    have l5 : ((finish_metadata_receive (start_metadata_receive (finish_metadata_send
        (start_send (start_metadata_send s j) j) j is_blocking t) j) j is_blocking
        t).m_datanodes j).m_location = (s.m_datanodes j).m_location := by
      rw [finish_metadata_receive_location, start_metadata_receive_location,
        finish_metadata_send_location, start_send_location, start_metadata_send_location]
    have l6 := finish_send_location _ s6 j is_blocking t h6
    have l7 := start_receive_location cfg s6 s7 j t h7
    rw [c6, c5] at l7
    rw [l5] at l6
    unfold NodeDomain
    rw [finish_receive_location]
    rcases l7 with l7 | l7
    · rw [l7]
      rcases l6 with l6 | l6
      · rw [l6]
        exact h j
      · exact Or.inl l6
    · exact Or.inr l7
  · rw [f.nodes j hj]
    exact h j

/-- A sweep keeps every slot in the configured memory domain. -/
theorem domain_progress_all (cfg : Config) (t : Nat → Transport) (s s1 : MultiBuffer)
    (hs : progress_all cfg s t = some s1)
    (h : ∀ j, NodeDomain s.m_buffer_on_host (s.m_datanodes j)) :
    ∀ j, NodeDomain s1.m_buffer_on_host (s1.m_datanodes j) := by
  have key : ∀ (n : Nat) (s : MultiBuffer),
      downLoop n (fun i s => make_progress cfg s i false (t i)) s = some s1 →
      (∀ j, NodeDomain s.m_buffer_on_host (s.m_datanodes j)) →
      ∀ j, NodeDomain s1.m_buffer_on_host (s1.m_datanodes j) := by
    intro n
    induction n with
    | zero =>
      intro s hs h
      simp only [downLoop] at hs
      injection hs with hs
      subst hs
      exact h
    | succ n ih =>
      intro s hs h
      simp only [downLoop] at hs
      obtain ⟨s2, h2, h3⟩ := Option.bind_eq_some.mp hs
      exact ih s2 h3 (domain_make_progress cfg s s2 n false (t n) h2 h)
  exact key s.m_nslices s hs h

/-- A change of slot `i` alone that keeps the flag and leaves slot `i` in the domain keeps
every slot in the domain. -/
theorem domain_of_frame {i : Nat} {s s1 : MultiBuffer} (hf : Frame i s s1)
    (h : ∀ j, NodeDomain s.m_buffer_on_host (s.m_datanodes j))
    (hn : NodeDomain s.m_buffer_on_host (s1.m_datanodes i)) :
    ∀ j, NodeDomain s1.m_buffer_on_host (s1.m_datanodes j) := by
  rw [hf.config.buffer_on_host]
  intro j
  by_cases hj : j = i
  · subst hj
    exact hn
  · rw [hf.nodes j hj]
    exact h j

/-- In every state the object can be in, every slot is in the configured memory domain. -/
theorem reachable_domain (cfg : Config) (s : MultiBuffer) (h : Reachable cfg s) :
    ∀ j, NodeDomain s.m_buffer_on_host (s.m_datanodes j) := by
  induction h with
  | init nslices nbeams rank_id n_ranks buffer_on_host t s hs =>
    rw [initialize_steps] at hs
    apply domain_progress_all cfg t _ s hs
    intro j
    simp only []
    split
    · split <;> exact Or.inl rfl
    · exact Or.inl rfl
  | put s slice beams beam_slice is_last_time_step fresh t s1 beams1 _ _ hput ih =>
    cases is_last_time_step with
    | true =>
      obtain ⟨-, h2, -⟩ := put_data_final_steps cfg s s1 slice beams beams1 beam_slice fresh t
        hput
      apply domain_progress_all cfg t _ s1 h2
      apply domain_of_frame ((Frame.frame_set_progress slice s _).frame_trans
        (Frame.frame_set_metadata_progress slice _ _)) ih
      have := ih slice
      simpa [NodeDomain, set_metadata_progress, set_progress, set_node] using this
    | false =>
      obtain ⟨sw, sq, hw, h1, h2, h3, fq, -, -, -⟩ :=
        put_data_nonfinal_prepared cfg s s1 slice beams beams1 beam_slice fresh t hput
      obtain ⟨-, -, c3, -, -, -, -, -, -, -, -, wl, -, -⟩ :=
        write_metadata_frame cfg s slice beams beam_slice sw hw
      apply domain_progress_all cfg t _ s1 h3
      apply domain_of_frame (fq.frame_trans ((Frame.frame_set_progress slice _ _).frame_trans
        (Frame.frame_set_metadata_progress slice _ _))) ih
      have hn : ((set_metadata_progress (set_progress sq slice comm_progress.ready_to_send)
          slice comm_progress.ready_to_send).m_datanodes slice).m_location
          = (sq.m_datanodes slice).m_location := by
        simp [set_metadata_progress, set_progress, set_node]
      unfold NodeDomain
      rw [hn]
      by_cases hsize : (sw.m_datanodes slice).m_buffer_size = 0
      · obtain ⟨e1, -⟩ := h2 hsize
        subst e1
        rw [wl]
        exact ih slice
      · obtain ⟨sa, ha, hq⟩ := h1 hsize
        obtain ⟨-, hna⟩ := allocate_buffer_node cfg sw sa slice fresh ha
        obtain ⟨-, -, buffer, -, hnq⟩ :=
          pack_data_node cfg sa sq slice beams beams1 beam_slice hq
        right
        rw [hnq, hna, c3]
  | get s slice beams beam_slice t s1 beams1 _ _ hget ih =>
    obtain ⟨hf, -, -⟩ := get_data_frame cfg s s1 slice beams beams1 beam_slice t hget
    apply domain_of_frame hf ih
    obtain ⟨g1, g2⟩ := get_data_steps cfg s s1 slice beams beams1 beam_slice t hget
    by_cases hp : (s.m_datanodes slice).m_progress = comm_progress.ready_to_define
    · obtain ⟨-, hn⟩ := g1 hp
      rw [hn]
      exact ih slice
    · obtain ⟨s2, h2, k1, k2⟩ := g2 hp
      have d2 := domain_make_progress cfg s s2 slice true t h2 ih slice
      rw [(Frame.frame_make_progress cfg s s2 slice true t h2).config.buffer_on_host] at d2
      by_cases hsize : (s2.m_datanodes slice).m_buffer_size = 0
      · obtain ⟨-, e1⟩ := k2 hsize
        rw [e1]
        simpa [NodeDomain, set_metadata_progress, set_progress, set_node] using d2
      · obtain ⟨-, s3, h3, e1⟩ := k1 hsize
        obtain ⟨-, hn⟩ := free_buffer_node s2 s3 slice h3
        rw [e1]
        left
        simp [set_metadata_progress, set_progress, set_node, hn]
  | progress s slice is_blocking t s1 _ _ hp ih =>
    exact domain_make_progress cfg s s1 slice is_blocking t hp ih

/-- C26: `allocate_buffer` marks the slot `pinned` if `m_buffer_on_host` is set and `device`
otherwise; `initialize` stores its `buffer_on_host` argument there and no later poll,
`put_data` or `get_data` changes it; and in every state the object can be in, every slot's
`m_location` is `nowhere` or the one domain selected by that flag, so that no two slots are
ever in different domains. -/
theorem single_memory_domain (cfg : Config) :
    (∀ s slice fresh s1, allocate_buffer cfg s slice fresh = some s1 →
      (s1.m_datanodes slice).m_location
        = (if s.m_buffer_on_host then memory_location.pinned else memory_location.device)) ∧
    (∀ nslices nbeams rank_id n_ranks buffer_on_host t s,
      initialize_multibuffer cfg nslices nbeams rank_id n_ranks buffer_on_host t = some s →
      s.m_buffer_on_host = buffer_on_host) ∧
    (∀ s, Reachable cfg s →
      (∀ slice, (s.m_datanodes slice).m_location = memory_location.nowhere ∨
        (s.m_datanodes slice).m_location
          = (if s.m_buffer_on_host then memory_location.pinned
              else memory_location.device)) ∧
      (∀ i j, (s.m_datanodes i).m_location ≠ memory_location.nowhere →
        (s.m_datanodes j).m_location ≠ memory_location.nowhere →
        (s.m_datanodes i).m_location = (s.m_datanodes j).m_location) ∧
      (∀ slice is_blocking t s1, make_progress cfg s slice is_blocking t = some s1 →
        s1.m_buffer_on_host = s.m_buffer_on_host) ∧
      (∀ slice beams beam_slice is_last_time_step fresh t s1 beams1,
        put_data cfg s slice beams beam_slice is_last_time_step fresh t = some (s1, beams1) →
        s1.m_buffer_on_host = s.m_buffer_on_host) ∧
      (∀ slice beams beam_slice t s1 beams1,
        get_data cfg s slice beams beam_slice t = some (s1, beams1) →
        s1.m_buffer_on_host = s.m_buffer_on_host)) := by
  refine ⟨?_, ?_, ?_⟩
  · intro s slice fresh s1 h
    rw [(allocate_buffer_node cfg s s1 slice fresh h).2]
  · intro nslices nbeams rank_id n_ranks buffer_on_host t s hs
    exact (initialize_config cfg nslices nbeams rank_id n_ranks buffer_on_host t s hs).2.2.1
  · intro s hr
    have hd := reachable_domain cfg s hr
    refine ⟨hd, ?_, ?_, ?_, ?_⟩
    · intro i j hi hj
      rcases hd i with h1 | h1
      · exact absurd h1 hi
      · rcases hd j with h2 | h2
        · exact absurd h2 hj
        · rw [h1, h2]
    · intro slice is_blocking t s1 h
      exact (Frame.frame_make_progress cfg s s1 slice is_blocking t h).config.buffer_on_host
    · intro slice beams beam_slice is_last_time_step fresh t s1 beams1 h
      obtain ⟨sp, prep, -, c, -, h3⟩ :=
        put_data_prepare_trace cfg s s1 slice beams beams1 beam_slice is_last_time_step fresh
          t h
      exact (c.config_trans (progress_all_events cfg t sp s1 h3).1).buffer_on_host
    · intro slice beams beam_slice t s1 beams1 h
      exact (get_data_frame cfg s s1 slice beams beams1 beam_slice t h).1.config.buffer_on_host

end Hipace

namespace Hipace

/-! ## The blocking poll -/

/-- Every step of a poll keeps what the assertions inside a poll ask of the slot. -/
theorem guarded_step (a b : DataNode) (h : NodeStep a b) (ha : NodeGuarded a) :
    NodeGuarded b := by
  obtain ⟨h1, h2, h3⟩ := ha
  cases h <;> simp_all [NodeGuarded]

/-- No step of a poll applies to a data sub-channel that is idle or completed. -/
theorem idle_progress_step (p : comm_progress)
    (hp : p = comm_progress.ready_to_define ∨ p = comm_progress.in_use ∨
      p = comm_progress.sim_completed)
    (a b : DataNode) (h : NodeStep a b) (ha : a.m_progress = p) : b.m_progress = p := by
  rcases hp with hp | hp | hp <;> subst hp <;> cases h <;> simp_all

/-- No step of a poll applies to a metadata sub-channel that is idle or completed. -/
theorem idle_metadata_step (p : comm_progress)
    (hp : p = comm_progress.ready_to_define ∨ p = comm_progress.in_use ∨
      p = comm_progress.sim_completed)
    (a b : DataNode) (h : NodeStep a b) (ha : a.m_metadata_progress = p) :
    b.m_metadata_progress = p := by
  rcases hp with hp | hp | hp <;> subst hp <;> cases h <;> simp_all

/-- A blocking poll of a slot with an idle or completed sub-channel aborts. -/
theorem blocking_poll_idle_aborts (cfg : Config) (s : MultiBuffer) (i : Nat) (t : Transport)
    (h : ((s.m_datanodes i).m_metadata_progress = comm_progress.ready_to_define ∨
        (s.m_datanodes i).m_metadata_progress = comm_progress.in_use ∨
        (s.m_datanodes i).m_metadata_progress = comm_progress.sim_completed) ∨
      ((s.m_datanodes i).m_progress = comm_progress.ready_to_define ∨
        (s.m_datanodes i).m_progress = comm_progress.in_use ∨
        (s.m_datanodes i).m_progress = comm_progress.sim_completed)) :
    make_progress cfg s i true t = none := by
  cases hres : make_progress cfg s i true t with
  | none => rfl
  | some s1 =>
    exfalso
    obtain ⟨r1, r2⟩ := make_progress_blocking_received cfg s s1 i t hres
    have hsteps := make_progress_node_steps cfg s s1 i true t hres
    rcases h with h | h
    · have := steps_invariant (fun n => n.m_metadata_progress
          = (s.m_datanodes i).m_metadata_progress)
        (idle_metadata_step _ h) _ _ hsteps rfl
      simp only at this
      rw [r2] at this
      rcases h with h | h | h <;> rw [h] at this <;> exact absurd this (by decide)
    · have := steps_invariant (fun n => n.m_progress = (s.m_datanodes i).m_progress)
        (idle_progress_step _ h) _ _ hsteps rfl
      simp only at this
      rw [r1] at this
      rcases h with h | h | h <;> rw [h] at this <;> exact absurd this (by decide)

/-- A `get_data` on a slot whose data state is `in_use` or `sim_completed` aborts. -/
theorem get_data_idle_aborts (cfg : Config) (s : MultiBuffer) (slice : Nat)
    (beams : MultiBeam) (beam_slice : Nat) (t : Transport)
    (h : (s.m_datanodes slice).m_progress = comm_progress.in_use ∨
      (s.m_datanodes slice).m_progress = comm_progress.sim_completed) :
    get_data cfg s slice beams beam_slice t = none := by
  have hne : (s.m_datanodes slice).m_progress ≠ comm_progress.ready_to_define := by
    rcases h with h | h <;> rw [h] <;> decide
  unfold get_data
  simp only [if_neg hne]
  rw [blocking_poll_idle_aborts cfg s slice t (Or.inr (Or.inr h))]
  rfl

/-- The metadata blocks of a blocking poll end with the metadata received, unless the
metadata sub-channel is idle or completed. -/
theorem blocking_metadata_received (s : MultiBuffer) (i : Nat) (t : Transport)
    (hm : (s.m_datanodes i).m_metadata_progress ≠ comm_progress.ready_to_define ∧
      (s.m_datanodes i).m_metadata_progress ≠ comm_progress.in_use ∧
      (s.m_datanodes i).m_metadata_progress ≠ comm_progress.sim_completed) :
    ((finish_metadata_receive (start_metadata_receive (finish_metadata_send
      (start_send (start_metadata_send s i) i) i true t) i) i true t).m_datanodes
      i).m_metadata_progress = comm_progress.received := by
  have a1 : ((start_metadata_send s i).m_datanodes i).m_metadata_progress
        = comm_progress.send_started ∨
      ((start_metadata_send s i).m_datanodes i).m_metadata_progress = comm_progress.sent ∨
      ((start_metadata_send s i).m_datanodes i).m_metadata_progress
        = comm_progress.receive_started ∨
      ((start_metadata_send s i).m_datanodes i).m_metadata_progress
        = comm_progress.received := by
    unfold start_metadata_send
    split
    · simp [set_metadata_progress, set_node, emit]
    · rename_i hne
      obtain ⟨h1, h2, h3⟩ := hm
      cases hc : (s.m_datanodes i).m_metadata_progress <;> simp_all
  rw [← start_send_metadata_progress] at a1
  generalize start_send (start_metadata_send s i) i = s2 at a1 ⊢
  have a3 : ((finish_metadata_send s2 i true t).m_datanodes i).m_metadata_progress
        = comm_progress.sent ∨
      ((finish_metadata_send s2 i true t).m_datanodes i).m_metadata_progress
        = comm_progress.receive_started ∨
      ((finish_metadata_send s2 i true t).m_datanodes i).m_metadata_progress
        = comm_progress.received := by
    unfold finish_metadata_send
    split
    · simp [set_metadata_progress, set_node, emit]
    · rename_i hne
      rcases a1 with a1 | a1 | a1 | a1
      · exact absurd a1 hne
      · exact Or.inl a1
      · exact Or.inr (Or.inl a1)
      · exact Or.inr (Or.inr a1)
  generalize finish_metadata_send s2 i true t = s3 at a3 ⊢
  have a4 : ((start_metadata_receive s3 i).m_datanodes i).m_metadata_progress
        = comm_progress.receive_started ∨
      ((start_metadata_receive s3 i).m_datanodes i).m_metadata_progress
        = comm_progress.received := by
    unfold start_metadata_receive
    split
    · simp [set_metadata_progress, set_node, emit]
    · rename_i hne
      rcases a3 with a3 | a3 | a3
      · exact absurd a3 hne
      · exact Or.inl a3
      · exact Or.inr a3
  generalize start_metadata_receive s3 i = s4 at a4 ⊢
  unfold finish_metadata_receive
  split
  · simp [set_metadata_progress, set_node, emit, deliver_metadata]
  · rename_i hne
    rcases a4 with a4 | a4
    · exact absurd a4 hne
    · exact a4

/-- A blocking wait for the bulk-data send leaves no send under way. -/
theorem finish_send_blocking_progress (s s1 : MultiBuffer) (i : Nat) (t : Transport)
    (h : finish_send s i true t = some s1) :
    (s1.m_datanodes i).m_progress ≠ comm_progress.send_started := by
  unfold finish_send at h
  split at h
  · simp only [if_true] at h
    obtain ⟨s2, h2, rfl⟩ := Option.map_eq_some'.mp h
    simp [set_progress, set_node]
  · rename_i hne
    injection h with h
    subst h
    exact hne

/-- Once the metadata is received, the block that posts the bulk-data receive leaves no
slot waiting for it. -/
theorem start_receive_progress (cfg : Config) (s s1 : MultiBuffer) (i : Nat) (t : Transport)
    (hm : (s.m_datanodes i).m_metadata_progress = comm_progress.received)
    (h : start_receive cfg s i t = some s1) :
    (s1.m_datanodes i).m_progress ≠ comm_progress.sent := by
  unfold start_receive at h
  split at h
  · split at h
    · simp only [] at h
      split at h
      · injection h with h
        subst h
        simp [set_progress, set_node]
      · obtain ⟨s2, h2, rfl⟩ := Option.map_eq_some'.mp h
        simp [set_progress, set_node, emit]
    · exact absurd h (by simp)
  · rename_i hne
    injection h with h
    subst h
    intro hp
    exact hne ⟨hp, hm⟩

/-- A blocking wait for the bulk-data receive leaves no receive under way. -/
theorem finish_receive_blocking_progress (cfg : Config) (s : MultiBuffer) (i : Nat)
    (t : Transport) :
    ((finish_receive cfg s i true t).m_datanodes i).m_progress
      ≠ comm_progress.receive_started := by
  unfold finish_receive
  split
  · simp [set_progress, set_node, emit, deliver_buffer]
  · assumption

end Hipace

namespace Hipace

/-- The wait for or test of the bulk-data send does not abort on a slot whose send under way
has its buffer. -/
theorem finish_send_guarded (s : MultiBuffer) (i : Nat) (is_blocking : Bool) (t : Transport)
    (h : NodeGuarded (s.m_datanodes i)) : ∃ s1, finish_send s i is_blocking t = some s1 := by
  have key : ∀ e, (s.m_datanodes i).m_progress = comm_progress.send_started →
      ∃ s2, free_buffer (emit s e) i = some s2 := by
    intro e hp
    have hl : ((emit s e).m_datanodes i).m_location ≠ memory_location.nowhere := h.1 hp
    unfold free_buffer
    rw [if_pos hl]
    exact ⟨_, rfl⟩
  unfold finish_send
  split
  · rename_i hp
    split
    · obtain ⟨s2, h2⟩ := key (Event.Wait (Request.m_request i)) hp
      exact ⟨_, by rw [h2]; rfl⟩
    · simp only []
      split
      · obtain ⟨s2, h2⟩ := key (Event.Test (Request.m_request i) t.send_complete) hp
        exact ⟨_, by rw [h2]; rfl⟩
      · exact ⟨_, rfl⟩
  · exact ⟨_, rfl⟩

/-- The posting of the bulk-data receive does not abort on a slot that holds no buffer once
its send is over. -/
theorem start_receive_guarded (cfg : Config) (s : MultiBuffer) (i : Nat) (t : Transport)
    (h : NodeGuarded (s.m_datanodes i)) : ∃ s1, start_receive cfg s i t = some s1 := by
  unfold start_receive
  split
  · rename_i hc
    have hl : (s.m_datanodes i).m_location = memory_location.nowhere := h.2.1 hc.1
    rw [if_pos hl]
    simp only []
    split
    · exact ⟨_, rfl⟩
    · have hl2 : ((set_node s i { s.m_datanodes i with
          m_buffer_size := s.m_metadata (get_metadata_location s i + 0) }).m_datanodes
          i).m_location = memory_location.nowhere := by
        simp [set_node, hl]
      obtain ⟨s2, h2, -⟩ := allocate_buffer_some cfg _ i t.fresh hl2
      exact ⟨_, by rw [h2]; rfl⟩
  · exact ⟨_, rfl⟩

/-- After the block that issues the bulk-data send neither sub-channel is ready to send. -/
theorem start_send_settles (s : MultiBuffer) (i : Nat) :
    ((start_send (start_metadata_send s i) i).m_datanodes i).m_progress
        ≠ comm_progress.ready_to_send ∧
      ((start_send (start_metadata_send s i) i).m_datanodes i).m_metadata_progress
        ≠ comm_progress.ready_to_send := by
  constructor
  · unfold start_send
    split
    · split <;> simp [set_progress, set_node, emit]
    · assumption
  · rw [start_send_metadata_progress]
    unfold start_metadata_send
    split
    · simp [set_metadata_progress, set_node, emit]
    · assumption

/-- No step of a poll makes a data sub-channel idle or completed. -/
theorem busy_step (a b : DataNode) (h : NodeStep a b)
    (ha : a.m_progress ≠ comm_progress.ready_to_define ∧
      a.m_progress ≠ comm_progress.in_use ∧ a.m_progress ≠ comm_progress.sim_completed) :
    b.m_progress ≠ comm_progress.ready_to_define ∧
      b.m_progress ≠ comm_progress.in_use ∧ b.m_progress ≠ comm_progress.sim_completed := by
  obtain ⟨h1, h2, h3⟩ := ha
  cases h <;> simp_all

/-- No step of a poll takes a data sub-channel back from receiving. -/
theorem arriving_step (a b : DataNode) (h : NodeStep a b)
    (ha : a.m_progress = comm_progress.receive_started ∨
      a.m_progress = comm_progress.received) :
    b.m_progress = comm_progress.receive_started ∨ b.m_progress = comm_progress.received := by
  cases h <;> simp_all

/-- A blocking poll returns on a slot that passes the assertions on its buffer and has
neither sub-channel idle or completed. -/
theorem blocking_poll_returns (cfg : Config) (s : MultiBuffer) (i : Nat) (t : Transport)
    (hg : NodeGuarded (s.m_datanodes i))
    (hm : (s.m_datanodes i).m_metadata_progress ≠ comm_progress.ready_to_define ∧
      (s.m_datanodes i).m_metadata_progress ≠ comm_progress.in_use ∧
      (s.m_datanodes i).m_metadata_progress ≠ comm_progress.sim_completed)
    (hp : (s.m_datanodes i).m_progress ≠ comm_progress.ready_to_define ∧
      (s.m_datanodes i).m_progress ≠ comm_progress.in_use ∧
      (s.m_datanodes i).m_progress ≠ comm_progress.sim_completed) :
    ∃ s1, make_progress cfg s i true t = some s1 := by
  have m5 := blocking_metadata_received s i t hm
  have steps2 : Relation.ReflTransGen NodeStep (s.m_datanodes i)
      ((start_send (start_metadata_send s i) i).m_datanodes i) :=
    (step_start_metadata_send s i).trans (step_start_send _ i)
  have steps25 : Relation.ReflTransGen NodeStep
      ((start_send (start_metadata_send s i) i).m_datanodes i)
      ((finish_metadata_receive (start_metadata_receive (finish_metadata_send
        (start_send (start_metadata_send s i) i) i true t) i) i true t).m_datanodes i) :=
    ((step_finish_metadata_send _ i true t).trans
      (step_start_metadata_receive _ i)).trans
      (step_finish_metadata_receive _ i true t)
  have r5 := steps_invariant _ not_ready_step _ _ steps25 (start_send_settles s i)
  have steps5 := steps2.trans steps25
  have g5 := steps_invariant NodeGuarded guarded_step _ _ steps5 hg
  have b5 := steps_invariant _ busy_step _ _ steps5 hp
  clear steps2 steps25 steps5
  generalize e5 : finish_metadata_receive (start_metadata_receive (finish_metadata_send
    (start_send (start_metadata_send s i) i) i true t) i) i true t = s5 at m5 r5 g5 b5
  obtain ⟨s6, h6⟩ := finish_send_guarded s5 i true t g5
  have st6 := step_finish_send s5 s6 i true t h6
  have g6 := steps_invariant NodeGuarded guarded_step _ _ st6 g5
  have r6 := steps_invariant _ not_ready_step _ _ st6 r5
  have b6 := steps_invariant _ busy_step _ _ st6 b5
  have m6 : (s6.m_datanodes i).m_metadata_progress = comm_progress.received := by
    rw [finish_send_metadata_progress s5 s6 i true t h6]
    exact m5
  have n6 := finish_send_blocking_progress s5 s6 i t h6
  have p6 : (s6.m_datanodes i).m_progress = comm_progress.sent ∨
      (s6.m_datanodes i).m_progress = comm_progress.receive_started ∨
      (s6.m_datanodes i).m_progress = comm_progress.received := by
    obtain ⟨b1, b2, b3⟩ := b6
    have r1 := r6.1
    revert b1 b2 b3 r1 n6
    cases (s6.m_datanodes i).m_progress <;> simp
  obtain ⟨s7, h7⟩ := start_receive_guarded cfg s6 i t g6
  have st7 := step_start_receive cfg s6 s7 i t h7
  have m7 : (s7.m_datanodes i).m_metadata_progress = comm_progress.received := by
    rw [start_receive_metadata_progress cfg s6 s7 i t h7]
    exact m6
  have n7 := start_receive_progress cfg s6 s7 i t m6 h7
  have q7 := (steps_invariant _ receiving_step _ _ st7
    ⟨Or.inr (Or.inr m6), p6, fun _ => m6⟩).2.1
  have p7 : (s7.m_datanodes i).m_progress = comm_progress.receive_started ∨
      (s7.m_datanodes i).m_progress = comm_progress.received := by
    rcases q7 with q | q | q
    · exact absurd q n7
    · exact Or.inl q
    · exact Or.inr q
  have m8 : ((finish_receive cfg s7 i true t).m_datanodes i).m_metadata_progress
      = comm_progress.received := by
    rw [finish_receive_metadata_progress]
    exact m7
  have q8 := steps_invariant _ arriving_step _ _ (step_finish_receive cfg s7 i true t) p7
  have n8 := finish_receive_blocking_progress cfg s7 i t
  have p8 : ((finish_receive cfg s7 i true t).m_datanodes i).m_progress
      = comm_progress.received := by
    rcases q8 with q | q
    · exact absurd q n8
    · exact q
  refine ⟨finish_receive cfg s7 i true t, ?_⟩
  unfold make_progress
  simp only [e5, h6, h7, Option.some_bind]
  unfold check_blocking
  simp [m8, p8]

end Hipace

namespace Hipace

/-- A slot that is in use or completed stays in use or completed through every later poll,
`get_data` and `put_data` that returns, except a non-final `put_data` on the slice itself. -/
theorem used_later_run (cfg : Config) (slice : Nat) (s1 s2 : MultiBuffer)
    (hrun : LaterRun cfg slice s1 s2)
    (h : ((s1.m_datanodes slice).m_progress = comm_progress.in_use ∨
        (s1.m_datanodes slice).m_progress = comm_progress.sim_completed) ∧
      ((s1.m_datanodes slice).m_metadata_progress = comm_progress.in_use ∨
        (s1.m_datanodes slice).m_metadata_progress = comm_progress.sim_completed)) :
    ((s2.m_datanodes slice).m_progress = comm_progress.in_use ∨
        (s2.m_datanodes slice).m_progress = comm_progress.sim_completed) ∧
      ((s2.m_datanodes slice).m_metadata_progress = comm_progress.in_use ∨
        (s2.m_datanodes slice).m_metadata_progress = comm_progress.sim_completed) := by
  induction hrun with
  | here => exact h
  | put sa i beams0 beam_slice0 is_last fresh0 t0 sb beams2 _ hi hput ih =>
    by_cases hj : i = slice
    · subst hj
      rw [hi rfl] at hput
      obtain ⟨-, -, u⟩ := put_data_final_steps cfg sa sb i beams0 beams2 beam_slice0 fresh0 t0
        hput
      rw [u.node]
      simp [set_metadata_progress, set_progress, set_node]
    · obtain ⟨sp, fp, -, -, hsweep⟩ :=
        put_data_steps cfg sa sb i beams0 beams2 beam_slice0 is_last fresh0 t0 hput
      have e := fp.nodes slice (Ne.symm hj)
      have u := progress_all_idle_slot cfg t0 sp sb slice
        (by rw [e]; exact Or.inr ih.1) (by rw [e]; exact Or.inr ih.2) hsweep
      rw [u.node, e]
      exact ih
  | get sa i beams0 beam_slice0 t0 sb beams2 _ hget ih =>
    by_cases hj : i = slice
    · subst hj
      rw [get_data_idle_aborts cfg sa i beams0 beam_slice0 t0 ih.1] at hget
      exact absurd hget (by simp)
    · rw [(get_data_frame cfg sa sb i beams0 beams2 beam_slice0 t0 hget).1.nodes slice
        (Ne.symm hj)]
      exact ih
  | progress sa i is_blocking t0 sb _ hpoll ih =>
    by_cases hj : i = slice
    · subst hj
      have hsteps := make_progress_node_steps cfg sa sb i is_blocking t0 hpoll
      have e1 := steps_invariant (fun n => n.m_progress = (sa.m_datanodes i).m_progress)
        (idle_progress_step _ (Or.inr ih.1)) _ _ hsteps rfl
      have e2 := steps_invariant (fun n => n.m_metadata_progress
          = (sa.m_datanodes i).m_metadata_progress)
        (idle_metadata_step _ (Or.inr ih.2)) _ _ hsteps rfl
      simp only at e1 e2
      rw [e1, e2]
      exact ih
    · rw [(Frame.frame_make_progress cfg sa sb i is_blocking t0 hpoll).nodes slice
        (Ne.symm hj)]
      exact ih

/-- The assertions inside a poll pass on a slot that satisfies the buffer invariant and is
not ready to send a non-empty payload. -/
theorem guarded_of_invariant (node : DataNode)
    (hinv : (node.m_location ≠ memory_location.nowhere ∧ node.m_buffer ≠ none) ↔
      (node.m_progress = comm_progress.send_started ∨
        node.m_progress = comm_progress.receive_started ∨
        (node.m_progress = comm_progress.received ∧ node.m_buffer_size ≠ 0)))
    (hcons : node.m_location = memory_location.nowhere ↔ node.m_buffer = none)
    (hready : node.m_progress = comm_progress.ready_to_send → node.m_buffer_size = 0) :
    NodeGuarded node := by
  have hfree : ∀ p, node.m_progress = p → p ≠ comm_progress.send_started →
      p ≠ comm_progress.receive_started → p ≠ comm_progress.received →
      node.m_location = memory_location.nowhere := by
    intro p hp n1 n2 n3
    by_contra hl
    have hb : node.m_buffer ≠ none := fun hb => hl (hcons.mpr hb)
    rcases hinv.mp ⟨hl, hb⟩ with q | q | ⟨q, -⟩
    · exact n1 (hp ▸ q)
    · exact n2 (hp ▸ q)
    · exact n3 (hp ▸ q)
  refine ⟨fun hp => (hinv.mpr (Or.inl hp)).1, fun hp => hfree _ hp (by decide) (by decide)
    (by decide), fun hp => ?_⟩
  have hl := hfree _ hp (by decide) (by decide) (by decide)
  have hz := hready hp
  simp [hl, hz]

/-- Between calls no sub-channel of any slot is ready to send: `put_data` marks the slot
ready to send and its sweep polls the slot before it returns. -/
theorem reachable_not_ready (cfg : Config) (s : MultiBuffer) (h : Reachable cfg s) :
    ∀ j, (s.m_datanodes j).m_progress ≠ comm_progress.ready_to_send ∧
      (s.m_datanodes j).m_metadata_progress ≠ comm_progress.ready_to_send := by
  induction h with
  | init nslices nbeams rank_id n_ranks buffer_on_host t s hs =>
    rw [initialize_steps] at hs
    apply invariant_downLoop (fun n : DataNode => n.m_progress ≠ comm_progress.ready_to_send ∧
      n.m_metadata_progress ≠ comm_progress.ready_to_send) not_ready_step cfg t _ _ s hs
    intro j
    simp only []
    split
    · split <;> simp [empty_node]
    · simp [default_node]
  | put s slice beams beam_slice is_last_time_step fresh t s1 beams1 _ hslice hput ih =>
    intro j
    obtain ⟨sp, fp, e1, e2, h3⟩ :=
      put_data_steps cfg s s1 slice beams beams1 beam_slice is_last_time_step fresh t hput
    by_cases hj : j = slice
    · subst hj
      obtain ⟨s_mid, s_after, -, hm, u2⟩ := progress_all_split cfg t sp s1 j
        (by rw [fp.config.nslices]; exact hslice) h3
      obtain ⟨n1, n2, -⟩ := poll_settles cfg s_mid s_after j false (t j) hm
      rw [u2.node]
      exact ⟨n1, n2⟩
    · apply invariant_downLoop_slot (fun n : DataNode =>
        n.m_progress ≠ comm_progress.ready_to_send ∧
        n.m_metadata_progress ≠ comm_progress.ready_to_send) not_ready_step cfg t _ sp s1 j h3
      rw [fp.nodes j hj]
      exact ih j
  | get s slice beams beam_slice t s1 beams1 _ _ hget ih =>
    obtain ⟨hf, e1, e2⟩ := get_data_frame cfg s s1 slice beams beams1 beam_slice t hget
    apply invariant_of_frame (fun n : DataNode =>
      n.m_progress ≠ comm_progress.ready_to_send ∧
      n.m_metadata_progress ≠ comm_progress.ready_to_send) hf ih
    show (s1.m_datanodes slice).m_progress ≠ comm_progress.ready_to_send ∧
      (s1.m_datanodes slice).m_metadata_progress ≠ comm_progress.ready_to_send
    rw [e1, e2]
    exact ⟨by decide, by decide⟩
  | progress s slice is_blocking t s1 _ _ hp ih =>
    exact invariant_make_progress (fun n : DataNode =>
      n.m_progress ≠ comm_progress.ready_to_send ∧
      n.m_metadata_progress ≠ comm_progress.ready_to_send) not_ready_step cfg s s1 slice
      is_blocking t hp ih

/-- C21: in any state the object can be in between calls, for a slot satisfying the buffer
invariant, `make_progress(slice, true)` either aborts or returns with both the data state
and the metadata state `received`; it aborts exactly when, on entry, the metadata state or
the data state is one of `ready_to_define`, `in_use`, `sim_completed`. And once a `get_data`
or a final `put_data` of the slice has returned, a `get_data` of the slice aborts, also
after any further polls, `get_data` and `put_data` calls that return, except a non-final
`put_data` on the slice itself. -/
theorem blocking_poll_outcome (cfg : Config) (s : MultiBuffer) (slice : Nat) (t : Transport)
    (hr : Reachable cfg s)
    (hinv : ((s.m_datanodes slice).m_location ≠ memory_location.nowhere ∧
        (s.m_datanodes slice).m_buffer ≠ none) ↔
      ((s.m_datanodes slice).m_progress = comm_progress.send_started ∨
        (s.m_datanodes slice).m_progress = comm_progress.receive_started ∨
        ((s.m_datanodes slice).m_progress = comm_progress.received ∧
          (s.m_datanodes slice).m_buffer_size ≠ 0))) :
    (∀ s1, make_progress cfg s slice true t = some s1 →
      (s1.m_datanodes slice).m_progress = comm_progress.received ∧
      (s1.m_datanodes slice).m_metadata_progress = comm_progress.received) ∧
    (make_progress cfg s slice true t = none ↔
      (((s.m_datanodes slice).m_metadata_progress = comm_progress.ready_to_define ∨
          (s.m_datanodes slice).m_metadata_progress = comm_progress.in_use ∨
          (s.m_datanodes slice).m_metadata_progress = comm_progress.sim_completed) ∨
        ((s.m_datanodes slice).m_progress = comm_progress.ready_to_define ∨
          (s.m_datanodes slice).m_progress = comm_progress.in_use ∨
          (s.m_datanodes slice).m_progress = comm_progress.sim_completed))) ∧
    (∀ beams beam_slice t0 s1 beams1 s2,
      get_data cfg s slice beams beam_slice t0 = some (s1, beams1) →
      LaterRun cfg slice s1 s2 →
      ∀ beams2 beam_slice2 t2, get_data cfg s2 slice beams2 beam_slice2 t2 = none) ∧
    (∀ beams beam_slice fresh tt s1 beams1 s2,
      put_data cfg s slice beams beam_slice true fresh tt = some (s1, beams1) →
      LaterRun cfg slice s1 s2 →
      ∀ beams2 beam_slice2 t2, get_data cfg s2 slice beams2 beam_slice2 t2 = none) := by
  have hcons := (reachable_sound cfg s hr slice).1
  have hnr := (reachable_not_ready cfg s hr slice).1
  refine ⟨fun s1 h => make_progress_blocking_received cfg s s1 slice t h, ⟨?_, ?_⟩, ?_, ?_⟩
  · intro hnone
    by_contra hidle
    have hm : (s.m_datanodes slice).m_metadata_progress ≠ comm_progress.ready_to_define ∧
        (s.m_datanodes slice).m_metadata_progress ≠ comm_progress.in_use ∧
        (s.m_datanodes slice).m_metadata_progress ≠ comm_progress.sim_completed :=
      ⟨fun q => hidle (Or.inl (Or.inl q)), fun q => hidle (Or.inl (Or.inr (Or.inl q))),
        fun q => hidle (Or.inl (Or.inr (Or.inr q)))⟩
    have hp : (s.m_datanodes slice).m_progress ≠ comm_progress.ready_to_define ∧
        (s.m_datanodes slice).m_progress ≠ comm_progress.in_use ∧
        (s.m_datanodes slice).m_progress ≠ comm_progress.sim_completed :=
      ⟨fun q => hidle (Or.inr (Or.inl q)), fun q => hidle (Or.inr (Or.inr (Or.inl q))),
        fun q => hidle (Or.inr (Or.inr (Or.inr q)))⟩
    obtain ⟨s1, h1⟩ := blocking_poll_returns cfg s slice t
      (guarded_of_invariant _ hinv hcons (fun q => absurd q hnr)) hm hp
    rw [hnone] at h1
    exact absurd h1 (by simp)
  · exact blocking_poll_idle_aborts cfg s slice t
  · intro beams beam_slice t0 s1 beams1 s2 hget hrun beams2 beam_slice2 t2
    obtain ⟨-, g1, g2⟩ := get_data_frame cfg s s1 slice beams beams1 beam_slice t0 hget
    exact get_data_idle_aborts cfg s2 slice beams2 beam_slice2 t2
      (used_later_run cfg slice s1 s2 hrun ⟨Or.inl g1, Or.inl g2⟩).1
  · intro beams beam_slice fresh tt s1 beams1 s2 hput hrun beams2 beam_slice2 t2
    obtain ⟨-, -, u⟩ := put_data_final_steps cfg s s1 slice beams beams1 beam_slice fresh tt
      hput
    have e : (s1.m_datanodes slice).m_progress = comm_progress.sim_completed ∧
        (s1.m_datanodes slice).m_metadata_progress = comm_progress.sim_completed := by
      rw [u.node]
      simp [set_metadata_progress, set_progress, set_node]
    exact get_data_idle_aborts cfg s2 slice beams2 beam_slice2 t2
      (used_later_run cfg slice s1 s2 hrun ⟨Or.inr e.1, Or.inr e.2⟩).1

set_option maxRecDepth 100000 in
/-- Witness of `blocking_poll_outcome`: after `initialize` of one slice on rank 0 of 2 with
nothing completing, the slot waits for its metadata and holds no storage; the blocking poll
returns with both states received. -/
theorem blocking_poll_outcome_witness :
    ∃ s0 s1, initialize_multibuffer example_cfg 1 1 0 2 true (fun _ => idle_transport)
        = some s0 ∧
      (s0.m_datanodes 0).m_progress = comm_progress.sent ∧
      (s0.m_datanodes 0).m_metadata_progress = comm_progress.receive_started ∧
      make_progress example_cfg s0 0 true idle_transport = some s1 ∧
      (s1.m_datanodes 0).m_progress = comm_progress.received ∧
      (s1.m_datanodes 0).m_metadata_progress = comm_progress.received := by
  have hproj : (initialize_multibuffer example_cfg 1 1 0 2 true
      (fun _ => idle_transport)).map (fun s0 =>
        ((s0.m_datanodes 0).m_progress, (s0.m_datanodes 0).m_metadata_progress,
          (s0.m_datanodes 0).m_location, (s0.m_datanodes 0).m_buffer.isSome))
      = some (comm_progress.sent, comm_progress.receive_started, memory_location.nowhere,
        false) := by decide
  obtain ⟨s0, hs0, hq⟩ := Option.map_eq_some'.mp hproj
  simp only [Prod.mk.injEq] at hq
  obtain ⟨q1, q2, q3, q4⟩ := hq
  have hr : Reachable example_cfg s0 := Reachable.init 1 1 0 2 true _ s0 hs0
  have h := blocking_poll_outcome example_cfg s0 0 idle_transport hr
    (by rw [q1, q3]; simp)
  have hsome : ∃ s1, make_progress example_cfg s0 0 true idle_transport = some s1 := by
    by_contra hne
    have hnone : make_progress example_cfg s0 0 true idle_transport = none := by
      cases hc : make_progress example_cfg s0 0 true idle_transport with
      | none => rfl
      | some s1 => exact absurd ⟨s1, hc⟩ hne
    have := h.2.1.mp hnone
    rw [q1, q2] at this
    simp at this
  obtain ⟨s1, h1⟩ := hsome
  exact ⟨s0, s1, hs0, q1, q2, h1, (h.1 s1 h1).1, (h.1 s1 h1).2⟩

end Hipace

namespace Hipace

/-! ## Polling again -/

/-- A poll that returns leaves the slot with nothing to post. -/
theorem poll_quiet (cfg : Config) (s s1 : MultiBuffer) (i : Nat) (is_blocking : Bool)
    (t : Transport) (h : make_progress cfg s i is_blocking t = some s1) :
    NodeQuiet (s1.m_datanodes i) := by
  obtain ⟨q1, q2, q3⟩ := poll_settles cfg s s1 i is_blocking t h
  refine ⟨q1, q2, q3, ?_⟩
  obtain ⟨s6, s7, h6, h7, rfl, -⟩ := make_progress_steps cfg s s1 i is_blocking t h
  rw [finish_receive_metadata_progress]
  rintro ⟨hp, hm⟩
  have hm6 : (s6.m_datanodes i).m_metadata_progress = comm_progress.received := by
    rw [← start_receive_metadata_progress cfg s6 s7 i t h7]
    exact hm
  have n7 := start_receive_progress cfg s6 s7 i t hm6 h7
  apply n7
  revert hp
  unfold finish_receive
  split
  · split
    · simp [set_progress, set_node, emit, deliver_buffer]
    · simp only []
      split
      · simp [set_progress, set_node, emit, deliver_buffer]
      · rename_i hrs _ _
        intro hp
        simp only [emit] at hp
        rw [hp] at hrs
        exact absurd hrs (by decide)
  · exact id

/-- On a slot with nothing to post, a non-blocking poll during which no request completes
returns, changes nothing but the trace, and only tests the transfers under way. -/
theorem repoll_tests (cfg : Config) (s : MultiBuffer) (i : Nat) (t : Transport)
    (hq : NodeQuiet (s.m_datanodes i))
    (h1 : t.metadata_send_complete = false) (h2 : t.metadata_receive_complete = false)
    (h3 : t.send_complete = false) (h4 : t.receive_complete = false) :
    make_progress cfg s i false t
      = some { s with trace := s.trace ++ pending_tests (s.m_datanodes i) i } := by
  obtain ⟨q1, q2, q3, q4⟩ := hq
  cases hm : (s.m_datanodes i).m_metadata_progress <;>
    cases hp : (s.m_datanodes i).m_progress <;>
    simp_all [make_progress, start_metadata_send, start_send, finish_metadata_send,
      start_metadata_receive, finish_metadata_receive, finish_send, start_receive,
      finish_receive, check_blocking, pending_tests, emit]

end Hipace

namespace Hipace

/-! ## Outstanding sends and receives -/

theorem outstanding_append (r : Request) (tr evs : List Event) :
    outstanding r (tr ++ evs) = evs.foldl (outstanding_step r) (outstanding r tr) := by
  simp [outstanding, List.foldl_append]

/-- Calls made for another slice do not change what is outstanding on a request. -/
theorem outstanding_other_slice (r : Request) (j i : Nat) (hr : r = Request.m_request j ∨
    r = Request.m_metadata_request j) (hij : j ≠ i) (evs : List Event)
    (hev : ∀ e, e ∈ evs → event_slice e = i) (n : Nat) :
    evs.foldl (outstanding_step r) n = n := by
  induction evs generalizing n with
  | nil => rfl
  | cons e es ih =>
    have he := hev e (List.mem_cons_self _ _)
    have hstep : outstanding_step r n e = n := by
      have hne : ∀ r1 : Request, (match r1 with
          | Request.m_request k => k
          | Request.m_metadata_request k => k) = i → r1 ≠ r := by
        intro r1 h1 h2
        subst h2
        rcases hr with hr | hr <;> subst hr <;> exact hij h1
      cases e with
      | Isend r1 count dest tag =>
        have := hne r1 (by cases r1 <;> exact he)
        simp [outstanding_step, this]
      | Irecv r1 count source tag =>
        have := hne r1 (by cases r1 <;> exact he)
        simp [outstanding_step, this]
      | Test r1 c =>
        have := hne r1 (by cases r1 <;> exact he)
        simp [outstanding_step, this]
      | Wait r1 =>
        have := hne r1 (by cases r1 <;> exact he)
        simp [outstanding_step, this]
      | Cancel r1 =>
        have := hne r1 (by cases r1 <;> exact he)
        simp [outstanding_step, this]
      | alloc _ _ _ => rfl
      | free _ _ => rfl
      | intializeSlice _ _ _ => rfl
    rw [List.foldl_cons, hstep]
    exact ih (fun e he => hev e (List.mem_cons_of_mem _ he)) n

/-- A slot of another slice stays linked through calls made for slice `i`. -/
theorem linked_frame (i j : Nat) (s s1 : MultiBuffer) (f : Frame i s s1) (hij : j ≠ i)
    (h : Linked s j) : Linked s1 j := by
  obtain ⟨evs, e1, hev⟩ := f.trace
  unfold Linked at h ⊢
  rw [f.nodes j hij, e1, outstanding_append, outstanding_append,
    outstanding_other_slice _ j i (Or.inr rfl) hij evs hev,
    outstanding_other_slice _ j i (Or.inl rfl) hij evs hev]
  exact h

theorem linked_start_metadata_send (s : MultiBuffer) (i : Nat) (h : Linked s i) :
    Linked (start_metadata_send s i) i := by
  unfold Linked at h ⊢
  unfold start_metadata_send
  split
  · rename_i hm
    rw [hm] at h
    simp [set_metadata_progress, set_node, emit, outstanding_append, outstanding_step,
      under_way] at h ⊢
    exact ⟨h.1, h.2⟩
  · exact h

theorem linked_start_send (s : MultiBuffer) (i : Nat) (h : Linked s i) :
    Linked (start_send s i) i := by
  unfold Linked at h ⊢
  unfold start_send
  split
  · rename_i hp
    rw [hp] at h
    split
    · simp [set_progress, set_node, under_way] at h ⊢
      exact h
    · simp [set_progress, set_node, emit, outstanding_append, outstanding_step,
        under_way] at h ⊢
      exact ⟨h.1, h.2⟩
  · exact h

theorem linked_finish_metadata_send (s : MultiBuffer) (i : Nat) (is_blocking : Bool)
    (t : Transport) (h : Linked s i) : Linked (finish_metadata_send s i is_blocking t) i := by
  unfold Linked at h ⊢
  unfold finish_metadata_send
  split
  · rename_i hm
    rw [hm] at h
    split
    · simp [set_metadata_progress, set_node, emit, outstanding_append, outstanding_step,
        under_way] at h ⊢
      simp [h.1, h.2]
    · simp only []
      split
      · rename_i hc
        simp [set_metadata_progress, set_node, emit, outstanding_append, outstanding_step,
          under_way, hc] at h ⊢
        simp [h.1, h.2]
      · rename_i hc
        simp [emit, outstanding_append, outstanding_step, under_way, hc, hm] at h ⊢
        simp [h.1, h.2]
  · exact h

theorem linked_start_metadata_receive (s : MultiBuffer) (i : Nat) (h : Linked s i) :
    Linked (start_metadata_receive s i) i := by
  unfold Linked at h ⊢
  unfold start_metadata_receive
  split
  · rename_i hm
    rw [hm] at h
    simp [set_metadata_progress, set_node, emit, outstanding_append, outstanding_step,
      under_way] at h ⊢
    exact ⟨h.1, h.2⟩
  · exact h

theorem linked_finish_metadata_receive (s : MultiBuffer) (i : Nat) (is_blocking : Bool)
    (t : Transport) (h : Linked s i) :
    Linked (finish_metadata_receive s i is_blocking t) i := by
  unfold Linked at h ⊢
  unfold finish_metadata_receive
  split
  · rename_i hm
    rw [hm] at h
    split
    · simp [set_metadata_progress, set_node, emit, deliver_metadata, outstanding_append,
        outstanding_step, under_way] at h ⊢
      simp [h.1, h.2]
    · simp only []
      split
      · rename_i hc
        simp [set_metadata_progress, set_node, emit, deliver_metadata, outstanding_append,
          outstanding_step, under_way, hc] at h ⊢
        simp [h.1, h.2]
      · rename_i hc
        simp [emit, outstanding_append, outstanding_step, under_way, hc, hm] at h ⊢
        simp [h.1, h.2]
  · exact h

theorem linked_finish_receive (cfg : Config) (s : MultiBuffer) (i : Nat) (is_blocking : Bool)
    (t : Transport) (h : Linked s i) : Linked (finish_receive cfg s i is_blocking t) i := by
  unfold Linked at h ⊢
  unfold finish_receive
  split
  · rename_i hp
    rw [hp] at h
    split
    · simp [set_progress, set_node, emit, deliver_buffer, outstanding_append,
        outstanding_step, under_way] at h ⊢
      simp [h.1, h.2]
    · simp only []
      split
      · rename_i hc
        simp [set_progress, set_node, emit, deliver_buffer, outstanding_append,
          outstanding_step, under_way, hc] at h ⊢
        simp [h.1, h.2]
      · rename_i hc
        simp [emit, outstanding_append, outstanding_step, under_way, hc, hp] at h ⊢
        simp [h.1, h.2]
  · exact h

end Hipace

namespace Hipace

theorem linked_finish_send (s s1 : MultiBuffer) (i : Nat) (is_blocking : Bool) (t : Transport)
    (hs : finish_send s i is_blocking t = some s1) (h : Linked s i) : Linked s1 i := by
  have key : ∀ (e : Event) (s2 : MultiBuffer),
      outstanding_step (Request.m_metadata_request i)
        (outstanding (Request.m_metadata_request i) s.trace) e
        = outstanding (Request.m_metadata_request i) s.trace →
      outstanding_step (Request.m_request i) (outstanding (Request.m_request i) s.trace) e
        = 0 →
      free_buffer (emit s e) i = some s2 →
      Linked (set_progress s2 i comm_progress.sent) i := by
    intro e s2 k1 k2 hf
    unfold free_buffer at hf
    split at hf
    · injection hf with hf
      subst hf
      have hfree : ∀ (r : Request) (n : Nat) (l : memory_location),
          outstanding_step r n (Event.free i l) = n := fun _ _ _ => rfl
      have hsent : under_way comm_progress.sent = 0 := rfl
      unfold Linked at h ⊢
      rw [h.1] at k1
      split <;>
        simp [set_progress, set_node, emit, outstanding_append, hfree, hsent, k1, k2, h.1]
    · exact absurd hf (by simp)
  unfold finish_send at hs
  split at hs
  · rename_i hp
    have h2 : outstanding (Request.m_request i) s.trace = 1 := by
      rw [h.2, hp]
      rfl
    split at hs
    · obtain ⟨s2, hf, rfl⟩ := Option.map_eq_some'.mp hs
      exact key _ s2 (by simp [outstanding_step]) (by simp [outstanding_step, h2]) hf
    · simp only [] at hs
      split at hs
      · rename_i hc
        obtain ⟨s2, hf, rfl⟩ := Option.map_eq_some'.mp hs
        exact key _ s2 (by simp [outstanding_step]) (by simp [outstanding_step, h2, hc]) hf
      · rename_i hc
        injection hs with hs
        subst hs
        unfold Linked at h ⊢
        simp [emit, outstanding_append, outstanding_step, hc]
        exact h
  · injection hs with hs
    subst hs
    exact h

theorem linked_start_receive (cfg : Config) (s s1 : MultiBuffer) (i : Nat) (t : Transport)
    (hs : start_receive cfg s i t = some s1) (h : Linked s i) : Linked s1 i := by
  unfold start_receive at hs
  split at hs
  · rename_i hc
    have h2 : outstanding (Request.m_request i) s.trace = 0 := by
      rw [h.2, hc.1]
      rfl
    split at hs
    · simp only [] at hs
      split at hs
      · injection hs with hs
        subst hs
        unfold Linked at h ⊢
        simp [set_progress, set_node, under_way, h2]
        exact h.1
      · obtain ⟨s2, ha, rfl⟩ := Option.map_eq_some'.mp hs
        unfold allocate_buffer at ha
        split at ha
        · unfold Linked at h ⊢
          split at ha <;> injection ha with ha <;> subst ha <;>
            simp [set_progress, set_node, emit, outstanding_append, outstanding_step,
              under_way, h2, h.1]
        · exact absurd ha (by simp)
    · exact absurd hs (by simp)
  · injection hs with hs
    subst hs
    exact h

/-- A poll keeps the trace and the states of every slot in agreement on what is
outstanding. -/
theorem linked_make_progress (cfg : Config) (s s1 : MultiBuffer) (i : Nat)
    (is_blocking : Bool) (t : Transport) (hs : make_progress cfg s i is_blocking t = some s1)
    (h : ∀ j, Linked s j) : ∀ j, Linked s1 j := by
  intro j
  by_cases hj : j = i
  · subst hj
    obtain ⟨s6, s7, h6, h7, rfl, -⟩ := make_progress_steps cfg s s1 j is_blocking t hs
    exact linked_finish_receive cfg s7 j is_blocking t
      (linked_start_receive cfg s6 s7 j t h7
        (linked_finish_send _ s6 j is_blocking t h6
          (linked_finish_metadata_receive _ j is_blocking t
            (linked_start_metadata_receive _ j
              (linked_finish_metadata_send _ j is_blocking t
                (linked_start_send _ j (linked_start_metadata_send s j (h j))))))))
  · exact linked_frame i j s s1 (Frame.frame_make_progress cfg s s1 i is_blocking t hs) hj (h j)

theorem linked_downLoop (cfg : Config) (t : Nat → Transport) (n : Nat) (s s1 : MultiBuffer)
    (hs : downLoop n (fun i s => make_progress cfg s i false (t i)) s = some s1)
    (h : ∀ j, Linked s j) : ∀ j, Linked s1 j := by
  induction n generalizing s with
  | zero =>
    simp only [downLoop] at hs
    injection hs with hs
    subst hs
    exact h
  | succ n ih =>
    simp only [downLoop] at hs
    obtain ⟨s2, h2, h3⟩ := Option.bind_eq_some.mp hs
    exact ih s2 h3 (linked_make_progress cfg s s2 n false (t n) h2 h)

/-- A sweep keeps the trace and the states of every slot in agreement on what is
outstanding. -/
theorem linked_progress_all (cfg : Config) (t : Nat → Transport) (s s1 : MultiBuffer)
    (hs : progress_all cfg s t = some s1) (h : ∀ j, Linked s j) : ∀ j, Linked s1 j :=
  linked_downLoop cfg t s.m_nslices s s1 hs h

/-- After `initialize` the trace and the states of every slot agree on what is
outstanding. -/
theorem linked_initialize (cfg : Config) (nslices nbeams : Nat) (rank_id n_ranks : Int)
    (buffer_on_host : Bool) (t : Nat → Transport) (s : MultiBuffer)
    (hs : initialize_multibuffer cfg nslices nbeams rank_id n_ranks buffer_on_host t = some s) :
    ∀ j, Linked s j := by
  rw [initialize_steps] at hs
  apply linked_progress_all cfg t _ s hs
  intro j
  unfold Linked
  simp only [outstanding, List.foldl_nil]
  split_ifs <;> simp [empty_node, default_node, under_way]

end Hipace

namespace Hipace

/-! ## Outstanding requests along a run -/

/-- Calls that are neither a send, a receive, a wait, a test nor a cancel change nothing
outstanding. -/
theorem outstanding_quiet (r : Request) (tr evs : List Event)
    (h : ∀ e, e ∈ evs → ∀ n, outstanding_step r n e = n) :
    outstanding r (tr ++ evs) = outstanding r tr := by
  rw [outstanding_append]
  generalize outstanding r tr = n
  induction evs with
  | nil => rfl
  | cons e es ih =>
    rw [List.foldl_cons, h e (List.mem_cons_self _ _) n]
    exact ih (fun e he => h e (List.mem_cons_of_mem _ he))

/-- A slot stays linked when calls that change nothing outstanding are made and its states
are changed between states with the same number of transfers under way. -/
theorem linked_same_count (s sp : MultiBuffer) (i : Nat) (evs : List Event)
    (htr : sp.trace = s.trace ++ evs)
    (hq : ∀ e, e ∈ evs → ∀ r n, outstanding_step r n e = n)
    (hp : under_way (sp.m_datanodes i).m_progress = under_way (s.m_datanodes i).m_progress)
    (hm : under_way (sp.m_datanodes i).m_metadata_progress
      = under_way (s.m_datanodes i).m_metadata_progress)
    (h : Linked s i) : Linked sp i := by
  unfold Linked at h ⊢
  rw [htr, outstanding_quiet _ _ _ (fun e he n => hq e he _ n),
    outstanding_quiet _ _ _ (fun e he n => hq e he _ n), hp, hm]
  exact h

/-- A `put_data` on a slot with no send and no receive under way keeps the trace and the
states of every slot in agreement on what is outstanding. -/
theorem linked_put_data (cfg : Config) (s s1 : MultiBuffer) (slice : Nat)
    (beams beams1 : MultiBeam) (beam_slice : Nat) (is_last_time_step : Bool) (fresh : Mem)
    (t : Nat → Transport)
    (hput : put_data cfg s slice beams beam_slice is_last_time_step fresh t = some (s1, beams1))
    (hp : under_way (s.m_datanodes slice).m_progress = 0)
    (hm : under_way (s.m_datanodes slice).m_metadata_progress = 0)
    (h : ∀ j, Linked s j) : ∀ j, Linked s1 j := by
  cases is_last_time_step with
  | true =>
    obtain ⟨-, h2, -⟩ := put_data_final_steps cfg s s1 slice beams beams1 beam_slice fresh t
      hput
    apply linked_progress_all cfg t _ s1 h2
    intro j
    by_cases hj : j = slice
    · subst hj
      apply linked_same_count s _ j [] (by simp [set_metadata_progress, set_progress, set_node])
        (by simp) _ _ (h j)
      · rw [hp]
        simp [set_metadata_progress, set_progress, set_node, under_way]
      · rw [hm]
        simp [set_metadata_progress, set_progress, set_node, under_way]
    · exact linked_frame slice j s _ ((Frame.frame_set_progress slice s _).frame_trans
        (Frame.frame_set_metadata_progress slice _ _)) hj (h j)
  | false =>
    obtain ⟨sw, sq, -, -, -, h3, fq, -, -, htr⟩ :=
      put_data_nonfinal_prepared cfg s s1 slice beams beams1 beam_slice fresh t hput
    apply linked_progress_all cfg t _ s1 h3
    intro j
    by_cases hj : j = slice
    · subst hj
      apply linked_same_count s _ j _
        (by simp only [set_metadata_progress, set_progress, set_node]; exact htr) _ _ _ (h j)
      · intro e he r n
        split at he
        · simp only [List.mem_singleton] at he
          subst he
          rfl
        · exact absurd he (by simp)
      · rw [hp]
        simp [set_metadata_progress, set_progress, set_node, under_way]
      · rw [hm]
        simp [set_metadata_progress, set_progress, set_node, under_way]
    · exact linked_frame slice j s _ ((fq.frame_trans (Frame.frame_set_progress slice _ _)).frame_trans
        (Frame.frame_set_metadata_progress slice _ _)) hj (h j)

/-- A `get_data` keeps the trace and the states of every slot in agreement on what is
outstanding. -/
theorem linked_get_data (cfg : Config) (s s1 : MultiBuffer) (slice : Nat)
    (beams beams1 : MultiBeam) (beam_slice : Nat) (t : Transport)
    (hget : get_data cfg s slice beams beam_slice t = some (s1, beams1))
    (hpair : NodePaired (s.m_datanodes slice))
    (h : ∀ j, Linked s j) : ∀ j, Linked s1 j := by
  intro j
  obtain ⟨hf, -, -⟩ := get_data_frame cfg s s1 slice beams beams1 beam_slice t hget
  by_cases hj : j = slice
  · subst hj
    obtain ⟨g1, g2⟩ := get_data_steps cfg s s1 j beams beams1 beam_slice t hget
    by_cases hp : (s.m_datanodes j).m_progress = comm_progress.ready_to_define
    · obtain ⟨e1, hn⟩ := g1 hp
      apply linked_same_count s s1 j _ e1 _ _ _ (h j)
      · intro e he r n
        obtain ⟨b, -, rfl⟩ := List.mem_map.mp he
        rfl
      · rw [hn, hp]
        rfl
      · rw [hn, hpair hp]
        rfl
    · obtain ⟨s2, h2, k1, k2⟩ := g2 hp
      have l2 := linked_make_progress cfg s s2 j true t h2 h j
      obtain ⟨r1, r2⟩ := make_progress_blocking_received cfg s s2 j t h2
      by_cases hsize : (s2.m_datanodes j).m_buffer_size = 0
      · obtain ⟨-, e1⟩ := k2 hsize
        rw [e1]
        apply linked_same_count s2 _ j []
          (by simp [set_metadata_progress, set_progress, set_node]) (by simp) _ _ l2
        · rw [r1]
          simp [set_metadata_progress, set_progress, set_node, under_way]
        · rw [r2]
          simp [set_metadata_progress, set_progress, set_node, under_way]
      · obtain ⟨-, s3, h3, e1⟩ := k1 hsize
        have t3 := free_buffer_trace s2 s3 j h3
        rw [e1]
        apply linked_same_count s2 _ j _
          (by simp only [set_metadata_progress, set_progress, set_node]; exact t3) _ _ _ l2
        · intro e he r n
          simp only [List.mem_singleton] at he
          subst he
          rfl
        · rw [r1]
          simp [set_metadata_progress, set_progress, set_node, under_way]
        · rw [r2]
          simp [set_metadata_progress, set_progress, set_node, under_way]
  · exact linked_frame slice j s s1 hf hj (h j)

end Hipace

namespace Hipace

/-- No step of a poll separates the two sub-channels of a slot that was never defined. -/
theorem paired_step (a b : DataNode) (h : NodeStep a b) (ha : NodePaired a) :
    NodePaired b := by
  unfold NodePaired at ha ⊢
  cases h <;> simp_all

/-- In every state the object can be in, a slot whose data sub-channel was never defined
has a metadata sub-channel that was never defined. -/
theorem reachable_paired (cfg : Config) (s : MultiBuffer) (h : Reachable cfg s) :
    ∀ j, NodePaired (s.m_datanodes j) := by
  induction h with
  | init nslices nbeams rank_id n_ranks buffer_on_host t s hs =>
    rw [initialize_steps] at hs
    apply invariant_downLoop NodePaired paired_step cfg t _ _ s hs
    intro j
    simp only []
    split
    · split <;> simp [NodePaired, empty_node]
    · simp [NodePaired, default_node]
  | put s slice beams beam_slice is_last_time_step fresh t s1 beams1 _ _ hput ih =>
    obtain ⟨sp, fp, e1, e2, h3⟩ :=
      put_data_steps cfg s s1 slice beams beams1 beam_slice is_last_time_step fresh t hput
    apply invariant_downLoop NodePaired paired_step cfg t _ sp s1 h3
    apply invariant_of_frame NodePaired fp ih
    unfold NodePaired
    rw [e1, e2]
    split <;> simp
  | get s slice beams beam_slice t s1 beams1 _ _ hget ih =>
    obtain ⟨hf, e1, e2⟩ := get_data_frame cfg s s1 slice beams beams1 beam_slice t hget
    apply invariant_of_frame NodePaired hf ih
    unfold NodePaired
    rw [e1, e2]
    simp
  | progress s slice is_blocking t s1 _ _ hp ih =>
    exact invariant_make_progress NodePaired paired_step cfg s s1 slice is_blocking t hp ih

/-- A run that calls `put_data` only on slots with nothing under way is a run. -/
theorem paced_reachable (cfg : Config) (s : MultiBuffer) (h : PacedReachable cfg s) :
    Reachable cfg s := by
  induction h with
  | init nslices nbeams rank_id n_ranks buffer_on_host t s hs =>
    exact Reachable.init nslices nbeams rank_id n_ranks buffer_on_host t s hs
  | put s slice beams beam_slice is_last_time_step fresh t s1 beams1 _ hslice _ _ hput ih =>
    exact Reachable.put s slice beams beam_slice is_last_time_step fresh t s1 beams1 ih hslice
      hput
  | get s slice beams beam_slice t s1 beams1 _ hslice hget ih =>
    exact Reachable.get s slice beams beam_slice t s1 beams1 ih hslice hget
  | progress s slice is_blocking t s1 _ hslice hp ih =>
    exact Reachable.progress s slice is_blocking t s1 ih hslice hp

/-- Along a run that calls `put_data` only on slots with nothing under way, the trace and
the states of every slot agree on what is outstanding. -/
theorem paced_linked (cfg : Config) (s : MultiBuffer) (h : PacedReachable cfg s) :
    ∀ j, Linked s j := by
  induction h with
  | init nslices nbeams rank_id n_ranks buffer_on_host t s hs =>
    exact linked_initialize cfg nslices nbeams rank_id n_ranks buffer_on_host t s hs
  | put s slice beams beam_slice is_last_time_step fresh t s1 beams1 _ _ hp hm hput ih =>
    exact linked_put_data cfg s s1 slice beams beams1 beam_slice is_last_time_step fresh t
      hput hp hm ih
  | get s slice beams beam_slice t s1 beams1 hs _ hget ih =>
    exact linked_get_data cfg s s1 slice beams beams1 beam_slice t hget
      (reachable_paired cfg s (paced_reachable cfg s hs) slice) ih
  | progress s slice is_blocking t s1 _ _ hp ih =>
    exact linked_make_progress cfg s s1 slice is_blocking t hp ih

/-- C29 (as amended): whatever the slot state, once a poll of a slice has returned, a
non-blocking poll of the slice during which no request completes returns and leaves the
slot, the metadata and every other member as they are: all it does is test the transfers
under way, so it issues no send, no receive, no allocation and no free. And in a run that
calls `put_data` only on a slot with no send and no receive under way (as after `get_data`
on it), each request has a send or receive outstanding exactly when its sub-channel is in
`send_started` or `receive_started`, hence at most one at any time. -/
theorem repoll_posts_nothing (cfg : Config) :
    (∀ s s1 i is_blocking t t2, make_progress cfg s i is_blocking t = some s1 →
      t2.metadata_send_complete = false → t2.metadata_receive_complete = false →
      t2.send_complete = false → t2.receive_complete = false →
      make_progress cfg s1 i false t2
        = some { s1 with trace := s1.trace ++ pending_tests (s1.m_datanodes i) i }) ∧
    (∀ node i e, e ∈ pending_tests node i →
      (e = Event.Test (Request.m_metadata_request i) false ∧
        (node.m_metadata_progress = comm_progress.send_started ∨
          node.m_metadata_progress = comm_progress.receive_started)) ∨
      (e = Event.Test (Request.m_request i) false ∧
        (node.m_progress = comm_progress.send_started ∨
          node.m_progress = comm_progress.receive_started))) ∧
    (∀ s, PacedReachable cfg s → ∀ j,
      outstanding (Request.m_metadata_request j) s.trace
        = under_way (s.m_datanodes j).m_metadata_progress ∧
      outstanding (Request.m_request j) s.trace = under_way (s.m_datanodes j).m_progress ∧
      outstanding (Request.m_metadata_request j) s.trace ≤ 1 ∧
      outstanding (Request.m_request j) s.trace ≤ 1) := by
  refine ⟨?_, ?_, ?_⟩
  · intro s s1 i is_blocking t t2 h h1 h2 h3 h4
    exact repoll_tests cfg s1 i t2 (poll_quiet cfg s s1 i is_blocking t h) h1 h2 h3 h4
  · intro node i e he
    unfold pending_tests at he
    rcases List.mem_append.mp he with he | he
    · split at he
      · rename_i hc
        exact Or.inl ⟨List.mem_singleton.mp he, hc⟩
      · exact absurd he (by simp)
    · split at he
      · rename_i hc
        exact Or.inr ⟨List.mem_singleton.mp he, hc⟩
      · exact absurd he (by simp)
  · intro s hs j
    obtain ⟨l1, l2⟩ := paced_linked cfg s hs j
    refine ⟨l1, l2, ?_, ?_⟩
    · rw [l1]
      unfold under_way
      split <;> omega
    · rw [l2]
      unfold under_way
      split <;> omega

/-- After `initialize` on the head rank, two `put_data` calls in a row on slice 1 with no
particles, during which no request completes, both return and leave two sends outstanding
on the metadata request of the slice: the second call sets the states back to
`ready_to_send` and its sweep issues the metadata send again. -/
theorem second_put_data_sends_again :
    ((initialize_multibuffer example_cfg 2 2 2 3 true (fun _ => idle_transport)).bind fun s0 =>
      (put_data example_cfg s0 1 empty_beams 0 false (fun _ => 0)
        (fun _ => idle_transport)).bind fun p1 =>
      (put_data example_cfg p1.1 1 p1.2 0 false (fun _ => 0)
        (fun _ => idle_transport)).map fun p2 =>
      (s0.trace, new_events s0 p1.1, (p1.1.m_datanodes 1).m_metadata_progress,
        new_events p1.1 p2.1, outstanding (Request.m_metadata_request 1) p2.1.trace))
    = some ([],
      [Event.Isend (Request.m_metadata_request 1) 3 1 4,
        Event.Test (Request.m_metadata_request 1) false],
      comm_progress.send_started,
      [Event.Isend (Request.m_metadata_request 1) 3 1 4,
        Event.Test (Request.m_metadata_request 1) false],
      2) := by
  decide

end Hipace
